import Mathlib

/-!
# G3D DefaultRenderer: a shallow embedding of `DefaultRenderer.cpp`

The renderer is a sequence of commands issued to a render device, to framebuffer
objects and to collaborators of the `Renderer` base class.  The embedding keeps

* a heap of textures and of framebuffers (a `shared_ptr` is an index into it,
  a null `shared_ptr` is `none`),
* the members of `DefaultRenderer` and the two function-static scratch arrays of
  `renderOrderIndependentBlendedSamples`,
* the draw framebuffer bound on the render device and its push/pop stack,
* a trace of the commands issued, in program order.

A computation either completes or stops at a fault (a failed assertion, the
dereference of a null pointer, an integer division by zero); the world at the
fault is kept, so that what was issued before it can be inspected.
-/

namespace G3D

/-! ## Values -/

/-- Index of a texture in the texture heap (`shared_ptr<Texture>`). -/
abbrev TexId := Nat

/-- Index of a framebuffer in the framebuffer heap (`shared_ptr<Framebuffer>`). -/
abbrev FbId := Nat

/-- The image formats `DefaultRenderer.cpp` names, and any other one by a tag
(the depth format of the destination, for instance). -/
inductive ImageFormat where
  | RGBA16F
  | RG16F
  | RGBA8
  | RG8_SNORM
  | RGBA32F
  | RG32F
  | other (tag : Nat)
deriving DecidableEq, Repr

/-- `#define HIGH_PRECISION_OIT_FORMAT ImageFormat::RGBA16F()` -/
def HIGH_PRECISION_OIT_FORMAT : ImageFormat := ImageFormat.RGBA16F

/-- `#define HIGH_PRECISION_OIT_FORMAT_RG ImageFormat::RG16F()` -/
def HIGH_PRECISION_OIT_FORMAT_RG : ImageFormat := ImageFormat.RG16F

/-- A `Color4` clear value; the components that occur are 0 and 1. -/
structure Color4 where
  r : Int
  g : Int
  b : Int
  a : Int
deriving DecidableEq, Repr

/-- `Color4::zero()` -/
def Color4.zero : Color4 := ⟨0, 0, 0, 0⟩

/-- The debug names `allocateAllOITBuffers` and `allocateOITFramebufferAttachments`
give to the textures they create (the name strings are kept as tags). -/
inductive TextureName where
  | RT0
  | RT1
  | RT2
  | lowResDepth
  | backgroundTexture
  | csOctLowResNormal
  | external
deriving DecidableEq, Repr

/-- A texture object: what `Texture::createEmpty` fixes and `resize` changes. -/
structure Texture where
  name : TextureName
  width : Int
  height : Int
  format : ImageFormat
  /-- `texture->visualization.channels == Texture::Visualization::RGB` -/
  visualizationRGB : Bool
deriving DecidableEq, Repr

/-- `Framebuffer::AttachmentPoint` (the colour points beyond `COLOR3` are not used). -/
inductive AttachmentPoint where
  | COLOR0
  | COLOR1
  | COLOR2
  | COLOR3
  | DEPTH
  | STENCIL
  | DEPTH_AND_STENCIL
deriving DecidableEq, Repr

/-- The debug names of the framebuffers the renderer creates. -/
inductive FramebufferName where
  | m_oitFramebuffer
  | m_oitLowResFramebuffer
  | m_backgroundFramebuffer
  | m_csOctLowResNormalFramebuffer
  | external
deriving DecidableEq, Repr

/-- Modelled from the spec: `Framebuffer` is declared outside the sources at hand.
It is "a named set of color/depth attachments with per-attachment clear values":
one optional texture per attachment point and the clear values that were set. -/
structure Framebuffer where
  name : FramebufferName
  color0 : Option TexId
  color1 : Option TexId
  color2 : Option TexId
  color3 : Option TexId
  depth : Option TexId
  stencil : Option TexId
  depthAndStencil : Option TexId
  clearValues : List (AttachmentPoint × Color4)
deriving DecidableEq, Repr

/-- `Framebuffer::create(name)`: no attachment yet. -/
def Framebuffer.empty (n : FramebufferName) : Framebuffer :=
  ⟨n, none, none, none, none, none, none, none, []⟩

/-- `Framebuffer::texture(ap)`: the attached texture, null when there is none. -/
def Framebuffer.texture (fb : Framebuffer) : AttachmentPoint → Option TexId
  | .COLOR0 => fb.color0
  | .COLOR1 => fb.color1
  | .COLOR2 => fb.color2
  | .COLOR3 => fb.color3
  | .DEPTH => fb.depth
  | .STENCIL => fb.stencil
  | .DEPTH_AND_STENCIL => fb.depthAndStencil

/-- `Framebuffer::set(ap, texture)`: attach, or detach when the texture is null. -/
def Framebuffer.set (fb : Framebuffer) (ap : AttachmentPoint) (t : Option TexId) : Framebuffer :=
  match ap with
  | .COLOR0 => { fb with color0 := t }
  | .COLOR1 => { fb with color1 := t }
  | .COLOR2 => { fb with color2 := t }
  | .COLOR3 => { fb with color3 := t }
  | .DEPTH => { fb with depth := t }
  | .STENCIL => { fb with stencil := t }
  | .DEPTH_AND_STENCIL => { fb with depthAndStencil := t }

/-- `Framebuffer::setClearValue(ap, c)` -/
def Framebuffer.setClearValue (fb : Framebuffer) (ap : AttachmentPoint) (c : Color4) : Framebuffer :=
  { fb with clearValues := (ap, c) :: fb.clearValues.filter (fun e => e.1 ≠ ap) }

/-- The attachment points in the order in which the framebuffer keeps them. -/
def AttachmentPoint.all : List AttachmentPoint :=
  [.COLOR0, .COLOR1, .COLOR2, .COLOR3, .DEPTH, .STENCIL, .DEPTH_AND_STENCIL]

/-- The attached textures, in attachment-point order. -/
def Framebuffer.attached (fb : Framebuffer) : List TexId :=
  AttachmentPoint.all.filterMap fb.texture

/-- A surface: its identity and the flag the OIT classification reads. -/
structure Surface where
  id : Nat
  preferLowResolutionTransparency : Bool
deriving DecidableEq, Repr

/-- `Vector2int16` -/
structure Vector2int16 where
  x : Int
  y : Int
deriving DecidableEq, Repr

/-- A camera, by identity. -/
structure Camera where
  id : Nat
deriving DecidableEq, Repr

/-- What the renderer reads of a `GBuffer`: two of its fields, its camera and its
band thicknesses. -/
structure GBuffer where
  /-- `texture(GBuffer::Field::DEPTH_AND_STENCIL)` -/
  DEPTH_AND_STENCIL : Option TexId
  /-- `texture(GBuffer::Field::CS_NORMAL)` -/
  CS_NORMAL : Option TexId
  camera : Option Camera
  trimBandThickness : Vector2int16
  colorGuardBandThickness : Vector2int16
  depthGuardBandThickness : Vector2int16
deriving DecidableEq, Repr

/-- What `render` reads of the `LightingEnvironment`. -/
structure LightingEnvironment where
  /-- `ambientOcclusionSettings.enabled` -/
  aoEnabled : Bool
  /-- `ambientOcclusionSettings.useDepthPeelBuffer` -/
  aoUseDepthPeelBuffer : Bool
  /-- `ambientOcclusion`, by identity; `none` is the null pointer -/
  ambientOcclusion : Option Nat
deriving DecidableEq, Repr

/-- `RenderPassType`, the state tag the shading stages consume. -/
inductive RenderPassType where
  | OPAQUE_SAMPLES
  | UNBLENDED_SCREEN_SPACE_REFRACTION_SAMPLES
  | MULTIPASS_BLENDED_SAMPLES
  | SINGLE_PASS_UNORDERED_BLENDED_SAMPLES
deriving DecidableEq, Repr

/-- `Renderer::Order`, the sort order handed to `forwardShade`. -/
inductive Order where
  | ARBITRARY
  | BACK_TO_FRONT
  | FRONT_TO_BACK
deriving DecidableEq, Repr

/-- `RenderDevice::BlendFunc`, the factors that occur. -/
inductive BlendFunc where
  | BLEND_ONE
  | BLEND_ZERO
  | BLEND_ONE_MINUS_SRC_COLOR
deriving DecidableEq, Repr

/-- `RenderDevice::BlendEq`, the equations that occur. -/
inductive BlendEq where
  | BLENDEQ_ADD
  | BLENDEQ_SAME_AS_RGB
deriving DecidableEq, Repr

/-- The shader programs the renderer launches, by the suffix of the file pattern. -/
inductive ShaderFile where
  | downsampleNormal
  | deferredShade
  | upsampleOIT
  | compositeWeightedBlendedOIT
deriving DecidableEq, Repr

/-- One entry of an `Args` object (floating-point values are not kept). -/
inductive Arg where
  | setMacroInt (name : String) (v : Int)
  | setMacroBool (name : String) (v : Bool)
  | setUniformInt (name : String) (v : Int)
  | setUniformTexture (name : String) (t : Option TexId)
  | setUniformSize (name : String) (w h : Int)
  | setUniformFloat (name : String)
  | setUniformVector (name : String) (v : Vector2int16)
  | textureShaderArgs (name : String) (t : TexId)
  | environmentShaderArgs
  | gbufferShaderArgsRead (name : String)
  | setRect
deriving DecidableEq, Repr

/-- The methods of `DefaultRenderer` whose entry is recorded, with their arguments. -/
inductive Method where
  | renderIndirectIllumination (sortedVisibleSurfaceArray : List Surface) (gbuffer : Option GBuffer)
  | renderDeferredShading (sortedVisibleSurfaceArray : List Surface) (gbuffer : Option GBuffer)
  | renderOpaqueSamples (surfaceArray : List Surface) (gbuffer : Option GBuffer)
  | renderOpaqueScreenSpaceRefractingSamples (surfaceArray : List Surface) (gbuffer : Option GBuffer)
  | renderSortedBlendedSamples (surfaceArray : List Surface) (gbuffer : Option GBuffer)
  | renderOrderIndependentBlendedSamples (surfaceArray : List Surface) (gbuffer : Option GBuffer)
  | allocateAllOITBuffers (highPrecision : Bool)
  | allocateOITFramebufferAttachments (oitFramebuffer : FbId) (w h : Int) (highPrecision : Bool)
  | clearAndRenderToOITFramebuffer (oitFramebuffer : Option FbId) (surfaceArray : List Surface)
  | resizeOITBuffersIfNeeded (width height lowResWidth lowResHeight : Int)
  | computeLowResDepthAndNormals (csHighResNormalTexture : Option TexId)
deriving DecidableEq, Repr

/-- A command issued by the renderer: to a collaborator of the `Renderer` base
class, to the render device, or to a framebuffer or texture object. -/
inductive Event where
  | beginProfilerEvent (name : String)
  | endProfilerEvent
  | call (m : Method)
  | cullAndSort (camera : Camera) (gbuffer : Option GBuffer) (allSurfaces : List Surface)
  | computeGBuffer (sortedVisibleSurfaces : List Surface) (gbuffer : GBuffer)
      (depthPeelFramebuffer : Option FbId)
  | computeShadowing (allSurfaces : List Surface) (gbuffer : Option GBuffer)
      (depthPeelFramebuffer : Option FbId)
  | forwardShade (surfaceArray : List Surface) (gbuffer : Option GBuffer)
      (pass : RenderPassType) (order : Order)
  | copyScreenSpaceBuffers (framebuffer : FbId) (colorGuardBand depthGuardBand : Vector2int16)
  | pushState (framebuffer : FbId)
  | popState
  | push2D (framebuffer : Option FbId)
  | pop2D
  | setFramebuffer (framebuffer : Option FbId)
  | clear
  | clearFramebuffer (color depth : Bool)
  | setProjectionAndCameraMatrix (camera : Camera)
  | setBlendFunc (src dst : BlendFunc) (eq eqAlpha : BlendEq) (ap : AttachmentPoint)
  | setBlendFuncSeparate (ap : AttachmentPoint) (srcRGB dstRGB : BlendFunc) (eqRGB : BlendEq)
      (srcA dstA : BlendFunc) (eqA : BlendEq)
  | setDepthTestAlwaysPass
  | setGuardBandClip2D (thickness : Vector2int16)
  | createFramebuffer (fb : FbId) (name : FramebufferName)
  | createTexture (t : TexId) (name : TextureName) (w h : Int) (format : ImageFormat)
  | framebufferSet (fb : FbId) (ap : AttachmentPoint) (t : Option TexId)
  | framebufferSetClearValue (fb : FbId) (ap : AttachmentPoint) (c : Color4)
  | framebufferResize (fb : FbId) (w h : Int)
  | framebufferSetDepthShaderArgs (fb : FbId) (depth : TexId)
  | framebufferSetWritePixelMacro (fb : FbId)
  | blitTo (src : FbId) (dst : Option FbId) (invertY rgbOnly depth stencil color : Bool)
  | textureCopy (src dst : TexId) (scale : Int)
  | launchShader (shader : ShaderFile) (args : List Arg)
deriving DecidableEq, Repr

/-- The pointers whose null dereference stops a call. -/
inductive Pointer where
  | gbuffer
  | gbufferCamera
  | framebuffer
  | texture
deriving DecidableEq, Repr

/-- Why a call stopped before its end. -/
inductive Fault where
  | alwaysAssert (message : String)
  | debugAssert (message : String)
  | nullDereference (p : Pointer)
  | divisionByZero
deriving DecidableEq, Repr

/-- A shader handle, as cached in the members `m_deferredShader`, `m_upsampleOITShader`
and `m_compositeOITShader`. -/
structure Shader where
  file : ShaderFile
deriving DecidableEq, Repr

/-! ## The world -/

/-- The objects a call can read and change. -/
structure World where
  /-- whether `G3D_DEBUG` is defined, that is whether `debugAssert` is compiled in -/
  debugBuild : Bool
  textures : List Texture
  framebuffers : List Framebuffer
  /-- `rd->width()` -/
  rdWidth : Int
  /-- `rd->height()` -/
  rdHeight : Int
  /-- `rd->drawFramebuffer()` -/
  drawFramebuffer : Option FbId
  /-- the draw framebuffers saved by `pushState` and `push2D` -/
  stateStack : List (Option FbId)
  m_deferredShading : Bool
  m_orderIndependentTransparency : Bool
  m_oitLowResDownsampleFactor : Int
  m_oitUpsampleFilterRadius : Int
  m_oitHighPrecision : Bool
  m_oitFramebuffer : Option FbId
  m_oitLowResFramebuffer : Option FbId
  m_csOctLowResNormalFramebuffer : Option FbId
  m_backgroundFramebuffer : Option FbId
  m_diskFramebuffer : Option FbId
  m_deferredShader : Option Shader
  m_upsampleOITShader : Option Shader
  m_compositeOITShader : Option Shader
  /-- `static Array<shared_ptr<Surface>> hiResSurfaces` -/
  hiResSurfaces : List Surface
  /-- `static Array<shared_ptr<Surface>> loResSurfaces` -/
  loResSurfaces : List Surface
  /-- the commands issued so far, oldest first -/
  trace : List Event
deriving DecidableEq, Repr

/-- The framebuffer object behind a handle. -/
def World.fb (w : World) (i : FbId) : Framebuffer :=
  (w.framebuffers[i]?).getD (Framebuffer.empty .external)

/-- The texture object behind a handle. -/
def World.tex (w : World) (i : TexId) : Texture :=
  (w.textures[i]?).getD ⟨.external, 0, 0, .other 0, false⟩

/-- Modelled from the spec: `Framebuffer::width` is declared outside the sources at
hand; the framebuffers "track the main framebuffer's dimensions" through their
attachments, and the width is that of the first attachment (0 without one). -/
def World.fbWidth (w : World) (i : FbId) : Int :=
  match (w.fb i).attached with
  | [] => 0
  | t :: _ => (w.tex t).width

/-- Modelled from the spec: `Framebuffer::height`, as `World.fbWidth`. -/
def World.fbHeight (w : World) (i : FbId) : Int :=
  match (w.fb i).attached with
  | [] => 0
  | t :: _ => (w.tex t).height

/-- How a computation ended. -/
inductive Outcome (α : Type) where
  | ok (a : α)
  | fault (f : Fault)
deriving DecidableEq, Repr

/-- A computation on the world that completes with a value or stops at a fault. -/
def Exec (α : Type) : Type := World → Outcome α × World

/-- Sequencing: a fault ends the computation and keeps the world reached. -/
def Exec.bind {α β : Type} (m : Exec α) (f : α → Exec β) : Exec β := fun w =>
  match m w with
  | (.ok a, w1) => f a w1
  | (.fault e, w1) => (.fault e, w1)

instance : Monad Exec where
  pure a := fun w => (.ok a, w)
  bind := Exec.bind

/-! ## Primitive commands -/

/-- Record a command in the trace. -/
def emit (e : Event) : Exec Unit := fun w => (.ok (), { w with trace := w.trace ++ [e] })

/-- Stop at a fault. -/
def throwFault {α : Type} (f : Fault) : Exec α := fun w => (.fault f, w)

/-- Read the world. -/
def getWorld : Exec World := fun w => (.ok w, w)

/-- Change the world. -/
def modifyWorld (f : World → World) : Exec Unit := fun w => (.ok (), f w)

/-- `p->...`: the object behind a pointer, a fault when it is null. -/
def deref {α : Type} (p : Pointer) : Option α → Exec α
  | some a => pure a
  | none => throwFault (.nullDereference p)

/-- `alwaysAssertM(c, message)` -/
def alwaysAssertM (c : Bool) (message : String) : Exec Unit :=
  if c then pure () else throwFault (.alwaysAssert message)

/-- `debugAssertM(c, message)`: checked in debug builds only. -/
def debugAssertM (c : Bool) (message : String) : Exec Unit := fun w =>
  if w.debugBuild && !c then (.fault (.debugAssert message), w) else (.ok (), w)

/-- `a / b` on `int`: truncating, a fault when `b` is 0. -/
def intDiv (a b : Int) : Exec Int :=
  if b = 0 then throwFault .divisionByZero else pure (Int.tdiv a b)

/-- `Texture::createEmpty(name, w, h, format)`: a new texture object. -/
def Texture.createEmpty (name : TextureName) (w h : Int) (format : ImageFormat) : Exec TexId :=
  fun wd =>
    (.ok wd.textures.length,
     { wd with
       textures := wd.textures ++ [⟨name, w, h, format, false⟩]
       trace := wd.trace ++ [.createTexture wd.textures.length name w h format] })

/-- `Framebuffer::create(name)`: a new framebuffer object without attachment. -/
def Framebuffer.create (name : FramebufferName) : Exec FbId := fun wd =>
  (.ok wd.framebuffers.length,
   { wd with
     framebuffers := wd.framebuffers ++ [Framebuffer.empty name]
     trace := wd.trace ++ [.createFramebuffer wd.framebuffers.length name] })

/-- Replace the framebuffer object behind a handle. -/
def World.setFb (w : World) (i : FbId) (fb : Framebuffer) : World :=
  { w with framebuffers := w.framebuffers.set i fb }

/-- Replace the texture object behind a handle. -/
def World.setTex (w : World) (i : TexId) (t : Texture) : World :=
  { w with textures := w.textures.set i t }

/-- `fb->set(ap, t)` -/
def framebufferSet (fb : FbId) (ap : AttachmentPoint) (t : Option TexId) : Exec Unit := fun w =>
  (.ok (), { w.setFb fb ((w.fb fb).set ap t) with trace := w.trace ++ [.framebufferSet fb ap t] })

/-- `fb->setClearValue(ap, c)` -/
def framebufferSetClearValue (fb : FbId) (ap : AttachmentPoint) (c : Color4) : Exec Unit :=
  fun w =>
    (.ok (), { w.setFb fb ((w.fb fb).setClearValue ap c) with
               trace := w.trace ++ [.framebufferSetClearValue fb ap c] })

/-- `Framebuffer::create(texture)`: a new framebuffer with the texture as `COLOR0`. -/
def Framebuffer.createFromTexture (name : FramebufferName) (t : TexId) : Exec FbId := do
  let fb ← Framebuffer.create name
  framebufferSet fb .COLOR0 (some t)
  pure fb

/-- Resize the textures of a list to `w` x `h`. -/
def resizeTextures (w h : Int) : List TexId → World → World
  | [], wd => wd
  | t :: rest, wd =>
      resizeTextures w h rest (wd.setTex t { wd.tex t with width := w, height := h })

/-- Modelled from the spec: `Framebuffer::resize(w, h)` is declared outside the
sources at hand; it resizes every attachment and keeps the attached objects. -/
def framebufferResize (fb : FbId) (w h : Int) : Exec Unit := fun wd =>
  (.ok (), { resizeTextures w h (wd.fb fb).attached wd with
             trace := wd.trace ++ [.framebufferResize fb w h] })

/-- `rd->setFramebuffer(fb)` -/
def setFramebuffer (fb : Option FbId) : Exec Unit := fun w =>
  (.ok (), { w with drawFramebuffer := fb, trace := w.trace ++ [.setFramebuffer fb] })

/-- `rd->pushState(fb)`: save the device state and bind `fb`. -/
def pushState (fb : FbId) : Exec Unit := fun w =>
  (.ok (), { w with
             stateStack := w.drawFramebuffer :: w.stateStack
             drawFramebuffer := some fb
             trace := w.trace ++ [.pushState fb] })

/-- Restore the draw framebuffer saved last. -/
def restoreState (w : World) : World :=
  match w.stateStack with
  | [] => w
  | d :: rest => { w with drawFramebuffer := d, stateStack := rest }

/-- `rd->popState()` -/
def popState : Exec Unit := fun w =>
  (.ok (), { restoreState w with trace := w.trace ++ [.popState] })

/-- `rd->push2D(fb)`, and `rd->push2D()` for `none`: save the device state, bind
`fb` when it is not null. -/
def push2D (fb : Option FbId) : Exec Unit := fun w =>
  (.ok (), { w with
             stateStack := w.drawFramebuffer :: w.stateStack
             drawFramebuffer := match fb with
               | some f => some f
               | none => w.drawFramebuffer
             trace := w.trace ++ [.push2D fb] })

/-- `rd->pop2D()` -/
def pop2D : Exec Unit := fun w =>
  (.ok (), { restoreState w with trace := w.trace ++ [.pop2D] })

/-! ## `DefaultRenderer.cpp` -/

/-- `DefaultRenderer::allocateOITFramebufferAttachments` (lines 66-86). -/
def allocateOITFramebufferAttachments (oitFramebuffer : FbId) (w h : Int)
    (highPrecision : Bool) : Exec Unit := do
  emit (.call (.allocateOITFramebufferAttachments oitFramebuffer w h highPrecision))
  let rt0 ← Texture.createEmpty .RT0 w h
    (if highPrecision then HIGH_PRECISION_OIT_FORMAT else ImageFormat.RGBA16F)
  framebufferSet oitFramebuffer .COLOR0 (some rt0)
  framebufferSetClearValue oitFramebuffer .COLOR0 Color4.zero
  let rt1 ← Texture.createEmpty .RT1 w h
    (if highPrecision then HIGH_PRECISION_OIT_FORMAT else ImageFormat.RGBA8)
  modifyWorld (fun wd => wd.setTex rt1 { wd.tex rt1 with visualizationRGB := true })
  framebufferSet oitFramebuffer .COLOR1 (some rt1)
  framebufferSetClearValue oitFramebuffer .COLOR1 ⟨1, 1, 1, 0⟩
  let rt2 ← Texture.createEmpty .RT2 w h
    (if highPrecision then HIGH_PRECISION_OIT_FORMAT_RG else ImageFormat.RG8_SNORM)
  framebufferSet oitFramebuffer .COLOR2 (some rt2)
  framebufferSetClearValue oitFramebuffer .COLOR2 Color4.zero

/-- `DefaultRenderer::allocateAllOITBuffers` (lines 39-63). -/
def allocateAllOITBuffers (highPrecision : Bool) : Exec Unit := do
  emit (.call (.allocateAllOITBuffers highPrecision))
  let w0 ← getWorld
  let lowResWidth ← intDiv w0.rdWidth w0.m_oitLowResDownsampleFactor
  let lowResHeight ← intDiv w0.rdHeight w0.m_oitLowResDownsampleFactor
  let oit ← Framebuffer.create .m_oitFramebuffer
  modifyWorld (fun wd => { wd with m_oitFramebuffer := some oit })
  allocateOITFramebufferAttachments oit w0.rdWidth w0.rdHeight highPrecision
  let low ← Framebuffer.create .m_oitLowResFramebuffer
  modifyWorld (fun wd => { wd with m_oitLowResFramebuffer := some low })
  allocateOITFramebufferAttachments low lowResWidth lowResHeight highPrecision
  let w1 ← getWorld
  let draw ← deref .framebuffer w1.drawFramebuffer
  let depth ← deref .texture ((w1.fb draw).texture .DEPTH)
  let lowResDepthBuffer ← Texture.createEmpty .lowResDepth lowResWidth lowResHeight
    (w1.tex depth).format
  framebufferSet low .DEPTH (some lowResDepthBuffer)
  let w2 ← getWorld
  let draw2 ← deref .framebuffer w2.drawFramebuffer
  let color ← deref .texture ((w2.fb draw2).texture .COLOR0)
  let backgroundTexture ← Texture.createEmpty .backgroundTexture w2.rdWidth w2.rdHeight
    (w2.tex color).format
  let background ← Framebuffer.createFromTexture .m_backgroundFramebuffer backgroundTexture
  modifyWorld (fun wd => { wd with m_backgroundFramebuffer := some background })
  let normalTexture ← Texture.createEmpty .csOctLowResNormal lowResWidth lowResHeight
    ImageFormat.RG8_SNORM
  let normal ← Framebuffer.createFromTexture .m_csOctLowResNormalFramebuffer normalTexture
  modifyWorld (fun wd => { wd with m_csOctLowResNormalFramebuffer := some normal })

/-- The three per-attachment blend configurations that
`clearAndRenderToOITFramebuffer` sets (lines 105-115). -/
def setOITBlendFuncs : Exec Unit := do
  emit (.setBlendFunc .BLEND_ONE .BLEND_ONE .BLENDEQ_ADD .BLENDEQ_SAME_AS_RGB .COLOR0)
  emit (.setBlendFuncSeparate .COLOR1 .BLEND_ZERO .BLEND_ONE_MINUS_SRC_COLOR .BLENDEQ_ADD
    .BLEND_ONE .BLEND_ONE .BLENDEQ_ADD)
  emit (.setBlendFunc .BLEND_ONE .BLEND_ONE .BLENDEQ_ADD .BLENDEQ_SAME_AS_RGB .COLOR2)

/-- `DefaultRenderer::clearAndRenderToOITFramebuffer` (lines 89-119). -/
def clearAndRenderToOITFramebuffer (oitFramebuffer : Option FbId) (surfaceArray : List Surface)
    (gbuffer : Option GBuffer) : Exec Unit := do
  emit (.call (.clearAndRenderToOITFramebuffer oitFramebuffer surfaceArray))
  setFramebuffer oitFramebuffer
  emit (.clearFramebuffer true false)
  let fb ← deref .framebuffer oitFramebuffer
  let w ← getWorld
  let depth ← deref .texture ((w.fb fb).texture .DEPTH)
  emit (.framebufferSetDepthShaderArgs fb depth)
  emit (.framebufferSetWritePixelMacro fb)
  pushState fb
  setOITBlendFuncs
  emit (.forwardShade surfaceArray gbuffer .SINGLE_PASS_UNORDERED_BLENDED_SAMPLES .ARBITRARY)
  popState

/-- The test of `resizeOITBuffersIfNeeded` (lines 128-131), with the short circuit
of `||`: the low-resolution framebuffer is read only when the first two
comparisons are false. -/
def oitBuffersNeedResize (width height lowResWidth lowResHeight : Int) : Exec Bool := do
  let w ← getWorld
  let oit ← deref .framebuffer w.m_oitFramebuffer
  if w.fbWidth oit ≠ width ∨ w.fbHeight oit ≠ height then
    pure true
  else
    let low ← deref .framebuffer w.m_oitLowResFramebuffer
    pure (decide (w.fbWidth low ≠ lowResWidth ∨ w.fbHeight low ≠ lowResHeight))

/-- `DefaultRenderer::resizeOITBuffersIfNeeded` (lines 122-138). -/
def resizeOITBuffersIfNeeded (width height lowResWidth lowResHeight : Int) : Exec Unit := do
  emit (.call (.resizeOITBuffersIfNeeded width height lowResWidth lowResHeight))
  let needed ← oitBuffersNeedResize width height lowResWidth lowResHeight
  if needed then
    let w ← getWorld
    let oit ← deref .framebuffer w.m_oitFramebuffer
    framebufferResize oit width height
    let low ← deref .framebuffer w.m_oitLowResFramebuffer
    framebufferResize low lowResWidth lowResHeight
    let normal ← deref .framebuffer w.m_csOctLowResNormalFramebuffer
    framebufferResize normal lowResWidth lowResHeight
    let background ← deref .framebuffer w.m_backgroundFramebuffer
    framebufferResize background width height

/-- `DefaultRenderer::computeLowResDepthAndNormals` (lines 141-165). -/
def computeLowResDepthAndNormals (csHighResNormalTexture : Option TexId) : Exec Unit := do
  emit (.call (.computeLowResDepthAndNormals csHighResNormalTexture))
  let w ← getWorld
  let oit ← deref .framebuffer w.m_oitFramebuffer
  let src ← deref .texture ((w.fb oit).texture .DEPTH)
  let low ← deref .framebuffer w.m_oitLowResFramebuffer
  let dst ← deref .texture ((w.fb low).texture .DEPTH)
  emit (.textureCopy src dst w.m_oitLowResDownsampleFactor)
  match csHighResNormalTexture with
  | some normal =>
      push2D w.m_csOctLowResNormalFramebuffer
      emit (.launchShader .downsampleNormal
        [.textureShaderArgs "csHighResNormalTexture." normal,
         .setUniformInt "lowResDownsampleFactor" w.m_oitLowResDownsampleFactor,
         .setRect])
      pop2D
  | none => pure ()

/-- The classification loop of `renderOrderIndependentBlendedSamples` (lines 323-329):
each surface is appended to one of the two scratch arrays. -/
def classifySurfaces (factor : Int) :
    List Surface → List Surface × List Surface → List Surface × List Surface
  | [], lists => lists
  | s :: rest, (hiRes, loRes) =>
      if s.preferLowResolutionTransparency && (factor != 1) then
        classifySurfaces factor rest (hiRes, loRes ++ [s])
      else
        classifySurfaces factor rest (hiRes ++ [s], loRes)

/-- The test "do the OIT buffers have to be allocated" (lines 336-337). -/
def oitBuffersNeedAllocation : Exec Bool := do
  let w ← getWorld
  match w.m_oitFramebuffer with
  | none => pure true
  | some oit =>
      let rt0 ← deref .texture ((w.fb oit).texture .COLOR0)
      pure ((decide ((w.tex rt0).format = HIGH_PRECISION_OIT_FORMAT)) != w.m_oitHighPrecision)

/-- The upsample pass of `renderOrderIndependentBlendedSamples` (lines 364-403). -/
def upsampleLowResOIT (gbuffer : Option GBuffer) : Exec Unit := do
  let w0 ← getWorld
  push2D w0.m_oitFramebuffer
  emit (.setBlendFunc .BLEND_ONE .BLEND_ONE .BLENDEQ_ADD .BLENDEQ_SAME_AS_RGB .COLOR0)
  emit (.setBlendFuncSeparate .COLOR1 .BLEND_ZERO .BLEND_ONE_MINUS_SRC_COLOR .BLENDEQ_ADD
    .BLEND_ONE .BLEND_ONE .BLENDEQ_ADD)
  emit (.setBlendFunc .BLEND_ONE .BLEND_ONE .BLENDEQ_ADD .BLENDEQ_SAME_AS_RGB .COLOR2)
  let w ← getWorld
  let low ← deref .framebuffer w.m_oitLowResFramebuffer
  let oit ← deref .framebuffer w.m_oitFramebuffer
  let args : List Arg :=
    [.setMacroInt "FILTER_RADIUS" w.m_oitUpsampleFilterRadius,
     .setUniformTexture "sourceDepth" ((w.fb low).texture .DEPTH),
     .setUniformTexture "destDepth" ((w.fb oit).texture .DEPTH),
     .setUniformSize "sourceSize" (w.fbWidth low) (w.fbHeight low),
     .setUniformTexture "accumTexture" ((w.fb low).texture .COLOR0),
     .setUniformTexture "backgroundModulationAndDiffusionTexture" ((w.fb low).texture .COLOR1),
     .setUniformTexture "deltaTexture" ((w.fb low).texture .COLOR2),
     .setUniformInt "downsampleFactor" w.m_oitLowResDownsampleFactor]
  let g ← deref .gbuffer gbuffer
  let normalArgs ← match g.CS_NORMAL with
    | some destNormal => do
        let normal ← deref .framebuffer w.m_csOctLowResNormalFramebuffer
        pure [Arg.setMacroBool "HAS_NORMALS" true,
              Arg.textureShaderArgs "destNormal." destNormal,
              Arg.setUniformTexture "sourceOctNormal" ((w.fb normal).texture .COLOR0)]
    | none => pure [Arg.setMacroBool "HAS_NORMALS" false]
  (if w.m_upsampleOITShader.isNone then
    modifyWorld (fun wd => { wd with m_upsampleOITShader := some ⟨.upsampleOIT⟩ })
  else pure ())
  emit (.launchShader .upsampleOIT (args ++ normalArgs ++ [.setRect]))
  pop2D

/-- The 2D compositing pass of `renderOrderIndependentBlendedSamples` (lines 416-434). -/
def compositeOIT (gbuffer : Option GBuffer) : Exec Unit := do
  push2D none
  emit .setDepthTestAlwaysPass
  let w ← getWorld
  let background ← deref .framebuffer w.m_backgroundFramebuffer
  let backgroundTexture ← deref .texture ((w.fb background).texture .COLOR0)
  let g ← deref .gbuffer gbuffer
  let _camera ← deref .gbufferCamera g.camera
  let oit ← deref .framebuffer w.m_oitFramebuffer
  let accum ← deref .texture ((w.fb oit).texture .COLOR0)
  let modulation ← deref .texture ((w.fb oit).texture .COLOR1)
  let delta ← deref .texture ((w.fb oit).texture .COLOR2)
  (if w.m_compositeOITShader.isNone then
    modifyWorld (fun wd => { wd with m_compositeOITShader := some ⟨.compositeWeightedBlendedOIT⟩ })
  else pure ())
  emit (.launchShader .compositeWeightedBlendedOIT
    [.textureShaderArgs "backgroundTexture." backgroundTexture,
     .setUniformFloat "pixelsPerDiffusion2",
     .setUniformVector "trimBandThickness" g.trimBandThickness,
     .textureShaderArgs "accumTexture." accum,
     .textureShaderArgs "backgroundModulationAndDiffusionTexture." modulation,
     .textureShaderArgs "deltaTexture." delta,
     .setRect])
  pop2D

/-- The world after the classification loop (lines 323-329): the surfaces are appended
to the two function-static scratch arrays. -/
def World.classify (w : World) (surfaceArray : List Surface) : World :=
  { w with
    hiResSurfaces := (classifySurfaces w.m_oitLowResDownsampleFactor surfaceArray
      (w.hiResSurfaces, w.loResSurfaces)).1
    loResSurfaces := (classifySurfaces w.m_oitLowResDownsampleFactor surfaceArray
      (w.hiResSurfaces, w.loResSurfaces)).2 }

/-- The allocation and resize part of the body of
`renderOrderIndependentBlendedSamples` (lines 331-341): the low-resolution size, the
allocation of the OIT buffers when the test asks for it, the resize of the buffers to
the device size. -/
def allocateAndResizeOITBuffers : Exec Unit := do
  let w0 ← getWorld
  let lowResWidth ← intDiv w0.rdWidth w0.m_oitLowResDownsampleFactor
  let lowResHeight ← intDiv w0.rdHeight w0.m_oitLowResDownsampleFactor
  let allocate ← oitBuffersNeedAllocation
  (if allocate then allocateAllOITBuffers w0.m_oitHighPrecision else pure ())
  resizeOITBuffersIfNeeded w0.rdWidth w0.rdHeight lowResWidth lowResHeight

/-- The body of `renderOrderIndependentBlendedSamples` for a non-empty
`surfaceArray` (lines 319-437). -/
def renderOITBody (surfaceArray : List Surface) (gbuffer : Option GBuffer) : Exec Unit := do
  modifyWorld (fun wd => wd.classify surfaceArray)
  allocateAndResizeOITBuffers
  let w1 ← getWorld
  let oit ← deref .framebuffer w1.m_oitFramebuffer
  let draw ← deref .framebuffer w1.drawFramebuffer
  framebufferSet oit .DEPTH ((w1.fb draw).texture .DEPTH)
  emit (.blitTo draw w1.m_backgroundFramebuffer false false false false true)
  let oldBuffer := w1.drawFramebuffer
  clearAndRenderToOITFramebuffer w1.m_oitFramebuffer w1.hiResSurfaces gbuffer
  (if w1.loResSurfaces.length > 0 then do
    let g ← deref .gbuffer gbuffer
    computeLowResDepthAndNormals g.CS_NORMAL
    let w2 ← getWorld
    clearAndRenderToOITFramebuffer w2.m_oitLowResFramebuffer w1.loResSurfaces gbuffer
    upsampleLowResOIT gbuffer
  else pure ())
  setFramebuffer oldBuffer
  compositeOIT gbuffer
  modifyWorld (fun wd => { wd with hiResSurfaces := [], loResSurfaces := [] })

/-- `DefaultRenderer::renderOrderIndependentBlendedSamples` (lines 309-441). -/
def renderOrderIndependentBlendedSamples (surfaceArray : List Surface)
    (gbuffer : Option GBuffer) : Exec Unit := do
  emit (.call (.renderOrderIndependentBlendedSamples surfaceArray gbuffer))
  emit (.beginProfilerEvent "DefaultRenderer::renderOrderIndependentBlendedSamples")
  (if surfaceArray.length > 0 then renderOITBody surfaceArray gbuffer else pure ())
  emit .endProfilerEvent

/-- `DefaultRenderer::renderIndirectIllumination` (header, lines 125-131). -/
def renderIndirectIllumination (sortedVisibleSurfaceArray : List Surface)
    (gbuffer : Option GBuffer) : Exec Unit := do
  emit (.call (.renderIndirectIllumination sortedVisibleSurfaceArray gbuffer))
  let w ← getWorld
  debugAssertM w.m_deferredShading
    "Renderer::renderIndirectIllumination should only be invoked when in deferred shading mode"

/-- `DefaultRenderer::renderDeferredShading` with `setDeferredShadingArgs` (lines 231-270). -/
def renderDeferredShading (sortedVisibleSurfaceArray : List Surface)
    (gbuffer : Option GBuffer) : Exec Unit := do
  emit (.call (.renderDeferredShading sortedVisibleSurfaceArray gbuffer))
  debugAssertM (decide (sortedVisibleSurfaceArray.length < 500000))
    "It is very unlikely that you intended to draw 500k surfaces. There is probably heap corruption."
  push2D none
  let g ← deref .gbuffer gbuffer
  emit (.setGuardBandClip2D g.trimBandThickness)
  let w ← getWorld
  let args : List Arg :=
    [.environmentShaderArgs,
     .gbufferShaderArgsRead "gbuffer_",
     .setMacroInt "COMPUTE_PERCENT" (if w.m_diskFramebuffer.isSome then 100 else -1),
     .setRect]
  (if w.m_deferredShader.isNone then
    modifyWorld (fun wd => { wd with m_deferredShader := some ⟨.deferredShade⟩ })
  else pure ())
  emit (.launchShader .deferredShade args)
  pop2D

/-- `DefaultRenderer::renderOpaqueSamples` (lines 273-282). -/
def renderOpaqueSamples (surfaceArray : List Surface) (gbuffer : Option GBuffer) : Exec Unit := do
  emit (.call (.renderOpaqueSamples surfaceArray gbuffer))
  emit (.beginProfilerEvent "DefaultRenderer::renderOpaqueSamples")
  emit (.forwardShade surfaceArray gbuffer .OPAQUE_SAMPLES .ARBITRARY)
  emit .endProfilerEvent

/-- `DefaultRenderer::renderOpaqueScreenSpaceRefractingSamples` (lines 285-294). -/
def renderOpaqueScreenSpaceRefractingSamples (surfaceArray : List Surface)
    (gbuffer : Option GBuffer) : Exec Unit := do
  emit (.call (.renderOpaqueScreenSpaceRefractingSamples surfaceArray gbuffer))
  emit (.beginProfilerEvent "DefaultRenderer::renderOpaqueScreenSpaceRefractingSamples")
  emit (.forwardShade surfaceArray gbuffer .UNBLENDED_SCREEN_SPACE_REFRACTION_SAMPLES .ARBITRARY)
  emit .endProfilerEvent

/-- `DefaultRenderer::renderSortedBlendedSamples` (lines 297-306). -/
def renderSortedBlendedSamples (surfaceArray : List Surface)
    (gbuffer : Option GBuffer) : Exec Unit := do
  emit (.call (.renderSortedBlendedSamples surfaceArray gbuffer))
  emit (.beginProfilerEvent "DefaultRenderer::renderSortedBlendedSamples")
  emit (.forwardShade surfaceArray gbuffer .MULTIPASS_BLENDED_SAMPLES .BACK_TO_FRONT)
  emit .endProfilerEvent

/-- The three lists `Renderer::cullAndSort` fills. -/
structure CulledSurfaces where
  sortedVisibleSurfaces : List Surface
  forwardOpaqueSurfaces : List Surface
  forwardBlendedSurfaces : List Surface
deriving DecidableEq, Repr

/-- `Renderer::cullAndSort`, a method of the base class that `render` is given: from
the camera, the GBuffer, the framebuffer bounds and all surfaces to the three lists. -/
abbrev CullAndSort : Type :=
  Camera → Option GBuffer → Int → Int → List Surface → CulledSurfaces

/-- The message of the assertion that opens `render` (line 178). -/
def ambientOcclusionMessage : String :=
  "Ambient occlusion is enabled but no ambient occlusion object is bound to the lighting environment"

/-- The part of `render` between `rd->pushState(framebuffer)` and `rd->popState()`
(lines 195-226). -/
def renderPasses (camera : Camera) (framebuffer : FbId) (depthPeelFramebuffer : Option FbId)
    (lightingEnvironment : LightingEnvironment) (gbuffer : Option GBuffer)
    (allSurfaces : List Surface) (culled : CulledSurfaces) : Exec Unit := do
  emit .clear
  emit (.setProjectionAndCameraMatrix camera)
  let needDepthPeel :=
    lightingEnvironment.aoUseDepthPeelBuffer && lightingEnvironment.aoEnabled
  (match gbuffer with
  | some g =>
      emit (.computeGBuffer culled.sortedVisibleSurfaces g
        (if needDepthPeel then depthPeelFramebuffer else none))
  | none => pure ())
  emit (.computeShadowing allSurfaces gbuffer depthPeelFramebuffer)
  debugAssertM (decide (allSurfaces.length < 500000))
    "It is very unlikely that you intended to draw 500k surfaces. There is probably heap corruption."
  let w ← getWorld
  (if w.m_deferredShading then do
    renderIndirectIllumination culled.sortedVisibleSurfaces gbuffer
    renderDeferredShading culled.sortedVisibleSurfaces gbuffer
  else pure ())
  renderOpaqueSamples
    (if w.m_deferredShading then culled.forwardOpaqueSurfaces else culled.sortedVisibleSurfaces)
    gbuffer
  emit (.copyScreenSpaceBuffers framebuffer
    (match gbuffer with
     | some g => g.colorGuardBandThickness
     | none => ⟨0, 0⟩)
    (match gbuffer with
     | some g => g.depthGuardBandThickness
     | none => ⟨0, 0⟩))
  renderOpaqueScreenSpaceRefractingSamples
    (if w.m_deferredShading then culled.forwardOpaqueSurfaces else culled.sortedVisibleSurfaces)
    gbuffer
  if w.m_orderIndependentTransparency then
    renderOrderIndependentBlendedSamples culled.forwardBlendedSurfaces gbuffer
  else
    renderSortedBlendedSamples culled.forwardBlendedSurfaces gbuffer

/-- The two statements of `render` that precede culling (lines 180-186): with a GBuffer
the destination shares its depth buffer, and a depth-peel framebuffer is resized to the
size of the destination. -/
def shareDepthAndResizePeel (framebuffer : FbId) (depthPeelFramebuffer : Option FbId)
    (gbuffer : Option GBuffer) : Exec Unit := do
  (match gbuffer with
  | some g => framebufferSet framebuffer .DEPTH g.DEPTH_AND_STENCIL
  | none => pure ())
  (match depthPeelFramebuffer with
  | some peel => do
      let w ← getWorld
      framebufferResize peel (w.fbWidth framebuffer) (w.fbHeight framebuffer)
  | none => pure ())

/-- `DefaultRenderer::render` after its opening assertion (lines 180-228). -/
def renderFrame (cullAndSort : CullAndSort) (camera : Camera) (framebuffer : FbId)
    (depthPeelFramebuffer : Option FbId) (lightingEnvironment : LightingEnvironment)
    (gbuffer : Option GBuffer) (allSurfaces : List Surface) : Exec Unit := do
  shareDepthAndResizePeel framebuffer depthPeelFramebuffer gbuffer
  let w ← getWorld
  let culled :=
    cullAndSort camera gbuffer (w.fbWidth framebuffer) (w.fbHeight framebuffer) allSurfaces
  emit (.cullAndSort camera gbuffer allSurfaces)
  pushState framebuffer
  renderPasses camera framebuffer depthPeelFramebuffer lightingEnvironment gbuffer allSurfaces
    culled
  popState

/-- `DefaultRenderer::render` (lines 168-228).  The device `rd`, the camera and the
destination framebuffer are dereferenced unconditionally and are not null; the
GBuffer and the depth-peel framebuffer may be null. -/
def render (cullAndSort : CullAndSort) (camera : Camera) (framebuffer : FbId)
    (depthPeelFramebuffer : Option FbId) (lightingEnvironment : LightingEnvironment)
    (gbuffer : Option GBuffer) (allSurfaces : List Surface) : Exec Unit := do
  alwaysAssertM (!lightingEnvironment.aoEnabled || lightingEnvironment.ambientOcclusion.isSome)
    ambientOcclusionMessage
  renderFrame cullAndSort camera framebuffer depthPeelFramebuffer lightingEnvironment gbuffer
    allSurfaces

/-! ## Reasoning about computations -/

/-- The weakest precondition of a computation: `Q` holds of the value and the world
when it completes, `E` of the fault and the world when it stops. -/
def wp {α : Type} (m : Exec α) (Q : α → World → Prop) (E : Fault → World → Prop)
    (w : World) : Prop :=
  match m w with
  | (.ok a, w1) => Q a w1
  | (.fault e, w1) => E e w1

/-- The computation keeps the invariant `I`, whether it completes or stops at a fault. -/
structure Exec.Preserves {α : Type} (I : World → Prop) (m : Exec α) : Prop where
  run : ∀ w, I w → I (m w).2

/-- The faults at which the computation can stop all satisfy `S`. -/
structure Exec.FaultsWithin {α : Type} (S : Fault → Prop) (m : Exec α) : Prop where
  run : ∀ w e, (m w).1 = .fault e → S e

/-- The framebuffer object `d` is alive and is `X`. -/
def FbKept (d : FbId) (X : Framebuffer) (w : World) : Prop :=
  d < w.framebuffers.length ∧ w.fb d = X

/-- Since the trace was `t0`, the events issued that satisfy `p` are exactly `S`. -/
def TraceSince (t0 : List Event) (p : Event → Bool) (S : List Event) (w : World) : Prop :=
  ∃ evs, w.trace = t0 ++ evs ∧ evs.filter p = S

/-! ## Sample inputs -/

/-- A world before the first frame: a 640 x 480 destination framebuffer (object 0)
with a colour texture (0) and a depth texture (1), a third texture (2) that a
GBuffer owns as its depth, no OIT buffer allocated yet, OIT enabled with the
low-precision formats and a downsample factor of 4. -/
def sampleWorld : World :=
  { debugBuild := true
    textures := [⟨.external, 640, 480, .RGBA8, false⟩, ⟨.external, 640, 480, .other 1, false⟩,
      ⟨.external, 640, 480, .other 1, false⟩]
    framebuffers := [⟨.external, some 0, none, none, none, some 1, none, none, []⟩]
    rdWidth := 640
    rdHeight := 480
    drawFramebuffer := some 0
    stateStack := []
    m_deferredShading := false
    m_orderIndependentTransparency := true
    m_oitLowResDownsampleFactor := 4
    m_oitUpsampleFilterRadius := 2
    m_oitHighPrecision := false
    m_oitFramebuffer := none
    m_oitLowResFramebuffer := none
    m_csOctLowResNormalFramebuffer := none
    m_backgroundFramebuffer := none
    m_diskFramebuffer := none
    m_deferredShader := none
    m_upsampleOITShader := none
    m_compositeOITShader := none
    hiResSurfaces := []
    loResSurfaces := []
    trace := [] }

/-- A GBuffer whose depth is texture 2, without a normal field, prepared for camera 7. -/
def sampleGBuffer : GBuffer := ⟨some 2, none, some ⟨7⟩, ⟨0, 0⟩, ⟨0, 0⟩, ⟨0, 0⟩⟩

/-- Three blended surfaces, two of which prefer low-resolution transparency. -/
def sampleSurfaces : List Surface := [⟨1, true⟩, ⟨2, false⟩, ⟨3, true⟩]

/-- A camera. -/
def sampleCamera : Camera := ⟨7⟩

/-- A lighting environment with ambient occlusion disabled. -/
def sampleEnvironment : LightingEnvironment := ⟨false, false, none⟩

/-- A `cullAndSort` that finds every surface visible and every surface blended. -/
def sampleCullAndSort : CullAndSort := fun _ _ _ _ all => ⟨all, all, all⟩

/-- The formats of the three colour attachments of a framebuffer, `none` for a
missing framebuffer or attachment. -/
def oitColorFormats (w : World) (fb : Option FbId) : List (Option ImageFormat) :=
  [AttachmentPoint.COLOR0, AttachmentPoint.COLOR1, AttachmentPoint.COLOR2].map fun ap =>
    match fb with
    | none => none
    | some f => ((w.fb f).texture ap).map fun t => (w.tex t).format

/-- What the allocation and the resize of the OIT buffers leave alone: the draw
framebuffer bound on the device, the stack of saved bindings and the two scratch
arrays. -/
def World.deviceAndScratch (w : World) :
    Option FbId × List (Option FbId) × List Surface × List Surface :=
  (w.drawFramebuffer, w.stateStack, w.hiResSurfaces, w.loResSurfaces)

/-- A Hoare triple with two postconditions: from a world satisfying `P` the computation
ends in a world satisfying `Q` when it completes and `E` when it stops at a fault. -/
structure Exec.Spec {α : Type} (P : World → Prop) (m : Exec α) (Q E : World → Prop) :
    Prop where
  run : ∀ w, P w → wp m (fun _ w1 => Q w1) (fun _ w1 => E w1) w

/-- What `render` does to the destination framebuffer before it binds it: with a
GBuffer, the GBuffer's depth becomes the DEPTH attachment. -/
def sharedDepth (gbuffer : Option GBuffer) (fb : Framebuffer) : Framebuffer :=
  match gbuffer with
  | some g => fb.set .DEPTH g.DEPTH_AND_STENCIL
  | none => fb

/-- `DefaultRenderer::setDeferredShading` (header, lines 211-213). -/
def World.setDeferredShading (w : World) (b : Bool) : World :=
  { w with m_deferredShading := b }

/-- `DefaultRenderer::setOrderIndependentTransparency` (header, lines 232-234). -/
def World.setOrderIndependentTransparency (w : World) (b : Bool) : World :=
  { w with m_orderIndependentTransparency := b }

/-- An assignment to the protected member `m_oitHighPrecision`. -/
def World.setOITHighPrecision (w : World) (b : Bool) : World :=
  { w with m_oitHighPrecision := b }

/-- The events issued since the trace had `n` entries. -/
def World.eventsSince (w : World) (n : Nat) : List Event := w.trace.drop n

/-- The sample world after a first OIT pass over the sample surfaces. -/
def sampleWorldAfterOIT : World :=
  (renderOrderIndependentBlendedSamples sampleSurfaces (some sampleGBuffer) sampleWorld).2

/-- The faults at which a call with the GBuffer `g` may stop once the opening assertion
of `render` has passed: no `alwaysAssertM` fails, and a null GBuffer is dereferenced
only when `g` is null. -/
def Fault.expected (g : Option GBuffer) : Fault → Prop
  | .alwaysAssert _ => False
  | .nullDereference .gbuffer => g = none
  | _ => True

/-- The world with more events in its trace and nothing else changed. -/
def World.appendTrace (w : World) (evs : List Event) : World :=
  { w with trace := w.trace ++ evs }

/-- The message of the surface-count assertions (lines 205 and 237). -/
def surfaceCountMessage : String :=
  "It is very unlikely that you intended to draw 500k surfaces. There is probably heap corruption."

/-! ## Classes of events -/

/-- The commands by which the OIT buffers are allocated and resized. -/
def Event.isBufferAllocation : Event → Bool
  | .call (.allocateAllOITBuffers _) => true
  | .call (.allocateOITFramebufferAttachments _ _ _ _) => true
  | .call (.resizeOITBuffersIfNeeded _ _ _ _) => true
  | .createFramebuffer _ _ => true
  | .createTexture _ _ _ _ _ => true
  | .framebufferSet _ _ _ => true
  | .framebufferSetClearValue _ _ _ => true
  | .framebufferResize _ _ _ => true
  | _ => false

/-- The two commands that set a blend function. -/
def Event.isBlendFunc : Event → Bool
  | .setBlendFunc _ _ _ _ _ => true
  | .setBlendFuncSeparate _ _ _ _ _ _ _ => true
  | _ => false

/-- The commands of `clearAndRenderToOITFramebuffer`. -/
def Event.isAccumulation : Event → Bool
  | .call (.clearAndRenderToOITFramebuffer _ _) => true
  | .setFramebuffer _ => true
  | .clearFramebuffer _ _ => true
  | .framebufferSetDepthShaderArgs _ _ => true
  | .framebufferSetWritePixelMacro _ => true
  | .pushState _ => true
  | .setBlendFunc _ _ _ _ _ => true
  | .setBlendFuncSeparate _ _ _ _ _ _ _ => true
  | .forwardShade _ _ _ _ => true
  | .popState => true
  | _ => false

/-- The commands of `computeLowResDepthAndNormals`. -/
def Event.isLowResDownsample : Event → Bool
  | .call (.computeLowResDepthAndNormals _) => true
  | .textureCopy _ _ _ => true
  | .push2D _ => true
  | .launchShader .downsampleNormal _ => true
  | .pop2D => true
  | _ => false

/-- The commands of the upsample pass. -/
def Event.isUpsample : Event → Bool
  | .push2D _ => true
  | .setBlendFunc _ _ _ _ _ => true
  | .setBlendFuncSeparate _ _ _ _ _ _ _ => true
  | .launchShader .upsampleOIT _ => true
  | .pop2D => true
  | _ => false

/-- The commands of the compositing pass. -/
def Event.isComposite : Event → Bool
  | .push2D _ => true
  | .setDepthTestAlwaysPass => true
  | .launchShader .compositeWeightedBlendedOIT _ => true
  | .pop2D => true
  | _ => false

/-- The stages of `render`: the calls to the collaborators of the base class, the clear
and the camera setup, and the entries of the render methods of `DefaultRenderer`. -/
def Event.isStage : Event → Bool
  | .cullAndSort _ _ _ => true
  | .clear => true
  | .setProjectionAndCameraMatrix _ => true
  | .computeGBuffer _ _ _ => true
  | .computeShadowing _ _ _ => true
  | .copyScreenSpaceBuffers _ _ _ => true
  | .call (.renderIndirectIllumination _ _) => true
  | .call (.renderDeferredShading _ _) => true
  | .call (.renderOpaqueSamples _ _) => true
  | .call (.renderOpaqueScreenSpaceRefractingSamples _ _) => true
  | .call (.renderSortedBlendedSamples _ _) => true
  | .call (.renderOrderIndependentBlendedSamples _ _) => true
  | _ => false

/-- The steps of an accumulation pass that name its surfaces: the entry of
`clearAndRenderToOITFramebuffer` and the `forwardShade` it ends with. -/
def Event.isAccumulationStep : Event → Bool
  | .call (.clearAndRenderToOITFramebuffer _ _) => true
  | .forwardShade _ _ _ _ => true
  | _ => false

/-- The steps that only the low-resolution path takes: the downsample of depth and
normals and the launch of the upsample shader. -/
def Event.isLowResStep : Event → Bool
  | .call (.computeLowResDepthAndNormals _) => true
  | .textureCopy _ _ _ => true
  | .launchShader .downsampleNormal _ => true
  | .launchShader .upsampleOIT _ => true
  | _ => false

/-- The commands issued inside the body of `renderOrderIndependentBlendedSamples`. -/
def Event.isOITCommand (e : Event) : Bool :=
  e.isBufferAllocation || e.isAccumulation || e.isLowResDownsample || e.isUpsample ||
    e.isComposite ||
    match e with
    | .blitTo _ _ _ _ _ _ _ => true
    | _ => false

/-- From a world satisfying `P`, the events satisfying `p` that the computation issues
are the list `L` when it completes, and then `Q` holds; when it stops at a fault they
are a prefix of `L`. -/
structure Exec.Adds {α : Type} (p : Event → Bool) (P Q : World → Prop) (L : List Event)
    (m : Exec α) : Prop where
  run : ∀ t0 S w, P w → TraceSince t0 p S w →
    ∃ K, TraceSince t0 p (S ++ K) (m w).2 ∧ K <+: L ∧
      ∀ a, (m w).1 = .ok a → K = L ∧ Q (m w).2

/-- The stages of one call of `render`, in order, for the three lists `culled` that
`cullAndSort` returned and the two mode flags of the renderer. -/
def renderStages (camera : Camera) (framebuffer : FbId) (depthPeelFramebuffer : Option FbId)
    (lightingEnvironment : LightingEnvironment) (gbuffer : Option GBuffer)
    (allSurfaces : List Surface) (culled : CulledSurfaces)
    (deferredShading orderIndependentTransparency : Bool) : List Event :=
  [.cullAndSort camera gbuffer allSurfaces, .clear, .setProjectionAndCameraMatrix camera] ++
  (match gbuffer with
   | some g =>
       [.computeGBuffer culled.sortedVisibleSurfaces g
         (if lightingEnvironment.aoUseDepthPeelBuffer && lightingEnvironment.aoEnabled then
           depthPeelFramebuffer else none)]
   | none => []) ++
  [.computeShadowing allSurfaces gbuffer depthPeelFramebuffer] ++
  (if deferredShading then
    [.call (.renderIndirectIllumination culled.sortedVisibleSurfaces gbuffer),
     .call (.renderDeferredShading culled.sortedVisibleSurfaces gbuffer)]
   else []) ++
  [.call (.renderOpaqueSamples
     (if deferredShading then culled.forwardOpaqueSurfaces else culled.sortedVisibleSurfaces)
     gbuffer),
   .copyScreenSpaceBuffers framebuffer
     (match gbuffer with
      | some g => g.colorGuardBandThickness
      | none => ⟨0, 0⟩)
     (match gbuffer with
      | some g => g.depthGuardBandThickness
      | none => ⟨0, 0⟩),
   .call (.renderOpaqueScreenSpaceRefractingSamples
     (if deferredShading then culled.forwardOpaqueSurfaces else culled.sortedVisibleSurfaces)
     gbuffer),
   if orderIndependentTransparency then
     .call (.renderOrderIndependentBlendedSamples culled.forwardBlendedSurfaces gbuffer)
   else
     .call (.renderSortedBlendedSamples culled.forwardBlendedSurfaces gbuffer)]

/-- The three lists that `render` gets from `cullAndSort`: it passes the bounds of the
destination framebuffer as they are once the depth buffer is shared and the depth-peel
framebuffer resized. -/
def World.culled (w : World) (cullAndSort : CullAndSort) (camera : Camera)
    (framebuffer : FbId) (depthPeelFramebuffer : Option FbId) (gbuffer : Option GBuffer)
    (allSurfaces : List Surface) : CulledSurfaces :=
  cullAndSort camera gbuffer
    ((shareDepthAndResizePeel framebuffer depthPeelFramebuffer gbuffer w).2.fbWidth framebuffer)
    ((shareDepthAndResizePeel framebuffer depthPeelFramebuffer gbuffer w).2.fbHeight framebuffer)
    allSurfaces

/-- The two members that hold the OIT accumulation framebuffers. -/
def World.oitFramebuffers (w : World) : Option FbId × Option FbId :=
  (w.m_oitFramebuffer, w.m_oitLowResFramebuffer)

/-- The test of the classification loop (line 324): the surface prefers low-resolution
transparency and the downsample factor is not 1. -/
def Surface.lowRes (factor : Int) (s : Surface) : Bool :=
  s.preferLowResolutionTransparency && (factor != 1)

/-- The steps that name the surfaces of the accumulation passes: the pass into `hi` over
the list `hiRes`, followed, when `loRes` is not empty, by the pass into `lo` over
`loRes`. -/
def accumulationSteps (hi lo : Option FbId) (hiRes loRes : List Surface)
    (gbuffer : Option GBuffer) : List Event :=
  [.call (.clearAndRenderToOITFramebuffer hi hiRes),
   .forwardShade hiRes gbuffer .SINGLE_PASS_UNORDERED_BLENDED_SAMPLES .ARBITRARY] ++
  (if loRes.length > 0 then
    [.call (.clearAndRenderToOITFramebuffer lo loRes),
     .forwardShade loRes gbuffer .SINGLE_PASS_UNORDERED_BLENDED_SAMPLES .ARBITRARY]
   else [])

/-- The sample world of a renderer whose downsample factor is 1, as a subclass sets it
to disable low-resolution OIT. -/
def sampleWorldFullRes : World :=
  { sampleWorld with m_oitLowResDownsampleFactor := 1 }

/-- `DefaultRenderer::DefaultRenderer` (lines 26-36), as `DefaultRenderer::create()` runs
it: the world `w` with the members of the renderer as the initializer list sets them. The
framebuffer and shader members are default-constructed pointers, that is null, and the
scratch arrays of `renderOrderIndependentBlendedSamples` are empty. -/
def World.construct (w : World) : World :=
  { w with
    m_deferredShading := false
    m_orderIndependentTransparency := false
    m_oitLowResDownsampleFactor := 4
    m_oitUpsampleFilterRadius := 2
    m_oitHighPrecision := true
    m_oitFramebuffer := none
    m_oitLowResFramebuffer := none
    m_csOctLowResNormalFramebuffer := none
    m_backgroundFramebuffer := none
    m_diskFramebuffer := none
    m_deferredShader := none
    m_upsampleOITShader := none
    m_compositeOITShader := none
    hiResSurfaces := []
    loResSurfaces := [] }

/-- Modelled from the spec: `ImageFormat` is declared outside the sources at hand. The
number of bits per channel of the floating-point formats, as their names give it; `none`
for a format that is not floating point or is not one the renderer names. -/
def ImageFormat.floatBits : ImageFormat → Option Nat
  | .RGBA16F => some 16
  | .RG16F => some 16
  | .RGBA32F => some 32
  | .RG32F => some 32
  | .RGBA8 => none
  | .RG8_SNORM => none
  | .other _ => none

/-- `Framebuffer::getClearValue(ap)`: the clear value set last for the attachment point,
`none` when none was set. -/
def Framebuffer.clearValue (fb : Framebuffer) (ap : AttachmentPoint) : Option Color4 :=
  (fb.clearValues.find? (fun e => e.1 = ap)).map (fun e => e.2)

/-- The call of `computeShadowing`. -/
def Event.isComputeShadowing : Event → Bool
  | .computeShadowing _ _ _ => true
  | _ => false

/-- The entries of the two forward passes over opaque surfaces, `renderOpaqueSamples` and
`renderOpaqueScreenSpaceRefractingSamples`. -/
def Event.isOpaquePass : Event → Bool
  | .call (.renderOpaqueSamples _ _) => true
  | .call (.renderOpaqueScreenSpaceRefractingSamples _ _) => true
  | _ => false

/-- A `cullAndSort` that finds every surface visible, the first one in need of forward
shading and the others blended. -/
def sampleCullAndSortSplit : CullAndSort := fun _ _ _ _ all => ⟨all, all.take 1, all.drop 1⟩

/-- The commands of one call of `allocateOITFramebufferAttachments` (lines 66-86) when
the first texture it creates is `t`. -/
def attachmentEvents (fb : FbId) (a b : Int) (hp : Bool) (t : TexId) : List Event :=
  [.call (.allocateOITFramebufferAttachments fb a b hp),
   .createTexture t .RT0 a b
     (if hp then HIGH_PRECISION_OIT_FORMAT else ImageFormat.RGBA16F),
   .framebufferSet fb .COLOR0 (some t),
   .framebufferSetClearValue fb .COLOR0 Color4.zero,
   .createTexture (t + 1) .RT1 a b
     (if hp then HIGH_PRECISION_OIT_FORMAT else ImageFormat.RGBA8),
   .framebufferSet fb .COLOR1 (some (t + 1)),
   .framebufferSetClearValue fb .COLOR1 ⟨1, 1, 1, 0⟩,
   .createTexture (t + 2) .RT2 a b
     (if hp then HIGH_PRECISION_OIT_FORMAT_RG else ImageFormat.RG8_SNORM),
   .framebufferSet fb .COLOR2 (some (t + 2)),
   .framebufferSetClearValue fb .COLOR2 Color4.zero]

/-- What a blend command sets for one attachment point: the factors and the equation for
RGB and those for alpha. -/
structure BlendConfig where
  srcRGB : BlendFunc
  dstRGB : BlendFunc
  eqRGB : BlendEq
  srcAlpha : BlendFunc
  dstAlpha : BlendFunc
  eqAlpha : BlendEq
deriving DecidableEq, Repr

/-- Modelled from the spec: `RenderDevice::setBlendFunc` is declared outside the sources
at hand. The configuration a blend command sets and the attachment point it sets it for:
the form with one pair of factors gives them to RGB and to alpha, and
`BLENDEQ_SAME_AS_RGB` stands for the RGB equation; the form that starts with the
attachment point gives RGB and alpha separately. -/
def Event.blendConfig : Event → Option (AttachmentPoint × BlendConfig)
  | .setBlendFunc src dst eq eqAlpha ap =>
      some (ap, ⟨src, dst, eq, src, dst,
        match eqAlpha with
        | .BLENDEQ_SAME_AS_RGB => eq
        | other => other⟩)
  | .setBlendFuncSeparate ap srcRGB dstRGB eqRGB srcA dstA eqA =>
      some (ap, ⟨srcRGB, dstRGB, eqRGB, srcA, dstA, eqA⟩)
  | _ => none

/-- The blend configuration of the OIT framebuffers as the specification words it:
additive for COLOR0 and COLOR2; for COLOR1, zero and one-minus-source-colour with ADD for
RGB, one and one with ADD for alpha. -/
def oitBlendConfiguration : List (AttachmentPoint × BlendConfig) :=
  [(.COLOR0, ⟨.BLEND_ONE, .BLEND_ONE, .BLENDEQ_ADD, .BLEND_ONE, .BLEND_ONE, .BLENDEQ_ADD⟩),
   (.COLOR1, ⟨.BLEND_ZERO, .BLEND_ONE_MINUS_SRC_COLOR, .BLENDEQ_ADD, .BLEND_ONE, .BLEND_ONE,
     .BLENDEQ_ADD⟩),
   (.COLOR2, ⟨.BLEND_ONE, .BLEND_ONE, .BLENDEQ_ADD, .BLEND_ONE, .BLEND_ONE, .BLENDEQ_ADD⟩)]

/-- The commands of a completed call of `clearAndRenderToOITFramebuffer` on the
framebuffer `fb` with the depth texture `depth`, but for the three blend commands, which
stand where `blend` is. -/
def accumulationEvents (fb : FbId) (depth : TexId) (blend : List Event)
    (surfaceArray : List Surface) (gbuffer : Option GBuffer) : List Event :=
  [.call (.clearAndRenderToOITFramebuffer (some fb) surfaceArray),
   .setFramebuffer (some fb),
   .clearFramebuffer true false,
   .framebufferSetDepthShaderArgs fb depth,
   .framebufferSetWritePixelMacro fb,
   .pushState fb] ++ blend ++
  [.forwardShade surfaceArray gbuffer .SINGLE_PASS_UNORDERED_BLENDED_SAMPLES .ARBITRARY,
   .popState]

/-- The commands of a completed upsample pass into the framebuffer `oit`, but for the
three blend commands, which stand where `blend` is; `args` are the arguments of the
shader. -/
def upsampleEvents (oit : Option FbId) (blend : List Event) (args : List Arg) : List Event :=
  [.push2D oit] ++ blend ++ [.launchShader .upsampleOIT args, .pop2D]

/-- The commands of a completed call of `computeLowResDepthAndNormals`: the depth copy
from `src` to `dst` and, when there is a normal texture, its downsample into the
framebuffer `normalFb`. -/
def downsampleEvents (csHighResNormalTexture : Option TexId) (src dst : TexId) (factor : Int)
    (normalFb : Option FbId) : List Event :=
  [.call (.computeLowResDepthAndNormals csHighResNormalTexture),
   .textureCopy src dst factor] ++
  (match csHighResNormalTexture with
   | some normal =>
       [.push2D normalFb,
        .launchShader .downsampleNormal
          [.textureShaderArgs "csHighResNormalTexture." normal,
           .setUniformInt "lowResDownsampleFactor" factor,
           .setRect],
        .pop2D]
   | none => [])

/-- The commands of a completed compositing pass; `args` are the arguments of the
shader. -/
def compositeEvents (args : List Arg) : List Event :=
  [.push2D none, .setDepthTestAlwaysPass,
   .launchShader .compositeWeightedBlendedOIT args, .pop2D]

/-- The objects the OIT passes draw with and do not change: the two heaps, the size of
the device, the downsample factor and the four framebuffer members. -/
def World.objects (w : World) :
    List Texture × List Framebuffer × Int × Int × Int ×
      Option FbId × Option FbId × Option FbId × Option FbId :=
  (w.textures, w.framebuffers, w.rdWidth, w.rdHeight, w.m_oitLowResDownsampleFactor,
    w.m_oitFramebuffer, w.m_oitLowResFramebuffer, w.m_csOctLowResNormalFramebuffer,
    w.m_backgroundFramebuffer)

/-- The commands `L` of the low-resolution path of a completed OIT pass: none when the
low-resolution list is empty; otherwise the downsample of depth and normals, the
accumulation of the low-resolution list into the framebuffer `low` and the upsample into
the framebuffer `oit`, with the blend configuration set before each of the two draws. -/
def LowResPath (loRes : List Surface) (g : Option GBuffer) (oit : FbId) (low : Option FbId)
    (L : List Event) : Prop :=
  (¬ loRes.length > 0 → L = []) ∧
  (loRes.length > 0 → ∃ gb src dst fb depth blend blendUp args factor normalFb,
    g = some gb ∧ low = some fb ∧
    blend.filterMap Event.blendConfig = oitBlendConfiguration ∧ blend.length = 3 ∧
    blendUp.filterMap Event.blendConfig = oitBlendConfiguration ∧ blendUp.length = 3 ∧
    L = downsampleEvents gb.CS_NORMAL src dst factor normalFb ++
      (accumulationEvents fb depth blend loRes g ++ upsampleEvents (some oit) blendUp args))

/-- The commands of the body of a completed OIT pass, after those of the allocation and
the resize of the buffers: the depth of the destination `d` is shared with the
framebuffer `oit`, the colour of the destination is copied to the framebuffer `bg`, the
list `hiRes` is accumulated, the low-resolution path `L` is taken, the destination is
bound again and the compositing shader is launched. -/
def oitBodyEvents (oit d : FbId) (t : Option TexId) (bg : Option FbId) (depth : TexId)
    (blend : List Event) (hiRes : List Surface) (g : Option GBuffer) (L : List Event)
    (args : List Arg) : List Event :=
  [.framebufferSet oit .DEPTH t, .blitTo d bg false false false false true] ++
    (accumulationEvents oit depth blend hiRes g ++
      (L ++ ([.setFramebuffer (some d)] ++ compositeEvents args)))

/-- What a completed run of the OIT pass from the world `w` has done when it ends in the
world `x`: `pre` and `post` are the commands issued before and after the body of
`renderOrderIndependentBlendedSamples`. -/
def OITBodyRun (pre post : List Event) (arr : List Surface) (g : Option GBuffer)
    (w x : World) : Prop :=
  ∃ A oit d t depth blend L args,
    (∀ e ∈ A, e.isBufferAllocation = true) ∧
    w.drawFramebuffer = some d ∧
    (d < w.framebuffers.length → t = (w.fb d).texture .DEPTH) ∧
    x.m_oitFramebuffer = some oit ∧
    blend.filterMap Event.blendConfig = oitBlendConfiguration ∧ blend.length = 3 ∧
    LowResPath (w.classify arr).loResSurfaces g oit x.m_oitLowResFramebuffer L ∧
    x.trace = w.trace ++ (pre ++ (A ++ (oitBodyEvents oit d t x.m_backgroundFramebuffer depth
      blend (w.classify arr).hiResSurfaces g L args ++ post))) ∧
    x.drawFramebuffer = w.drawFramebuffer ∧ x.stateStack = w.stateStack ∧
    x.hiResSurfaces = [] ∧ x.loResSurfaces = []

/-- The launch of the compositing shader. -/
def Event.isCompositeLaunch : Event → Bool
  | .launchShader .compositeWeightedBlendedOIT _ => true
  | _ => false

/-- The commands that clear: `rd->clear()` and `rd->clearFramebuffer(color, depth)`. -/
def Event.isClear : Event → Bool
  | .clear => true
  | .clearFramebuffer _ _ => true
  | _ => false

/-- The draw framebuffer bound and the stack of saved bindings after one command, as
`setFramebuffer`, `pushState`, `popState`, `push2D` and `pop2D` change them; the other
commands leave them. -/
def Event.applyToDevice (s : Option FbId × List (Option FbId)) :
    Event → Option FbId × List (Option FbId)
  | .setFramebuffer fb => (fb, s.2)
  | .pushState fb => (some fb, s.1 :: s.2)
  | .push2D (some fb) => (some fb, s.1 :: s.2)
  | .push2D none => (s.1, s.1 :: s.2)
  | .popState =>
      match s.2 with
      | [] => s
      | d :: rest => (d, rest)
  | .pop2D =>
      match s.2 with
      | [] => s
      | d :: rest => (d, rest)
  | _ => s

/-- The draw framebuffer bound and the stack of saved bindings after a list of
commands. -/
def deviceAfter (s : Option FbId × List (Option FbId)) (evs : List Event) :
    Option FbId × List (Option FbId) :=
  evs.foldl Event.applyToDevice s

/-- The entry of `allocateOITFramebufferAttachments`. -/
def Event.isAttachmentAllocation : Event → Bool
  | .call (.allocateOITFramebufferAttachments _ _ _ _) => true
  | _ => false

/-- The width and the height of the texture behind a handle. -/
def World.texSize (w : World) (t : TexId) : Int × Int :=
  ((w.tex t).width, (w.tex t).height)

/-- The width and the height of a framebuffer, `Framebuffer::width()` and
`Framebuffer::height()`. -/
def World.fbSize (w : World) (i : FbId) : Int × Int :=
  (w.fbWidth i, w.fbHeight i)

/-- The calls of `Framebuffer::resize`. -/
def Event.isResize : Event → Bool
  | .framebufferResize _ _ _ => true
  | _ => false

/-- The state of the four OIT framebuffer members between two calls of
`renderOrderIndependentBlendedSamples`: either none was allocated yet
(`m_oitFramebuffer` is null), or the four members are framebuffers of the heap,
`m_oitFramebuffer` being none of the other three; each has a texture of the heap at
COLOR0; the one of `m_oitFramebuffer` is attached neither to `m_oitLowResFramebuffer`
nor to `m_csOctLowResNormalFramebuffer`, and the ones of these two are not attached to
`m_backgroundFramebuffer`; and `m_backgroundFramebuffer` has the size of
`m_oitFramebuffer`, `m_csOctLowResNormalFramebuffer` that of
`m_oitLowResFramebuffer`. -/
def World.oitBuffersConsistent (w : World) : Prop :=
  w.m_oitFramebuffer = none ∨
  ∃ oit low cs bg a b c e,
    w.m_oitFramebuffer = some oit ∧ w.m_oitLowResFramebuffer = some low ∧
    w.m_csOctLowResNormalFramebuffer = some cs ∧ w.m_backgroundFramebuffer = some bg ∧
    (oit < w.framebuffers.length ∧ low < w.framebuffers.length ∧
      cs < w.framebuffers.length ∧ bg < w.framebuffers.length) ∧
    (oit ≠ low ∧ oit ≠ cs ∧ oit ≠ bg) ∧
    ((w.fb oit).color0 = some a ∧ (w.fb low).color0 = some b ∧
      (w.fb cs).color0 = some c ∧ (w.fb bg).color0 = some e) ∧
    (a < w.textures.length ∧ b < w.textures.length ∧ c < w.textures.length ∧
      e < w.textures.length) ∧
    (a ∉ (w.fb low).attached ∧ a ∉ (w.fb cs).attached ∧ b ∉ (w.fb bg).attached ∧
      c ∉ (w.fb bg).attached) ∧
    w.texSize e = w.texSize a ∧ w.texSize c = w.texSize b

/-- The heap of framebuffers and the four OIT framebuffer members. -/
def World.oitMembers (w : World) :
    List Framebuffer × Option FbId × Option FbId × Option FbId × Option FbId :=
  (w.framebuffers, w.m_oitFramebuffer, w.m_oitLowResFramebuffer,
    w.m_csOctLowResNormalFramebuffer, w.m_backgroundFramebuffer)

/-- The four calls of `Framebuffer::resize` in `resizeOITBuffersIfNeeded` (lines
133-136). -/
def resizeEvents (oit low cs bg : FbId) (W H lw lh : Int) : List Event :=
  [.framebufferResize oit W H, .framebufferResize low lw lh,
   .framebufferResize cs lw lh, .framebufferResize bg W H]

/-- A world `x` while `allocateAllOITBuffers` runs from the world `w`: `L` are the
textures and `M` the framebuffers created so far, `mem` are the four OIT framebuffer
members, and the size of the device is that of `w`. -/
structure Allocating (w : World) (L : List Texture) (M : List Framebuffer)
    (mem : Option FbId × Option FbId × Option FbId × Option FbId) (x : World) : Prop where
  textures : x.textures = w.textures ++ L
  framebuffers : x.framebuffers = w.framebuffers ++ M
  members : x.oitMembers.2 = mem
  device : (x.rdWidth, x.rdHeight) = (w.rdWidth, w.rdHeight)

/-- The sample world after a first OIT pass, the device resized to 800 by 600. -/
def sampleWorldResized : World :=
  { sampleWorldAfterOIT with rdWidth := 800, rdHeight := 600 }

/-- The sample world with the high-precision flag set, after a first OIT pass, the
device then resized to 800 by 600: the next pass finds its buffers allocated in the
format that `oitBuffersNeedAllocation` expects and resizes them. -/
def sampleWorldHighPrecisionResized : World :=
  { (renderOrderIndependentBlendedSamples sampleSurfaces (some sampleGBuffer)
      (sampleWorld.setOITHighPrecision true)).2 with rdWidth := 800, rdHeight := 600 }

/-- The calls of `forwardShade`. -/
def Event.isForwardShade : Event → Bool
  | .forwardShade _ _ _ _ => true
  | _ => false

/-- The calls of `forwardShade` that ask for the order `BACK_TO_FRONT`. -/
def Event.isBackToFrontShade : Event → Bool
  | .forwardShade _ _ _ .BACK_TO_FRONT => true
  | _ => false

/-! ## `stringutils.cpp`

A `G3D::String` is a sequence of `char`: here a list of characters, a character standing
for the byte of its code. The arrays of strings are lists. -/

/-- The character `\0`, which ends the strings of C. -/
def NUL : Char := Char.ofNat 0

/-- The line feed `\n`. -/
def LF : Char := Char.ofNat 10

/-- The carriage return `\r`. -/
def CR : Char := Char.ofNat 13

/-- The double quote. -/
def QUOTE : Char := Char.ofNat 34

/-- `s[i]` on a `const String`: the character at `i`, and `\0` at `i == s.size()`. -/
def charAt (s : List Char) (i : Nat) : Char := s.getD i NUL

/-- `s.substr(pos, n)` for `pos <= s.size()`. -/
def substrN (s : List Char) (pos n : Nat) : List Char := (s.drop pos).take n

/-- Modelled from the spec: `isLetter` is declared in `stringutils.h`, outside the sources
at hand; the letters of ASCII. -/
def isLetter (c : Char) : Bool :=
  (decide ('A' ≤ c) && decide (c ≤ 'Z')) || (decide ('a' ≤ c) && decide (c ≤ 'z'))

/-- Modelled from the spec: `isDigit` is declared in `stringutils.h`, outside the sources
at hand; the digits of ASCII. -/
def isDigit (c : Char) : Bool := decide ('0' ≤ c) && decide (c ≤ '9')

/-- Modelled from the spec: `tolower` of the C library in the "C" locale, which maps the
capital letters of ASCII and leaves every other character. -/
def tolower (c : Char) : Char :=
  if 'A' ≤ c ∧ c ≤ 'Z' then Char.ofNat (c.toNat + 32) else c

/-- `toLower` (lines 274-278). -/
def toLower (x : List Char) : List Char := x.map tolower

/-- Modelled from the spec: `operator<` of `std::basic_string`, the lexicographic
comparison of the characters, a proper prefix being less. -/
def stringLess : List Char → List Char → Bool
  | [], [] => false
  | [], _ :: _ => true
  | _ :: _, [] => false
  | a :: as, b :: bs => if a < b then true else if b < a then false else stringLess as bs

/-- `beginsWith` (lines 115-129). -/
def beginsWith (test pattern : List Char) : Bool :=
  if test.length ≥ pattern.length then
    (List.range pattern.length).all fun i => charAt pattern i == charAt test i
  else false

/-- `alphabeticalIgnoringCaseG3DFirstLessThan` (lines 38-69). -/
def alphabeticalIgnoringCaseG3DFirstLessThan (_a _b : List Char) : Bool :=
  let a := toLower _a
  let b := toLower _b
  if beginsWith a ['g', '3', 'd'] then
    if beginsWith b ['g', '3', 'd'] then stringLess a b else true
  else if beginsWith b ['g', '3', 'd'] then false
  else if beginsWith a ['m', 'c', 'g'] then
    if beginsWith b ['m', 'c', 'g'] then stringLess a b else true
  else if beginsWith b ['m', 'c', 'g'] then false
  else if beginsWith a ['n', 'x', 'p'] then
    if beginsWith b ['n', 'x', 'p'] then stringLess a b else true
  else if beginsWith b ['n', 'x', 'p'] then false
  else stringLess a b

/-- The inner loop of `parseCommaSeparated` (lines 82-91): from `end_` to the next comma
outside quotes or to the end of the string; `none` when the fuel runs out. The
subtraction `s.length() - 2` is one of `size_t` and wraps. -/
def scanField (s : List Char) : Nat → Nat → Bool → Option Nat
  | 0, _, _ => none
  | fuel + 1, end_, inQuotes =>
      if end_ < s.length ∧ (inQuotes = true ∨ charAt s end_ ≠ ',') then
        if charAt s end_ = QUOTE then
          if end_ < (s.length + 2 ^ 64 - 2) % 2 ^ 64 ∧ charAt s (end_ + 1) = QUOTE ∧
              charAt s (end_ + 2) = QUOTE then
            scanField s fuel (end_ + 2 + 1) (!inQuotes)
          else scanField s fuel (end_ + 1) (!inQuotes)
        else scanField s fuel (end_ + 1) inQuotes
      else some end_

/-- The outer loop of `parseCommaSeparated` (lines 78-94), a `do ... while`; `none` when
the fuel runs out. -/
def parseFields (s : List Char) : Nat → Nat → List (List Char) → Option (List (List Char))
  | 0, _, _ => none
  | fuel + 1, begin_, array =>
      match scanField s (s.length + 1) begin_ false with
      | none => none
      | some end_ =>
          if end_ + 1 < s.length then
            parseFields s fuel (end_ + 1) (array ++ [substrN s begin_ (end_ - begin_)])
          else some (array ++ [substrN s begin_ (end_ - begin_)])

/-- The removal of the quotes around one field (lines 98-107). -/
def stripFieldQuotes (t : List Char) : List Char :=
  if t.length > 1 ∧ charAt t 0 = QUOTE ∧ charAt t (t.length - 1) = QUOTE then
    if t.length > 6 ∧ charAt t 1 = QUOTE ∧ charAt t 2 = QUOTE ∧
        charAt t (t.length - 3) = QUOTE ∧ charAt t (t.length - 2) = QUOTE then
      substrN t 3 (t.length - 6)
    else substrN t 1 (t.length - 2)
  else t

/-- `parseCommaSeparated` (lines 71-113): the array it leaves; the fuel of the outer loop
is the length of the string, each turn of which consumes a character. -/
def parseCommaSeparated (s : List Char) (stripQuotes : Bool) : Option (List (List Char)) :=
  if s = [] then some []
  else
    match parseFields s s.length 0 [] with
    | none => none
    | some array => some (if stripQuotes then array.map stripFieldQuotes else array)

/-- `isValidIdentifier` (lines 149-159). -/
def isValidIdentifier (s : List Char) : Bool :=
  if s.length > 0 ∧ (isLetter (charAt s 0) = true ∨ charAt s 0 = '_') then
    (s.drop 1).all fun c => isLetter c || decide (c = '_') || isDigit c
  else false

/-- `makeValidIndentifierWithUnderscores` (lines 161-176). -/
def makeValidIndentifierWithUnderscores (s : List Char) : List Char :=
  if isValidIdentifier s = false then
    let valid := if ¬ (isLetter (charAt s 0) = true ∨ charAt s 0 = '_') then '_' :: s else s
    valid.take 1 ++ (valid.drop 1).map fun c =>
      if c = '_' ∨ isLetter c = true ∨ isDigit c = true then c else '_'
  else s

/-- What `strchr` sees of `x.c_str()`: the characters before the first `\0`. -/
def c_str (x : List Char) : List Char := x.takeWhile fun c => c ≠ NUL

/-- `strchr(start, c)` on a string of C: the offset of the first `c`, the offset of the
terminator for `c == 0`, `none` for the null pointer. -/
def strchr : List Char → Char → Option Nat
  | [], c => if c = NUL then some 0 else none
  | ch :: rest, c => if ch = c then some 0 else (strchr rest c).map (· + 1)

/-- The loop of `stringSplit` (lines 301-307) from the pointer `start`; `none` when the
fuel runs out. -/
def stringSplitLoop (splitChar : Char) : Nat → List Char → List (List Char) →
    Option (List (List Char))
  | 0, _, _ => none
  | fuel + 1, start, out =>
      match strchr start splitChar with
      | some stop => stringSplitLoop splitChar fuel (start.drop (stop + 1)) (out ++ [start.take stop])
      | none => some (out ++ [start])

/-- `stringSplit` (lines 290-307). With the split character `\0`, `strchr` finds the
terminator and the loop moves `start` past the end of the buffer, which is undefined:
`none`. The fuel is one more than the length of the string, each turn but the last
consuming a character. -/
def stringSplit (x : List Char) (splitChar : Char) : Option (List (List Char)) :=
  if splitChar = NUL then none else stringSplitLoop splitChar (x.length + 1) (c_str x) []

/-- `stringJoin` with a character (lines 310-325). -/
def stringJoin (a : List (List Char)) (joinChar : Char) : List Char :=
  let out := (a.take (a.length - 1)).foldl (fun out s => out ++ (s ++ [joinChar])) []
  match a.getLast? with
  | some last => out ++ last
  | none => out

/-- The loop of `splitLines` (lines 375-385) over the characters from `pos` on. -/
def splitLinesLoop (s : List Char) : List Char → Nat → Nat → Nat → List (List Char) →
    List (List Char)
  | [], _, start, count, lines => lines ++ [substrN s start count]
  | c :: rest, pos, start, count, lines =>
      if c = CR then splitLinesLoop s rest (pos + 1) start count lines
      else if c = LF then
        splitLinesLoop s rest (pos + 1) (pos + 1) 0 (lines ++ [substrN s start count])
      else splitLinesLoop s rest (pos + 1) start (count + 1) lines

/-- `splitLines` (lines 367-388). -/
def splitLines (s : List Char) : List (List Char) :=
  if s.length = 0 then [] else splitLinesLoop s s 0 0 0 []

/-- `toUTF8` (lines 391-402): the bytes it appends to `result`, an `Array<char>` whose
elements are here the values of the bytes. -/
def toUTF8 (s : List Char) (result : List Nat) : List Nat :=
  s.foldl (fun result ch =>
    if ch.toNat % 256 < 128 then result ++ [ch.toNat % 256]
    else (result ++ [((ch.toNat % 256) &&& 0x3F) ||| 0x80]) ++
      [((ch.toNat % 256) >>> 6) ||| 0xC0])
    result

/-- The prefix rank of the ordering as the specification words it: 0 for a string that
begins with `g3d` ignoring case, 1 for `mcg`, 2 for `nxp`, 3 otherwise. -/
def prefixRank (s : List Char) : Nat :=
  if (s.take 3).map tolower = ['g', '3', 'd'] then 0
  else if (s.take 3).map tolower = ['m', 'c', 'g'] then 1
  else if (s.take 3).map tolower = ['n', 'x', 'p'] then 2
  else 3

/-- The ordering by the pair (prefix rank, lower-cased string) as the specification
words it: the rank decides, and between strings of one rank the lower-cased strings. -/
def rankedLess (a b : List Char) : Bool :=
  decide (prefixRank a < prefixRank b) ||
    (decide (prefixRank a = prefixRank b) && stringLess (toLower a) (toLower b))

/-- A call on the `DepthFirstTreeBuilder` that `buildPrefixTree` drives. -/
inductive TreeOp where
  | enterChild (child : List Char)
  | goToParent
deriving DecidableEq, Repr

/-- How a run of the tree builder ends: with a value, at an index or a `substr` position
out of range, or with the fuel of the model used up. -/
inductive Built (α : Type) where
  | done (a : α)
  | outOfRange
  | outOfFuel
deriving DecidableEq, Repr

/-- `s.substr(pos)`: the rest of the string from `pos`, and `none` (the exception
`out_of_range`) for `pos > s.size()`. -/
def substr (s : List Char) (pos : Nat) : Option (List Char) :=
  if pos ≤ s.length then some (s.drop pos) else none

/-- `list[i].substr(indent)`; `none` when the index or the position is out of range. -/
def substrAt (list : List (List Char)) (i indent : Nat) : Option (List Char) :=
  match list[i]? with
  | none => none
  | some s => substr s indent

/-- Modelled from the spec: `greatestCommonPrefix` is declared in `stringutils.h`, outside
the sources at hand; the longest string that is a prefix of both arguments. -/
def greatestCommonPrefix : List Char → List Char → List Char
  | a :: as, b :: bs => if a = b then a :: greatestCommonPrefix as bs else []
  | _, _ => []

namespace _internal

/-- The `while` loop of `_internal::buildPrefixTree` (lines 436-448) from the state
`t`, `leastGCP`, `prefix`; it returns `t` and `leastGCP`. -/
def prefixLoop (list : List (List Char)) (end_ indent : Nat) :
    Nat → Nat → List Char → List Char → Built (Nat × List Char)
  | 0, _, _, _ => .outOfFuel
  | fuel + 1, t, leastGCP, prefix_ =>
      if prefix_ ≠ [] ∧ t < end_ - 1 then
        match substrAt list t indent, substrAt list (t + 1) indent with
        | some a, some b =>
            if greatestCommonPrefix a b ≠ [] then
              prefixLoop list end_ indent fuel (t + 1)
                (if (greatestCommonPrefix a b).length < leastGCP.length then
                  greatestCommonPrefix a b else leastGCP)
                (greatestCommonPrefix a b)
            else prefixLoop list end_ indent fuel t leastGCP (greatestCommonPrefix a b)
        | _, _ => .outOfRange
      else .done (t, leastGCP)

/-- `_internal::buildPrefixTree` (lines 415-468): the calls it makes on the tree builder,
in order. The loop gets the fuel `end_ - start`, one unit for each step of `t` and one
for the exit. The two `debugAssertM` checks, which make no call on the builder, are left
out. -/
def buildPrefixTree (list : List (List Char)) :
    Nat → Nat → Nat → Nat → Built (List TreeOp)
  | 0, _, _, _ => .outOfFuel
  | fuel + 1, start, end_, indent =>
      if start ≥ end_ then .done []
      else if start = end_ - 1 then
        match substrAt list start indent with
        | some child => .done [.enterChild child, .goToParent]
        | none => .outOfRange
      else
        match substrAt list start indent, substrAt list (start + 1) indent with
        | some a, some b =>
            match prefixLoop list end_ indent (end_ - start) start
                (greatestCommonPrefix a b) (greatestCommonPrefix a b) with
            | .done (t, leastGCP) =>
                if leastGCP = [] then
                  match buildPrefixTree list fuel start (t + 1) indent with
                  | .done first =>
                      match buildPrefixTree list fuel (t + 1) end_ indent with
                      | .done second => .done (first ++ second)
                      | .outOfRange => .outOfRange
                      | .outOfFuel => .outOfFuel
                  | .outOfRange => .outOfRange
                  | .outOfFuel => .outOfFuel
                else
                  match buildPrefixTree list fuel start (t + 1) (indent + leastGCP.length) with
                  | .done children =>
                      if t < end_ - 1 then
                        match buildPrefixTree list fuel (t + 1) end_ indent with
                        | .done siblings =>
                            .done (.enterChild leastGCP :: children ++ .goToParent :: siblings)
                        | .outOfRange => .outOfRange
                        | .outOfFuel => .outOfFuel
                      else .done (.enterChild leastGCP :: children ++ [.goToParent])
                  | .outOfRange => .outOfRange
                  | .outOfFuel => .outOfFuel
            | .outOfRange => .outOfRange
            | .outOfFuel => .outOfFuel
        | _, _ => .outOfRange

end _internal

/-- `buildPrefixTree` (lines 473-475). Each nested call has fewer elements or a longer
indent, so the depth of the recursion is at most the number of strings plus the sum of
their lengths, which is the fuel. -/
def buildPrefixTree (list : List (List Char)) : Built (List TreeOp) :=
  _internal.buildPrefixTree list (list.length + (list.map List.length).sum + 1)
    0 list.length 0

/-- The depth in the tree after a sequence of calls that starts at depth `d`: one more at
each `enterChild`, one less at each `goToParent`, and `none` when `goToParent` is called
at depth 0. -/
def depthAfter : Nat → List TreeOp → Option Nat
  | d, [] => some d
  | d, .enterChild _ :: ops => depthAfter (d + 1) ops
  | 0, .goToParent :: _ => none
  | d + 1, .goToParent :: ops => depthAfter d ops

/-- The leaves that a sequence of calls creates, in order, each as the concatenation of
the labels on the path from the root to it. `path` holds the labels of the open nodes,
the innermost first; a leaf is a child that is entered and left at once. -/
def leafPaths : List (List Char) → List TreeOp → List (List Char)
  | _, [] => []
  | path, .enterChild child :: .goToParent :: ops =>
      (path.reverse.flatten ++ child) :: leafPaths path ops
  | path, .enterChild child :: ops => leafPaths (child :: path) ops
  | path, .goToParent :: ops => leafPaths path.tail ops

/-- Whether a call is `enterChild`. -/
def TreeOp.isEnterChild : TreeOp → Bool
  | .enterChild _ => true
  | .goToParent => false

/-- Whether a call is `goToParent`. -/
def TreeOp.isGoToParent : TreeOp → Bool
  | .enterChild _ => false
  | .goToParent => true

/-- The strings of `list` in the interval from `start`, inclusive, to `end_`, exclusive. -/
def segment (list : List (List Char)) (start end_ : Nat) : List (List Char) :=
  (list.take end_).drop start

/-- The calls `ops` leave the depth as it was and create, under any open path, one leaf
for each of `strings`, in order, whose labels below the open path concatenate to that
string; they start by entering a child when there is a string. -/
structure BuildsLeaves (ops : List TreeOp) (strings : List (List Char)) : Prop where
  depth : ∀ (d : Nat) (rest : List TreeOp), depthAfter d (ops ++ rest) = depthAfter d rest
  leaves : ∀ (path : List (List Char)) (rest : List TreeOp),
    leafPaths path (ops ++ rest) =
      strings.map (fun s => path.reverse.flatten ++ s) ++ leafPaths path rest
  head : strings ≠ [] → ∃ (child : List Char) (tl : List TreeOp), ops = .enterChild child :: tl

/-! ## Theorems -/

@[simp] theorem Exec.pure_run {α : Type} (a : α) (w : World) :
    (pure a : Exec α) w = (.ok a, w) := rfl

theorem Exec.bind_run {α β : Type} (m : Exec α) (f : α → Exec β) (w : World) :
    (m >>= f) w = match m w with
      | (.ok a, w1) => f a w1
      | (.fault e, w1) => (.fault e, w1) := rfl

theorem wp_bind {α β : Type} (m : Exec α) (f : α → Exec β) (Q : β → World → Prop)
    (E : Fault → World → Prop) (w : World) :
    wp (m >>= f) Q E w ↔ wp m (fun a w1 => wp (f a) Q E w1) E w := by
  show wp (Exec.bind m f) Q E w ↔ _
  unfold wp Exec.bind
  rcases h : m w with ⟨o, w1⟩
  cases o <;> simp

@[simp] theorem wp_pure {α : Type} (a : α) (Q : α → World → Prop) (E : Fault → World → Prop)
    (w : World) : wp (pure a) Q E w ↔ Q a w := Iff.rfl

theorem wp_mono {α : Type} {m : Exec α} {Q Q' : α → World → Prop}
    {E E' : Fault → World → Prop} {w : World}
    (h : wp m Q E w) (hQ : ∀ a w1, Q a w1 → Q' a w1) (hE : ∀ e w1, E e w1 → E' e w1) :
    wp m Q' E' w := by
  unfold wp at *
  rcases hm : m w with ⟨o, w1⟩
  rw [hm] at h
  cases o with
  | ok a => exact hQ _ _ h
  | fault e => exact hE _ _ h

@[simp] theorem wp_emit (e : Event) (Q : Unit → World → Prop) (E : Fault → World → Prop)
    (w : World) : wp (emit e) Q E w ↔ Q () { w with trace := w.trace ++ [e] } := Iff.rfl

@[simp] theorem wp_getWorld (Q : World → World → Prop) (E : Fault → World → Prop)
    (w : World) : wp getWorld Q E w ↔ Q w w := Iff.rfl

@[simp] theorem wp_modifyWorld (f : World → World) (Q : Unit → World → Prop)
    (E : Fault → World → Prop) (w : World) : wp (modifyWorld f) Q E w ↔ Q () (f w) := Iff.rfl

@[simp] theorem wp_throwFault {α : Type} (f : Fault) (Q : α → World → Prop)
    (E : Fault → World → Prop) (w : World) : wp (throwFault f) Q E w ↔ E f w := Iff.rfl

@[simp] theorem wp_deref_some {α : Type} (p : Pointer) (a : α) (Q : α → World → Prop)
    (E : Fault → World → Prop) (w : World) : wp (deref p (some a)) Q E w ↔ Q a w := Iff.rfl

@[simp] theorem wp_deref_none {α : Type} (p : Pointer) (Q : α → World → Prop)
    (E : Fault → World → Prop) (w : World) :
    wp (deref p (none : Option α)) Q E w ↔ E (.nullDereference p) w := Iff.rfl

theorem wp_deref {α : Type} (p : Pointer) (o : Option α) (Q : α → World → Prop)
    (E : Fault → World → Prop) (w : World) :
    wp (deref p o) Q E w ↔ (∀ a, o = some a → Q a w) ∧ (o = none → E (.nullDereference p) w) := by
  cases o <;> simp

theorem wp_ite {α : Type} (c : Prop) [Decidable c] (a b : Exec α) (Q : α → World → Prop)
    (E : Fault → World → Prop) (w : World) :
    wp (if c then a else b) Q E w ↔ (c → wp a Q E w) ∧ (¬ c → wp b Q E w) := by
  by_cases h : c <;> simp [h]

/-! ### Invariants of computations -/

theorem Exec.Preserves.bind_pres {α β : Type} {I : World → Prop} {m : Exec α} {f : α → Exec β}
    (hm : m.Preserves I) (hf : ∀ a, (f a).Preserves I) : (m >>= f).Preserves I := by
  constructor
  intro w hw
  have h1 := hm.run w hw
  rw [Exec.bind_run]
  rcases h : m w with ⟨o, w1⟩
  rw [h] at h1
  cases o with
  | ok a => exact (hf a).run w1 h1
  | fault e => exact h1

theorem Exec.Preserves.pure_pres {α : Type} {I : World → Prop} (a : α) :
    (Pure.pure a : Exec α).Preserves I := ⟨fun _ hw => hw⟩

theorem Exec.Preserves.ite_pres {α : Type} {I : World → Prop} {c : Prop} [Decidable c]
    {a b : Exec α} (ha : a.Preserves I) (hb : b.Preserves I) :
    (if c then a else b).Preserves I := by
  split <;> assumption

theorem Exec.Preserves.getWorld_pres {I : World → Prop} : G3D.getWorld.Preserves I :=
  ⟨fun _ hw => hw⟩

theorem Exec.Preserves.throwFault_pres {α : Type} {I : World → Prop} (f : Fault) :
    (G3D.throwFault f : Exec α).Preserves I := ⟨fun _ hw => hw⟩

theorem Exec.Preserves.deref_pres {α : Type} {I : World → Prop} (p : Pointer) (o : Option α) :
    (G3D.deref p o).Preserves I := by
  cases o <;> exact ⟨fun _ hw => hw⟩

theorem Exec.Preserves.intDiv_pres {I : World → Prop} (a b : Int) :
    (G3D.intDiv a b).Preserves I := by
  unfold G3D.intDiv; split <;> exact ⟨fun _ hw => hw⟩

theorem Exec.Preserves.debugAssertM_pres {I : World → Prop} (c : Bool) (s : String) :
    (G3D.debugAssertM c s).Preserves I := by
  constructor; intro w hw; unfold G3D.debugAssertM; split <;> exact hw

theorem Exec.Preserves.alwaysAssertM_pres {I : World → Prop} (c : Bool) (s : String) :
    (G3D.alwaysAssertM c s).Preserves I := by
  unfold G3D.alwaysAssertM; split <;> exact ⟨fun _ hw => hw⟩

theorem Exec.Preserves.and_pres {α : Type} {I J : World → Prop} {m : Exec α}
    (hI : m.Preserves I) (hJ : m.Preserves J) : m.Preserves (fun w => I w ∧ J w) :=
  ⟨fun w hw => ⟨hI.run w hw.1, hJ.run w hw.2⟩⟩

/-- An invariant kept by a computation holds where it ends, in the form `wp` uses. -/
theorem Exec.Preserves.to_wp {α : Type} {I : World → Prop} {m : Exec α} (h : m.Preserves I)
    {w : World} (hw : I w) : G3D.wp m (fun _ w1 => I w1) (fun _ w1 => I w1) w := by
  have h1 := h.run w hw
  unfold G3D.wp
  rcases hm : m w with ⟨o, w1⟩
  rw [hm] at h1
  cases o <;> exact h1

/-! ### Projections of the world after the primitive commands -/

@[simp] theorem restoreState_framebuffers (w : World) :
    (restoreState w).framebuffers = w.framebuffers := by
  unfold restoreState; split <;> rfl

@[simp] theorem restoreState_textures (w : World) :
    (restoreState w).textures = w.textures := by
  unfold restoreState; split <;> rfl

@[simp] theorem restoreState_trace (w : World) : (restoreState w).trace = w.trace := by
  unfold restoreState; split <;> rfl

@[simp] theorem restoreState_hiResSurfaces (w : World) :
    (restoreState w).hiResSurfaces = w.hiResSurfaces := by
  unfold restoreState; split <;> rfl

@[simp] theorem restoreState_loResSurfaces (w : World) :
    (restoreState w).loResSurfaces = w.loResSurfaces := by
  unfold restoreState; split <;> rfl

/-- Resizing textures changes the texture heap and nothing else. -/
theorem resizeTextures_eq (a b : Int) (l : List TexId) (w : World) :
    resizeTextures a b l w = { w with textures := (resizeTextures a b l w).textures } := by
  induction l generalizing w with
  | nil => rfl
  | cons t rest ih =>
      rw [resizeTextures, ih]
      rfl

@[simp] theorem resizeTextures_framebuffers (a b : Int) (l : List TexId) (w : World) :
    (resizeTextures a b l w).framebuffers = w.framebuffers := by
  rw [resizeTextures_eq]

@[simp] theorem resizeTextures_trace (a b : Int) (l : List TexId) (w : World) :
    (resizeTextures a b l w).trace = w.trace := by
  rw [resizeTextures_eq]

@[simp] theorem resizeTextures_drawFramebuffer (a b : Int) (l : List TexId) (w : World) :
    (resizeTextures a b l w).drawFramebuffer = w.drawFramebuffer := by
  rw [resizeTextures_eq]

@[simp] theorem resizeTextures_stateStack (a b : Int) (l : List TexId) (w : World) :
    (resizeTextures a b l w).stateStack = w.stateStack := by
  rw [resizeTextures_eq]

@[simp] theorem resizeTextures_debugBuild (a b : Int) (l : List TexId) (w : World) :
    (resizeTextures a b l w).debugBuild = w.debugBuild := by
  rw [resizeTextures_eq]

@[simp] theorem resizeTextures_m_deferredShading (a b : Int) (l : List TexId) (w : World) :
    (resizeTextures a b l w).m_deferredShading = w.m_deferredShading := by
  rw [resizeTextures_eq]

@[simp] theorem resizeTextures_m_orderIndependentTransparency (a b : Int) (l : List TexId)
    (w : World) :
    (resizeTextures a b l w).m_orderIndependentTransparency
      = w.m_orderIndependentTransparency := by
  rw [resizeTextures_eq]

@[simp] theorem resizeTextures_hiResSurfaces (a b : Int) (l : List TexId) (w : World) :
    (resizeTextures a b l w).hiResSurfaces = w.hiResSurfaces := by
  rw [resizeTextures_eq]

@[simp] theorem resizeTextures_loResSurfaces (a b : Int) (l : List TexId) (w : World) :
    (resizeTextures a b l w).loResSurfaces = w.loResSurfaces := by
  rw [resizeTextures_eq]

/-! ### A framebuffer object that the commands leave alone -/

theorem FbKept.of_framebuffers {d : FbId} {X : Framebuffer} {w w1 : World}
    (h : w1.framebuffers = w.framebuffers) (hw : FbKept d X w) : FbKept d X w1 := by
  unfold FbKept World.fb at *
  rw [h]; exact hw

theorem FbKept.append {d : FbId} {X : Framebuffer} {w w1 : World} (l : List Framebuffer)
    (h : w1.framebuffers = w.framebuffers ++ l) (hw : FbKept d X w) : FbKept d X w1 := by
  unfold FbKept World.fb at *
  rw [h]
  refine ⟨by rw [List.length_append]; exact Nat.lt_add_right _ hw.1, ?_⟩
  rw [List.getElem?_append_left hw.1]; exact hw.2

theorem FbKept.set_ne {d i : FbId} {X b : Framebuffer} {w w1 : World} (hne : i ≠ d)
    (h : w1.framebuffers = w.framebuffers.set i b) (hw : FbKept d X w) : FbKept d X w1 := by
  unfold FbKept World.fb at *
  rw [h]
  refine ⟨by simpa using hw.1, ?_⟩
  rw [List.getElem?_set_ne hne]; exact hw.2

/-! ### The OIT pass on an empty surface list -/

/-- The OIT pass over no surface: its entry and the two profiler events. -/
theorem renderOrderIndependentBlendedSamples_nil (gbuffer : Option GBuffer) (w : World) :
    renderOrderIndependentBlendedSamples [] gbuffer w =
      (.ok (), w.appendTrace
          [.call (.renderOrderIndependentBlendedSamples [] gbuffer),
           .beginProfilerEvent "DefaultRenderer::renderOrderIndependentBlendedSamples",
           .endProfilerEvent]) := by
  simp [renderOrderIndependentBlendedSamples, Exec.bind_run, emit, World.appendTrace]

/-- C4: with an empty `surfaceArray`, `renderOrderIndependentBlendedSamples` completes
and leaves the world as it was but for the trace, to which it adds its own entry and
the two profiler events: no framebuffer member is allocated or resized (also a null
one stays null), the framebuffer and texture objects are unchanged, and no bind,
clear, blit, blend-state change or shader launch is issued. -/
theorem renderOrderIndependentBlendedSamples_empty (gbuffer : Option GBuffer) (w : World) :
    renderOrderIndependentBlendedSamples [] gbuffer w =
      (.ok (), w.appendTrace
          [.call (.renderOrderIndependentBlendedSamples [] gbuffer),
           .beginProfilerEvent "DefaultRenderer::renderOrderIndependentBlendedSamples",
           .endProfilerEvent]) :=
  renderOrderIndependentBlendedSamples_nil gbuffer w

/-! ### The allocation test of the OIT pass, on the sample world -/

/-- C2, at the failing input: with `m_oitHighPrecision == false`, a second call with
the same device size and the same flag completes, calls `allocateAllOITBuffers` again
and leaves a new `m_oitFramebuffer` with new attachments. -/
theorem oit_lowPrecision_second_call_reallocates :
    (renderOrderIndependentBlendedSamples sampleSurfaces (some sampleGBuffer) sampleWorld).1
        = .ok () ∧
      sampleWorldAfterOIT.m_oitHighPrecision = false ∧
      sampleWorldAfterOIT.rdWidth = sampleWorld.rdWidth ∧
      sampleWorldAfterOIT.rdHeight = sampleWorld.rdHeight ∧
      sampleWorldAfterOIT.m_oitFramebuffer = some 1 ∧
      (sampleWorldAfterOIT.fb 1).texture .COLOR0 = some 3 ∧
      (renderOrderIndependentBlendedSamples sampleSurfaces (some sampleGBuffer)
        sampleWorldAfterOIT).1 = .ok () ∧
      Event.call (.allocateAllOITBuffers false) ∈
        (renderOrderIndependentBlendedSamples sampleSurfaces (some sampleGBuffer)
          sampleWorldAfterOIT).2.eventsSince sampleWorldAfterOIT.trace.length ∧
      (renderOrderIndependentBlendedSamples sampleSurfaces (some sampleGBuffer)
        sampleWorldAfterOIT).2.m_oitFramebuffer = some 5 ∧
      ((renderOrderIndependentBlendedSamples sampleSurfaces (some sampleGBuffer)
        sampleWorldAfterOIT).2.fb 5).texture .COLOR0 = some 12 := by
  decide

/-- C3, at the failing input: after a call with `m_oitHighPrecision == false`, the
flag is set to `true`; the next call completes without calling
`allocateAllOITBuffers`, keeps `m_oitFramebuffer` and its low-precision formats
RGBA16F, RGBA8, RG8_SNORM, where an allocation with the flag `true` gives
RGBA16F, RGBA16F, RG16F. -/
theorem oit_toggle_to_highPrecision_keeps_formats :
    (renderOrderIndependentBlendedSamples sampleSurfaces (some sampleGBuffer)
        (sampleWorldAfterOIT.setOITHighPrecision true)).1 = .ok () ∧
      Event.call (.allocateAllOITBuffers true) ∉
        (renderOrderIndependentBlendedSamples sampleSurfaces (some sampleGBuffer)
          (sampleWorldAfterOIT.setOITHighPrecision true)).2.eventsSince
            sampleWorldAfterOIT.trace.length ∧
      (renderOrderIndependentBlendedSamples sampleSurfaces (some sampleGBuffer)
        (sampleWorldAfterOIT.setOITHighPrecision true)).2.m_oitFramebuffer =
          sampleWorldAfterOIT.m_oitFramebuffer ∧
      oitColorFormats
        (renderOrderIndependentBlendedSamples sampleSurfaces (some sampleGBuffer)
          (sampleWorldAfterOIT.setOITHighPrecision true)).2
        sampleWorldAfterOIT.m_oitFramebuffer =
          [some .RGBA16F, some .RGBA8, some .RG8_SNORM] ∧
      oitColorFormats (allocateAllOITBuffers true (sampleWorldAfterOIT.setOITHighPrecision true)).2
        (allocateAllOITBuffers true
          (sampleWorldAfterOIT.setOITHighPrecision true)).2.m_oitFramebuffer =
          [some .RGBA16F, some .RGBA16F, some .RG16F] := by
  decide

/-! ### `render` on the sample world -/

/-- C8, counterexample: the ambient-occlusion precondition holds, the GBuffer is null
and deferred shading is enabled; `render` stops at the dereference of the null GBuffer
in `renderDeferredShading`. -/
theorem render_nullGBuffer_deferred_faults :
    (!sampleEnvironment.aoEnabled || sampleEnvironment.ambientOcclusion.isSome) = true ∧
      (render sampleCullAndSort sampleCamera 0 none sampleEnvironment none sampleSurfaces
        (sampleWorld.setDeferredShading true)).1
        = .fault (.nullDereference .gbuffer) := by
  decide

/-- C9, counterexample: `render` completes and the DEPTH attachment of the destination
framebuffer, texture 1 on entry, is texture 2 of the GBuffer afterwards. -/
theorem render_changes_depth_attachment :
    (render sampleCullAndSort sampleCamera 0 none sampleEnvironment
        (some sampleGBuffer) sampleSurfaces sampleWorld).1 = .ok () ∧
      (sampleWorld.fb 0).texture .DEPTH = some 1 ∧
      ((render sampleCullAndSort sampleCamera 0 none sampleEnvironment
        (some sampleGBuffer) sampleSurfaces sampleWorld).2.fb 0).texture .DEPTH = some 2 := by
  decide

theorem Exec.Preserves.of_framebuffers_eq {α : Type} {d : FbId} {X : Framebuffer} {m : Exec α}
    (h : ∀ w, (m w).2.framebuffers = w.framebuffers) : m.Preserves (FbKept d X) :=
  ⟨fun w hw => FbKept.of_framebuffers (h w) hw⟩

theorem emit_keeps (d : FbId) (X : Framebuffer) (e : Event) :
    (emit e).Preserves (FbKept d X) :=
  Exec.Preserves.of_framebuffers_eq fun _ => rfl

theorem modifyWorld_keeps (d : FbId) (X : Framebuffer) (f : World → World)
    (h : ∀ w, (f w).framebuffers = w.framebuffers) : (modifyWorld f).Preserves (FbKept d X) :=
  Exec.Preserves.of_framebuffers_eq h

theorem setFramebuffer_keeps (d : FbId) (X : Framebuffer) (fb : Option FbId) :
    (setFramebuffer fb).Preserves (FbKept d X) :=
  Exec.Preserves.of_framebuffers_eq fun _ => rfl

theorem pushState_keeps (d : FbId) (X : Framebuffer) (fb : FbId) :
    (pushState fb).Preserves (FbKept d X) :=
  Exec.Preserves.of_framebuffers_eq fun _ => rfl

theorem popState_keeps (d : FbId) (X : Framebuffer) : popState.Preserves (FbKept d X) :=
  Exec.Preserves.of_framebuffers_eq fun w => by simp [popState]

theorem push2D_keeps (d : FbId) (X : Framebuffer) (fb : Option FbId) :
    (push2D fb).Preserves (FbKept d X) :=
  Exec.Preserves.of_framebuffers_eq fun _ => rfl

theorem pop2D_keeps (d : FbId) (X : Framebuffer) : pop2D.Preserves (FbKept d X) :=
  Exec.Preserves.of_framebuffers_eq fun w => by simp [pop2D]

theorem createEmpty_keeps (d : FbId) (X : Framebuffer) (n : TextureName) (a b : Int)
    (f : ImageFormat) : (Texture.createEmpty n a b f).Preserves (FbKept d X) :=
  Exec.Preserves.of_framebuffers_eq fun _ => rfl

theorem framebufferResize_keeps (d : FbId) (X : Framebuffer) (fb : FbId) (a b : Int) :
    (framebufferResize fb a b).Preserves (FbKept d X) :=
  Exec.Preserves.of_framebuffers_eq fun w => by simp [framebufferResize]

theorem framebufferSet_keeps {d : FbId} {X : Framebuffer} {fb : FbId} (h : fb ≠ d)
    (ap : AttachmentPoint) (t : Option TexId) :
    (framebufferSet fb ap t).Preserves (FbKept d X) :=
  ⟨fun w hw => FbKept.set_ne (i := fb) (b := (w.fb fb).set ap t) h rfl hw⟩

theorem framebufferSetClearValue_keeps {d : FbId} {X : Framebuffer} {fb : FbId} (h : fb ≠ d)
    (ap : AttachmentPoint) (c : Color4) :
    (framebufferSetClearValue fb ap c).Preserves (FbKept d X) :=
  ⟨fun w hw => FbKept.set_ne (i := fb) (b := (w.fb fb).setClearValue ap c) h rfl hw⟩

/-- A framebuffer created while `d` is alive is another object than `d`. -/
theorem Exec.Preserves.bind_create_pres {β : Type} {d : FbId} {X : Framebuffer}
    (n : FramebufferName) {f : FbId → Exec β}
    (hf : ∀ a, a ≠ d → (f a).Preserves (FbKept d X)) :
    (Framebuffer.create n >>= f).Preserves (FbKept d X) := by
  constructor
  intro w hw
  rw [Exec.bind_run]
  have hne : w.framebuffers.length ≠ d := Nat.ne_of_gt hw.1
  exact (hf _ hne).run _ (FbKept.append [Framebuffer.empty n] rfl hw)

theorem allocateOITFramebufferAttachments_keeps {d : FbId} {X : Framebuffer} {fb : FbId}
    (h : fb ≠ d) (a b : Int) (hp : Bool) :
    (allocateOITFramebufferAttachments fb a b hp).Preserves (FbKept d X) := by
  unfold allocateOITFramebufferAttachments
  repeat' first
    | with_reducible apply Exec.Preserves.bind_pres
    | with_reducible apply emit_keeps
    | with_reducible apply createEmpty_keeps
    | with_reducible apply framebufferSet_keeps h
    | with_reducible apply framebufferSetClearValue_keeps h
    | with_reducible apply modifyWorld_keeps
    | intro _
  all_goals simp [World.setTex]

theorem createFromTexture_keeps (d : FbId) (X : Framebuffer) (n : FramebufferName) (t : TexId) :
    (Framebuffer.createFromTexture n t).Preserves (FbKept d X) := by
  unfold Framebuffer.createFromTexture
  apply Exec.Preserves.bind_create_pres
  intro a ha
  exact Exec.Preserves.bind_pres (framebufferSet_keeps ha _ _) fun _ => Exec.Preserves.pure_pres _

theorem allocateAllOITBuffers_keeps (d : FbId) (X : Framebuffer) (hp : Bool) :
    (allocateAllOITBuffers hp).Preserves (FbKept d X) := by
  unfold allocateAllOITBuffers
  repeat' first
    | with_reducible apply Exec.Preserves.bind_pres (createFromTexture_keeps _ _ _ _)
    | with_reducible apply Exec.Preserves.bind_create_pres
    | with_reducible apply Exec.Preserves.bind_pres
    | with_reducible apply emit_keeps
    | with_reducible apply createEmpty_keeps
    | with_reducible apply Exec.Preserves.getWorld_pres
    | with_reducible apply Exec.Preserves.deref_pres
    | with_reducible apply Exec.Preserves.intDiv_pres
    | with_reducible apply allocateOITFramebufferAttachments_keeps (by assumption)
    | with_reducible apply framebufferSet_keeps (by assumption)
    | with_reducible apply modifyWorld_keeps
    | intro _
  all_goals simp

theorem setOITBlendFuncs_keeps (d : FbId) (X : Framebuffer) :
    setOITBlendFuncs.Preserves (FbKept d X) := by
  unfold setOITBlendFuncs
  repeat' first
    | with_reducible apply Exec.Preserves.bind_pres
    | with_reducible apply emit_keeps
    | intro _

theorem clearAndRenderToOITFramebuffer_keeps (d : FbId) (X : Framebuffer) (o : Option FbId)
    (s : List Surface) (g : Option GBuffer) :
    (clearAndRenderToOITFramebuffer o s g).Preserves (FbKept d X) := by
  unfold clearAndRenderToOITFramebuffer
  repeat' first
    | with_reducible apply Exec.Preserves.bind_pres
    | with_reducible apply emit_keeps
    | with_reducible apply setFramebuffer_keeps
    | with_reducible apply pushState_keeps
    | with_reducible apply popState_keeps
    | with_reducible apply setOITBlendFuncs_keeps
    | with_reducible apply Exec.Preserves.getWorld_pres
    | with_reducible apply Exec.Preserves.deref_pres
    | intro _

theorem oitBuffersNeedResize_keeps (I : World → Prop) (a b c e : Int) :
    (oitBuffersNeedResize a b c e).Preserves I := by
  unfold oitBuffersNeedResize
  repeat' first
    | with_reducible apply Exec.Preserves.bind_pres
    | with_reducible apply Exec.Preserves.ite_pres
    | with_reducible apply Exec.Preserves.pure_pres
    | with_reducible apply Exec.Preserves.getWorld_pres
    | with_reducible apply Exec.Preserves.deref_pres
    | intro _

theorem oitBuffersNeedAllocation_keeps (I : World → Prop) :
    oitBuffersNeedAllocation.Preserves I := by
  unfold oitBuffersNeedAllocation
  refine Exec.Preserves.bind_pres Exec.Preserves.getWorld_pres fun w => ?_
  split
  · exact Exec.Preserves.pure_pres _
  · exact Exec.Preserves.bind_pres (Exec.Preserves.deref_pres _ _) fun _ => Exec.Preserves.pure_pres _

theorem resizeOITBuffersIfNeeded_keeps (d : FbId) (X : Framebuffer) (a b c e : Int) :
    (resizeOITBuffersIfNeeded a b c e).Preserves (FbKept d X) := by
  unfold resizeOITBuffersIfNeeded
  repeat' first
    | with_reducible apply Exec.Preserves.bind_pres
    | with_reducible apply Exec.Preserves.ite_pres
    | with_reducible apply Exec.Preserves.pure_pres
    | with_reducible apply emit_keeps
    | with_reducible apply oitBuffersNeedResize_keeps
    | with_reducible apply framebufferResize_keeps
    | with_reducible apply Exec.Preserves.getWorld_pres
    | with_reducible apply Exec.Preserves.deref_pres
    | intro _

theorem computeLowResDepthAndNormals_keeps (d : FbId) (X : Framebuffer) (t : Option TexId) :
    (computeLowResDepthAndNormals t).Preserves (FbKept d X) := by
  unfold computeLowResDepthAndNormals
  repeat' first
    | with_reducible apply Exec.Preserves.bind_pres
    | with_reducible apply Exec.Preserves.pure_pres
    | with_reducible apply emit_keeps
    | with_reducible apply push2D_keeps
    | with_reducible apply pop2D_keeps
    | with_reducible apply Exec.Preserves.getWorld_pres
    | with_reducible apply Exec.Preserves.deref_pres
    | intro _
    | split

theorem upsampleLowResOIT_keeps (d : FbId) (X : Framebuffer) (g : Option GBuffer) :
    (upsampleLowResOIT g).Preserves (FbKept d X) := by
  unfold upsampleLowResOIT
  repeat' first
    | with_reducible apply Exec.Preserves.bind_pres
    | with_reducible apply Exec.Preserves.ite_pres
    | with_reducible apply Exec.Preserves.pure_pres
    | with_reducible apply emit_keeps
    | with_reducible apply push2D_keeps
    | with_reducible apply pop2D_keeps
    | with_reducible apply setOITBlendFuncs_keeps
    | with_reducible apply modifyWorld_keeps
    | with_reducible apply Exec.Preserves.getWorld_pres
    | with_reducible apply Exec.Preserves.deref_pres
    | intro _
    | split
  all_goals simp

theorem compositeOIT_keeps (d : FbId) (X : Framebuffer) (g : Option GBuffer) :
    (compositeOIT g).Preserves (FbKept d X) := by
  unfold compositeOIT
  repeat' first
    | with_reducible apply Exec.Preserves.bind_pres
    | with_reducible apply Exec.Preserves.ite_pres
    | with_reducible apply Exec.Preserves.pure_pres
    | with_reducible apply emit_keeps
    | with_reducible apply push2D_keeps
    | with_reducible apply pop2D_keeps
    | with_reducible apply modifyWorld_keeps
    | with_reducible apply Exec.Preserves.getWorld_pres
    | with_reducible apply Exec.Preserves.deref_pres
    | intro _
  all_goals simp

/-! ### What allocation and resize leave alone -/

theorem Exec.Preserves.of_proj {α β : Type} {f : World → β} {c : β} {m : Exec α}
    (h : ∀ w, f (m w).2 = f w) : m.Preserves (fun w => f w = c) :=
  ⟨fun w hw => (h w).trans hw⟩

@[simp] theorem resizeTextures_deviceAndScratch (a b : Int) (l : List TexId) (w : World) :
    (resizeTextures a b l w).deviceAndScratch = w.deviceAndScratch := by
  rw [resizeTextures_eq]; rfl

theorem allocateOITFramebufferAttachments_fixes (c) (fb : FbId) (a b : Int) (hp : Bool) :
    (allocateOITFramebufferAttachments fb a b hp).Preserves
      (fun w => w.deviceAndScratch = c) := by
  unfold allocateOITFramebufferAttachments
  repeat' first
    | with_reducible apply Exec.Preserves.bind_pres
    | intro _
    | exact Exec.Preserves.of_proj fun _ => rfl

theorem createFromTexture_fixes (c) (n : FramebufferName) (t : TexId) :
    (Framebuffer.createFromTexture n t).Preserves (fun w => w.deviceAndScratch = c) := by
  unfold Framebuffer.createFromTexture
  repeat' first
    | with_reducible apply Exec.Preserves.bind_pres
    | with_reducible apply Exec.Preserves.pure_pres
    | intro _
    | exact Exec.Preserves.of_proj fun _ => rfl

theorem allocateAllOITBuffers_fixes (c) (hp : Bool) :
    (allocateAllOITBuffers hp).Preserves (fun w => w.deviceAndScratch = c) := by
  unfold allocateAllOITBuffers
  repeat' first
    | with_reducible apply Exec.Preserves.bind_pres
    | with_reducible apply Exec.Preserves.getWorld_pres
    | with_reducible apply Exec.Preserves.deref_pres
    | with_reducible apply Exec.Preserves.intDiv_pres
    | with_reducible apply allocateOITFramebufferAttachments_fixes
    | with_reducible apply createFromTexture_fixes
    | intro _
    | exact Exec.Preserves.of_proj fun _ => rfl

theorem resizeOITBuffersIfNeeded_fixes (c) (a b e f : Int) :
    (resizeOITBuffersIfNeeded a b e f).Preserves (fun w => w.deviceAndScratch = c) := by
  unfold resizeOITBuffersIfNeeded
  repeat' first
    | with_reducible apply Exec.Preserves.bind_pres
    | with_reducible apply Exec.Preserves.ite_pres
    | with_reducible apply Exec.Preserves.pure_pres
    | with_reducible apply oitBuffersNeedResize_keeps
    | with_reducible apply Exec.Preserves.getWorld_pres
    | with_reducible apply Exec.Preserves.deref_pres
    | intro _
    | exact Exec.Preserves.of_proj fun _ => rfl
    | exact Exec.Preserves.of_proj fun w => resizeTextures_deviceAndScratch _ _ _ w

theorem allocateAndResizeOITBuffers_keeps (d : FbId) (X : Framebuffer) :
    allocateAndResizeOITBuffers.Preserves (FbKept d X) := by
  unfold allocateAndResizeOITBuffers
  repeat' first
    | with_reducible apply Exec.Preserves.bind_pres
    | with_reducible apply Exec.Preserves.ite_pres
    | with_reducible apply Exec.Preserves.pure_pres
    | with_reducible apply Exec.Preserves.getWorld_pres
    | with_reducible apply Exec.Preserves.intDiv_pres
    | with_reducible apply oitBuffersNeedAllocation_keeps
    | with_reducible apply allocateAllOITBuffers_keeps
    | with_reducible apply resizeOITBuffersIfNeeded_keeps
    | intro _

theorem allocateAndResizeOITBuffers_fixes (c) :
    allocateAndResizeOITBuffers.Preserves (fun w => w.deviceAndScratch = c) := by
  unfold allocateAndResizeOITBuffers
  repeat' first
    | with_reducible apply Exec.Preserves.bind_pres
    | with_reducible apply Exec.Preserves.ite_pres
    | with_reducible apply Exec.Preserves.pure_pres
    | with_reducible apply Exec.Preserves.getWorld_pres
    | with_reducible apply Exec.Preserves.intDiv_pres
    | with_reducible apply oitBuffersNeedAllocation_keeps
    | with_reducible apply allocateAllOITBuffers_fixes
    | with_reducible apply resizeOITBuffersIfNeeded_fixes
    | intro _

/-! ### Chaining weakest preconditions -/

theorem wp_snd {α : Type} (m : Exec α) (P : World → Prop) (w : World) :
    wp m (fun _ w1 => P w1) (fun _ w1 => P w1) w ↔ P (m w).2 := by
  unfold wp
  rcases m w with ⟨o, w1⟩
  cases o <;> exact Iff.rfl

theorem wp_bind_preserves {α β : Type} {I : World → Prop} {m : Exec α} {f : α → Exec β}
    {Q : β → World → Prop} {E : Fault → World → Prop} {w : World}
    (hm : m.Preserves I) (hw : I w) (hE : ∀ e w1, I w1 → E e w1)
    (hf : ∀ a w1, I w1 → wp (f a) Q E w1) : wp (m >>= f) Q E w := by
  rw [wp_bind]
  exact wp_mono (hm.to_wp hw) hf hE

theorem wp_of_preserves {α : Type} {I : World → Prop} {m : Exec α}
    {Q : α → World → Prop} {E : Fault → World → Prop} {w : World}
    (hm : m.Preserves I) (hw : I w) (hQ : ∀ a w1, I w1 → Q a w1)
    (hE : ∀ e w1, I w1 → E e w1) : wp m Q E w :=
  wp_mono (hm.to_wp hw) hQ hE

@[simp] theorem wp_setFramebuffer (fb : Option FbId) (Q : Unit → World → Prop)
    (E : Fault → World → Prop) (w : World) :
    wp (setFramebuffer fb) Q E w ↔
      Q () { w with drawFramebuffer := fb, trace := w.trace ++ [.setFramebuffer fb] } :=
  Iff.rfl

@[simp] theorem wp_framebufferSet (fb : FbId) (ap : AttachmentPoint) (t : Option TexId)
    (Q : Unit → World → Prop) (E : Fault → World → Prop) (w : World) :
    wp (framebufferSet fb ap t) Q E w ↔
      Q () { w.setFb fb ((w.fb fb).set ap t) with
             trace := w.trace ++ [.framebufferSet fb ap t] } :=
  Iff.rfl

@[simp] theorem wp_framebufferResize (fb : FbId) (a b : Int)
    (Q : Unit → World → Prop) (E : Fault → World → Prop) (w : World) :
    wp (framebufferResize fb a b) Q E w ↔
      Q () { resizeTextures a b (w.fb fb).attached w with
             trace := w.trace ++ [.framebufferResize fb a b] } :=
  Iff.rfl

@[simp] theorem wp_pushState (fb : FbId) (Q : Unit → World → Prop)
    (E : Fault → World → Prop) (w : World) :
    wp (pushState fb) Q E w ↔
      Q () { w with
             stateStack := w.drawFramebuffer :: w.stateStack
             drawFramebuffer := some fb
             trace := w.trace ++ [.pushState fb] } :=
  Iff.rfl

@[simp] theorem wp_popState (Q : Unit → World → Prop) (E : Fault → World → Prop) (w : World) :
    wp popState Q E w ↔ Q () { restoreState w with trace := w.trace ++ [.popState] } :=
  Iff.rfl

@[simp] theorem wp_push2D (fb : Option FbId) (Q : Unit → World → Prop)
    (E : Fault → World → Prop) (w : World) :
    wp (push2D fb) Q E w ↔
      Q () { w with
             stateStack := w.drawFramebuffer :: w.stateStack
             drawFramebuffer := match fb with
               | some f => some f
               | none => w.drawFramebuffer
             trace := w.trace ++ [.push2D fb] } :=
  Iff.rfl

@[simp] theorem wp_pop2D (Q : Unit → World → Prop) (E : Fault → World → Prop) (w : World) :
    wp pop2D Q E w ↔ Q () { restoreState w with trace := w.trace ++ [.pop2D] } :=
  Iff.rfl

theorem wp_debugAssertM (c : Bool) (s : String) (Q : Unit → World → Prop)
    (E : Fault → World → Prop) (w : World) :
    wp (debugAssertM c s) Q E w ↔
      ((w.debugBuild = true ∧ c = false) → E (.debugAssert s) w) ∧
      (¬ (w.debugBuild = true ∧ c = false) → Q () w) := by
  unfold wp debugAssertM
  by_cases h : w.debugBuild = true ∧ c = false
  · simp [h.1, h.2]
  · have : (w.debugBuild && !c) = false := by
      cases hb : w.debugBuild <;> cases hc : c <;> simp_all
    simp [this, h]

theorem wp_alwaysAssertM (c : Bool) (s : String) (Q : Unit → World → Prop)
    (E : Fault → World → Prop) (w : World) :
    wp (alwaysAssertM c s) Q E w ↔
      (c = false → E (.alwaysAssert s) w) ∧ (c = true → Q () w) := by
  cases c <;> simp [alwaysAssertM]

theorem wp_intDiv (a b : Int) (Q : Int → World → Prop) (E : Fault → World → Prop)
    (w : World) :
    wp (intDiv a b) Q E w ↔
      (b = 0 → E .divisionByZero w) ∧ (b ≠ 0 → Q (Int.tdiv a b) w) := by
  unfold intDiv
  by_cases h : b = 0 <;> simp [h]

/-! ### The destination framebuffer through the OIT pass -/

theorem Framebuffer.set_texture_self (fb : Framebuffer) (ap : AttachmentPoint) :
    fb.set ap (fb.texture ap) = fb := by
  cases ap <;> rfl

theorem Framebuffer.texture_set (fb : Framebuffer) (ap ap1 : AttachmentPoint)
    (t : Option TexId) :
    (fb.set ap t).texture ap1 = if ap1 = ap then t else fb.texture ap1 := by
  cases ap <;> cases ap1 <;> rfl

/-- Attaching to the framebuffer `i` the texture that `d` has at the same point keeps
`d` as it is, also when `i` is `d`. -/
theorem FbKept.set_from_self {d i : FbId} {X : Framebuffer} {w : World}
    (ap : AttachmentPoint) (hw : FbKept d X w) :
    FbKept d X { w.setFb i ((w.fb i).set ap ((w.fb d).texture ap)) with
                 trace := w.trace ++ [.framebufferSet i ap ((w.fb d).texture ap)] } := by
  by_cases h : i = d
  · subst h
    rw [Framebuffer.set_texture_self]
    unfold FbKept World.fb World.setFb at *
    refine ⟨by simpa using hw.1, ?_⟩
    simp only [List.getElem?_set_eq_of_lt _ hw.1]
    simpa [List.getElem?_eq_getElem hw.1] using hw.2
  · exact FbKept.set_ne (i := i) (b := (w.fb i).set ap ((w.fb d).texture ap)) h rfl hw

/-- The OIT body leaves the framebuffer bound for drawing on entry as it is. -/
theorem renderOITBody_keeps (d : FbId) (X : Framebuffer) (arr : List Surface)
    (g : Option GBuffer) (w : World) (hd : w.drawFramebuffer = some d)
    (hw : FbKept d X w) : FbKept d X (renderOITBody arr g w).2 := by
  refine (wp_snd _ (FbKept d X) _).mp ?_
  unfold renderOITBody
  rw [wp_bind, wp_modifyWorld]
  have h0 : FbKept d X (w.classify arr) ∧
      (w.classify arr).deviceAndScratch = (w.classify arr).deviceAndScratch :=
    ⟨FbKept.of_framebuffers rfl hw, rfl⟩
  refine wp_bind_preserves
    ((allocateAndResizeOITBuffers_keeps d X).and_pres (allocateAndResizeOITBuffers_fixes _)) h0
    (fun _ _ h => h.1) ?_
  intro _ w1 h1
  have hdraw : w1.drawFramebuffer = some d := by
    have := congrArg Prod.fst h1.2
    exact this.trans hd
  rw [wp_bind, wp_getWorld, wp_bind, wp_deref]
  refine ⟨?_, fun _ => h1.1⟩
  intro oit _
  rw [wp_bind, hdraw, wp_deref_some, wp_bind, wp_framebufferSet]
  refine wp_of_preserves (I := FbKept d X) ?_ (FbKept.set_from_self (i := oit) .DEPTH h1.1)
    (fun _ _ h => h) (fun _ _ h => h)
  repeat' first
    | with_reducible apply Exec.Preserves.bind_pres
    | with_reducible apply Exec.Preserves.ite_pres
    | with_reducible apply Exec.Preserves.pure_pres
    | with_reducible apply Exec.Preserves.getWorld_pres
    | with_reducible apply Exec.Preserves.deref_pres
    | with_reducible apply emit_keeps
    | with_reducible apply setFramebuffer_keeps
    | with_reducible apply clearAndRenderToOITFramebuffer_keeps
    | with_reducible apply computeLowResDepthAndNormals_keeps
    | with_reducible apply upsampleLowResOIT_keeps
    | with_reducible apply compositeOIT_keeps
    | with_reducible apply modifyWorld_keeps
    | intro _
  all_goals simp

theorem renderIndirectIllumination_keeps (d : FbId) (X : Framebuffer) (s : List Surface)
    (g : Option GBuffer) : (renderIndirectIllumination s g).Preserves (FbKept d X) := by
  unfold renderIndirectIllumination
  repeat' first
    | with_reducible apply Exec.Preserves.bind_pres
    | with_reducible apply Exec.Preserves.getWorld_pres
    | with_reducible apply Exec.Preserves.debugAssertM_pres
    | with_reducible apply emit_keeps
    | intro _

theorem renderIndirectIllumination_fixes (c) (s : List Surface) (g : Option GBuffer) :
    (renderIndirectIllumination s g).Preserves (fun w => w.deviceAndScratch = c) := by
  unfold renderIndirectIllumination
  repeat' first
    | with_reducible apply Exec.Preserves.bind_pres
    | with_reducible apply Exec.Preserves.getWorld_pres
    | with_reducible apply Exec.Preserves.debugAssertM_pres
    | intro _
    | exact Exec.Preserves.of_proj fun _ => rfl

theorem renderOpaqueSamples_keeps (d : FbId) (X : Framebuffer) (s : List Surface)
    (g : Option GBuffer) : (renderOpaqueSamples s g).Preserves (FbKept d X) := by
  unfold renderOpaqueSamples
  repeat' first
    | with_reducible apply Exec.Preserves.bind_pres
    | with_reducible apply emit_keeps
    | intro _

theorem renderOpaqueSamples_fixes (c) (s : List Surface) (g : Option GBuffer) :
    (renderOpaqueSamples s g).Preserves (fun w => w.deviceAndScratch = c) := by
  unfold renderOpaqueSamples
  repeat' first
    | with_reducible apply Exec.Preserves.bind_pres
    | intro _
    | exact Exec.Preserves.of_proj fun _ => rfl

theorem renderOpaqueScreenSpaceRefractingSamples_keeps (d : FbId) (X : Framebuffer)
    (s : List Surface) (g : Option GBuffer) :
    (renderOpaqueScreenSpaceRefractingSamples s g).Preserves (FbKept d X) := by
  unfold renderOpaqueScreenSpaceRefractingSamples
  repeat' first
    | with_reducible apply Exec.Preserves.bind_pres
    | with_reducible apply emit_keeps
    | intro _

theorem renderOpaqueScreenSpaceRefractingSamples_fixes (c) (s : List Surface)
    (g : Option GBuffer) :
    (renderOpaqueScreenSpaceRefractingSamples s g).Preserves
      (fun w => w.deviceAndScratch = c) := by
  unfold renderOpaqueScreenSpaceRefractingSamples
  repeat' first
    | with_reducible apply Exec.Preserves.bind_pres
    | intro _
    | exact Exec.Preserves.of_proj fun _ => rfl

theorem renderSortedBlendedSamples_keeps (d : FbId) (X : Framebuffer) (s : List Surface)
    (g : Option GBuffer) : (renderSortedBlendedSamples s g).Preserves (FbKept d X) := by
  unfold renderSortedBlendedSamples
  repeat' first
    | with_reducible apply Exec.Preserves.bind_pres
    | with_reducible apply emit_keeps
    | intro _

/-! ### Hoare triples -/

theorem Exec.Spec.bind_spec {α β : Type} {P R Q E : World → Prop} {m : Exec α} {f : α → Exec β}
    (hm : m.Spec P R E) (hf : ∀ a, (f a).Spec R Q E) : (m >>= f).Spec P Q E := by
  constructor
  intro w hw
  rw [wp_bind]
  exact wp_mono (hm.run w hw) (fun a w1 h => (hf a).run w1 h) (fun _ _ h => h)

theorem Exec.Spec.weaken {α : Type} {P P1 Q Q1 E E1 : World → Prop} {m : Exec α}
    (h : m.Spec P Q E) (hP : ∀ w, P1 w → P w) (hQ : ∀ w, Q w → Q1 w) (hE : ∀ w, E w → E1 w) :
    m.Spec P1 Q1 E1 :=
  ⟨fun w hw => wp_mono (h.run w (hP w hw)) (fun _ => hQ) (fun _ => hE)⟩

theorem Exec.Spec.of_preserves {α : Type} {I E : World → Prop} {m : Exec α}
    (h : m.Preserves I) (hE : ∀ w, I w → E w) : m.Spec I I E :=
  ⟨fun _ hw => wp_mono (h.to_wp hw) (fun _ _ h1 => h1) (fun _ => hE)⟩

theorem Exec.Spec.pure_spec {α : Type} {P E : World → Prop} (a : α) :
    (Pure.pure a : Exec α).Spec P P E := ⟨fun _ hw => hw⟩

theorem Exec.Spec.ite_spec {α : Type} {P Q E : World → Prop} {c : Prop} [Decidable c]
    {a b : Exec α} (ha : a.Spec P Q E) (hb : b.Spec P Q E) :
    (if c then a else b).Spec P Q E := by
  split <;> assumption

theorem Exec.Spec.bind_getWorld_spec {β : Type} {P Q E : World → Prop} {f : World → Exec β}
    (hf : ∀ w1, P w1 → (f w1).Spec (fun w => w = w1) Q E) : (getWorld >>= f).Spec P Q E := by
  constructor
  intro w hw
  rw [wp_bind, wp_getWorld]
  exact (hf w hw).run w rfl

theorem Exec.Spec.bind_deref_spec {α β : Type} {P Q E : World → Prop} (p : Pointer)
    (o : Option α) {f : α → Exec β} (hE : ∀ w, P w → E w)
    (hf : ∀ a, o = some a → (f a).Spec P Q E) : (deref p o >>= f).Spec P Q E := by
  constructor
  intro w hw
  rw [wp_bind, wp_deref]
  exact ⟨fun a ha => (hf a ha).run w hw, fun _ => hE w hw⟩

/-- The world where a computation ends, read off a Hoare triple with one postcondition. -/
theorem Exec.Spec.snd {α : Type} {P Q : World → Prop} {m : Exec α} (h : m.Spec P Q Q)
    {w : World} (hw : P w) : Q (m w).2 :=
  (wp_snd m Q w).mp (h.run w hw)

/-! ### The destination framebuffer through `render` -/

/-- The OIT body leaves the framebuffer bound for drawing on entry as it is. -/
theorem renderOITBody_spec (d : FbId) (X : Framebuffer) (c) (hc : c.1 = some d)
    (arr : List Surface) (g : Option GBuffer) :
    (renderOITBody arr g).Spec (fun w => FbKept d X w ∧ w.deviceAndScratch = c)
      (FbKept d X) (FbKept d X) :=
  ⟨fun w hw => (wp_snd _ _ _).mpr
    (renderOITBody_keeps d X arr g w ((congrArg Prod.fst hw.2).trans hc) hw.1)⟩

theorem emit_spec (d : FbId) (X : Framebuffer) (c) (e : Event) :
    (emit e).Spec (fun w => FbKept d X w ∧ w.deviceAndScratch = c)
      (fun w => FbKept d X w ∧ w.deviceAndScratch = c) (FbKept d X) :=
  Exec.Spec.of_preserves ((emit_keeps d X e).and_pres (Exec.Preserves.of_proj fun _ => rfl))
    fun _ h => h.1

theorem renderOrderIndependentBlendedSamples_spec (d : FbId) (X : Framebuffer) (c)
    (hc : c.1 = some d) (arr : List Surface) (g : Option GBuffer) :
    (renderOrderIndependentBlendedSamples arr g).Spec
      (fun w => FbKept d X w ∧ w.deviceAndScratch = c) (FbKept d X) (FbKept d X) := by
  unfold renderOrderIndependentBlendedSamples
  refine Exec.Spec.bind_spec (emit_spec d X c _) fun _ => ?_
  refine Exec.Spec.bind_spec (emit_spec d X c _) fun _ => ?_
  refine Exec.Spec.bind_spec (R := FbKept d X) ?_ fun _ => ?_
  · exact Exec.Spec.ite_spec (renderOITBody_spec d X c hc arr g)
      ((Exec.Spec.pure_spec _).weaken (fun _ h => h) (fun _ h => h.1) (fun _ h => h))
  · exact Exec.Spec.of_preserves (emit_keeps d X _) fun _ h => h

/-- `renderDeferredShading` changes no framebuffer object; when it completes, the draw
framebuffer, the stack of saved bindings and the scratch arrays are as on entry. -/
theorem renderDeferredShading_spec (d : FbId) (X : Framebuffer) (c) (s : List Surface)
    (g : Option GBuffer) :
    (renderDeferredShading s g).Spec (fun w => FbKept d X w ∧ w.deviceAndScratch = c)
      (fun w => FbKept d X w ∧ w.deviceAndScratch = c) (FbKept d X) := by
  constructor
  intro w hw
  unfold renderDeferredShading
  rw [wp_bind, wp_emit, wp_bind, wp_debugAssertM]
  refine ⟨fun _ => FbKept.of_framebuffers rfl hw.1, fun _ => ?_⟩
  rw [wp_bind, wp_push2D, wp_bind]
  cases g with
  | none => exact FbKept.of_framebuffers rfl hw.1
  | some gb =>
      rw [wp_deref_some, wp_bind, wp_emit, wp_bind, wp_getWorld, wp_bind, wp_ite]
      constructor <;> intro _
      · rw [wp_modifyWorld, wp_bind, wp_emit, wp_pop2D]
        exact ⟨FbKept.of_framebuffers rfl hw.1, hw.2⟩
      · rw [wp_pure, wp_bind, wp_emit, wp_pop2D]
        exact ⟨FbKept.of_framebuffers rfl hw.1, hw.2⟩

theorem renderPasses_spec (d : FbId) (X : Framebuffer) (c) (hc : c.1 = some d)
    (camera : Camera) (framebuffer : FbId) (depthPeelFramebuffer : Option FbId)
    (lightingEnvironment : LightingEnvironment) (gbuffer : Option GBuffer)
    (allSurfaces : List Surface) (culled : CulledSurfaces) :
    (renderPasses camera framebuffer depthPeelFramebuffer lightingEnvironment gbuffer
      allSurfaces culled).Spec
      (fun w => FbKept d X w ∧ w.deviceAndScratch = c) (FbKept d X) (FbKept d X) := by
  unfold renderPasses
  refine Exec.Spec.bind_spec (emit_spec d X c _) fun _ => ?_
  refine Exec.Spec.bind_spec (emit_spec d X c _) fun _ => ?_
  refine Exec.Spec.bind_spec (R := fun w => FbKept d X w ∧ w.deviceAndScratch = c) ?_ fun _ => ?_
  · cases gbuffer with
    | none => exact (Exec.Spec.pure_spec _).weaken (fun _ h => h) (fun _ h => h) (fun _ h => h)
    | some g => exact emit_spec d X c _
  refine Exec.Spec.bind_spec (emit_spec d X c _) fun _ => ?_
  refine Exec.Spec.bind_spec (R := fun w => FbKept d X w ∧ w.deviceAndScratch = c)
    (Exec.Spec.of_preserves (Exec.Preserves.debugAssertM_pres _ _) fun _ h => h.1) fun _ => ?_
  refine Exec.Spec.bind_spec (R := fun w => FbKept d X w ∧ w.deviceAndScratch = c)
    (Exec.Spec.of_preserves Exec.Preserves.getWorld_pres fun _ h => h.1) fun w => ?_
  refine Exec.Spec.bind_spec (R := fun w => FbKept d X w ∧ w.deviceAndScratch = c) ?_ fun _ => ?_
  · refine Exec.Spec.ite_spec ?_
      ((Exec.Spec.pure_spec _).weaken (fun _ h => h) (fun _ h => h) (fun _ h => h))
    refine Exec.Spec.bind_spec (R := fun w => FbKept d X w ∧ w.deviceAndScratch = c)
      (Exec.Spec.of_preserves
        ((renderIndirectIllumination_keeps d X _ _).and_pres (renderIndirectIllumination_fixes c _ _))
        fun _ h => h.1) fun _ => ?_
    exact renderDeferredShading_spec d X c _ _
  refine Exec.Spec.bind_spec (R := fun w => FbKept d X w ∧ w.deviceAndScratch = c)
    (Exec.Spec.of_preserves
      ((renderOpaqueSamples_keeps d X _ _).and_pres (renderOpaqueSamples_fixes c _ _))
      fun _ h => h.1) fun _ => ?_
  refine Exec.Spec.bind_spec (emit_spec d X c _) fun _ => ?_
  refine Exec.Spec.bind_spec (R := fun w => FbKept d X w ∧ w.deviceAndScratch = c)
    (Exec.Spec.of_preserves
      ((renderOpaqueScreenSpaceRefractingSamples_keeps d X _ _).and_pres
        (renderOpaqueScreenSpaceRefractingSamples_fixes c _ _))
      fun _ h => h.1) fun _ => ?_
  refine Exec.Spec.ite_spec (renderOrderIndependentBlendedSamples_spec d X c hc _ _) ?_
  exact (Exec.Spec.of_preserves (renderSortedBlendedSamples_keeps d X _ _)
    fun _ h => h).weaken (fun _ h => h.1) (fun _ h => h) (fun _ h => h)

theorem render_bound_spec (d : FbId) (X : Framebuffer) (e : Event)
    (camera : Camera) (depthPeelFramebuffer : Option FbId)
    (lightingEnvironment : LightingEnvironment) (gbuffer : Option GBuffer)
    (allSurfaces : List Surface) (culled : CulledSurfaces) :
    (emit e >>= fun _ => pushState d >>= fun _ =>
      renderPasses camera d depthPeelFramebuffer lightingEnvironment gbuffer allSurfaces culled
        >>= fun _ => popState).Spec (FbKept d X) (FbKept d X) (FbKept d X) := by
  constructor
  intro w hw
  rw [wp_bind, wp_emit, wp_bind, wp_pushState]
  refine ((renderPasses_spec d X
    (some d, w.drawFramebuffer :: w.stateStack, w.hiResSurfaces, w.loResSurfaces) rfl camera d depthPeelFramebuffer lightingEnvironment
    gbuffer allSurfaces culled).bind_spec (fun _ =>
      Exec.Spec.of_preserves (popState_keeps d X) fun _ h => h)).run _ ?_
  exact ⟨FbKept.of_framebuffers rfl hw, rfl⟩

theorem FbKept.set_self {d : FbId} {w : World} (fb : Framebuffer) (e : Event)
    (hd : d < w.framebuffers.length) :
    FbKept d fb { w.setFb d fb with trace := w.trace ++ [e] } := by
  unfold FbKept World.fb World.setFb
  refine ⟨by simpa using hd, ?_⟩
  simp [List.getElem?_set_eq_of_lt _ hd]

theorem shareDepthAndResizePeel_spec (framebuffer : FbId) (depthPeelFramebuffer : Option FbId)
    (gbuffer : Option GBuffer) (w : World) (hfb : framebuffer < w.framebuffers.length) :
    (shareDepthAndResizePeel framebuffer depthPeelFramebuffer gbuffer).Spec (fun w1 => w1 = w)
      (FbKept framebuffer (sharedDepth gbuffer (w.fb framebuffer)))
      (FbKept framebuffer (sharedDepth gbuffer (w.fb framebuffer))) := by
  unfold shareDepthAndResizePeel
  refine Exec.Spec.bind_spec (R := FbKept framebuffer (sharedDepth gbuffer (w.fb framebuffer)))
    ?_ fun _ => ?_
  · constructor
    intro w1 h1
    subst h1
    cases gbuffer with
    | none => exact ⟨hfb, rfl⟩
    | some g =>
        rw [wp_framebufferSet]
        exact FbKept.set_self _ _ hfb
  · cases depthPeelFramebuffer with
    | none => exact Exec.Spec.pure_spec _
    | some peel =>
        exact Exec.Spec.of_preserves
          (Exec.Preserves.bind_pres Exec.Preserves.getWorld_pres fun _ =>
            framebufferResize_keeps _ _ _ _ _) fun _ h => h

/-- The destination framebuffer after the frame is rendered: the object it was on entry,
with the DEPTH attachment replaced by the depth of the GBuffer when a GBuffer is given.
This holds where the call ends, whether it completes or stops at a fault. -/
theorem renderFrame_destination (cullAndSort : CullAndSort) (camera : Camera)
    (framebuffer : FbId) (depthPeelFramebuffer : Option FbId) (env : LightingEnvironment)
    (gbuffer : Option GBuffer) (allSurfaces : List Surface) (w : World)
    (hfb : framebuffer < w.framebuffers.length) :
    FbKept framebuffer (sharedDepth gbuffer (w.fb framebuffer))
      (renderFrame cullAndSort camera framebuffer depthPeelFramebuffer env gbuffer
        allSurfaces w).2 := by
  unfold renderFrame
  refine (Exec.Spec.bind_spec
    (shareDepthAndResizePeel_spec framebuffer depthPeelFramebuffer gbuffer w hfb)
    fun _ => ?_).snd rfl
  exact Exec.Spec.bind_getWorld_spec fun w2 _ =>
    (render_bound_spec framebuffer _ _ camera depthPeelFramebuffer env gbuffer
      allSurfaces _).weaken (fun _ h => h ▸ ‹_›) (fun _ h => h) (fun _ h => h)

/-- When the opening assertion of `render` passes, `render` is the rest of its body. -/
theorem render_eq_renderFrame (cullAndSort : CullAndSort) (camera : Camera)
    (framebuffer : FbId) (depthPeelFramebuffer : Option FbId) (env : LightingEnvironment)
    (gbuffer : Option GBuffer) (allSurfaces : List Surface) (w : World)
    (hao : (!env.aoEnabled || env.ambientOcclusion.isSome) = true) :
    render cullAndSort camera framebuffer depthPeelFramebuffer env gbuffer allSurfaces w =
      renderFrame cullAndSort camera framebuffer depthPeelFramebuffer env gbuffer
        allSurfaces w := by
  unfold render
  rw [Exec.bind_run]
  simp [alwaysAssertM, hao]

/-- C6: after a `render` call with a GBuffer that passes the ambient-occlusion
assertion, the DEPTH attachment of the destination framebuffer is the texture the
GBuffer holds in its DEPTH_AND_STENCIL field (the same object), whatever the
framebuffer had attached on entry and whichever of deferred shading and OIT are
enabled; this holds where the call ends, also when it stops at a fault. -/
theorem render_shares_gbuffer_depth (cullAndSort : CullAndSort) (camera : Camera)
    (framebuffer : FbId) (depthPeelFramebuffer : Option FbId) (env : LightingEnvironment)
    (g : GBuffer) (allSurfaces : List Surface) (w : World)
    (hfb : framebuffer < w.framebuffers.length)
    (hao : (!env.aoEnabled || env.ambientOcclusion.isSome) = true) :
    ((render cullAndSort camera framebuffer depthPeelFramebuffer env (some g) allSurfaces
      w).2.fb framebuffer).texture .DEPTH = g.DEPTH_AND_STENCIL := by
  rw [render_eq_renderFrame _ _ _ _ _ _ _ _ hao]
  rw [(renderFrame_destination cullAndSort camera framebuffer depthPeelFramebuffer env
    (some g) allSurfaces w hfb).2]
  simp [sharedDepth, Framebuffer.texture_set]

/-- C6, witness: on the sample world `render` completes and the destination's DEPTH is
the depth texture of the sample GBuffer. -/
theorem render_shares_gbuffer_depth_witness :
    0 < sampleWorld.framebuffers.length ∧
      (!sampleEnvironment.aoEnabled || sampleEnvironment.ambientOcclusion.isSome) = true ∧
      (render sampleCullAndSort sampleCamera 0 none sampleEnvironment (some sampleGBuffer)
        sampleSurfaces sampleWorld).1 = .ok () ∧
      ((render sampleCullAndSort sampleCamera 0 none sampleEnvironment (some sampleGBuffer)
        sampleSurfaces sampleWorld).2.fb 0).texture .DEPTH = sampleGBuffer.DEPTH_AND_STENCIL :=
  ⟨by decide, by decide, by decide,
    render_shares_gbuffer_depth sampleCullAndSort sampleCamera 0 none sampleEnvironment
      sampleGBuffer sampleSurfaces sampleWorld (by decide) (by decide)⟩

/-- C9, amended: `render` leaves every attachment of the destination framebuffer other
than DEPTH, and its clear values, as they were on entry; the DEPTH attachment is as on
entry when no GBuffer is given and is the GBuffer's DEPTH_AND_STENCIL texture when one
is given. -/
theorem render_destination_attachments (cullAndSort : CullAndSort) (camera : Camera)
    (framebuffer : FbId) (depthPeelFramebuffer : Option FbId) (env : LightingEnvironment)
    (gbuffer : Option GBuffer) (allSurfaces : List Surface) (w : World)
    (hfb : framebuffer < w.framebuffers.length)
    (hao : (!env.aoEnabled || env.ambientOcclusion.isSome) = true) :
    (∀ ap, ap ≠ AttachmentPoint.DEPTH →
        ((render cullAndSort camera framebuffer depthPeelFramebuffer env gbuffer allSurfaces
          w).2.fb framebuffer).texture ap = (w.fb framebuffer).texture ap) ∧
      ((render cullAndSort camera framebuffer depthPeelFramebuffer env gbuffer allSurfaces
          w).2.fb framebuffer).clearValues = (w.fb framebuffer).clearValues ∧
      ((render cullAndSort camera framebuffer depthPeelFramebuffer env gbuffer allSurfaces
          w).2.fb framebuffer).texture .DEPTH =
        (match gbuffer with
         | some g => g.DEPTH_AND_STENCIL
         | none => (w.fb framebuffer).texture .DEPTH) := by
  rw [render_eq_renderFrame _ _ _ _ _ _ _ _ hao]
  rw [(renderFrame_destination cullAndSort camera framebuffer depthPeelFramebuffer env
    gbuffer allSurfaces w hfb).2]
  cases gbuffer with
  | none => simp [sharedDepth]
  | some g =>
      refine ⟨fun ap hap => ?_, rfl, ?_⟩
      · simp [sharedDepth, Framebuffer.texture_set, hap]
      · simp [sharedDepth, Framebuffer.texture_set]

/-- C9, witness of the amended claim on the sample world. -/
theorem render_destination_attachments_witness :
    0 < sampleWorld.framebuffers.length ∧
      ((render sampleCullAndSort sampleCamera 0 none sampleEnvironment (some sampleGBuffer)
        sampleSurfaces sampleWorld).2.fb 0).texture .COLOR0 = (sampleWorld.fb 0).texture .COLOR0 ∧
      ((render sampleCullAndSort sampleCamera 0 none sampleEnvironment (some sampleGBuffer)
        sampleSurfaces sampleWorld).2.fb 0).texture .DEPTH = sampleGBuffer.DEPTH_AND_STENCIL :=
  ⟨by decide,
    (render_destination_attachments sampleCullAndSort sampleCamera 0 none sampleEnvironment
      (some sampleGBuffer) sampleSurfaces sampleWorld (by decide) (by decide)).1 _ (by decide),
    (render_destination_attachments sampleCullAndSort sampleCamera 0 none sampleEnvironment
      (some sampleGBuffer) sampleSurfaces sampleWorld (by decide) (by decide)).2.2⟩

/-! ### The faults a computation can stop at -/

theorem Exec.FaultsWithin.bind_flt {α β : Type} {S : Fault → Prop} {m : Exec α}
    {f : α → Exec β} (hm : m.FaultsWithin S) (hf : ∀ a, (f a).FaultsWithin S) :
    (m >>= f).FaultsWithin S := by
  constructor
  intro w e h
  rw [Exec.bind_run] at h
  rcases hmw : m w with ⟨o, w1⟩
  rw [hmw] at h
  cases o with
  | ok a => exact (hf a).run w1 e h
  | fault e1 =>
      have h1 : e1 = e := by simpa using h
      exact h1 ▸ hm.run w e1 (by rw [hmw])

theorem Exec.FaultsWithin.of_ok {α : Type} {S : Fault → Prop} {m : Exec α}
    (h : ∀ w, ∃ a, (m w).1 = .ok a) : m.FaultsWithin S := by
  constructor
  intro w e he
  obtain ⟨a, ha⟩ := h w
  rw [ha] at he
  cases he

theorem Exec.FaultsWithin.pure_flt {α : Type} {S : Fault → Prop} (a : α) :
    (Pure.pure a : Exec α).FaultsWithin S := Exec.FaultsWithin.of_ok fun _ => ⟨a, rfl⟩

theorem Exec.FaultsWithin.ite_flt {α : Type} {S : Fault → Prop} {c : Prop} [Decidable c]
    {a b : Exec α} (ha : a.FaultsWithin S) (hb : b.FaultsWithin S) :
    (if c then a else b).FaultsWithin S := by
  split <;> assumption

theorem Exec.FaultsWithin.deref_flt {α : Type} {S : Fault → Prop} (p : Pointer)
    (o : Option α) (h : o = none → S (.nullDereference p)) : (deref p o).FaultsWithin S := by
  cases o with
  | some a => exact Exec.FaultsWithin.of_ok fun _ => ⟨a, rfl⟩
  | none =>
      constructor
      intro w e he
      have h1 : Fault.nullDereference p = e := by simpa [deref, throwFault] using he
      exact h1 ▸ h rfl

theorem Exec.FaultsWithin.intDiv_flt {S : Fault → Prop} (a b : Int)
    (h : S .divisionByZero) : (intDiv a b).FaultsWithin S := by
  unfold intDiv
  split
  · constructor
    intro w e he
    have h1 : Fault.divisionByZero = e := by simpa [throwFault] using he
    exact h1 ▸ h
  · exact Exec.FaultsWithin.of_ok fun _ => ⟨_, rfl⟩

theorem Exec.FaultsWithin.debugAssertM_flt {S : Fault → Prop} (c : Bool) (s : String)
    (h : S (.debugAssert s)) : (debugAssertM c s).FaultsWithin S := by
  constructor
  intro w e he
  unfold debugAssertM at he
  split at he
  · have h1 : Fault.debugAssert s = e := by simpa using he
    exact h1 ▸ h
  · cases he

theorem allocateOITFramebufferAttachments_flt (S : Fault → Prop) (fb : FbId) (a b : Int)
    (hp : Bool) : (allocateOITFramebufferAttachments fb a b hp).FaultsWithin S := by
  unfold allocateOITFramebufferAttachments
  repeat' first
    | with_reducible apply Exec.FaultsWithin.bind_flt
    | intro _
    | exact Exec.FaultsWithin.of_ok fun _ => ⟨_, rfl⟩

theorem createFromTexture_flt (S : Fault → Prop) (n : FramebufferName) (t : TexId) :
    (Framebuffer.createFromTexture n t).FaultsWithin S := by
  unfold Framebuffer.createFromTexture
  repeat' first
    | with_reducible apply Exec.FaultsWithin.bind_flt
    | with_reducible apply Exec.FaultsWithin.pure_flt
    | intro _
    | exact Exec.FaultsWithin.of_ok fun _ => ⟨_, rfl⟩

theorem allocateAllOITBuffers_flt (g : Option GBuffer) (hp : Bool) :
    (allocateAllOITBuffers hp).FaultsWithin (Fault.expected g) := by
  unfold allocateAllOITBuffers
  repeat' first
    | with_reducible apply Exec.FaultsWithin.bind_flt
    | with_reducible apply allocateOITFramebufferAttachments_flt
    | with_reducible apply createFromTexture_flt
    | exact Exec.FaultsWithin.deref_flt _ _ fun _ => trivial
    | exact Exec.FaultsWithin.intDiv_flt _ _ trivial
    | intro _
    | exact Exec.FaultsWithin.of_ok fun _ => ⟨_, rfl⟩

theorem oitBuffersNeedResize_flt (g : Option GBuffer) (a b c e : Int) :
    (oitBuffersNeedResize a b c e).FaultsWithin (Fault.expected g) := by
  unfold oitBuffersNeedResize
  repeat' first
    | with_reducible apply Exec.FaultsWithin.bind_flt
    | with_reducible apply Exec.FaultsWithin.ite_flt
    | with_reducible apply Exec.FaultsWithin.pure_flt
    | exact Exec.FaultsWithin.deref_flt _ _ fun _ => trivial
    | intro _
    | exact Exec.FaultsWithin.of_ok fun _ => ⟨_, rfl⟩

theorem resizeOITBuffersIfNeeded_flt (g : Option GBuffer) (a b c e : Int) :
    (resizeOITBuffersIfNeeded a b c e).FaultsWithin (Fault.expected g) := by
  unfold resizeOITBuffersIfNeeded
  repeat' first
    | with_reducible apply Exec.FaultsWithin.bind_flt
    | with_reducible apply Exec.FaultsWithin.ite_flt
    | with_reducible apply Exec.FaultsWithin.pure_flt
    | with_reducible apply oitBuffersNeedResize_flt
    | exact Exec.FaultsWithin.deref_flt _ _ fun _ => trivial
    | intro _
    | exact Exec.FaultsWithin.of_ok fun _ => ⟨_, rfl⟩

theorem oitBuffersNeedAllocation_flt (g : Option GBuffer) :
    oitBuffersNeedAllocation.FaultsWithin (Fault.expected g) := by
  unfold oitBuffersNeedAllocation
  refine Exec.FaultsWithin.bind_flt (Exec.FaultsWithin.of_ok fun _ => ⟨_, rfl⟩) fun w => ?_
  split
  · exact Exec.FaultsWithin.pure_flt _
  · exact Exec.FaultsWithin.bind_flt (Exec.FaultsWithin.deref_flt _ _ fun _ => trivial)
      fun _ => Exec.FaultsWithin.pure_flt _

theorem allocateAndResizeOITBuffers_flt (g : Option GBuffer) :
    allocateAndResizeOITBuffers.FaultsWithin (Fault.expected g) := by
  unfold allocateAndResizeOITBuffers
  repeat' first
    | with_reducible apply Exec.FaultsWithin.bind_flt
    | with_reducible apply Exec.FaultsWithin.ite_flt
    | with_reducible apply Exec.FaultsWithin.pure_flt
    | with_reducible apply oitBuffersNeedAllocation_flt
    | with_reducible apply allocateAllOITBuffers_flt
    | with_reducible apply resizeOITBuffersIfNeeded_flt
    | exact Exec.FaultsWithin.intDiv_flt _ _ trivial
    | intro _
    | exact Exec.FaultsWithin.of_ok fun _ => ⟨_, rfl⟩

theorem setOITBlendFuncs_flt (S : Fault → Prop) : setOITBlendFuncs.FaultsWithin S := by
  unfold setOITBlendFuncs
  repeat' first
    | with_reducible apply Exec.FaultsWithin.bind_flt
    | intro _
    | exact Exec.FaultsWithin.of_ok fun _ => ⟨_, rfl⟩

theorem clearAndRenderToOITFramebuffer_flt (g : Option GBuffer) (o : Option FbId)
    (s : List Surface) (g1 : Option GBuffer) :
    (clearAndRenderToOITFramebuffer o s g1).FaultsWithin (Fault.expected g) := by
  unfold clearAndRenderToOITFramebuffer
  repeat' first
    | with_reducible apply Exec.FaultsWithin.bind_flt
    | with_reducible apply setOITBlendFuncs_flt
    | exact Exec.FaultsWithin.deref_flt _ _ fun _ => trivial
    | intro _
    | exact Exec.FaultsWithin.of_ok fun _ => ⟨_, rfl⟩

theorem computeLowResDepthAndNormals_flt (g : Option GBuffer) (t : Option TexId) :
    (computeLowResDepthAndNormals t).FaultsWithin (Fault.expected g) := by
  unfold computeLowResDepthAndNormals
  repeat' first
    | with_reducible apply Exec.FaultsWithin.bind_flt
    | with_reducible apply Exec.FaultsWithin.pure_flt
    | exact Exec.FaultsWithin.deref_flt _ _ fun _ => trivial
    | intro _
    | split
    | exact Exec.FaultsWithin.of_ok fun _ => ⟨_, rfl⟩

theorem upsampleLowResOIT_flt (g : Option GBuffer) :
    (upsampleLowResOIT g).FaultsWithin (Fault.expected g) := by
  unfold upsampleLowResOIT
  repeat' first
    | with_reducible apply Exec.FaultsWithin.bind_flt
    | with_reducible apply Exec.FaultsWithin.ite_flt
    | with_reducible apply Exec.FaultsWithin.pure_flt
    | with_reducible apply setOITBlendFuncs_flt
    | exact Exec.FaultsWithin.deref_flt _ _ fun _ => trivial
    | exact Exec.FaultsWithin.deref_flt _ _ fun h => h
    | intro _
    | split
    | exact Exec.FaultsWithin.of_ok fun _ => ⟨_, rfl⟩

theorem compositeOIT_flt (g : Option GBuffer) :
    (compositeOIT g).FaultsWithin (Fault.expected g) := by
  unfold compositeOIT
  repeat' first
    | with_reducible apply Exec.FaultsWithin.bind_flt
    | with_reducible apply Exec.FaultsWithin.ite_flt
    | with_reducible apply Exec.FaultsWithin.pure_flt
    | exact Exec.FaultsWithin.deref_flt _ _ fun _ => trivial
    | exact Exec.FaultsWithin.deref_flt _ _ fun h => h
    | intro _
    | exact Exec.FaultsWithin.of_ok fun _ => ⟨_, rfl⟩

theorem renderOITBody_flt (arr : List Surface) (g : Option GBuffer) :
    (renderOITBody arr g).FaultsWithin (Fault.expected g) := by
  unfold renderOITBody
  repeat' first
    | with_reducible apply Exec.FaultsWithin.bind_flt
    | with_reducible apply Exec.FaultsWithin.ite_flt
    | with_reducible apply Exec.FaultsWithin.pure_flt
    | with_reducible apply allocateAndResizeOITBuffers_flt
    | with_reducible apply clearAndRenderToOITFramebuffer_flt
    | with_reducible apply computeLowResDepthAndNormals_flt
    | with_reducible apply upsampleLowResOIT_flt
    | with_reducible apply compositeOIT_flt
    | exact Exec.FaultsWithin.deref_flt _ _ fun _ => trivial
    | exact Exec.FaultsWithin.deref_flt _ _ fun h => h
    | intro _
    | exact Exec.FaultsWithin.of_ok fun _ => ⟨_, rfl⟩

theorem renderOrderIndependentBlendedSamples_flt (arr : List Surface) (g : Option GBuffer) :
    (renderOrderIndependentBlendedSamples arr g).FaultsWithin (Fault.expected g) := by
  unfold renderOrderIndependentBlendedSamples
  repeat' first
    | with_reducible apply Exec.FaultsWithin.bind_flt
    | with_reducible apply Exec.FaultsWithin.ite_flt
    | with_reducible apply Exec.FaultsWithin.pure_flt
    | with_reducible apply renderOITBody_flt
    | intro _
    | exact Exec.FaultsWithin.of_ok fun _ => ⟨_, rfl⟩

theorem renderIndirectIllumination_flt (s : List Surface) (g : Option GBuffer) :
    (renderIndirectIllumination s g).FaultsWithin (Fault.expected g) := by
  unfold renderIndirectIllumination
  repeat' first
    | with_reducible apply Exec.FaultsWithin.bind_flt
    | exact Exec.FaultsWithin.debugAssertM_flt _ _ trivial
    | intro _
    | exact Exec.FaultsWithin.of_ok fun _ => ⟨_, rfl⟩

theorem renderDeferredShading_flt (s : List Surface) (g : Option GBuffer) :
    (renderDeferredShading s g).FaultsWithin (Fault.expected g) := by
  unfold renderDeferredShading
  repeat' first
    | with_reducible apply Exec.FaultsWithin.bind_flt
    | with_reducible apply Exec.FaultsWithin.ite_flt
    | with_reducible apply Exec.FaultsWithin.pure_flt
    | exact Exec.FaultsWithin.debugAssertM_flt _ _ trivial
    | exact Exec.FaultsWithin.deref_flt _ _ fun h => h
    | intro _
    | exact Exec.FaultsWithin.of_ok fun _ => ⟨_, rfl⟩

theorem renderOpaqueSamples_ok (s : List Surface) (g : Option GBuffer) (w : World) :
    (renderOpaqueSamples s g w).1 = .ok () := rfl

theorem renderOpaqueScreenSpaceRefractingSamples_ok (s : List Surface) (g : Option GBuffer)
    (w : World) : (renderOpaqueScreenSpaceRefractingSamples s g w).1 = .ok () := rfl

theorem renderSortedBlendedSamples_ok (s : List Surface) (g : Option GBuffer) (w : World) :
    (renderSortedBlendedSamples s g w).1 = .ok () := rfl

theorem renderPasses_flt (camera : Camera) (framebuffer : FbId)
    (depthPeelFramebuffer : Option FbId) (env : LightingEnvironment) (g : Option GBuffer)
    (allSurfaces : List Surface) (culled : CulledSurfaces) :
    (renderPasses camera framebuffer depthPeelFramebuffer env g allSurfaces
      culled).FaultsWithin (Fault.expected g) := by
  unfold renderPasses
  repeat' first
    | with_reducible apply Exec.FaultsWithin.bind_flt
    | with_reducible apply Exec.FaultsWithin.ite_flt
    | with_reducible apply Exec.FaultsWithin.pure_flt
    | with_reducible apply renderIndirectIllumination_flt
    | with_reducible apply renderDeferredShading_flt
    | with_reducible apply renderOrderIndependentBlendedSamples_flt
    | exact Exec.FaultsWithin.debugAssertM_flt _ _ trivial
    | intro _
    | split
    | exact Exec.FaultsWithin.of_ok fun _ => ⟨_, rfl⟩

theorem shareDepthAndResizePeel_flt (S : Fault → Prop) (framebuffer : FbId)
    (depthPeelFramebuffer : Option FbId) (g : Option GBuffer) :
    (shareDepthAndResizePeel framebuffer depthPeelFramebuffer g).FaultsWithin S := by
  unfold shareDepthAndResizePeel
  repeat' first
    | with_reducible apply Exec.FaultsWithin.bind_flt
    | with_reducible apply Exec.FaultsWithin.pure_flt
    | intro _
    | split
    | exact Exec.FaultsWithin.of_ok fun _ => ⟨_, rfl⟩

theorem renderFrame_flt (cullAndSort : CullAndSort) (camera : Camera) (framebuffer : FbId)
    (depthPeelFramebuffer : Option FbId) (env : LightingEnvironment) (g : Option GBuffer)
    (allSurfaces : List Surface) :
    (renderFrame cullAndSort camera framebuffer depthPeelFramebuffer env g
      allSurfaces).FaultsWithin (Fault.expected g) := by
  unfold renderFrame
  repeat' first
    | with_reducible apply Exec.FaultsWithin.bind_flt
    | with_reducible apply shareDepthAndResizePeel_flt
    | with_reducible apply renderPasses_flt
    | intro _
    | exact Exec.FaultsWithin.of_ok fun _ => ⟨_, rfl⟩

/-! ### The opening assertion of `render` -/

/-- C7: when ambient occlusion is enabled and no ambient-occlusion object is bound,
`render` stops at the `alwaysAssertM` with the message that names the missing object,
and the world is as on entry: the destination's depth is not rebound, nothing is culled
and no command is issued.  In every other case no `alwaysAssertM` fails in `render`. -/
theorem render_ambientOcclusion_assertion (cullAndSort : CullAndSort) (camera : Camera)
    (framebuffer : FbId) (depthPeelFramebuffer : Option FbId) (env : LightingEnvironment)
    (gbuffer : Option GBuffer) (allSurfaces : List Surface) (w : World) :
    (env.aoEnabled = true ∧ env.ambientOcclusion = none →
        render cullAndSort camera framebuffer depthPeelFramebuffer env gbuffer allSurfaces w
          = (.fault (.alwaysAssert ambientOcclusionMessage), w)) ∧
      (¬ (env.aoEnabled = true ∧ env.ambientOcclusion = none) →
        ∀ message,
          (render cullAndSort camera framebuffer depthPeelFramebuffer env gbuffer allSurfaces
            w).1 ≠ .fault (.alwaysAssert message)) := by
  constructor
  · intro h
    unfold render
    simp [Exec.bind_run, alwaysAssertM, h.1, h.2, throwFault]
  · intro h message hm
    have hao : (!env.aoEnabled || env.ambientOcclusion.isSome) = true := by
      cases h1 : env.aoEnabled <;> cases h2 : env.ambientOcclusion <;> simp_all
    rw [render_eq_renderFrame _ _ _ _ _ _ _ _ hao] at hm
    exact (renderFrame_flt cullAndSort camera framebuffer depthPeelFramebuffer env gbuffer
      allSurfaces).run w _ hm

/-! ### The GBuffer argument of `render` -/

theorem shareDepthAndResizePeel_none (framebuffer : FbId) (depthPeelFramebuffer : Option FbId)
    (w : World) :
    ∃ w1, shareDepthAndResizePeel framebuffer depthPeelFramebuffer none w = (.ok (), w1) ∧
      w1.m_deferredShading = w.m_deferredShading ∧
      w1.m_orderIndependentTransparency = w.m_orderIndependentTransparency ∧
      w1.debugBuild = w.debugBuild := by
  cases depthPeelFramebuffer with
  | none => exact ⟨w, rfl, rfl, rfl, rfl⟩
  | some peel =>
      refine ⟨_, rfl, ?_, ?_, ?_⟩
      · exact resizeTextures_m_deferredShading _ _ _ w
      · exact resizeTextures_m_orderIndependentTransparency _ _ _ w
      · exact resizeTextures_debugBuild _ _ _ w

/-- Without a GBuffer, with deferred shading off and with no surface for the OIT pass,
the frame is rendered to the end unless the surface-count assertion of a debug build
fails. -/
theorem renderFrame_nullGBuffer (cullAndSort : CullAndSort) (camera : Camera)
    (framebuffer : FbId) (depthPeelFramebuffer : Option FbId) (env : LightingEnvironment)
    (allSurfaces : List Surface) (w : World)
    (hdef : w.m_deferredShading = false)
    (hoit : w.m_orderIndependentTransparency = false ∨
      ∀ a b, (cullAndSort camera none a b allSurfaces).forwardBlendedSurfaces = []) :
    (renderFrame cullAndSort camera framebuffer depthPeelFramebuffer env none allSurfaces
      w).1 = if (w.debugBuild && !decide (allSurfaces.length < 500000)) = true
        then .fault (.debugAssert surfaceCountMessage) else .ok () := by
  obtain ⟨w1, h1, hd1, ho1, hb1⟩ :=
    shareDepthAndResizePeel_none framebuffer depthPeelFramebuffer w
  unfold renderFrame
  rw [Exec.bind_run, h1]
  cases hassert : (w.debugBuild && !decide (allSurfaces.length < 500000))
  · cases hflag : w.m_orderIndependentTransparency
    · simp [Exec.bind_run, renderPasses, emit, pushState, popState, getWorld, debugAssertM,
        hassert, hb1, hd1, hdef, ho1, hflag, renderOpaqueSamples,
        renderOpaqueScreenSpaceRefractingSamples, renderSortedBlendedSamples]
    · have hnil := hoit.resolve_left (by simp [hflag])
      simp [Exec.bind_run, renderPasses, emit, pushState, popState, getWorld, debugAssertM,
        hassert, hb1, hd1, hdef, ho1, hflag, hnil, renderOpaqueSamples,
        renderOpaqueScreenSpaceRefractingSamples, renderOrderIndependentBlendedSamples_nil]
  · simp [Exec.bind_run, renderPasses, emit, pushState, getWorld, debugAssertM,
      hassert, hb1, surfaceCountMessage]

/-- C8, amended: once the ambient-occlusion assertion has passed, `render` does not
dereference a null GBuffer when a GBuffer is given, nor when none is given, deferred
shading is off and the blended pass is not the OIT pass over a non-empty list (OIT off,
or no blended surface); in the latter case it completes unless the surface-count
assertion of a debug build fails. -/
theorem render_gbuffer_dereference (cullAndSort : CullAndSort) (camera : Camera)
    (framebuffer : FbId) (depthPeelFramebuffer : Option FbId) (env : LightingEnvironment)
    (gbuffer : Option GBuffer) (allSurfaces : List Surface) (w : World)
    (hao : (!env.aoEnabled || env.ambientOcclusion.isSome) = true)
    (h : gbuffer ≠ none ∨ (w.m_deferredShading = false ∧
      (w.m_orderIndependentTransparency = false ∨
        ∀ a b, (cullAndSort camera gbuffer a b allSurfaces).forwardBlendedSurfaces = []))) :
    (render cullAndSort camera framebuffer depthPeelFramebuffer env gbuffer allSurfaces w).1
        ≠ .fault (.nullDereference .gbuffer) ∧
      (gbuffer = none → (w.debugBuild = false ∨ allSurfaces.length < 500000) →
        (render cullAndSort camera framebuffer depthPeelFramebuffer env gbuffer allSurfaces
          w).1 = .ok ()) := by
  rw [render_eq_renderFrame _ _ _ _ _ _ _ _ hao]
  cases gbuffer with
  | some g =>
      refine ⟨fun hf => ?_, fun hg => by cases hg⟩
      have := (renderFrame_flt cullAndSort camera framebuffer depthPeelFramebuffer env
        (some g) allSurfaces).run w _ hf
      cases this
  | none =>
      have hcfg : w.m_deferredShading = false ∧
          (w.m_orderIndependentTransparency = false ∨
            ∀ a b, (cullAndSort camera none a b allSurfaces).forwardBlendedSurfaces = []) := by
        rcases h with h | h
        · exact absurd rfl h
        · exact h
      have hrun := renderFrame_nullGBuffer cullAndSort camera framebuffer
        depthPeelFramebuffer env allSurfaces w hcfg.1 hcfg.2
      refine ⟨fun hf => ?_, fun _ hcount => ?_⟩
      · rw [hrun] at hf
        split at hf <;> cases hf
      · rw [hrun, if_neg]
        rcases hcount with hc | hc
        · simp [hc]
        · simp [hc]

/-- C8, witness of the amended claim: without a GBuffer, with deferred shading and OIT
off, `render` completes on the sample world. -/
theorem render_gbuffer_dereference_witness :
    (!sampleEnvironment.aoEnabled || sampleEnvironment.ambientOcclusion.isSome) = true ∧
      (sampleWorld.setOrderIndependentTransparency false).m_deferredShading = false ∧
      (sampleWorld.setOrderIndependentTransparency false).m_orderIndependentTransparency
        = false ∧
      (render sampleCullAndSort sampleCamera 0 none sampleEnvironment none sampleSurfaces
        (sampleWorld.setOrderIndependentTransparency false)).1 = .ok () :=
  ⟨by decide, by decide, by decide,
    (render_gbuffer_dereference sampleCullAndSort sampleCamera 0 none sampleEnvironment none
      sampleSurfaces (sampleWorld.setOrderIndependentTransparency false) (by decide)
      (Or.inr ⟨by decide, Or.inl (by decide)⟩)).2 rfl (Or.inr (by decide))⟩

/-! ### The events a computation issues -/

theorem traceSince_of_trace {α : Type} {t0 : List Event} {p : Event → Bool}
    {S : List Event} {m : Exec α} (h : ∀ w, (m w).2.trace = w.trace) :
    m.Preserves (TraceSince t0 p S) :=
  ⟨fun w ⟨evs, h1, h2⟩ => ⟨evs, (h w).trans h1, h2⟩⟩

theorem traceSince_step {α : Type} {t0 : List Event} {p : Event → Bool}
    {S : List Event} {m : Exec α}
    (h : ∀ w, ∃ e, (m w).2.trace = w.trace ++ [e] ∧ p e = false) :
    m.Preserves (TraceSince t0 p S) := by
  constructor
  rintro w ⟨evs, h1, h2⟩
  obtain ⟨e, he, hpe⟩ := h w
  refine ⟨evs ++ [e], ?_, ?_⟩
  · rw [he, h1, List.append_assoc]
  · rw [List.filter_append, h2]
    simp [hpe]

/-- An event that satisfies `p` is added to the events recorded since `t0`. -/
theorem traceSince_emit {t0 : List Event} {p : Event → Bool} {S : List Event} {w : World}
    (e : Event) (hp : p e = true) (h : TraceSince t0 p S w) :
    TraceSince t0 p (S ++ [e]) (w.appendTrace [e]) := by
  obtain ⟨evs, h1, h2⟩ := h
  refine ⟨evs ++ [e], ?_, ?_⟩
  · show w.trace ++ [e] = _
    rw [h1, List.append_assoc]
  · rw [List.filter_append, h2]
    simp [hp]

theorem allocateOITFramebufferAttachments_trace {t0 : List Event} {p : Event → Bool}
    {S : List Event} (hp : ∀ e, e.isBufferAllocation = true → p e = false)
    (fb : FbId) (a b : Int) (c : Bool) :
    (allocateOITFramebufferAttachments fb a b c).Preserves (TraceSince t0 p S) := by
  unfold allocateOITFramebufferAttachments
  repeat' first
    | with_reducible apply Exec.Preserves.bind_pres
    | intro _
    | exact traceSince_step fun w => ⟨_, rfl, hp _ rfl⟩
    | exact traceSince_of_trace fun _ => rfl

theorem createFromTexture_trace {t0 : List Event} {p : Event → Bool}
    {S : List Event} (hp : ∀ e, e.isBufferAllocation = true → p e = false)
    (n : FramebufferName) (t : TexId) :
    (Framebuffer.createFromTexture n t).Preserves (TraceSince t0 p S) := by
  unfold Framebuffer.createFromTexture
  repeat' first
    | with_reducible apply Exec.Preserves.bind_pres
    | with_reducible apply Exec.Preserves.pure_pres
    | intro _
    | exact traceSince_step fun w => ⟨_, rfl, hp _ rfl⟩

theorem allocateAllOITBuffers_trace {t0 : List Event} {p : Event → Bool}
    {S : List Event} (hp : ∀ e, e.isBufferAllocation = true → p e = false) (c : Bool) :
    (allocateAllOITBuffers c).Preserves (TraceSince t0 p S) := by
  unfold allocateAllOITBuffers
  repeat' first
    | with_reducible apply Exec.Preserves.bind_pres
    | with_reducible apply Exec.Preserves.getWorld_pres
    | with_reducible apply Exec.Preserves.deref_pres
    | with_reducible apply Exec.Preserves.intDiv_pres
    | with_reducible apply allocateOITFramebufferAttachments_trace hp
    | with_reducible apply createFromTexture_trace hp
    | intro _
    | exact traceSince_step fun w => ⟨_, rfl, hp _ rfl⟩
    | exact traceSince_of_trace fun _ => rfl

theorem resizeOITBuffersIfNeeded_trace {t0 : List Event} {p : Event → Bool}
    {S : List Event} (hp : ∀ e, e.isBufferAllocation = true → p e = false)
    (a b c d : Int) :
    (resizeOITBuffersIfNeeded a b c d).Preserves (TraceSince t0 p S) := by
  unfold resizeOITBuffersIfNeeded
  repeat' first
    | with_reducible apply Exec.Preserves.bind_pres
    | with_reducible apply Exec.Preserves.ite_pres
    | with_reducible apply Exec.Preserves.pure_pres
    | with_reducible apply oitBuffersNeedResize_keeps
    | with_reducible apply Exec.Preserves.getWorld_pres
    | with_reducible apply Exec.Preserves.deref_pres
    | intro _
    | exact traceSince_step fun w => ⟨_, rfl, hp _ rfl⟩

theorem allocateAndResizeOITBuffers_trace {t0 : List Event} {p : Event → Bool}
    {S : List Event} (hp : ∀ e, e.isBufferAllocation = true → p e = false) :
    allocateAndResizeOITBuffers.Preserves (TraceSince t0 p S) := by
  unfold allocateAndResizeOITBuffers
  repeat' first
    | with_reducible apply Exec.Preserves.bind_pres
    | with_reducible apply Exec.Preserves.ite_pres
    | with_reducible apply Exec.Preserves.pure_pres
    | with_reducible apply Exec.Preserves.getWorld_pres
    | with_reducible apply Exec.Preserves.intDiv_pres
    | with_reducible apply oitBuffersNeedAllocation_keeps
    | with_reducible apply allocateAllOITBuffers_trace hp
    | with_reducible apply resizeOITBuffersIfNeeded_trace hp
    | intro _

theorem setOITBlendFuncs_trace {t0 : List Event} {p : Event → Bool}
    {S : List Event} (hp : ∀ e, e.isBlendFunc = true → p e = false) :
    setOITBlendFuncs.Preserves (TraceSince t0 p S) := by
  unfold setOITBlendFuncs
  repeat' first
    | with_reducible apply Exec.Preserves.bind_pres
    | intro _
    | exact traceSince_step fun w => ⟨_, rfl, hp _ rfl⟩

theorem clearAndRenderToOITFramebuffer_trace {t0 : List Event} {p : Event → Bool}
    {S : List Event} (hp : ∀ e, e.isAccumulation = true → p e = false)
    (o : Option FbId) (s : List Surface) (g : Option GBuffer) :
    (clearAndRenderToOITFramebuffer o s g).Preserves (TraceSince t0 p S) := by
  have hb : ∀ e : Event, e.isBlendFunc = true → p e = false := fun e he =>
    hp e (by cases e <;> simp_all [Event.isBlendFunc, Event.isAccumulation])
  unfold clearAndRenderToOITFramebuffer
  repeat' first
    | with_reducible apply Exec.Preserves.bind_pres
    | with_reducible apply Exec.Preserves.getWorld_pres
    | with_reducible apply Exec.Preserves.deref_pres
    | with_reducible apply setOITBlendFuncs_trace hb
    | intro _
    | exact traceSince_step fun w => ⟨_, rfl, hp _ rfl⟩

theorem computeLowResDepthAndNormals_trace {t0 : List Event} {p : Event → Bool}
    {S : List Event} (hp : ∀ e, e.isLowResDownsample = true → p e = false)
    (t : Option TexId) :
    (computeLowResDepthAndNormals t).Preserves (TraceSince t0 p S) := by
  unfold computeLowResDepthAndNormals
  repeat' first
    | with_reducible apply Exec.Preserves.bind_pres
    | with_reducible apply Exec.Preserves.pure_pres
    | with_reducible apply Exec.Preserves.getWorld_pres
    | with_reducible apply Exec.Preserves.deref_pres
    | intro _
    | split
    | exact traceSince_step fun w => ⟨_, rfl, hp _ rfl⟩

theorem upsampleLowResOIT_trace {t0 : List Event} {p : Event → Bool}
    {S : List Event} (hp : ∀ e, e.isUpsample = true → p e = false) (g : Option GBuffer) :
    (upsampleLowResOIT g).Preserves (TraceSince t0 p S) := by
  have hb : ∀ e : Event, e.isBlendFunc = true → p e = false := fun e he =>
    hp e (by cases e <;> simp_all [Event.isBlendFunc, Event.isUpsample])
  unfold upsampleLowResOIT
  repeat' first
    | with_reducible apply Exec.Preserves.bind_pres
    | with_reducible apply Exec.Preserves.ite_pres
    | with_reducible apply Exec.Preserves.pure_pres
    | with_reducible apply Exec.Preserves.getWorld_pres
    | with_reducible apply Exec.Preserves.deref_pres
    | with_reducible apply setOITBlendFuncs_trace hb
    | intro _
    | split
    | exact traceSince_step fun w => ⟨_, rfl, hp _ rfl⟩
    | exact traceSince_of_trace fun _ => rfl

theorem compositeOIT_trace {t0 : List Event} {p : Event → Bool}
    {S : List Event} (hp : ∀ e, e.isComposite = true → p e = false) (g : Option GBuffer) :
    (compositeOIT g).Preserves (TraceSince t0 p S) := by
  unfold compositeOIT
  repeat' first
    | with_reducible apply Exec.Preserves.bind_pres
    | with_reducible apply Exec.Preserves.ite_pres
    | with_reducible apply Exec.Preserves.pure_pres
    | with_reducible apply Exec.Preserves.getWorld_pres
    | with_reducible apply Exec.Preserves.deref_pres
    | intro _
    | exact traceSince_step fun w => ⟨_, rfl, hp _ rfl⟩
    | exact traceSince_of_trace fun _ => rfl

/-! ### The events of one kind that a computation adds -/

theorem Exec.Adds.bind_adds {α β : Type} {p : Event → Bool} {P Q R : World → Prop}
    {A B : List Event} {m : Exec α} {f : α → Exec β}
    (h1 : m.Adds p P Q A) (h2 : ∀ a, (f a).Adds p Q R B) :
    (m >>= f).Adds p P R (A ++ B) := by
  constructor
  intro t0 S w hP hS
  obtain ⟨K1, hK1, hpre1, hok1⟩ := h1.run t0 S w hP hS
  rw [Exec.bind_run]
  rcases hm : m w with ⟨o, w1⟩
  rw [hm] at hK1 hok1
  cases o with
  | fault e =>
      exact ⟨K1, hK1, hpre1.trans (List.prefix_append _ _), fun a h => by cases h⟩
  | ok a =>
      obtain ⟨rfl, hQ⟩ := hok1 a rfl
      obtain ⟨K2, hK2, hpre2, hok2⟩ := (h2 a).run t0 (S ++ K1) w1 hQ hK1
      refine ⟨K1 ++ K2, ?_, ?_, ?_⟩
      · rw [← List.append_assoc]; exact hK2
      · exact (List.prefix_append_right_inj K1).mpr hpre2
      · intro b hb
        obtain ⟨rfl, hR⟩ := hok2 b hb
        exact ⟨rfl, hR⟩

theorem Exec.Adds.of_silent {α : Type} {p : Event → Bool} {P Q : World → Prop} {m : Exec α}
    (ht : ∀ t0 S, m.Preserves (TraceSince t0 p S)) (hq : ∀ w, P w → Q (m w).2) :
    m.Adds p P Q [] :=
  ⟨fun t0 S w hP hS => ⟨[], by rw [List.append_nil]; exact (ht t0 S).run w hS,
    List.prefix_refl _, fun _ _ => ⟨rfl, hq w hP⟩⟩⟩

theorem Exec.Adds.emit_adds {p : Event → Bool} {P Q : World → Prop} (e : Event)
    (hp : p e = true) (hq : ∀ w, P w → Q (w.appendTrace [e])) :
    (G3D.emit e).Adds p P Q [e] :=
  ⟨fun _ _ w hP hS => ⟨[e], traceSince_emit e hp hS, List.prefix_refl _,
    fun _ _ => ⟨rfl, hq w hP⟩⟩⟩

theorem Exec.Adds.pure_adds {α : Type} {p : Event → Bool} {P : World → Prop} (a : α) :
    (pure a : Exec α).Adds p P P [] :=
  ⟨fun _ S w hP hS => ⟨[], by rw [List.append_nil]; exact hS, List.prefix_refl _,
    fun _ _ => ⟨rfl, hP⟩⟩⟩

theorem Exec.Adds.cast_adds {α : Type} {p : Event → Bool} {P Q : World → Prop}
    {L K : List Event} {m : Exec α} (h : m.Adds p P Q L) (hL : L = K) : m.Adds p P Q K :=
  hL ▸ h

theorem Exec.Adds.weaken_adds {α : Type} {p : Event → Bool} {P Q I J : World → Prop}
    {L : List Event} {m : Exec α} (h : m.Adds p I J L) (hP : ∀ w, P w → I w)
    (hQ : ∀ w, J w → Q w) : m.Adds p P Q L := by
  constructor
  intro t0 S w hw hS
  obtain ⟨K, h1, h2, h3⟩ := h.run t0 S w (hP w hw) hS
  exact ⟨K, h1, h2, fun a ha => ⟨(h3 a ha).1, hQ _ (h3 a ha).2⟩⟩

/-- What holds of the world that is read may be used for the rest. -/
theorem Exec.Adds.bind_getWorld_adds {β : Type} {p : Event → Bool} {P R : World → Prop}
    {L : List Event} {f : World → Exec β} (h : ∀ w0, P w0 → (f w0).Adds p P R L) :
    (G3D.getWorld >>= f).Adds p P R L :=
  ⟨fun t0 S w hP hS => (h w hP).run t0 S w hP hS⟩

theorem Exec.Adds.bind_deref_adds {α β : Type} {p : Event → Bool} {P R : World → Prop}
    {L : List Event} (k : Pointer) (o : Option α) {f : α → Exec β}
    (h : ∀ a, o = some a → (f a).Adds p P R L) :
    (G3D.deref k o >>= f).Adds p P R L := by
  cases o with
  | none =>
      exact ⟨fun t0 S w hP hS => ⟨[], by rw [List.append_nil]; exact hS, List.nil_prefix,
        fun a ha => by cases ha⟩⟩
  | some a => exact ⟨fun t0 S w hP hS => (h a rfl).run t0 S w hP hS⟩

/-- A computation is taken from exactly the world `w`. -/
theorem Exec.Adds.of_world {α : Type} {p : Event → Bool} {P Q : World → Prop}
    {L : List Event} {m : Exec α} (h : ∀ w, P w → m.Adds p (fun x => x = w) Q L) :
    m.Adds p P Q L :=
  ⟨fun t0 S w hP hS => (h w hP).run t0 S w rfl hS⟩

/-! ### The body of the OIT pass issues OIT commands only -/

theorem renderOITBody_trace {t0 : List Event} {p : Event → Bool} {S : List Event}
    (hp : ∀ e, e.isOITCommand = true → p e = false)
    (surfaceArray : List Surface) (gbuffer : Option GBuffer) :
    (renderOITBody surfaceArray gbuffer).Preserves (TraceSince t0 p S) := by
  have h1 : ∀ e : Event, e.isBufferAllocation = true → p e = false := fun e he =>
    hp e (by simp [Event.isOITCommand, he])
  have h2 : ∀ e : Event, e.isAccumulation = true → p e = false := fun e he =>
    hp e (by simp [Event.isOITCommand, he])
  have h3 : ∀ e : Event, e.isLowResDownsample = true → p e = false := fun e he =>
    hp e (by simp [Event.isOITCommand, he])
  have h4 : ∀ e : Event, e.isUpsample = true → p e = false := fun e he =>
    hp e (by simp [Event.isOITCommand, he])
  have h5 : ∀ e : Event, e.isComposite = true → p e = false := fun e he =>
    hp e (by simp [Event.isOITCommand, he])
  unfold renderOITBody
  repeat' first
    | with_reducible apply Exec.Preserves.bind_pres
    | with_reducible apply Exec.Preserves.ite_pres
    | with_reducible apply Exec.Preserves.pure_pres
    | with_reducible apply Exec.Preserves.getWorld_pres
    | with_reducible apply Exec.Preserves.deref_pres
    | with_reducible apply allocateAndResizeOITBuffers_trace h1
    | with_reducible apply clearAndRenderToOITFramebuffer_trace h2
    | with_reducible apply computeLowResDepthAndNormals_trace h3
    | with_reducible apply upsampleLowResOIT_trace h4
    | with_reducible apply compositeOIT_trace h5
    | intro _
    | exact traceSince_step fun w => ⟨_, rfl, hp _ rfl⟩
    | exact traceSince_of_trace fun _ => rfl

theorem Event.isStage_of_isOITCommand (e : Event) (h : e.isOITCommand = true) :
    e.isStage = false := by
  cases e with
  | call m => cases m <;> first | rfl | exact Bool.noConfusion h
  | _ => first | rfl | exact Bool.noConfusion h

/-! ### The stages of `render` -/

theorem renderIndirectIllumination_adds (s : List Surface) (g : Option GBuffer) :
    (renderIndirectIllumination s g).Adds Event.isStage (fun _ => True) (fun _ => True)
      [.call (.renderIndirectIllumination s g)] := by
  unfold renderIndirectIllumination
  refine Exec.Adds.cast_adds (Exec.Adds.bind_adds (Q := fun _ => True)
    (Exec.Adds.emit_adds _ rfl (fun _ _ => trivial))
    (fun _ => Exec.Adds.of_silent (fun t0 S => ?_) (fun _ _ => trivial))) rfl
  repeat' first
    | with_reducible apply Exec.Preserves.bind_pres
    | with_reducible apply Exec.Preserves.getWorld_pres
    | with_reducible apply Exec.Preserves.debugAssertM_pres
    | intro _

theorem renderDeferredShading_adds (s : List Surface) (g : Option GBuffer) :
    (renderDeferredShading s g).Adds Event.isStage (fun _ => True) (fun _ => True)
      [.call (.renderDeferredShading s g)] := by
  unfold renderDeferredShading
  refine Exec.Adds.cast_adds (Exec.Adds.bind_adds (Q := fun _ => True)
    (Exec.Adds.emit_adds _ rfl (fun _ _ => trivial))
    (fun _ => Exec.Adds.of_silent (fun t0 S => ?_) (fun _ _ => trivial))) rfl
  repeat' first
    | with_reducible apply Exec.Preserves.bind_pres
    | with_reducible apply Exec.Preserves.ite_pres
    | with_reducible apply Exec.Preserves.pure_pres
    | with_reducible apply Exec.Preserves.getWorld_pres
    | with_reducible apply Exec.Preserves.deref_pres
    | with_reducible apply Exec.Preserves.debugAssertM_pres
    | intro _
    | exact traceSince_step fun w => ⟨_, rfl, rfl⟩
    | exact traceSince_of_trace fun _ => rfl

theorem renderOpaqueSamples_adds (s : List Surface) (g : Option GBuffer) :
    (renderOpaqueSamples s g).Adds Event.isStage (fun _ => True) (fun _ => True)
      [.call (.renderOpaqueSamples s g)] := by
  unfold renderOpaqueSamples
  refine Exec.Adds.cast_adds (Exec.Adds.bind_adds (Q := fun _ => True)
    (Exec.Adds.emit_adds _ rfl (fun _ _ => trivial))
    (fun _ => Exec.Adds.of_silent (fun t0 S => ?_) (fun _ _ => trivial))) rfl
  repeat' first
    | with_reducible apply Exec.Preserves.bind_pres
    | intro _
    | exact traceSince_step fun w => ⟨_, rfl, rfl⟩

theorem renderOpaqueScreenSpaceRefractingSamples_adds (s : List Surface)
    (g : Option GBuffer) :
    (renderOpaqueScreenSpaceRefractingSamples s g).Adds Event.isStage (fun _ => True)
      (fun _ => True) [.call (.renderOpaqueScreenSpaceRefractingSamples s g)] := by
  unfold renderOpaqueScreenSpaceRefractingSamples
  refine Exec.Adds.cast_adds (Exec.Adds.bind_adds (Q := fun _ => True)
    (Exec.Adds.emit_adds _ rfl (fun _ _ => trivial))
    (fun _ => Exec.Adds.of_silent (fun t0 S => ?_) (fun _ _ => trivial))) rfl
  repeat' first
    | with_reducible apply Exec.Preserves.bind_pres
    | intro _
    | exact traceSince_step fun w => ⟨_, rfl, rfl⟩

theorem renderSortedBlendedSamples_adds (s : List Surface) (g : Option GBuffer) :
    (renderSortedBlendedSamples s g).Adds Event.isStage (fun _ => True) (fun _ => True)
      [.call (.renderSortedBlendedSamples s g)] := by
  unfold renderSortedBlendedSamples
  refine Exec.Adds.cast_adds (Exec.Adds.bind_adds (Q := fun _ => True)
    (Exec.Adds.emit_adds _ rfl (fun _ _ => trivial))
    (fun _ => Exec.Adds.of_silent (fun t0 S => ?_) (fun _ _ => trivial))) rfl
  repeat' first
    | with_reducible apply Exec.Preserves.bind_pres
    | intro _
    | exact traceSince_step fun w => ⟨_, rfl, rfl⟩

theorem renderOrderIndependentBlendedSamples_adds (s : List Surface) (g : Option GBuffer) :
    (renderOrderIndependentBlendedSamples s g).Adds Event.isStage (fun _ => True)
      (fun _ => True) [.call (.renderOrderIndependentBlendedSamples s g)] := by
  unfold renderOrderIndependentBlendedSamples
  refine Exec.Adds.cast_adds (Exec.Adds.bind_adds (Q := fun _ => True)
    (Exec.Adds.emit_adds _ rfl (fun _ _ => trivial))
    (fun _ => Exec.Adds.of_silent (fun t0 S => ?_) (fun _ _ => trivial))) rfl
  repeat' first
    | with_reducible apply Exec.Preserves.bind_pres
    | with_reducible apply Exec.Preserves.ite_pres
    | with_reducible apply Exec.Preserves.pure_pres
    | with_reducible apply renderOITBody_trace Event.isStage_of_isOITCommand
    | intro _
    | exact traceSince_step fun w => ⟨_, rfl, rfl⟩

/-- The mode flags of the renderer are `d` and `o`. -/
theorem shareDepthAndResizePeel_flags (framebuffer : FbId) (depthPeelFramebuffer : Option FbId)
    (gbuffer : Option GBuffer) (w : World) :
    (shareDepthAndResizePeel framebuffer depthPeelFramebuffer gbuffer w).2.m_deferredShading =
        w.m_deferredShading ∧
      (shareDepthAndResizePeel framebuffer depthPeelFramebuffer gbuffer
        w).2.m_orderIndependentTransparency = w.m_orderIndependentTransparency := by
  cases gbuffer <;> cases depthPeelFramebuffer <;>
    simp [shareDepthAndResizePeel, Exec.bind_run, framebufferSet, framebufferResize, emit,
      getWorld, modifyWorld, Exec.pure_run, World.setFb]

theorem shareDepthAndResizePeel_trace {t0 : List Event} {S : List Event}
    (framebuffer : FbId) (depthPeelFramebuffer : Option FbId) (gbuffer : Option GBuffer) :
    (shareDepthAndResizePeel framebuffer depthPeelFramebuffer gbuffer).Preserves
      (TraceSince t0 Event.isStage S) := by
  unfold shareDepthAndResizePeel
  repeat' first
    | with_reducible apply Exec.Preserves.bind_pres
    | with_reducible apply Exec.Preserves.pure_pres
    | with_reducible apply Exec.Preserves.getWorld_pres
    | intro _
    | split
    | exact traceSince_step fun w => ⟨_, rfl, rfl⟩

theorem Exec.Adds.ite_adds {α : Type} {p : Event → Bool} {P Q : World → Prop}
    {L K : List Event} {c : Prop} [Decidable c] {m n : Exec α}
    (hm : m.Adds p P Q L) (hn : n.Adds p P Q K) :
    (if c then m else n).Adds p P Q (if c then L else K) := by
  split
  · exact hm
  · exact hn

theorem renderPasses_adds (camera : Camera) (framebuffer : FbId)
    (depthPeelFramebuffer : Option FbId) (env : LightingEnvironment)
    (gbuffer : Option GBuffer) (allSurfaces : List Surface) (culled : CulledSurfaces)
    (d o : Bool) :
    (renderPasses camera framebuffer depthPeelFramebuffer env gbuffer allSurfaces
      culled).Adds Event.isStage
      (fun w => w.m_deferredShading = d ∧ w.m_orderIndependentTransparency = o)
      (fun _ => True)
      (renderStages camera framebuffer depthPeelFramebuffer env gbuffer allSurfaces culled
        d o).tail := by
  unfold renderPasses
  refine Exec.Adds.cast_adds
    (L := [.clear] ++ ([.setProjectionAndCameraMatrix camera] ++
      ((match gbuffer with
        | some g => [.computeGBuffer culled.sortedVisibleSurfaces g
            (if env.aoUseDepthPeelBuffer && env.aoEnabled then depthPeelFramebuffer else none)]
        | none => []) ++
      ([.computeShadowing allSurfaces gbuffer depthPeelFramebuffer] ++ ([] ++
      ((if d then [.call (.renderIndirectIllumination culled.sortedVisibleSurfaces gbuffer)] ++
          [.call (.renderDeferredShading culled.sortedVisibleSurfaces gbuffer)] else []) ++
      ([.call (.renderOpaqueSamples
          (if d then culled.forwardOpaqueSurfaces else culled.sortedVisibleSurfaces) gbuffer)] ++
      ([.copyScreenSpaceBuffers framebuffer
          (match gbuffer with
           | some g => g.colorGuardBandThickness
           | none => ⟨0, 0⟩)
          (match gbuffer with
           | some g => g.depthGuardBandThickness
           | none => ⟨0, 0⟩)] ++
      ([.call (.renderOpaqueScreenSpaceRefractingSamples
          (if d then culled.forwardOpaqueSurfaces else culled.sortedVisibleSurfaces) gbuffer)] ++
      (if o then
        [.call (.renderOrderIndependentBlendedSamples culled.forwardBlendedSurfaces gbuffer)]
       else
        [.call (.renderSortedBlendedSamples culled.forwardBlendedSurfaces gbuffer)]))))))))))
    ?h ?hL
  case h =>
    refine Exec.Adds.bind_adds
      (Q := fun w => w.m_deferredShading = d ∧ w.m_orderIndependentTransparency = o)
      (Exec.Adds.emit_adds _ rfl (fun _ h => h)) fun _ => ?_
    refine Exec.Adds.bind_adds
      (Q := fun w => w.m_deferredShading = d ∧ w.m_orderIndependentTransparency = o)
      (Exec.Adds.emit_adds _ rfl (fun _ h => h)) fun _ => ?_
    refine Exec.Adds.bind_adds
      (Q := fun w => w.m_deferredShading = d ∧ w.m_orderIndependentTransparency = o)
      (A := match gbuffer with
        | some g => [.computeGBuffer culled.sortedVisibleSurfaces g
            (if env.aoUseDepthPeelBuffer && env.aoEnabled then depthPeelFramebuffer else none)]
        | none => []) ?_ fun _ => ?_
    · cases gbuffer with
      | none => exact Exec.Adds.pure_adds _
      | some g => exact Exec.Adds.emit_adds _ rfl (fun _ h => h)
    refine Exec.Adds.bind_adds
      (Q := fun w => w.m_deferredShading = d ∧ w.m_orderIndependentTransparency = o)
      (Exec.Adds.emit_adds _ rfl (fun _ h => h)) fun _ => ?_
    refine Exec.Adds.bind_adds
      (Q := fun w => w.m_deferredShading = d ∧ w.m_orderIndependentTransparency = o)
      (Exec.Adds.of_silent (fun _ _ => Exec.Preserves.debugAssertM_pres _ _)
        (fun w h => (Exec.Preserves.debugAssertM_pres
          (I := fun w => w.m_deferredShading = d ∧ w.m_orderIndependentTransparency = o)
          _ _).run w h)) fun _ => ?_
    refine Exec.Adds.bind_getWorld_adds fun w0 hw0 => ?_
    rw [hw0.1, hw0.2]
    refine Exec.Adds.weaken_adds (I := fun _ => True) (J := fun _ => True) ?_
      (fun _ _ => trivial) (fun _ h => h)
    refine Exec.Adds.bind_adds (Q := fun _ => True) (Exec.Adds.ite_adds
      (Exec.Adds.bind_adds (Q := fun _ => True) (renderIndirectIllumination_adds _ _)
        fun _ => renderDeferredShading_adds _ _)
      (Exec.Adds.pure_adds _)) fun _ => ?_
    refine Exec.Adds.bind_adds (Q := fun _ => True) (renderOpaqueSamples_adds _ _) fun _ => ?_
    refine Exec.Adds.bind_adds (Q := fun _ => True)
      (Exec.Adds.emit_adds _ rfl (fun _ _ => trivial)) fun _ => ?_
    refine Exec.Adds.bind_adds (Q := fun _ => True)
      (renderOpaqueScreenSpaceRefractingSamples_adds _ _) fun _ => ?_
    exact Exec.Adds.ite_adds (renderOrderIndependentBlendedSamples_adds _ _)
      (renderSortedBlendedSamples_adds _ _)
  case hL =>
    cases gbuffer <;> cases d <;> cases o <;> rfl

theorem renderFrame_adds (cullAndSort : CullAndSort) (camera : Camera) (framebuffer : FbId)
    (depthPeelFramebuffer : Option FbId) (env : LightingEnvironment)
    (gbuffer : Option GBuffer) (allSurfaces : List Surface) (w : World) :
    (renderFrame cullAndSort camera framebuffer depthPeelFramebuffer env gbuffer
      allSurfaces).Adds Event.isStage (fun x => x = w) (fun _ => True)
      (renderStages camera framebuffer depthPeelFramebuffer env gbuffer allSurfaces
        (w.culled cullAndSort camera framebuffer depthPeelFramebuffer gbuffer allSurfaces)
        w.m_deferredShading w.m_orderIndependentTransparency) := by
  unfold renderFrame
  refine Exec.Adds.cast_adds
    (L := [] ++ ([.cullAndSort camera gbuffer allSurfaces] ++ ([] ++
      ((renderStages camera framebuffer depthPeelFramebuffer env gbuffer allSurfaces
        (w.culled cullAndSort camera framebuffer depthPeelFramebuffer gbuffer allSurfaces)
        w.m_deferredShading w.m_orderIndependentTransparency).tail ++ []))))
    ?h ?hL
  case h =>
    refine Exec.Adds.bind_adds
      (Q := fun x => x = (shareDepthAndResizePeel framebuffer depthPeelFramebuffer gbuffer w).2)
      (Exec.Adds.of_silent (fun _ _ => shareDepthAndResizePeel_trace _ _ _)
        (fun x h => by rw [h])) fun _ => ?_
    refine Exec.Adds.bind_getWorld_adds fun w0 hw0 => ?_
    rw [hw0]
    refine Exec.Adds.bind_adds
      (Q := fun x => x.m_deferredShading = w.m_deferredShading ∧
        x.m_orderIndependentTransparency = w.m_orderIndependentTransparency)
      (Exec.Adds.emit_adds _ rfl (fun x h => by
        rw [h]
        exact shareDepthAndResizePeel_flags framebuffer depthPeelFramebuffer gbuffer w))
      fun _ => ?_
    refine Exec.Adds.bind_adds
      (Q := fun x => x.m_deferredShading = w.m_deferredShading ∧
        x.m_orderIndependentTransparency = w.m_orderIndependentTransparency)
      (Exec.Adds.of_silent (fun _ _ => traceSince_step fun _ => ⟨_, rfl, rfl⟩)
        (fun _ h => h)) fun _ => ?_
    refine Exec.Adds.bind_adds (Q := fun _ => True) (renderPasses_adds _ _ _ _ _ _ _ _ _)
      fun _ => ?_
    exact Exec.Adds.of_silent
      (fun _ _ => traceSince_step fun _ => ⟨.popState, rfl, rfl⟩) (fun _ _ => trivial)
  case hL =>
    simp [renderStages, World.culled]

theorem World.eventsSince_of_traceSince {t0 : List Event} {p : Event → Bool}
    {S : List Event} {w : World} (h : TraceSince t0 p S w) :
    w.trace = t0 ++ w.eventsSince t0.length ∧ (w.eventsSince t0.length).filter p = S := by
  obtain ⟨evs, h1, h2⟩ := h
  have : w.eventsSince t0.length = evs := by
    unfold World.eventsSince
    rw [h1, List.drop_left]
  rw [this]
  exact ⟨h1, h2⟩

theorem renderStages_snapshot (camera : Camera) (framebuffer : FbId)
    (depthPeelFramebuffer : Option FbId) (env : LightingEnvironment)
    (gbuffer : Option GBuffer) (allSurfaces : List Surface) (culled : CulledSurfaces)
    (d o : Bool) :
    ∃ before blended shaded a b,
      renderStages camera framebuffer depthPeelFramebuffer env gbuffer allSurfaces culled
        d o =
        before ++ [.call (.renderOpaqueSamples shaded gbuffer),
          .copyScreenSpaceBuffers framebuffer a b,
          .call (.renderOpaqueScreenSpaceRefractingSamples shaded gbuffer), blended] ∧
      ∀ e ∈ blended :: before, ∀ f a b, e ≠ .copyScreenSpaceBuffers f a b := by
  refine ⟨[.cullAndSort camera gbuffer allSurfaces, .clear,
      .setProjectionAndCameraMatrix camera] ++
    (match gbuffer with
     | some g =>
         [.computeGBuffer culled.sortedVisibleSurfaces g
           (if env.aoUseDepthPeelBuffer && env.aoEnabled then depthPeelFramebuffer else none)]
     | none => []) ++
    [.computeShadowing allSurfaces gbuffer depthPeelFramebuffer] ++
    (if d then
      [.call (.renderIndirectIllumination culled.sortedVisibleSurfaces gbuffer),
       .call (.renderDeferredShading culled.sortedVisibleSurfaces gbuffer)]
     else []), _, _, _, _, rfl, ?_⟩
  intro e he f a b
  cases gbuffer <;> cases d <;> cases o <;>
    simp only [List.mem_cons, List.mem_append, List.mem_singleton, List.not_mem_nil,
      if_true, if_false, Bool.false_eq_true, or_false, false_or] at he <;>
    aesop

/-- C10: a `render` call that passes the ambient-occlusion assertion only adds events to
the trace, and the stages among them are, in this order: `cullAndSort`; the clear and the
camera setup; `computeGBuffer` when there is a GBuffer; `computeShadowing`;
`renderIndirectIllumination` and `renderDeferredShading` when deferred shading is on;
`renderOpaqueSamples`; `copyScreenSpaceBuffers`; `renderOpaqueScreenSpaceRefractingSamples`;
and one blended pass over the blended list of `cullAndSort`, order-independent when
`m_orderIndependentTransparency` is set and sorted otherwise. A call that completes
issues all of them, a call that stops at a fault issues a prefix of them. The snapshot
`copyScreenSpaceBuffers` stands between the opaque pass and the refraction pass, and
nowhere else in the list. -/
theorem render_stage_order (cullAndSort : CullAndSort) (camera : Camera)
    (framebuffer : FbId) (depthPeelFramebuffer : Option FbId) (env : LightingEnvironment)
    (gbuffer : Option GBuffer) (allSurfaces : List Surface) (w : World)
    (hao : (!env.aoEnabled || env.ambientOcclusion.isSome) = true) :
    (render cullAndSort camera framebuffer depthPeelFramebuffer env gbuffer allSurfaces
        w).2.trace = w.trace ++
      (render cullAndSort camera framebuffer depthPeelFramebuffer env gbuffer allSurfaces
        w).2.eventsSince w.trace.length ∧
    ((render cullAndSort camera framebuffer depthPeelFramebuffer env gbuffer allSurfaces
        w).2.eventsSince w.trace.length).filter Event.isStage <+:
      renderStages camera framebuffer depthPeelFramebuffer env gbuffer allSurfaces
        (w.culled cullAndSort camera framebuffer depthPeelFramebuffer gbuffer allSurfaces)
        w.m_deferredShading w.m_orderIndependentTransparency ∧
    ((render cullAndSort camera framebuffer depthPeelFramebuffer env gbuffer allSurfaces
        w).1 = .ok () →
      ((render cullAndSort camera framebuffer depthPeelFramebuffer env gbuffer allSurfaces
        w).2.eventsSince w.trace.length).filter Event.isStage =
      renderStages camera framebuffer depthPeelFramebuffer env gbuffer allSurfaces
        (w.culled cullAndSort camera framebuffer depthPeelFramebuffer gbuffer allSurfaces)
        w.m_deferredShading w.m_orderIndependentTransparency) ∧
    ∃ before blended shaded c d,
      renderStages camera framebuffer depthPeelFramebuffer env gbuffer allSurfaces
        (w.culled cullAndSort camera framebuffer depthPeelFramebuffer gbuffer allSurfaces)
        w.m_deferredShading w.m_orderIndependentTransparency =
        before ++ [.call (.renderOpaqueSamples shaded gbuffer),
          .copyScreenSpaceBuffers framebuffer c d,
          .call (.renderOpaqueScreenSpaceRefractingSamples shaded gbuffer), blended] ∧
      ∀ e ∈ blended :: before, ∀ f a b, e ≠ .copyScreenSpaceBuffers f a b := by
  rw [render_eq_renderFrame _ _ _ _ _ _ _ _ hao]
  obtain ⟨K, hK, hpre, hok⟩ := (renderFrame_adds cullAndSort camera framebuffer
    depthPeelFramebuffer env gbuffer allSurfaces w).run w.trace [] w rfl
    ⟨[], (List.append_nil _).symm, rfl⟩
  rw [List.nil_append] at hK
  obtain ⟨h1, h2⟩ := World.eventsSince_of_traceSince hK
  refine ⟨h1, h2 ▸ hpre, fun hdone => h2.trans (hok () hdone).1, ?_⟩
  exact renderStages_snapshot _ _ _ _ _ _ _ _ _

/-- C10, witness: on the sample world, which renders forward with OIT, the call completes
and its stages are the full list. -/
theorem render_stage_order_witness :
    (!sampleEnvironment.aoEnabled || sampleEnvironment.ambientOcclusion.isSome) = true ∧
      ((render sampleCullAndSort sampleCamera 0 none sampleEnvironment (some sampleGBuffer)
        sampleSurfaces sampleWorld).2.eventsSince sampleWorld.trace.length).filter
          Event.isStage =
        renderStages sampleCamera 0 none sampleEnvironment (some sampleGBuffer) sampleSurfaces
          (sampleWorld.culled sampleCullAndSort sampleCamera 0 none (some sampleGBuffer)
            sampleSurfaces)
          sampleWorld.m_deferredShading sampleWorld.m_orderIndependentTransparency :=
  ⟨by decide,
    (render_stage_order sampleCullAndSort sampleCamera 0 none sampleEnvironment
      (some sampleGBuffer) sampleSurfaces sampleWorld (by decide)).2.2.1 (by decide)⟩

/-! ### The scratch lists of the OIT pass -/

theorem classifySurfaces_eq (factor : Int) (arr hiRes loRes : List Surface) :
    classifySurfaces factor arr (hiRes, loRes) =
      (hiRes ++ arr.filter (fun s => !s.lowRes factor),
        loRes ++ arr.filter (fun s => s.lowRes factor)) := by
  induction arr generalizing hiRes loRes with
  | nil => simp [classifySurfaces]
  | cons s rest ih =>
      unfold classifySurfaces
      by_cases h : (s.preferLowResolutionTransparency && (factor != 1)) = true
      · have hs : s.lowRes factor = true := h
        rw [if_pos h, ih]
        simp [List.filter_cons, hs]
      · have hs : s.lowRes factor = false := Bool.eq_false_iff.mpr h
        rw [if_neg h, ih]
        simp [List.filter_cons, hs]

theorem World.classify_lists (w : World) (arr : List Surface)
    (hhi : w.hiResSurfaces = []) (hlo : w.loResSurfaces = []) :
    (w.classify arr).hiResSurfaces =
        arr.filter (fun s => !s.lowRes w.m_oitLowResDownsampleFactor) ∧
      (w.classify arr).loResSurfaces =
        arr.filter (fun s => s.lowRes w.m_oitLowResDownsampleFactor) := by
  unfold World.classify
  simp only [classifySurfaces_eq, hhi, hlo, List.nil_append, and_self]

/-! ### The OIT passes keep the members that hold the accumulation framebuffers -/

theorem setOITBlendFuncs_members (c) :
    setOITBlendFuncs.Preserves (fun w => w.oitFramebuffers = c) := by
  unfold setOITBlendFuncs
  repeat' first
    | with_reducible apply Exec.Preserves.bind_pres
    | intro _
    | exact Exec.Preserves.of_proj fun _ => rfl

theorem restoreState_oitFramebuffers (w : World) :
    (restoreState w).oitFramebuffers = w.oitFramebuffers := by
  unfold restoreState
  split <;> rfl

theorem clearAndRenderToOITFramebuffer_members (c) (o : Option FbId) (s : List Surface)
    (g : Option GBuffer) :
    (clearAndRenderToOITFramebuffer o s g).Preserves (fun w => w.oitFramebuffers = c) := by
  unfold clearAndRenderToOITFramebuffer
  repeat' first
    | with_reducible apply Exec.Preserves.bind_pres
    | with_reducible apply Exec.Preserves.getWorld_pres
    | with_reducible apply Exec.Preserves.deref_pres
    | with_reducible apply setOITBlendFuncs_members
    | intro _
    | exact Exec.Preserves.of_proj fun _ => rfl
    | exact Exec.Preserves.of_proj fun w => restoreState_oitFramebuffers w

theorem computeLowResDepthAndNormals_members (c) (t : Option TexId) :
    (computeLowResDepthAndNormals t).Preserves (fun w => w.oitFramebuffers = c) := by
  unfold computeLowResDepthAndNormals
  repeat' first
    | with_reducible apply Exec.Preserves.bind_pres
    | with_reducible apply Exec.Preserves.pure_pres
    | with_reducible apply Exec.Preserves.getWorld_pres
    | with_reducible apply Exec.Preserves.deref_pres
    | intro _
    | split
    | exact Exec.Preserves.of_proj fun _ => rfl
    | exact Exec.Preserves.of_proj fun w => restoreState_oitFramebuffers w

theorem upsampleLowResOIT_members (c) (g : Option GBuffer) :
    (upsampleLowResOIT g).Preserves (fun w => w.oitFramebuffers = c) := by
  unfold upsampleLowResOIT
  repeat' first
    | with_reducible apply Exec.Preserves.bind_pres
    | with_reducible apply Exec.Preserves.ite_pres
    | with_reducible apply Exec.Preserves.pure_pres
    | with_reducible apply Exec.Preserves.getWorld_pres
    | with_reducible apply Exec.Preserves.deref_pres
    | with_reducible apply setOITBlendFuncs_members
    | intro _
    | split
    | exact Exec.Preserves.of_proj fun _ => rfl
    | exact Exec.Preserves.of_proj fun w => restoreState_oitFramebuffers w

theorem compositeOIT_members (c) (g : Option GBuffer) :
    (compositeOIT g).Preserves (fun w => w.oitFramebuffers = c) := by
  unfold compositeOIT
  repeat' first
    | with_reducible apply Exec.Preserves.bind_pres
    | with_reducible apply Exec.Preserves.ite_pres
    | with_reducible apply Exec.Preserves.pure_pres
    | with_reducible apply Exec.Preserves.getWorld_pres
    | with_reducible apply Exec.Preserves.deref_pres
    | intro _
    | exact Exec.Preserves.of_proj fun _ => rfl
    | exact Exec.Preserves.of_proj fun w => restoreState_oitFramebuffers w

theorem Event.isAccumulationStep_of_isBufferAllocation (e : Event)
    (h : e.isBufferAllocation = true) : e.isAccumulationStep = false := by
  cases e with
  | call m => cases m <;> first | rfl | exact Bool.noConfusion h
  | _ => first | rfl | exact Bool.noConfusion h

theorem Event.isAccumulationStep_of_isLowResDownsample (e : Event)
    (h : e.isLowResDownsample = true) : e.isAccumulationStep = false := by
  cases e with
  | call m => cases m <;> first | rfl | exact Bool.noConfusion h
  | _ => first | rfl | exact Bool.noConfusion h

theorem Event.isAccumulationStep_of_isUpsample (e : Event)
    (h : e.isUpsample = true) : e.isAccumulationStep = false := by
  cases e with
  | call m => cases m <;> first | rfl | exact Bool.noConfusion h
  | _ => first | rfl | exact Bool.noConfusion h

theorem Event.isAccumulationStep_of_isComposite (e : Event)
    (h : e.isComposite = true) : e.isAccumulationStep = false := by
  cases e with
  | call m => cases m <;> first | rfl | exact Bool.noConfusion h
  | _ => first | rfl | exact Bool.noConfusion h

theorem Event.isAccumulationStep_of_isBlendFunc (e : Event)
    (h : e.isBlendFunc = true) : e.isAccumulationStep = false := by
  cases e with
  | call m => cases m <;> first | rfl | exact Bool.noConfusion h
  | _ => first | rfl | exact Bool.noConfusion h

theorem Exec.Adds.bind_silent {α β : Type} {p : Event → Bool} {P Q R : World → Prop}
    {L : List Event} {m : Exec α} {f : α → Exec β}
    (ht : ∀ t0 S, m.Preserves (TraceSince t0 p S)) (hq : ∀ w, P w → Q (m w).2)
    (h2 : ∀ a, (f a).Adds p Q R L) : (m >>= f).Adds p P R L :=
  Exec.Adds.cast_adds (Exec.Adds.bind_adds (Exec.Adds.of_silent ht hq) h2) (List.nil_append L)

theorem Exec.Adds.bind_then_silent {α β : Type} {p : Event → Bool} {P Q R : World → Prop}
    {L : List Event} {m : Exec α} {f : α → Exec β}
    (h1 : m.Adds p P Q L) (h2 : ∀ a, (f a).Adds p Q R []) : (m >>= f).Adds p P R L :=
  Exec.Adds.cast_adds (Exec.Adds.bind_adds h1 h2) (List.append_nil L)

/-- An invariant the computation keeps can be added to what is known of its events. -/
theorem Exec.Adds.with_invariant {α : Type} {p : Event → Bool} {I : World → Prop}
    {L : List Event} {m : Exec α}
    (h : m.Adds p (fun _ => True) (fun _ => True) L) (hI : m.Preserves I) :
    m.Adds p I I L := by
  constructor
  intro t0 S w hw hS
  obtain ⟨K, h1, h2, h3⟩ := h.run t0 S w trivial hS
  exact ⟨K, h1, h2, fun a ha => ⟨(h3 a ha).1, hI.run w hw⟩⟩

/-! ### The accumulation passes -/

theorem clearAndRenderToOITFramebuffer_adds (o : Option FbId) (s : List Surface)
    (g : Option GBuffer) :
    (clearAndRenderToOITFramebuffer o s g).Adds Event.isAccumulationStep (fun _ => True)
      (fun _ => True)
      [.call (.clearAndRenderToOITFramebuffer o s),
       .forwardShade s g .SINGLE_PASS_UNORDERED_BLENDED_SAMPLES .ARBITRARY] := by
  unfold clearAndRenderToOITFramebuffer
  refine Exec.Adds.bind_adds (Q := fun _ => True) (A := [_]) (B := [_])
    (Exec.Adds.emit_adds _ rfl (fun _ _ => trivial)) fun _ => ?_
  refine Exec.Adds.bind_silent (Q := fun _ => True)
    (fun _ _ => traceSince_step fun _ => ⟨_, rfl, rfl⟩) (fun _ _ => trivial) fun _ => ?_
  refine Exec.Adds.bind_silent (Q := fun _ => True)
    (fun _ _ => traceSince_step fun _ => ⟨_, rfl, rfl⟩) (fun _ _ => trivial) fun _ => ?_
  refine Exec.Adds.bind_deref_adds _ _ fun fb _ => ?_
  refine Exec.Adds.bind_getWorld_adds fun w _ => ?_
  refine Exec.Adds.bind_deref_adds _ _ fun depth _ => ?_
  refine Exec.Adds.bind_silent (Q := fun _ => True)
    (fun _ _ => traceSince_step fun _ => ⟨_, rfl, rfl⟩) (fun _ _ => trivial) fun _ => ?_
  refine Exec.Adds.bind_silent (Q := fun _ => True)
    (fun _ _ => traceSince_step fun _ => ⟨_, rfl, rfl⟩) (fun _ _ => trivial) fun _ => ?_
  refine Exec.Adds.bind_silent (Q := fun _ => True)
    (fun _ _ => traceSince_step fun _ => ⟨_, rfl, rfl⟩) (fun _ _ => trivial) fun _ => ?_
  refine Exec.Adds.bind_silent (Q := fun _ => True)
    (fun _ _ => setOITBlendFuncs_trace Event.isAccumulationStep_of_isBlendFunc)
    (fun _ _ => trivial) fun _ => ?_
  refine Exec.Adds.bind_then_silent (Q := fun _ => True)
    (Exec.Adds.emit_adds _ rfl (fun _ _ => trivial)) fun _ => ?_
  exact Exec.Adds.of_silent (fun _ _ => traceSince_step fun _ => ⟨.popState, rfl, rfl⟩)
    (fun _ _ => trivial)

/-- The accumulation steps of the OIT body, from the world `w`: `prepared` is the world
once the lists are classified and the buffers allocated and resized. -/
theorem renderOITBody_adds (arr : List Surface) (g : Option GBuffer) (w prepared : World)
    (hiRes loRes : List Surface) (hi lo : Option FbId)
    (hW : (allocateAndResizeOITBuffers (w.classify arr)).2 = prepared)
    (hhi : prepared.hiResSurfaces = hiRes) (hlo : prepared.loResSurfaces = loRes)
    (hm : prepared.oitFramebuffers = (hi, lo)) :
    (renderOITBody arr g).Adds Event.isAccumulationStep (fun x => x = w)
      (fun x => x.hiResSurfaces = [] ∧ x.loResSurfaces = [] ∧ x.oitFramebuffers = (hi, lo))
      (accumulationSteps hi lo hiRes loRes g) := by
  unfold renderOITBody accumulationSteps
  refine Exec.Adds.bind_silent (Q := fun x => x = w.classify arr)
    (fun _ _ => traceSince_of_trace fun _ => rfl) (fun x h => by rw [h]; rfl) fun _ => ?_
  refine Exec.Adds.bind_silent (Q := fun x => x = prepared)
    (fun _ _ => allocateAndResizeOITBuffers_trace
      Event.isAccumulationStep_of_isBufferAllocation)
    (fun x h => by rw [h]; exact hW) fun _ => ?_
  refine Exec.Adds.bind_getWorld_adds fun w1 hw1 => ?_
  subst hw1
  have h1 : w1.m_oitFramebuffer = hi := congrArg Prod.fst hm
  rw [hhi, hlo, h1]
  refine Exec.Adds.bind_deref_adds _ _ fun oit _ => ?_
  refine Exec.Adds.bind_deref_adds _ _ fun draw _ => ?_
  refine Exec.Adds.bind_silent (Q := fun x => x.oitFramebuffers = (hi, lo))
    (fun _ _ => traceSince_step fun _ => ⟨_, rfl, rfl⟩) (fun x h => by rw [h]; exact hm)
    fun _ => ?_
  refine Exec.Adds.bind_silent (Q := fun x => x.oitFramebuffers = (hi, lo))
    (fun _ _ => traceSince_step fun _ => ⟨_, rfl, rfl⟩) (fun _ h => h) fun _ => ?_
  refine Exec.Adds.bind_adds (Q := fun x => x.oitFramebuffers = (hi, lo))
    ((clearAndRenderToOITFramebuffer_adds _ _ _).with_invariant
      (clearAndRenderToOITFramebuffer_members _ _ _ _)) fun _ => ?_
  refine Exec.Adds.bind_then_silent (Q := fun x => x.oitFramebuffers = (hi, lo))
    (Exec.Adds.ite_adds ?_ (Exec.Adds.pure_adds _)) fun _ => ?_
  · refine Exec.Adds.bind_deref_adds _ _ fun gb _ => ?_
    refine Exec.Adds.bind_silent (Q := fun x => x.oitFramebuffers = (hi, lo))
      (fun _ _ => computeLowResDepthAndNormals_trace
        Event.isAccumulationStep_of_isLowResDownsample _)
      (fun x h => (computeLowResDepthAndNormals_members _ _).run x h) fun _ => ?_
    refine Exec.Adds.bind_getWorld_adds fun w2 hw2 => ?_
    have h2 : w2.m_oitLowResFramebuffer = lo := congrArg Prod.snd hw2
    rw [h2]
    refine Exec.Adds.bind_then_silent (Q := fun x => x.oitFramebuffers = (hi, lo))
      ((clearAndRenderToOITFramebuffer_adds _ _ _).with_invariant
        (clearAndRenderToOITFramebuffer_members _ _ _ _)) fun _ => ?_
    exact Exec.Adds.of_silent
      (fun _ _ => upsampleLowResOIT_trace Event.isAccumulationStep_of_isUpsample _)
      (fun x h => (upsampleLowResOIT_members _ _).run x h)
  · refine Exec.Adds.bind_silent (Q := fun x => x.oitFramebuffers = (hi, lo))
      (fun _ _ => traceSince_step fun _ => ⟨_, rfl, rfl⟩) (fun _ h => h) fun _ => ?_
    refine Exec.Adds.bind_silent (Q := fun x => x.oitFramebuffers = (hi, lo))
      (fun _ _ => compositeOIT_trace Event.isAccumulationStep_of_isComposite _)
      (fun x h => (compositeOIT_members _ _).run x h) fun _ => ?_
    exact Exec.Adds.of_silent (fun _ _ => traceSince_of_trace fun _ => rfl)
      (fun _ h => ⟨rfl, rfl, h⟩)

theorem allocateAndResizeOITBuffers_lists (w : World) :
    (allocateAndResizeOITBuffers w).2.hiResSurfaces = w.hiResSurfaces ∧
      (allocateAndResizeOITBuffers w).2.loResSurfaces = w.loResSurfaces := by
  have h := (allocateAndResizeOITBuffers_fixes w.deviceAndScratch).run w rfl
  exact ⟨congrArg (fun c => c.2.2.1) h, congrArg (fun c => c.2.2.2) h⟩

/-- The accumulation steps of a call of `renderOrderIndependentBlendedSamples` with a
non-empty array, from a world `w` with empty scratch lists. -/
theorem renderOrderIndependentBlendedSamples_accumulation (arr : List Surface)
    (g : Option GBuffer) (w : World) (hne : arr.length > 0)
    (hhi : w.hiResSurfaces = []) (hlo : w.loResSurfaces = []) :
    ∃ hi lo, (renderOrderIndependentBlendedSamples arr g).Adds Event.isAccumulationStep
      (fun x => x = w)
      (fun x => x.hiResSurfaces = [] ∧ x.loResSurfaces = [] ∧ x.oitFramebuffers = (hi, lo))
      (accumulationSteps hi lo
        (arr.filter (fun s => !s.lowRes w.m_oitLowResDownsampleFactor))
        (arr.filter (fun s => s.lowRes w.m_oitLowResDownsampleFactor)) g) := by
  have hc := World.classify_lists
    ((w.appendTrace [.call (.renderOrderIndependentBlendedSamples arr g)]).appendTrace
      [.beginProfilerEvent "DefaultRenderer::renderOrderIndependentBlendedSamples"])
    arr hhi hlo
  have hl := allocateAndResizeOITBuffers_lists
    (((w.appendTrace [.call (.renderOrderIndependentBlendedSamples arr g)]).appendTrace
      [.beginProfilerEvent "DefaultRenderer::renderOrderIndependentBlendedSamples"]).classify
      arr)
  rcases hfb : (allocateAndResizeOITBuffers
    (((w.appendTrace [.call (.renderOrderIndependentBlendedSamples arr g)]).appendTrace
      [.beginProfilerEvent "DefaultRenderer::renderOrderIndependentBlendedSamples"]).classify
      arr)).2.oitFramebuffers with ⟨hi, lo⟩
  have hbody := renderOITBody_adds arr g _ _ _ _ hi lo rfl (hl.1.trans hc.1)
    (hl.2.trans hc.2) hfb
  refine ⟨hi, lo, ?_⟩
  unfold renderOrderIndependentBlendedSamples
  refine Exec.Adds.bind_silent
    (Q := fun x => x = w.appendTrace [.call (.renderOrderIndependentBlendedSamples arr g)])
    (fun _ _ => traceSince_step fun _ => ⟨_, rfl, rfl⟩) (fun x h => by rw [h]; rfl)
    fun _ => ?_
  refine Exec.Adds.bind_silent
    (Q := fun x => x =
      (w.appendTrace [.call (.renderOrderIndependentBlendedSamples arr g)]).appendTrace
        [.beginProfilerEvent "DefaultRenderer::renderOrderIndependentBlendedSamples"])
    (fun _ _ => traceSince_step fun _ => ⟨_, rfl, rfl⟩) (fun x h => by rw [h]; rfl)
    fun _ => ?_
  refine Exec.Adds.bind_then_silent ?_ fun _ =>
    Exec.Adds.of_silent (fun _ _ => traceSince_step fun _ => ⟨_, rfl, rfl⟩) (fun _ h => h)
  rw [if_pos hne]
  exact hbody

/-- C1: in a call of `renderOrderIndependentBlendedSamples` with a non-empty array, entered
with the scratch lists empty as they are before the first call, the two lists after the
classification loop partition the array: the low-resolution list holds, in order, the
surfaces that prefer low-resolution transparency when the downsample factor is not 1, the
high-resolution list holds all the others, and together they are a permutation of the
array. The accumulation passes shade these lists, the high-resolution one first and the
low-resolution one only when it is not empty; a call that stops at a fault has issued a
prefix of these steps. A call that completes leaves both scratch lists empty, so the
next call is entered as this one was. -/
theorem renderOrderIndependentBlendedSamples_partition (arr : List Surface)
    (g : Option GBuffer) (w : World) (hne : arr.length > 0)
    (hhi : w.hiResSurfaces = []) (hlo : w.loResSurfaces = []) :
    (w.classify arr).hiResSurfaces =
        arr.filter (fun s => !s.lowRes w.m_oitLowResDownsampleFactor) ∧
    (w.classify arr).loResSurfaces =
        arr.filter (fun s => s.lowRes w.m_oitLowResDownsampleFactor) ∧
    (∀ s, s ∈ (w.classify arr).loResSurfaces ↔
      s ∈ arr ∧ s.preferLowResolutionTransparency = true ∧
        w.m_oitLowResDownsampleFactor ≠ 1) ∧
    (∀ s, s ∈ (w.classify arr).hiResSurfaces ↔
      s ∈ arr ∧ ¬(s.preferLowResolutionTransparency = true ∧
        w.m_oitLowResDownsampleFactor ≠ 1)) ∧
    ((w.classify arr).hiResSurfaces ++ (w.classify arr).loResSurfaces).Perm arr ∧
    ∃ hi lo,
      ((renderOrderIndependentBlendedSamples arr g w).2.eventsSince w.trace.length).filter
          Event.isAccumulationStep <+:
        accumulationSteps hi lo (w.classify arr).hiResSurfaces
          (w.classify arr).loResSurfaces g ∧
      ((renderOrderIndependentBlendedSamples arr g w).1 = .ok () →
        ((renderOrderIndependentBlendedSamples arr g w).2.eventsSince w.trace.length).filter
            Event.isAccumulationStep =
          accumulationSteps hi lo (w.classify arr).hiResSurfaces
            (w.classify arr).loResSurfaces g ∧
        (renderOrderIndependentBlendedSamples arr g w).2.m_oitFramebuffer = hi ∧
        (renderOrderIndependentBlendedSamples arr g w).2.m_oitLowResFramebuffer = lo ∧
        (renderOrderIndependentBlendedSamples arr g w).2.hiResSurfaces = [] ∧
        (renderOrderIndependentBlendedSamples arr g w).2.loResSurfaces = []) := by
  obtain ⟨h1, h2⟩ := World.classify_lists w arr hhi hlo
  rw [h1, h2]
  refine ⟨rfl, rfl, ?_, ?_, ?_, ?_⟩
  · intro s
    simp [Surface.lowRes]
  · intro s
    simp only [List.mem_filter, Surface.lowRes]
    cases s.preferLowResolutionTransparency <;> simp
  · exact List.perm_append_comm.trans (List.filter_append_perm _ _)
  · obtain ⟨hi, lo, hadds⟩ :=
      renderOrderIndependentBlendedSamples_accumulation arr g w hne hhi hlo
    obtain ⟨K, hK, hpre, hok⟩ :=
      hadds.run w.trace [] w rfl ⟨[], (List.append_nil _).symm, rfl⟩
    rw [List.nil_append] at hK
    obtain ⟨_, h4⟩ := World.eventsSince_of_traceSince hK
    refine ⟨hi, lo, h4 ▸ hpre, fun hdone => ?_⟩
    obtain ⟨h5, h6, h7, h8⟩ := hok () hdone
    exact ⟨h4.trans h5, congrArg Prod.fst h8, congrArg Prod.snd h8, h6, h7⟩

/-- C1, witness: the sample world after an earlier OIT pass has empty scratch lists, and
a further call over the three sample surfaces partitions them again. -/
theorem renderOrderIndependentBlendedSamples_partition_witness :
    sampleSurfaces.length > 0 ∧ sampleWorldAfterOIT.hiResSurfaces = [] ∧
    sampleWorldAfterOIT.loResSurfaces = [] ∧
    (sampleWorldAfterOIT.classify sampleSurfaces).hiResSurfaces =
        sampleSurfaces.filter
          (fun s => !s.lowRes sampleWorldAfterOIT.m_oitLowResDownsampleFactor) ∧
    (sampleWorldAfterOIT.classify sampleSurfaces).loResSurfaces =
        sampleSurfaces.filter
          (fun s => s.lowRes sampleWorldAfterOIT.m_oitLowResDownsampleFactor) ∧
    (∀ s, s ∈ (sampleWorldAfterOIT.classify sampleSurfaces).loResSurfaces ↔
      s ∈ sampleSurfaces ∧ s.preferLowResolutionTransparency = true ∧
        sampleWorldAfterOIT.m_oitLowResDownsampleFactor ≠ 1) ∧
    (∀ s, s ∈ (sampleWorldAfterOIT.classify sampleSurfaces).hiResSurfaces ↔
      s ∈ sampleSurfaces ∧ ¬(s.preferLowResolutionTransparency = true ∧
        sampleWorldAfterOIT.m_oitLowResDownsampleFactor ≠ 1)) ∧
    ((sampleWorldAfterOIT.classify sampleSurfaces).hiResSurfaces ++
      (sampleWorldAfterOIT.classify sampleSurfaces).loResSurfaces).Perm sampleSurfaces ∧
    ∃ hi lo,
      ((renderOrderIndependentBlendedSamples sampleSurfaces (some sampleGBuffer)
          sampleWorldAfterOIT).2.eventsSince sampleWorldAfterOIT.trace.length).filter
          Event.isAccumulationStep <+:
        accumulationSteps hi lo (sampleWorldAfterOIT.classify sampleSurfaces).hiResSurfaces
          (sampleWorldAfterOIT.classify sampleSurfaces).loResSurfaces (some sampleGBuffer) ∧
      ((renderOrderIndependentBlendedSamples sampleSurfaces (some sampleGBuffer)
          sampleWorldAfterOIT).1 = .ok () →
        ((renderOrderIndependentBlendedSamples sampleSurfaces (some sampleGBuffer)
          sampleWorldAfterOIT).2.eventsSince sampleWorldAfterOIT.trace.length).filter
            Event.isAccumulationStep =
          accumulationSteps hi lo (sampleWorldAfterOIT.classify sampleSurfaces).hiResSurfaces
            (sampleWorldAfterOIT.classify sampleSurfaces).loResSurfaces (some sampleGBuffer) ∧
        (renderOrderIndependentBlendedSamples sampleSurfaces (some sampleGBuffer)
          sampleWorldAfterOIT).2.m_oitFramebuffer = hi ∧
        (renderOrderIndependentBlendedSamples sampleSurfaces (some sampleGBuffer)
          sampleWorldAfterOIT).2.m_oitLowResFramebuffer = lo ∧
        (renderOrderIndependentBlendedSamples sampleSurfaces (some sampleGBuffer)
          sampleWorldAfterOIT).2.hiResSurfaces = [] ∧
        (renderOrderIndependentBlendedSamples sampleSurfaces (some sampleGBuffer)
          sampleWorldAfterOIT).2.loResSurfaces = []) :=
  ⟨by decide, by decide, by decide,
    renderOrderIndependentBlendedSamples_partition sampleSurfaces (some sampleGBuffer)
      sampleWorldAfterOIT (by decide) (by decide) (by decide)⟩

/-! ### A downsample factor of 1 -/

theorem Event.isLowResStep_of_isBufferAllocation (e : Event)
    (h : e.isBufferAllocation = true) : e.isLowResStep = false := by
  cases e with
  | call m => cases m <;> first | rfl | exact Bool.noConfusion h
  | launchShader f _ => cases f <;> first | rfl | exact Bool.noConfusion h
  | _ => first | rfl | exact Bool.noConfusion h

theorem Event.isLowResStep_of_isAccumulation (e : Event)
    (h : e.isAccumulation = true) : e.isLowResStep = false := by
  cases e with
  | call m => cases m <;> first | rfl | exact Bool.noConfusion h
  | launchShader f _ => cases f <;> first | rfl | exact Bool.noConfusion h
  | _ => first | rfl | exact Bool.noConfusion h

theorem Event.isLowResStep_of_isComposite (e : Event)
    (h : e.isComposite = true) : e.isLowResStep = false := by
  cases e with
  | call m => cases m <;> first | rfl | exact Bool.noConfusion h
  | launchShader f _ => cases f <;> first | rfl | exact Bool.noConfusion h
  | _ => first | rfl | exact Bool.noConfusion h

theorem Surface.filter_lowRes_one (arr : List Surface) :
    arr.filter (fun s => s.lowRes 1) = [] ∧ arr.filter (fun s => !s.lowRes 1) = arr := by
  constructor
  · exact List.filter_eq_nil_iff.mpr fun s _ => by simp [Surface.lowRes]
  · exact List.filter_eq_self.mpr fun s _ => by simp [Surface.lowRes]

/-- With a downsample factor of 1 the body of the OIT pass takes no low-resolution
step. -/
theorem renderOITBody_noLowRes (arr : List Surface) (g : Option GBuffer) (w : World)
    (hlo : w.loResSurfaces = []) (hf : w.m_oitLowResDownsampleFactor = 1) :
    (renderOITBody arr g).Adds Event.isLowResStep (fun x => x = w) (fun _ => True) [] := by
  have hc : (w.classify arr).loResSurfaces = [] := by
    unfold World.classify
    simp only [classifySurfaces_eq, hlo, hf, List.nil_append, (Surface.filter_lowRes_one arr).1]
  unfold renderOITBody
  refine Exec.Adds.bind_silent (Q := fun x => x = w.classify arr)
    (fun _ _ => traceSince_of_trace fun _ => rfl) (fun x h => by rw [h]; rfl) fun _ => ?_
  refine Exec.Adds.bind_silent (Q := fun x => x.loResSurfaces = [])
    (fun _ _ => allocateAndResizeOITBuffers_trace Event.isLowResStep_of_isBufferAllocation)
    (fun x h => by rw [h]; exact (allocateAndResizeOITBuffers_lists _).2.trans hc) fun _ => ?_
  refine Exec.Adds.bind_getWorld_adds fun w1 hw1 => ?_
  simp only [hw1, List.length_nil, gt_iff_lt, lt_self_iff_false, if_false]
  refine Exec.Adds.weaken_adds (I := fun _ => True) (J := fun _ => True) ?_
    (fun _ _ => trivial) (fun _ h => h)
  refine Exec.Adds.of_silent (fun t0 S => ?_) (fun _ _ => trivial)
  have h1 := Event.isLowResStep_of_isAccumulation
  have h2 := Event.isLowResStep_of_isComposite
  repeat' first
    | with_reducible apply Exec.Preserves.bind_pres
    | with_reducible apply Exec.Preserves.pure_pres
    | with_reducible apply Exec.Preserves.deref_pres
    | with_reducible apply clearAndRenderToOITFramebuffer_trace h1
    | with_reducible apply compositeOIT_trace h2
    | intro _
    | exact traceSince_step fun w => ⟨_, rfl, rfl⟩
    | exact traceSince_of_trace fun _ => rfl

theorem renderOrderIndependentBlendedSamples_noLowRes (arr : List Surface)
    (g : Option GBuffer) (w : World) (hlo : w.loResSurfaces = [])
    (hf : w.m_oitLowResDownsampleFactor = 1) :
    (renderOrderIndependentBlendedSamples arr g).Adds Event.isLowResStep (fun x => x = w)
      (fun _ => True) [] := by
  unfold renderOrderIndependentBlendedSamples
  refine Exec.Adds.bind_silent
    (Q := fun x => x = w.appendTrace [.call (.renderOrderIndependentBlendedSamples arr g)])
    (fun _ _ => traceSince_step fun _ => ⟨_, rfl, rfl⟩) (fun x h => by rw [h]; rfl)
    fun _ => ?_
  refine Exec.Adds.bind_silent
    (Q := fun x => x =
      (w.appendTrace [.call (.renderOrderIndependentBlendedSamples arr g)]).appendTrace
        [.beginProfilerEvent "DefaultRenderer::renderOrderIndependentBlendedSamples"])
    (fun _ _ => traceSince_step fun _ => ⟨_, rfl, rfl⟩) (fun x h => by rw [h]; rfl)
    fun _ => ?_
  refine Exec.Adds.bind_then_silent (Q := fun _ => True) ?_ fun _ =>
    Exec.Adds.of_silent (fun _ _ => traceSince_step fun _ => ⟨_, rfl, rfl⟩) (fun _ h => h)
  split
  · exact renderOITBody_noLowRes arr g _ hlo hf
  · exact Exec.Adds.weaken_adds (Exec.Adds.pure_adds _) (fun _ h => h) (fun _ _ => trivial)

/-- C5: with a downsample factor of 1, in a call of `renderOrderIndependentBlendedSamples`
with a non-empty array, entered with the scratch lists empty, the low-resolution list
after the classification loop is empty and the high-resolution list is the whole array,
whatever the surfaces prefer. The call takes no low-resolution step: it does not enter
`computeLowResDepthAndNormals`, copies no depth texture and launches neither the normal
downsample nor the upsample shader. Its accumulation steps are those of one pass, over
the whole array, into the framebuffer that `m_oitFramebuffer` holds when the call
completes; a call that stops at a fault has issued a prefix of them. -/
theorem renderOrderIndependentBlendedSamples_fullRes (arr : List Surface)
    (g : Option GBuffer) (w : World) (hne : arr.length > 0)
    (hhi : w.hiResSurfaces = []) (hlo : w.loResSurfaces = [])
    (hf : w.m_oitLowResDownsampleFactor = 1) :
    (w.classify arr).loResSurfaces = [] ∧
    (w.classify arr).hiResSurfaces = arr ∧
    ((renderOrderIndependentBlendedSamples arr g w).2.eventsSince w.trace.length).filter
        Event.isLowResStep = [] ∧
    ∃ hi,
      ((renderOrderIndependentBlendedSamples arr g w).2.eventsSince w.trace.length).filter
          Event.isAccumulationStep <+:
        [.call (.clearAndRenderToOITFramebuffer hi arr),
         .forwardShade arr g .SINGLE_PASS_UNORDERED_BLENDED_SAMPLES .ARBITRARY] ∧
      ((renderOrderIndependentBlendedSamples arr g w).1 = .ok () →
        ((renderOrderIndependentBlendedSamples arr g w).2.eventsSince w.trace.length).filter
            Event.isAccumulationStep =
          [.call (.clearAndRenderToOITFramebuffer hi arr),
           .forwardShade arr g .SINGLE_PASS_UNORDERED_BLENDED_SAMPLES .ARBITRARY] ∧
        (renderOrderIndependentBlendedSamples arr g w).2.m_oitFramebuffer = hi) := by
  obtain ⟨h1, h2⟩ := World.classify_lists w arr hhi hlo
  obtain ⟨f1, f2⟩ := Surface.filter_lowRes_one arr
  rw [hf, f2] at h1
  rw [hf, f1] at h2
  refine ⟨h2, h1, ?_, ?_⟩
  · obtain ⟨K, hK, hpre, _⟩ := (renderOrderIndependentBlendedSamples_noLowRes arr g w hlo
      hf).run w.trace [] w rfl ⟨[], (List.append_nil _).symm, rfl⟩
    rw [List.nil_append, List.prefix_nil.mp hpre] at hK
    exact (World.eventsSince_of_traceSince hK).2
  · obtain ⟨hi, lo, hadds⟩ :=
      renderOrderIndependentBlendedSamples_accumulation arr g w hne hhi hlo
    rw [hf, f1, f2] at hadds
    obtain ⟨K, hK, hpre, hok⟩ :=
      hadds.run w.trace [] w rfl ⟨[], (List.append_nil _).symm, rfl⟩
    rw [List.nil_append] at hK
    obtain ⟨_, h4⟩ := World.eventsSince_of_traceSince hK
    refine ⟨hi, h4 ▸ hpre, fun hdone => ?_⟩
    obtain ⟨h5, _, _, h8⟩ := hok () hdone
    exact ⟨h4.trans h5, congrArg Prod.fst h8⟩

/-- C5, witness: the sample world with a downsample factor of 1, the three sample
surfaces, two of which prefer low resolution. -/
theorem renderOrderIndependentBlendedSamples_fullRes_witness :
    sampleSurfaces.length > 0 ∧ sampleWorldFullRes.hiResSurfaces = [] ∧
    sampleWorldFullRes.loResSurfaces = [] ∧
    sampleWorldFullRes.m_oitLowResDownsampleFactor = 1 ∧
    (sampleWorldFullRes.classify sampleSurfaces).loResSurfaces = [] ∧
    (sampleWorldFullRes.classify sampleSurfaces).hiResSurfaces = sampleSurfaces ∧
    ((renderOrderIndependentBlendedSamples sampleSurfaces (some sampleGBuffer)
        sampleWorldFullRes).2.eventsSince sampleWorldFullRes.trace.length).filter
        Event.isLowResStep = [] ∧
    ∃ hi,
      ((renderOrderIndependentBlendedSamples sampleSurfaces (some sampleGBuffer)
          sampleWorldFullRes).2.eventsSince sampleWorldFullRes.trace.length).filter
          Event.isAccumulationStep <+:
        [.call (.clearAndRenderToOITFramebuffer hi sampleSurfaces),
         .forwardShade sampleSurfaces (some sampleGBuffer)
           .SINGLE_PASS_UNORDERED_BLENDED_SAMPLES .ARBITRARY] ∧
      ((renderOrderIndependentBlendedSamples sampleSurfaces (some sampleGBuffer)
          sampleWorldFullRes).1 = .ok () →
        ((renderOrderIndependentBlendedSamples sampleSurfaces (some sampleGBuffer)
            sampleWorldFullRes).2.eventsSince sampleWorldFullRes.trace.length).filter
            Event.isAccumulationStep =
          [.call (.clearAndRenderToOITFramebuffer hi sampleSurfaces),
           .forwardShade sampleSurfaces (some sampleGBuffer)
             .SINGLE_PASS_UNORDERED_BLENDED_SAMPLES .ARBITRARY] ∧
        (renderOrderIndependentBlendedSamples sampleSurfaces (some sampleGBuffer)
          sampleWorldFullRes).2.m_oitFramebuffer = hi) :=
  ⟨by decide, by decide, by decide, by decide,
    renderOrderIndependentBlendedSamples_fullRes sampleSurfaces (some sampleGBuffer)
      sampleWorldFullRes (by decide) (by decide) (by decide) (by decide)⟩

/-! ### The constructor -/

/-- C14: the members of a newly constructed renderer. The two mode flags are off and the
downsample factor is 4, as the header documents; the upsample filter radius is 2 where
the header documents 1, and the high-precision flag is set where the header documents
that it is not. -/
theorem construct_defaults (w : World) :
    w.construct.m_deferredShading = false ∧
    w.construct.m_orderIndependentTransparency = false ∧
    w.construct.m_oitLowResDownsampleFactor = 4 ∧
    w.construct.m_oitUpsampleFilterRadius = 2 ∧
    w.construct.m_oitHighPrecision = true :=
  ⟨rfl, rfl, rfl, rfl, rfl⟩

/-! ### What the stages of `render` are given -/

/-- The stages of one kind that a `render` call issues are those of that kind in the list
of its stages. -/
theorem render_stages_filter (q : Event → Bool) (hq : ∀ e, q e = true → e.isStage = true)
    (cullAndSort : CullAndSort) (camera : Camera) (framebuffer : FbId)
    (depthPeelFramebuffer : Option FbId) (env : LightingEnvironment)
    (gbuffer : Option GBuffer) (allSurfaces : List Surface) (w : World)
    (hao : (!env.aoEnabled || env.ambientOcclusion.isSome) = true) :
    ((render cullAndSort camera framebuffer depthPeelFramebuffer env gbuffer allSurfaces
        w).2.eventsSince w.trace.length).filter q <+:
      (renderStages camera framebuffer depthPeelFramebuffer env gbuffer allSurfaces
        (w.culled cullAndSort camera framebuffer depthPeelFramebuffer gbuffer allSurfaces)
        w.m_deferredShading w.m_orderIndependentTransparency).filter q ∧
    ((render cullAndSort camera framebuffer depthPeelFramebuffer env gbuffer allSurfaces
        w).1 = .ok () →
      ((render cullAndSort camera framebuffer depthPeelFramebuffer env gbuffer allSurfaces
        w).2.eventsSince w.trace.length).filter q =
      (renderStages camera framebuffer depthPeelFramebuffer env gbuffer allSurfaces
        (w.culled cullAndSort camera framebuffer depthPeelFramebuffer gbuffer allSurfaces)
        w.m_deferredShading w.m_orderIndependentTransparency).filter q) := by
  rw [render_eq_renderFrame _ _ _ _ _ _ _ _ hao]
  obtain ⟨K, hK, hpre, hok⟩ := (renderFrame_adds cullAndSort camera framebuffer
    depthPeelFramebuffer env gbuffer allSurfaces w).run w.trace [] w rfl
    ⟨[], (List.append_nil _).symm, rfl⟩
  rw [List.nil_append] at hK
  obtain ⟨_, h2⟩ := World.eventsSince_of_traceSince hK
  have hf : ∀ l : List Event, l.filter q = (l.filter Event.isStage).filter q := by
    intro l
    rw [List.filter_filter]
    refine List.filter_congr fun e _ => ?_
    cases h : q e
    · rfl
    · simp [hq e h]
  rw [hf, h2]
  exact ⟨hpre.filter q, fun hdone => by rw [(hok () hdone).1]⟩

theorem Event.isStage_of_isComputeShadowing (e : Event) (h : e.isComputeShadowing = true) :
    e.isStage = true := by
  cases e <;> first | rfl | exact Bool.noConfusion h

theorem Event.isStage_of_isOpaquePass (e : Event) (h : e.isOpaquePass = true) :
    e.isStage = true := by
  cases e with
  | call m => cases m <;> first | rfl | exact Bool.noConfusion h
  | _ => first | rfl | exact Bool.noConfusion h

theorem renderStages_computeShadowing (camera : Camera) (framebuffer : FbId)
    (depthPeelFramebuffer : Option FbId) (env : LightingEnvironment)
    (gbuffer : Option GBuffer) (allSurfaces : List Surface) (culled : CulledSurfaces)
    (d o : Bool) :
    (renderStages camera framebuffer depthPeelFramebuffer env gbuffer allSurfaces culled
      d o).filter Event.isComputeShadowing =
      [.computeShadowing allSurfaces gbuffer depthPeelFramebuffer] := by
  cases gbuffer <;> cases d <;> cases o <;> rfl

theorem renderStages_opaquePasses (camera : Camera) (framebuffer : FbId)
    (depthPeelFramebuffer : Option FbId) (env : LightingEnvironment)
    (gbuffer : Option GBuffer) (allSurfaces : List Surface) (culled : CulledSurfaces)
    (d o : Bool) :
    (renderStages camera framebuffer depthPeelFramebuffer env gbuffer allSurfaces culled
      d o).filter Event.isOpaquePass =
      [.call (.renderOpaqueSamples
        (if d then culled.forwardOpaqueSurfaces else culled.sortedVisibleSurfaces) gbuffer),
       .call (.renderOpaqueScreenSpaceRefractingSamples
        (if d then culled.forwardOpaqueSurfaces else culled.sortedVisibleSurfaces)
        gbuffer)] := by
  cases gbuffer <;> cases d <;> cases o <;> rfl

/-- C11: in a `render` call that passes the ambient-occlusion assertion, whatever the
camera, the lists `cullAndSort` returns and the mode flags of the renderer, the calls of
`computeShadowing` are at most one, and exactly one when the call completes; its surface
argument is the list `allSurfaces` the caller gave, and with it go the GBuffer and the
depth-peel framebuffer of the caller. -/
theorem render_computeShadowing_allSurfaces (cullAndSort : CullAndSort) (camera : Camera)
    (framebuffer : FbId) (depthPeelFramebuffer : Option FbId) (env : LightingEnvironment)
    (gbuffer : Option GBuffer) (allSurfaces : List Surface) (w : World)
    (hao : (!env.aoEnabled || env.ambientOcclusion.isSome) = true) :
    ((render cullAndSort camera framebuffer depthPeelFramebuffer env gbuffer allSurfaces
        w).2.eventsSince w.trace.length).filter Event.isComputeShadowing <+:
      [.computeShadowing allSurfaces gbuffer depthPeelFramebuffer] ∧
    ((render cullAndSort camera framebuffer depthPeelFramebuffer env gbuffer allSurfaces
        w).1 = .ok () →
      ((render cullAndSort camera framebuffer depthPeelFramebuffer env gbuffer allSurfaces
        w).2.eventsSince w.trace.length).filter Event.isComputeShadowing =
      [.computeShadowing allSurfaces gbuffer depthPeelFramebuffer]) := by
  have h := render_stages_filter Event.isComputeShadowing Event.isStage_of_isComputeShadowing
    cullAndSort camera framebuffer depthPeelFramebuffer env gbuffer allSurfaces w hao
  rw [renderStages_computeShadowing] at h
  exact h

/-- C11, witness: on the sample world the call completes and `computeShadowing` is given
the three sample surfaces. -/
theorem render_computeShadowing_allSurfaces_witness :
    (!sampleEnvironment.aoEnabled || sampleEnvironment.ambientOcclusion.isSome) = true ∧
      ((render sampleCullAndSort sampleCamera 0 none sampleEnvironment (some sampleGBuffer)
        sampleSurfaces sampleWorld).2.eventsSince sampleWorld.trace.length).filter
          Event.isComputeShadowing =
        [.computeShadowing sampleSurfaces (some sampleGBuffer) none] :=
  ⟨by decide,
    (render_computeShadowing_allSurfaces sampleCullAndSort sampleCamera 0 none
      sampleEnvironment (some sampleGBuffer) sampleSurfaces sampleWorld (by decide)).2
      (by decide)⟩

/-- C12: in a `render` call that passes the ambient-occlusion assertion,
`renderOpaqueSamples` and `renderOpaqueScreenSpaceRefractingSamples` are entered in this
order, each at most once and both once when the call completes, and with the same
surface list: the forward-opaque list of `cullAndSort` when deferred shading is on, its
list of sorted visible surfaces when it is off. -/
theorem render_opaque_passes_share_list (cullAndSort : CullAndSort) (camera : Camera)
    (framebuffer : FbId) (depthPeelFramebuffer : Option FbId) (env : LightingEnvironment)
    (gbuffer : Option GBuffer) (allSurfaces : List Surface) (w : World)
    (hao : (!env.aoEnabled || env.ambientOcclusion.isSome) = true) :
    ((render cullAndSort camera framebuffer depthPeelFramebuffer env gbuffer allSurfaces
        w).2.eventsSince w.trace.length).filter Event.isOpaquePass <+:
      [.call (.renderOpaqueSamples
        (if w.m_deferredShading then
          (w.culled cullAndSort camera framebuffer depthPeelFramebuffer gbuffer
            allSurfaces).forwardOpaqueSurfaces
         else
          (w.culled cullAndSort camera framebuffer depthPeelFramebuffer gbuffer
            allSurfaces).sortedVisibleSurfaces) gbuffer),
       .call (.renderOpaqueScreenSpaceRefractingSamples
        (if w.m_deferredShading then
          (w.culled cullAndSort camera framebuffer depthPeelFramebuffer gbuffer
            allSurfaces).forwardOpaqueSurfaces
         else
          (w.culled cullAndSort camera framebuffer depthPeelFramebuffer gbuffer
            allSurfaces).sortedVisibleSurfaces) gbuffer)] ∧
    ((render cullAndSort camera framebuffer depthPeelFramebuffer env gbuffer allSurfaces
        w).1 = .ok () →
      ((render cullAndSort camera framebuffer depthPeelFramebuffer env gbuffer allSurfaces
        w).2.eventsSince w.trace.length).filter Event.isOpaquePass =
      [.call (.renderOpaqueSamples
        (if w.m_deferredShading then
          (w.culled cullAndSort camera framebuffer depthPeelFramebuffer gbuffer
            allSurfaces).forwardOpaqueSurfaces
         else
          (w.culled cullAndSort camera framebuffer depthPeelFramebuffer gbuffer
            allSurfaces).sortedVisibleSurfaces) gbuffer),
       .call (.renderOpaqueScreenSpaceRefractingSamples
        (if w.m_deferredShading then
          (w.culled cullAndSort camera framebuffer depthPeelFramebuffer gbuffer
            allSurfaces).forwardOpaqueSurfaces
         else
          (w.culled cullAndSort camera framebuffer depthPeelFramebuffer gbuffer
            allSurfaces).sortedVisibleSurfaces) gbuffer)]) := by
  have h := render_stages_filter Event.isOpaquePass Event.isStage_of_isOpaquePass
    cullAndSort camera framebuffer depthPeelFramebuffer env gbuffer allSurfaces w hao
  rw [renderStages_opaquePasses] at h
  exact h

/-- C12, witness: on the sample world with deferred shading on, both passes are given the
forward-opaque list, here the first sample surface. -/
theorem render_opaque_passes_share_list_witness :
    (!sampleEnvironment.aoEnabled || sampleEnvironment.ambientOcclusion.isSome) = true ∧
      ((render sampleCullAndSortSplit sampleCamera 0 none sampleEnvironment
        (some sampleGBuffer) sampleSurfaces
        (sampleWorld.setDeferredShading true)).2.eventsSince
          (sampleWorld.setDeferredShading true).trace.length).filter Event.isOpaquePass =
        [.call (.renderOpaqueSamples [⟨1, true⟩] (some sampleGBuffer)),
         .call (.renderOpaqueScreenSpaceRefractingSamples [⟨1, true⟩]
           (some sampleGBuffer))] :=
  ⟨by decide,
    (render_opaque_passes_share_list sampleCullAndSortSplit sampleCamera 0 none
      sampleEnvironment (some sampleGBuffer) sampleSurfaces
      (sampleWorld.setDeferredShading true) (by decide)).2 (by decide)⟩

/-! ### The attachments of an OIT framebuffer -/

theorem World.fb_setFb (w : World) (i j : FbId) (f : Framebuffer) :
    (w.setFb i f).fb j = if i = j ∧ i < w.framebuffers.length then f else w.fb j := by
  unfold World.fb World.setFb
  by_cases h : i = j
  · subst h
    by_cases hl : i < w.framebuffers.length
    · simp [hl]
    · have h1 : w.framebuffers[i]? = none := List.getElem?_eq_none (Nat.le_of_not_lt hl)
      simp [hl, h1, List.getElem?_set]
  · simp [h, List.getElem?_set_ne h]

theorem List.getElem?_append_two_right {α : Type} (l : List α) (a b : α) :
    (l ++ [a, b])[l.length + 1]? = some b := by
  rw [List.getElem?_append_right (Nat.le_add_right _ _)]
  simp

theorem List.set_append_two_right {α : Type} (l : List α) (a b c : α) :
    (l ++ [a, b]).set (l.length + 1) c = l ++ [a, c] := by
  rw [List.set_append_right _ _ (Nat.le_add_right _ _)]
  simp

theorem allocateOITFramebufferAttachments_textures (fb : FbId) (a b : Int) (hp : Bool)
    (w : World) :
    (allocateOITFramebufferAttachments fb a b hp w).2.textures = w.textures ++
      [⟨.RT0, a, b, if hp then HIGH_PRECISION_OIT_FORMAT else ImageFormat.RGBA16F, false⟩,
       ⟨.RT1, a, b, if hp then HIGH_PRECISION_OIT_FORMAT else ImageFormat.RGBA8, true⟩,
       ⟨.RT2, a, b, if hp then HIGH_PRECISION_OIT_FORMAT_RG else ImageFormat.RG8_SNORM,
         false⟩] := by
  simp only [allocateOITFramebufferAttachments, Exec.bind_run, emit, Texture.createEmpty,
      framebufferSet, framebufferSetClearValue, modifyWorld, World.setFb, World.setTex,
      World.tex, List.append_assoc, List.singleton_append, List.cons_append, List.nil_append,
      List.length_append, List.length_singleton, List.getElem?_append_two_right,
      List.set_append_two_right, Option.getD_some]

theorem allocateOITFramebufferAttachments_framebuffers (fb : FbId) (a b : Int) (hp : Bool)
    (w : World) (hfb : fb < w.framebuffers.length) :
    (allocateOITFramebufferAttachments fb a b hp w).2.framebuffers =
      w.framebuffers.set fb
        (((((((w.fb fb).set .COLOR0 (some w.textures.length)).setClearValue .COLOR0
        Color4.zero).set .COLOR1 (some (w.textures.length + 1))).setClearValue .COLOR1
        ⟨1, 1, 1, 0⟩).set .COLOR2 (some (w.textures.length + 2))).setClearValue .COLOR2
        Color4.zero) := by
  simp only [allocateOITFramebufferAttachments, Exec.bind_run, emit, Texture.createEmpty,
      framebufferSet, framebufferSetClearValue, modifyWorld, World.setFb, World.setTex,
      World.tex, World.fb, List.length_append, List.length_singleton, List.set_set,
      List.getElem?_set_self hfb, List.getElem?_set_self, List.length_set, hfb,
      Option.getD_some, Nat.add_assoc]

theorem allocateOITFramebufferAttachments_fb (fb : FbId) (a b : Int) (hp : Bool)
    (w : World) (hfb : fb < w.framebuffers.length) (j : FbId) :
    (allocateOITFramebufferAttachments fb a b hp w).2.fb j =
      if fb = j then
        (((((((w.fb fb).set .COLOR0 (some w.textures.length)).setClearValue .COLOR0
        Color4.zero).set .COLOR1 (some (w.textures.length + 1))).setClearValue .COLOR1
        ⟨1, 1, 1, 0⟩).set .COLOR2 (some (w.textures.length + 2))).setClearValue .COLOR2
        Color4.zero)
      else w.fb j := by
  have h := allocateOITFramebufferAttachments_framebuffers fb a b hp w hfb
  unfold World.fb at *
  rw [h]
  by_cases hj : fb = j
  · subst hj
    simp [hfb]
  · simp [hj, List.getElem?_set_ne hj]

theorem allocateOITFramebufferAttachments_tex (fb : FbId) (a b : Int) (hp : Bool)
    (w : World) :
    (∀ t, t < w.textures.length →
      (allocateOITFramebufferAttachments fb a b hp w).2.tex t = w.tex t) ∧
    (allocateOITFramebufferAttachments fb a b hp w).2.tex w.textures.length =
      ⟨.RT0, a, b, if hp then HIGH_PRECISION_OIT_FORMAT else ImageFormat.RGBA16F, false⟩ ∧
    (allocateOITFramebufferAttachments fb a b hp w).2.tex (w.textures.length + 1) =
      ⟨.RT1, a, b, if hp then HIGH_PRECISION_OIT_FORMAT else ImageFormat.RGBA8, true⟩ ∧
    (allocateOITFramebufferAttachments fb a b hp w).2.tex (w.textures.length + 2) =
      ⟨.RT2, a, b, if hp then HIGH_PRECISION_OIT_FORMAT_RG else ImageFormat.RG8_SNORM,
        false⟩ := by
  have h := allocateOITFramebufferAttachments_textures fb a b hp w
  unfold World.tex
  rw [h]
  refine ⟨fun t ht => ?_, ?_, ?_, ?_⟩
  · rw [List.getElem?_append_left ht]
  · rw [List.getElem?_append_right (Nat.le_refl _)]
    simp
  · rw [List.getElem?_append_right (Nat.le_add_right _ _)]
    simp
  · rw [List.getElem?_append_right (Nat.le_add_right _ _)]
    simp

theorem allocateOITFramebufferAttachments_events (fb : FbId) (a b : Int) (hp : Bool)
    (w : World) :
    (allocateOITFramebufferAttachments fb a b hp w).2.trace =
      w.trace ++ attachmentEvents fb a b hp w.textures.length := by
  simp only [allocateOITFramebufferAttachments, Exec.bind_run, emit, Texture.createEmpty,
      framebufferSet, framebufferSetClearValue, modifyWorld, World.setFb, World.setTex,
      World.tex, attachmentEvents, List.append_assoc, List.singleton_append,
      List.cons_append, List.nil_append, List.length_append, List.length_singleton,
      List.length_cons, List.length_nil, List.length_set, Nat.add_assoc]

/-- `allocateOITFramebufferAttachments` changes the two heaps and the trace only. -/
theorem allocateOITFramebufferAttachments_eq (fb : FbId) (a b : Int) (hp : Bool)
    (w : World) :
    allocateOITFramebufferAttachments fb a b hp w = (.ok (), { w with
      textures := (allocateOITFramebufferAttachments fb a b hp w).2.textures
      framebuffers := (allocateOITFramebufferAttachments fb a b hp w).2.framebuffers
      trace := (allocateOITFramebufferAttachments fb a b hp w).2.trace }) :=
  rfl

theorem allocateOITFramebufferAttachments_run (fb : FbId) (a b : Int) (hp : Bool)
    (w : World) (hfb : fb < w.framebuffers.length) :
    allocateOITFramebufferAttachments fb a b hp w = (.ok (), { w with
      textures := w.textures ++
        [⟨.RT0, a, b, if hp then HIGH_PRECISION_OIT_FORMAT else ImageFormat.RGBA16F, false⟩,
         ⟨.RT1, a, b, if hp then HIGH_PRECISION_OIT_FORMAT else ImageFormat.RGBA8, true⟩,
         ⟨.RT2, a, b, if hp then HIGH_PRECISION_OIT_FORMAT_RG else ImageFormat.RG8_SNORM,
           false⟩]
      framebuffers := w.framebuffers.set fb
        (((((((w.fb fb).set .COLOR0 (some w.textures.length)).setClearValue .COLOR0
        Color4.zero).set .COLOR1 (some (w.textures.length + 1))).setClearValue .COLOR1
        ⟨1, 1, 1, 0⟩).set .COLOR2 (some (w.textures.length + 2))).setClearValue .COLOR2
        Color4.zero)
      trace := w.trace ++ attachmentEvents fb a b hp w.textures.length }) := by
  rw [allocateOITFramebufferAttachments_eq, allocateOITFramebufferAttachments_textures,
    allocateOITFramebufferAttachments_framebuffers fb a b hp w hfb,
    allocateOITFramebufferAttachments_events]

/-! ### The commands of a completed pass -/

theorem clearAndRenderToOITFramebuffer_wp (o : Option FbId) (s : List Surface)
    (g : Option GBuffer) (w : World) :
    wp (clearAndRenderToOITFramebuffer o s g)
      (fun _ w1 => ∃ fb depth blend, o = some fb ∧ (w.fb fb).texture .DEPTH = some depth ∧
        blend.filterMap Event.blendConfig = oitBlendConfiguration ∧ blend.length = 3 ∧
        w1.trace = w.trace ++ accumulationEvents fb depth blend s g ∧
        w1.drawFramebuffer = some fb ∧ w1.stateStack = w.stateStack)
      (fun _ _ => True) w := by
  unfold clearAndRenderToOITFramebuffer setOITBlendFuncs
  cases o with
  | none => simp only [wp_bind, wp_emit, wp_setFramebuffer, wp_deref_none]
  | some fb =>
      simp only [wp_bind, wp_emit, wp_setFramebuffer, wp_deref_some, wp_getWorld]
      rw [wp_deref]
      refine ⟨fun depth hd => ?_, fun _ => trivial⟩
      have hd1 : (w.fb fb).texture .DEPTH = some depth := hd
      simp only [wp_bind, wp_emit, wp_pushState, wp_popState]
      refine ⟨fb, depth,
        [.setBlendFunc .BLEND_ONE .BLEND_ONE .BLENDEQ_ADD .BLENDEQ_SAME_AS_RGB .COLOR0,
         .setBlendFuncSeparate .COLOR1 .BLEND_ZERO .BLEND_ONE_MINUS_SRC_COLOR .BLENDEQ_ADD
           .BLEND_ONE .BLEND_ONE .BLENDEQ_ADD,
         .setBlendFunc .BLEND_ONE .BLEND_ONE .BLENDEQ_ADD .BLENDEQ_SAME_AS_RGB .COLOR2],
        rfl, hd1, rfl, rfl, ?_, rfl, rfl⟩
      simp [accumulationEvents]

theorem computeLowResDepthAndNormals_wp (cs : Option TexId) (w : World) :
    wp (computeLowResDepthAndNormals cs)
      (fun _ w1 => ∃ src dst,
        w1.trace = w.trace ++ downsampleEvents cs src dst w.m_oitLowResDownsampleFactor
          w.m_csOctLowResNormalFramebuffer ∧
        w1.drawFramebuffer = w.drawFramebuffer ∧ w1.stateStack = w.stateStack)
      (fun _ _ => True) w := by
  unfold computeLowResDepthAndNormals
  simp only [wp_bind, wp_emit, wp_getWorld, wp_deref, implies_true, and_true]
  intro oit _ src _ low _ dst _
  cases cs with
  | none =>
      rw [wp_pure]
      exact ⟨src, dst, by simp [downsampleEvents], rfl, rfl⟩
  | some normal =>
      simp only [wp_bind, wp_emit, wp_push2D, wp_pop2D]
      exact ⟨src, dst, by simp [downsampleEvents], rfl, rfl⟩

theorem upsampleEvents_trace (t : List Event) (oit : Option FbId) (b1 b2 b3 : Event)
    (args : List Arg) :
    t ++ [.push2D oit] ++ [b1] ++ [b2] ++ [b3] ++ [.launchShader .upsampleOIT args] ++
      [.pop2D] = t ++ upsampleEvents oit [b1, b2, b3] args := by
  simp [upsampleEvents]

theorem upsampleLowResOIT_wp (g : Option GBuffer) (w : World) :
    wp (upsampleLowResOIT g)
      (fun _ w1 => ∃ blend args,
        blend.filterMap Event.blendConfig = oitBlendConfiguration ∧ blend.length = 3 ∧
        w1.trace = w.trace ++ upsampleEvents w.m_oitFramebuffer blend args ∧
        w1.drawFramebuffer = w.drawFramebuffer ∧ w1.stateStack = w.stateStack)
      (fun _ _ => True) w := by
  unfold upsampleLowResOIT
  simp only [wp_bind, wp_emit, wp_getWorld, wp_push2D, wp_deref, implies_true, and_true]
  intro low _ oit _ gb _
  cases gb.CS_NORMAL with
  | none =>
      simp only [wp_bind, wp_pure, wp_ite, wp_modifyWorld, wp_emit, wp_pop2D]
      constructor <;> intro _ <;>
        refine ⟨_, _, ?_, ?_, upsampleEvents_trace _ _ _ _ _ _, rfl, rfl⟩ <;> rfl
  | some destNormal =>
      simp only [wp_bind, wp_pure, wp_ite, wp_modifyWorld, wp_emit, wp_pop2D, wp_deref,
        implies_true, and_true]
      intro normal _
      constructor <;> intro _ <;>
        refine ⟨_, _, ?_, ?_, upsampleEvents_trace _ _ _ _ _ _, rfl, rfl⟩ <;> rfl

theorem compositeEvents_trace (t : List Event) (args : List Arg) :
    t ++ [.push2D none] ++ [.setDepthTestAlwaysPass] ++
      [.launchShader .compositeWeightedBlendedOIT args] ++ [.pop2D] =
      t ++ compositeEvents args := by
  simp [compositeEvents]

theorem compositeOIT_wp (g : Option GBuffer) (w : World) :
    wp (compositeOIT g)
      (fun _ w1 => ∃ args, w1.trace = w.trace ++ compositeEvents args ∧
        w1.drawFramebuffer = w.drawFramebuffer ∧ w1.stateStack = w.stateStack)
      (fun _ _ => True) w := by
  unfold compositeOIT
  simp only [wp_bind, wp_emit, wp_getWorld, wp_push2D, wp_deref, implies_true, and_true,
    wp_ite, wp_modifyWorld, wp_pop2D]
  intro background _ backgroundTexture _ gb _ camera _ oit _ accum _ modulation _ delta _
  constructor <;> intro _ <;> exact ⟨_, compositeEvents_trace _ _, rfl, rfl⟩

/-! ### The OIT passes keep the objects they draw with -/

theorem setOITBlendFuncs_objects (c) :
    setOITBlendFuncs.Preserves (fun w => w.objects = c) := by
  unfold setOITBlendFuncs
  repeat' first
    | with_reducible apply Exec.Preserves.bind_pres
    | intro _
    | exact Exec.Preserves.of_proj fun _ => rfl

theorem restoreState_objects (w : World) :
    (restoreState w).objects = w.objects := by
  unfold restoreState
  split <;> rfl

theorem clearAndRenderToOITFramebuffer_objects (c) (o : Option FbId) (s : List Surface)
    (g : Option GBuffer) :
    (clearAndRenderToOITFramebuffer o s g).Preserves (fun w => w.objects = c) := by
  unfold clearAndRenderToOITFramebuffer
  repeat' first
    | with_reducible apply Exec.Preserves.bind_pres
    | with_reducible apply Exec.Preserves.getWorld_pres
    | with_reducible apply Exec.Preserves.deref_pres
    | with_reducible apply setOITBlendFuncs_objects
    | intro _
    | exact Exec.Preserves.of_proj fun _ => rfl
    | exact Exec.Preserves.of_proj fun w => restoreState_objects w

theorem computeLowResDepthAndNormals_objects (c) (t : Option TexId) :
    (computeLowResDepthAndNormals t).Preserves (fun w => w.objects = c) := by
  unfold computeLowResDepthAndNormals
  repeat' first
    | with_reducible apply Exec.Preserves.bind_pres
    | with_reducible apply Exec.Preserves.pure_pres
    | with_reducible apply Exec.Preserves.getWorld_pres
    | with_reducible apply Exec.Preserves.deref_pres
    | intro _
    | split
    | exact Exec.Preserves.of_proj fun _ => rfl
    | exact Exec.Preserves.of_proj fun w => restoreState_objects w

theorem upsampleLowResOIT_objects (c) (g : Option GBuffer) :
    (upsampleLowResOIT g).Preserves (fun w => w.objects = c) := by
  unfold upsampleLowResOIT
  repeat' first
    | with_reducible apply Exec.Preserves.bind_pres
    | with_reducible apply Exec.Preserves.ite_pres
    | with_reducible apply Exec.Preserves.pure_pres
    | with_reducible apply Exec.Preserves.getWorld_pres
    | with_reducible apply Exec.Preserves.deref_pres
    | with_reducible apply setOITBlendFuncs_objects
    | intro _
    | split
    | exact Exec.Preserves.of_proj fun _ => rfl
    | exact Exec.Preserves.of_proj fun w => restoreState_objects w

theorem compositeOIT_objects (c) (g : Option GBuffer) :
    (compositeOIT g).Preserves (fun w => w.objects = c) := by
  unfold compositeOIT
  repeat' first
    | with_reducible apply Exec.Preserves.bind_pres
    | with_reducible apply Exec.Preserves.ite_pres
    | with_reducible apply Exec.Preserves.pure_pres
    | with_reducible apply Exec.Preserves.getWorld_pres
    | with_reducible apply Exec.Preserves.deref_pres
    | intro _
    | exact Exec.Preserves.of_proj fun _ => rfl
    | exact Exec.Preserves.of_proj fun w => restoreState_objects w

/-! ### Completed calls -/

/-- Sequencing for completed runs: what holds after `m` may be used for the rest. -/
theorem wp_seq {α β : Type} {m : Exec α} {f : α → Exec β} {R : α → World → Prop}
    {Q : β → World → Prop} {w : World}
    (h1 : wp m R (fun _ _ => True) w)
    (h2 : ∀ a w1, R a w1 → wp (f a) Q (fun _ _ => True) w1) :
    wp (m >>= f) Q (fun _ _ => True) w := by
  rw [wp_bind]
  exact wp_mono h1 h2 fun _ _ _ => trivial

theorem wp_and {α : Type} {m : Exec α} {Q R : α → World → Prop}
    {E : Fault → World → Prop} {w : World}
    (h1 : wp m Q E w) (h2 : wp m R E w) : wp m (fun a w1 => Q a w1 ∧ R a w1) E w := by
  unfold wp at *
  rcases hm : m w with ⟨o, w1⟩
  rw [hm] at h1 h2
  cases o with
  | ok a => exact ⟨h1, h2⟩
  | fault e => exact h1

theorem Exec.Preserves.wp_ok {α : Type} {I : World → Prop} {m : Exec α}
    (h : m.Preserves I) {w : World} (hw : I w) :
    G3D.wp m (fun _ w1 => I w1) (fun _ _ => True) w :=
  G3D.wp_mono (h.to_wp hw) (fun _ _ h1 => h1) fun _ _ _ => trivial

/-- What a completed run satisfies, from its weakest precondition. -/
theorem wp_ok_run {α : Type} {m : Exec α} {Q : α → World → Prop} {w : World}
    (h : wp m Q (fun _ _ => True) w) {a : α} (ha : (m w).1 = .ok a) : Q a (m w).2 := by
  unfold wp at h
  rcases hm : m w with ⟨o, w1⟩
  rw [hm] at h ha
  cases o with
  | ok b =>
      cases ha
      exact h
  | fault e => cases ha

theorem compositeTail_wp (old : Option FbId) (g : Option GBuffer) (w : World) :
    wp (do
        setFramebuffer old
        compositeOIT g
        modifyWorld (fun wd => { wd with hiResSurfaces := [], loResSurfaces := [] }))
      (fun _ x => ∃ args,
        x.trace = w.trace ++ ([.setFramebuffer old] ++ compositeEvents args) ∧
        x.drawFramebuffer = old ∧ x.stateStack = w.stateStack ∧ x.objects = w.objects ∧
        x.hiResSurfaces = [] ∧ x.loResSurfaces = [])
      (fun _ _ => True) w := by
  rw [wp_bind, wp_setFramebuffer]
  refine wp_seq (wp_and (compositeOIT_wp g _)
    ((compositeOIT_objects w.objects g).wp_ok rfl)) ?_
  rintro _ x ⟨⟨args, htr, hd, hs⟩, ho⟩
  rw [wp_modifyWorld]
  refine ⟨args, ?_, hd, hs, ho, rfl, rfl⟩
  show x.trace = _
  rw [htr]
  simp

/-- The low-resolution path (lines 356-404): it is taken when the low-resolution list is
not empty, and a completed one downsamples, accumulates into the low-resolution
framebuffer and upsamples into the high-resolution one. -/
theorem lowResPass_wp (g : Option GBuffer) (loRes : List Surface) (w : World) :
    wp (if loRes.length > 0 then do
          let gb ← deref .gbuffer g
          computeLowResDepthAndNormals gb.CS_NORMAL
          let w2 ← getWorld
          clearAndRenderToOITFramebuffer w2.m_oitLowResFramebuffer loRes g
          upsampleLowResOIT g
        else pure ())
      (fun _ x => x.stateStack = w.stateStack ∧ x.objects = w.objects ∧
        ∃ L, x.trace = w.trace ++ L ∧ (¬ loRes.length > 0 → L = []) ∧
          (loRes.length > 0 → ∃ gb src dst low depth blend blendUp args,
            g = some gb ∧ w.m_oitLowResFramebuffer = some low ∧
            blend.filterMap Event.blendConfig = oitBlendConfiguration ∧ blend.length = 3 ∧
            blendUp.filterMap Event.blendConfig = oitBlendConfiguration ∧
            blendUp.length = 3 ∧
            L = downsampleEvents gb.CS_NORMAL src dst w.m_oitLowResDownsampleFactor
                w.m_csOctLowResNormalFramebuffer ++
              (accumulationEvents low depth blend loRes g ++
                upsampleEvents w.m_oitFramebuffer blendUp args)))
      (fun _ _ => True) w := by
  rw [wp_ite]
  constructor
  · intro hlo
    rw [wp_bind, wp_deref]
    refine ⟨fun gb hg => ?_, fun _ => trivial⟩
    refine wp_seq (wp_and (computeLowResDepthAndNormals_wp _ w)
      ((computeLowResDepthAndNormals_objects w.objects _).wp_ok rfl)) ?_
    rintro _ w5 ⟨⟨src, dst, htr5, _, hs5⟩, ho5⟩
    rw [wp_bind, wp_getWorld]
    refine wp_seq (wp_and (clearAndRenderToOITFramebuffer_wp _ loRes g w5)
      ((clearAndRenderToOITFramebuffer_objects w5.objects _ _ _).wp_ok rfl)) ?_
    rintro _ w6 ⟨⟨low, depth, blend, hlow, _, hb1, hb2, htr6, _, hs6⟩, ho6⟩
    refine wp_mono (wp_and (upsampleLowResOIT_wp g w6)
      ((upsampleLowResOIT_objects w6.objects _).wp_ok rfl)) ?_ fun _ _ _ => trivial
    rintro _ w7 ⟨⟨blendUp, args, hu1, hu2, htr7, _, hs7⟩, ho7⟩
    have h6 : w6.objects = w.objects := ho6.trans ho5
    refine ⟨hs7.trans (hs6.trans hs5), ho7.trans h6, _, ?_, fun h => absurd hlo h,
      fun _ => ⟨gb, src, dst, low, depth, blend, blendUp, args, hg, ?_, hb1, hb2, hu1, hu2,
        rfl⟩⟩
    · rw [htr7, htr6, htr5, List.append_assoc, List.append_assoc]
      have : w6.m_oitFramebuffer = w.m_oitFramebuffer := congrArg (fun c => c.2.2.2.2.2.1) h6
      rw [this]
    · have : w5.m_oitLowResFramebuffer = w.m_oitLowResFramebuffer :=
        congrArg (fun c => c.2.2.2.2.2.2.1) ho5
      rw [← this]
      exact hlow
  · intro hlo
    rw [wp_pure]
    exact ⟨rfl, rfl, [], (List.append_nil _).symm, fun _ => rfl, fun h => absurd h hlo⟩

theorem allocateAndResizeOITBuffers_wp (w : World) :
    wp allocateAndResizeOITBuffers
      (fun _ p => (∃ A, p.trace = w.trace ++ A ∧ ∀ e ∈ A, e.isBufferAllocation = true) ∧
        p.deviceAndScratch = w.deviceAndScratch ∧
        ∀ d X, FbKept d X w → FbKept d X p)
      (fun _ _ => True) w := by
  refine wp_and ?_ (wp_and ((allocateAndResizeOITBuffers_fixes _).wp_ok rfl) ?_)
  · have htr : allocateAndResizeOITBuffers.Preserves
        (TraceSince w.trace (fun e => !e.isBufferAllocation) []) :=
      allocateAndResizeOITBuffers_trace fun e he => by simp [he]
    refine wp_mono (htr.wp_ok ⟨[], (List.append_nil _).symm, rfl⟩) ?_ fun _ _ _ => trivial
    rintro _ p ⟨A, hA, hf⟩
    refine ⟨A, hA, fun e he => ?_⟩
    have := List.filter_eq_nil_iff.mp hf e he
    simpa using this
  · exact Exec.Preserves.wp_ok (I := fun p => ∀ d X, FbKept d X w → FbKept d X p)
      ⟨fun x hx d X hk => (allocateAndResizeOITBuffers_keeps d X).run x (hx d X hk)⟩
      fun _ _ hk => hk

/-- The body of the OIT pass: what a completed run has done. -/
theorem renderOITBody_wp (arr : List Surface) (g : Option GBuffer) (w : World) :
    wp (renderOITBody arr g) (fun _ x => OITBodyRun [] [] arr g w x) (fun _ _ => True) w := by
  unfold renderOITBody
  rw [wp_bind, wp_modifyWorld]
  refine wp_seq (allocateAndResizeOITBuffers_wp _) ?_
  rintro _ p ⟨⟨A, hA, hall⟩, hfix, hkeep⟩
  have hdraw : p.drawFramebuffer = w.drawFramebuffer := congrArg (fun c => c.1) hfix
  have hstack : p.stateStack = w.stateStack := congrArg (fun c => c.2.1) hfix
  have hhi : p.hiResSurfaces = (w.classify arr).hiResSurfaces :=
    congrArg (fun c => c.2.2.1) hfix
  have hlo : p.loResSurfaces = (w.classify arr).loResSurfaces :=
    congrArg (fun c => c.2.2.2) hfix
  rw [wp_bind, wp_getWorld, wp_bind, wp_deref]
  refine ⟨fun oit ho => ?_, fun _ => trivial⟩
  rw [wp_bind, wp_deref]
  refine ⟨fun d hd => ?_, fun _ => trivial⟩
  rw [wp_bind, wp_framebufferSet, wp_bind, wp_emit]
  refine wp_seq (wp_and (clearAndRenderToOITFramebuffer_wp _ _ g _)
    ((clearAndRenderToOITFramebuffer_objects _ _ _ g).wp_ok rfl)) ?_
  rintro _ w4 ⟨⟨fb, depth, blend, hfb, -, hb1, hb2, htr4, -, hs4⟩, ho4⟩
  refine wp_seq (lowResPass_wp g _ w4) ?_
  rintro _ w7 ⟨hs7, ho7, L, htr7, hL0, hL1⟩
  refine wp_mono (compositeTail_wp _ g w7) ?_ fun _ _ _ => trivial
  rintro _ x ⟨args, htrx, hdx, hsx, hox, hxhi, hxlo⟩
  have hobj : x.objects = w4.objects := hox.trans ho7
  have hfbo : fb = oit := Option.some.inj (hfb.symm.trans ho)
  subst hfbo
  have hxo : x.m_oitFramebuffer = some fb :=
    (congrArg (fun c => c.2.2.2.2.2.1) (hobj.trans ho4)).trans ho
  have h4o : w4.m_oitFramebuffer = some fb :=
    (congrArg (fun c => c.2.2.2.2.2.1) ho4).trans ho
  have hxl : x.m_oitLowResFramebuffer = w4.m_oitLowResFramebuffer :=
    congrArg (fun c => c.2.2.2.2.2.2.1) hobj
  have hxb : x.m_backgroundFramebuffer = p.m_backgroundFramebuffer :=
    congrArg (fun c => c.2.2.2.2.2.2.2.2) (hobj.trans ho4)
  refine ⟨A, fb, d, (p.fb d).texture .DEPTH, depth, blend, L, args, hall, hdraw ▸ hd,
    fun hlt => ?_, hxo, hb1, hb2, ⟨?_, ?_⟩, ?_, hdx.trans hdraw,
    (hsx.trans (hs7.trans hs4)).trans hstack, hxhi, hxlo⟩
  · have hk := hkeep d (w.fb d) ⟨hlt, rfl⟩
    rw [hk.2]
  · intro h0
    exact hL0 (hlo ▸ h0)
  · intro h0
    obtain ⟨gb, src, dst, low, depthLo, blendLo, blendUp, argsU, hg, hlow, c1, c2, c3, c4, hL⟩ :=
      hL1 (hlo ▸ h0)
    refine ⟨gb, src, dst, low, depthLo, blendLo, blendUp, argsU, w4.m_oitLowResDownsampleFactor,
      w4.m_csOctLowResNormalFramebuffer, hg, hxl.trans hlow,
      c1, c2, c3, c4, ?_⟩
    rw [hL, h4o, hlo]
  · have htr4b : w4.trace = p.trace ++
        [.framebufferSet fb .DEPTH ((p.fb d).texture .DEPTH)] ++
        [.blitTo d p.m_backgroundFramebuffer false false false false true] ++
        accumulationEvents fb depth blend p.hiResSurfaces g := htr4
    have hc : (w.classify arr).trace = w.trace := rfl
    rw [htrx, htr7, htr4b, hA, hxb, hhi, hd, hc]
    simp only [oitBodyEvents, List.append_assoc, List.singleton_append, List.cons_append,
      List.nil_append, List.append_nil]

/-- The OIT pass on a non-empty array: what a completed call has done. -/
theorem renderOrderIndependentBlendedSamples_wp (arr : List Surface) (g : Option GBuffer)
    (w : World) (h : arr.length > 0) :
    wp (renderOrderIndependentBlendedSamples arr g)
      (fun _ x => OITBodyRun
        [.call (.renderOrderIndependentBlendedSamples arr g),
          .beginProfilerEvent "DefaultRenderer::renderOrderIndependentBlendedSamples"]
        [.endProfilerEvent] arr g w x)
      (fun _ _ => True) w := by
  unfold renderOrderIndependentBlendedSamples
  rw [wp_bind, wp_emit, wp_bind, wp_emit, if_pos h]
  refine wp_seq (renderOITBody_wp arr g _) ?_
  rintro _ x ⟨A, oit, d, t, depth, blend, L, args, hall, hd, ht, ho, hb1, hb2, hL, htr, hdx,
    hsx, hhi, hlo⟩
  rw [wp_emit]
  refine ⟨A, oit, d, t, depth, blend, L, args, hall, hd, ht, ho, hb1, hb2, hL, ?_, hdx,
    hsx, hhi, hlo⟩
  show x.trace ++ [Event.endProfilerEvent] = _
  rw [htr]
  simp only [List.append_assoc, List.singleton_append, List.cons_append, List.nil_append,
    List.append_nil]
  rfl

theorem List.filterMap_isSome_of_length {α β : Type} (f : α → Option β) :
    ∀ l : List α, (l.filterMap f).length = l.length → ∀ e ∈ l, (f e).isSome = true
  | [], _, e, he => absurd he (List.not_mem_nil e)
  | a :: l, h, e, he => by
      cases hfa : f a with
      | none =>
          rw [List.filterMap_cons_none hfa, List.length_cons] at h
          have := List.length_filterMap_le f l
          omega
      | some b =>
          rw [List.filterMap_cons_some hfa, List.length_cons, List.length_cons] at h
          rcases List.mem_cons.mp he with rfl | h1
          · rw [hfa]
            rfl
          · exact List.filterMap_isSome_of_length f l (Nat.succ.inj h) e h1

theorem Event.isBlendFunc_of_blendConfig (e : Event) (h : e.blendConfig.isSome = true) :
    e.isBlendFunc = true := by
  cases e <;> first | rfl | exact Bool.noConfusion h

/-- The three commands that set the blend configuration are blend commands. -/
theorem blend_isBlendFunc {blend : List Event}
    (h1 : blend.filterMap Event.blendConfig = oitBlendConfiguration) (h2 : blend.length = 3) :
    ∀ e ∈ blend, e.isBlendFunc = true := by
  intro e he
  refine Event.isBlendFunc_of_blendConfig e
    (List.filterMap_isSome_of_length _ blend ?_ e he)
  rw [h1, h2]
  rfl

theorem accumulationEvents_isAccumulation {fb : FbId} {depth : TexId} {blend : List Event}
    {s : List Surface} {g : Option GBuffer} (hb : ∀ e ∈ blend, e.isBlendFunc = true) :
    ∀ e ∈ accumulationEvents fb depth blend s g, e.isAccumulation = true := by
  intro e he
  simp only [accumulationEvents, List.mem_append, List.mem_cons, List.mem_singleton,
    List.not_mem_nil, or_false] at he
  rcases he with ((rfl | rfl | rfl | rfl | rfl | rfl) | h) | rfl | rfl
  any_goals rfl
  have := hb e h
  cases e <;> first | rfl | exact Bool.noConfusion this

theorem upsampleEvents_isUpsample {oit : Option FbId} {blend : List Event} {args : List Arg}
    (hb : ∀ e ∈ blend, e.isBlendFunc = true) :
    ∀ e ∈ upsampleEvents oit blend args, e.isUpsample = true := by
  intro e he
  simp only [upsampleEvents, List.mem_append, List.mem_cons, List.mem_singleton,
    List.not_mem_nil, or_false] at he
  rcases he with (rfl | h) | rfl | rfl
  any_goals rfl
  have := hb e h
  cases e <;> first | rfl | exact Bool.noConfusion this

theorem downsampleEvents_isLowResDownsample {n : Option TexId} {src dst : TexId} {f : Int}
    {fb : Option FbId} :
    ∀ e ∈ downsampleEvents n src dst f fb, e.isLowResDownsample = true := by
  intro e he
  cases n with
  | none =>
      simp only [downsampleEvents, List.mem_append, List.mem_cons, List.mem_singleton,
        List.not_mem_nil, or_false] at he
      rcases he with rfl | rfl <;> rfl
  | some t =>
      simp only [downsampleEvents, List.mem_append, List.mem_cons, List.mem_singleton,
        List.not_mem_nil, or_false] at he
      rcases he with (rfl | rfl) | rfl | rfl | rfl <;> rfl

/-- Every command of the low-resolution path belongs to the downsample, to an
accumulation or to the upsample. -/
theorem LowResPath.classes {lo : List Surface} {g : Option GBuffer} {oit : FbId}
    {low : Option FbId} {L : List Event} (h : LowResPath lo g oit low L) :
    ∀ e ∈ L, (e.isLowResDownsample || e.isAccumulation || e.isUpsample) = true := by
  intro e he
  by_cases h0 : lo.length > 0
  · obtain ⟨gb, src, dst, fb, depth, blend, blendUp, args, factor, normalFb, -, -, c1, c2, c3,
      c4, hL⟩ := h.2 h0
    rw [hL, List.mem_append, List.mem_append] at he
    rcases he with h1 | h1 | h1
    · simp [downsampleEvents_isLowResDownsample e h1]
    · simp [accumulationEvents_isAccumulation (blend_isBlendFunc c1 c2) e h1]
    · simp [upsampleEvents_isUpsample (blend_isBlendFunc c3 c4) e h1]
  · rw [h.1 h0] at he
    exact absurd he (List.not_mem_nil e)

theorem deviceAfter_append (s : Option FbId × List (Option FbId)) (a b : List Event) :
    deviceAfter s (a ++ b) = deviceAfter (deviceAfter s a) b :=
  List.foldl_append _ _ _ _

theorem Event.not_isAccumulationStep_of_isBufferAllocation (e : Event)
    (h : e.isBufferAllocation = true) : e.isAccumulationStep = false := by
  cases e with
  | call m => cases m <;> first | rfl | exact Bool.noConfusion h
  | _ => first | rfl | exact Bool.noConfusion h

theorem Event.not_isCompositeLaunch_of_isBufferAllocation (e : Event)
    (h : e.isBufferAllocation = true) : e.isCompositeLaunch = false := by
  cases e with
  | launchShader f _ => cases f <;> first | rfl | exact Bool.noConfusion h
  | _ => rfl

theorem Event.not_isCompositeLaunch_of_isAccumulation (e : Event)
    (h : e.isAccumulation = true) : e.isCompositeLaunch = false := by
  cases e with
  | launchShader f _ => cases f <;> first | rfl | exact Bool.noConfusion h
  | _ => rfl

theorem Event.not_isCompositeLaunch_of_lowRes (e : Event)
    (h : (e.isLowResDownsample || e.isAccumulation || e.isUpsample) = true) :
    e.isCompositeLaunch = false := by
  cases e with
  | launchShader f _ => cases f <;> first | rfl | exact Bool.noConfusion h
  | _ => rfl

/-- C13: in a completed call of `renderOrderIndependentBlendedSamples` with a non-empty
array, the commands issued are `P`, the blit of the colour of the destination `d` (the
framebuffer bound on entry) into `m_backgroundFramebuffer`, `Q`, the launch of the
compositing shader, `pop2D` and the end of the profiler event, where no accumulation
step is in `P`, no launch of the compositing shader is in `P` or `Q`, the accumulation
of the high-resolution list is in `Q`, and the framebuffer bound after the commands
before the launch is the one bound on entry; the framebuffer bound on return is the one
bound on entry. -/
theorem renderOrderIndependentBlendedSamples_blit_composite (arr : List Surface)
    (g : Option GBuffer) (w : World) (h : arr.length > 0)
    (hr : (renderOrderIndependentBlendedSamples arr g w).1 = .ok ()) :
    ∃ d P Q args,
      w.drawFramebuffer = some d ∧
      (renderOrderIndependentBlendedSamples arr g w).2.trace = w.trace ++
        (P ++ [.blitTo d (renderOrderIndependentBlendedSamples arr g w).2.m_backgroundFramebuffer
            false false false false true] ++ Q ++
          [.launchShader .compositeWeightedBlendedOIT args, .pop2D, .endProfilerEvent]) ∧
      (∀ e ∈ P, e.isAccumulationStep = false) ∧
      (∀ e ∈ P ++ Q, e.isCompositeLaunch = false) ∧
      .forwardShade (w.classify arr).hiResSurfaces g .SINGLE_PASS_UNORDERED_BLENDED_SAMPLES
        .ARBITRARY ∈ Q ∧
      (deviceAfter (w.drawFramebuffer, w.stateStack)
        (P ++ [.blitTo d
          (renderOrderIndependentBlendedSamples arr g w).2.m_backgroundFramebuffer
            false false false false true] ++ Q)).1 = w.drawFramebuffer ∧
      (renderOrderIndependentBlendedSamples arr g w).2.drawFramebuffer = w.drawFramebuffer := by
  obtain ⟨A, oit, d, t, depth, blend, L, args, hall, hd, -, -, hb1, hb2, hL, htr, hdx, -, -, -⟩ :=
    wp_ok_run (renderOrderIndependentBlendedSamples_wp arr g w h) hr
  have hP : ∀ e ∈ [Event.call (.renderOrderIndependentBlendedSamples arr g),
      .beginProfilerEvent "DefaultRenderer::renderOrderIndependentBlendedSamples"] ++ A ++
      [.framebufferSet oit .DEPTH t],
      e.isAccumulationStep = false ∧ e.isCompositeLaunch = false := by
    intro e he
    simp only [List.mem_append, List.mem_cons, List.mem_singleton, List.not_mem_nil,
      or_false] at he
    rcases he with ((rfl | rfl) | he) | rfl
    · exact ⟨rfl, rfl⟩
    · exact ⟨rfl, rfl⟩
    · exact ⟨e.not_isAccumulationStep_of_isBufferAllocation (hall e he),
        e.not_isCompositeLaunch_of_isBufferAllocation (hall e he)⟩
    · exact ⟨rfl, rfl⟩
  refine ⟨d, [.call (.renderOrderIndependentBlendedSamples arr g),
      .beginProfilerEvent "DefaultRenderer::renderOrderIndependentBlendedSamples"] ++ A ++
      [.framebufferSet oit .DEPTH t],
    accumulationEvents oit depth blend (w.classify arr).hiResSurfaces g ++ L ++
      [.setFramebuffer (some d), .push2D none, .setDepthTestAlwaysPass], args, hd, ?_,
    fun e he => (hP e he).1, ?_, ?_, ?_, hdx⟩
  · rw [htr]
    simp only [oitBodyEvents, compositeEvents, List.append_assoc, List.singleton_append,
      List.cons_append, List.nil_append]
  · intro e he
    rw [List.mem_append] at he
    rcases he with he | he
    · exact (hP e he).2
    · simp only [List.mem_append, List.mem_cons, List.mem_singleton, List.not_mem_nil,
        or_false] at he
      rcases he with (he | he) | rfl | rfl | rfl
      · exact e.not_isCompositeLaunch_of_isAccumulation
          (accumulationEvents_isAccumulation (blend_isBlendFunc hb1 hb2) e he)
      · exact e.not_isCompositeLaunch_of_lowRes (hL.classes e he)
      · rfl
      · rfl
      · rfl
  · simp [accumulationEvents]
  · rw [← List.append_assoc, deviceAfter_append, hd]
    rfl

/-- C13, witness: the sample world, the three sample surfaces and the sample GBuffer; the
call completes. -/
theorem renderOrderIndependentBlendedSamples_blit_composite_witness :
    sampleSurfaces.length > 0 ∧
    (renderOrderIndependentBlendedSamples sampleSurfaces (some sampleGBuffer)
      sampleWorld).1 = .ok () ∧
    ∃ d P Q args,
      sampleWorld.drawFramebuffer = some d ∧
      (renderOrderIndependentBlendedSamples sampleSurfaces (some sampleGBuffer)
          sampleWorld).2.trace = sampleWorld.trace ++
        (P ++ [.blitTo d (renderOrderIndependentBlendedSamples sampleSurfaces
            (some sampleGBuffer) sampleWorld).2.m_backgroundFramebuffer
            false false false false true] ++ Q ++
          [.launchShader .compositeWeightedBlendedOIT args, .pop2D, .endProfilerEvent]) ∧
      (∀ e ∈ P, e.isAccumulationStep = false) ∧
      (∀ e ∈ P ++ Q, e.isCompositeLaunch = false) ∧
      .forwardShade (sampleWorld.classify sampleSurfaces).hiResSurfaces (some sampleGBuffer)
        .SINGLE_PASS_UNORDERED_BLENDED_SAMPLES .ARBITRARY ∈ Q ∧
      (deviceAfter (sampleWorld.drawFramebuffer, sampleWorld.stateStack)
        (P ++ [.blitTo d
          (renderOrderIndependentBlendedSamples sampleSurfaces (some sampleGBuffer)
            sampleWorld).2.m_backgroundFramebuffer
            false false false false true] ++ Q)).1 = sampleWorld.drawFramebuffer ∧
      (renderOrderIndependentBlendedSamples sampleSurfaces (some sampleGBuffer)
        sampleWorld).2.drawFramebuffer = sampleWorld.drawFramebuffer :=
  ⟨by decide, rfl,
    renderOrderIndependentBlendedSamples_blit_composite sampleSurfaces (some sampleGBuffer)
      sampleWorld (by decide) rfl⟩

theorem List.filter_eq_nil_of_class {p q : Event → Bool} {l : List Event}
    (hl : ∀ e ∈ l, q e = true) (hq : ∀ e, q e = true → p e = false) : l.filter p = [] := by
  rw [List.filter_eq_nil_iff]
  intro e he
  rw [hq e (hl e he)]
  exact Bool.false_ne_true

theorem accumulationEvents_filter (p : Event → Bool) (fb : FbId) (depth : TexId)
    {blend : List Event} (s : List Surface) (g : Option GBuffer)
    (hb : ∀ e ∈ blend, e.isBlendFunc = true) (hp : ∀ e, e.isBlendFunc = true → p e = false) :
    (accumulationEvents fb depth blend s g).filter p =
      (accumulationEvents fb depth [] s g).filter p := by
  simp only [accumulationEvents, List.filter_append, List.filter_eq_nil_of_class hb hp,
    List.filter_nil]

/-- The commands of a completed OIT pass that satisfy `p`, when `p` holds of no command
of the allocation, of the downsample, of the upsample and of the compositing pass, of no
blend command and of none of the commands of `renderOrderIndependentBlendedSamples`
itself: they are those of the accumulation passes. -/
theorem oitBodyEvents_filter (p : Event → Bool) {A L : List Event} {oit : FbId} (d : FbId)
    (t : Option TexId) (bg : Option FbId) {low : Option FbId} {depth : TexId}
    {blend : List Event} (hi : List Surface) {lo : List Surface} {g : Option GBuffer}
    (args : List Arg) (pre post : List Event)
    (hall : ∀ e ∈ A, e.isBufferAllocation = true)
    (hb1 : blend.filterMap Event.blendConfig = oitBlendConfiguration) (hb2 : blend.length = 3)
    (hL : LowResPath lo g oit low L)
    (hA : ∀ e, e.isBufferAllocation = true → p e = false)
    (hB : ∀ e, e.isBlendFunc = true → p e = false)
    (hD : ∀ e, e.isLowResDownsample = true → p e = false)
    (hU : ∀ e, e.isUpsample = true → p e = false)
    (hC : ∀ e, e.isComposite = true → p e = false)
    (h1 : ∀ e ∈ pre ++ post, p e = false)
    (h2 : ∀ a b c d e f g, p (.blitTo a b c d e f g) = false)
    (h3 : ∀ f, p (.setFramebuffer f) = false) :
    ∃ fb depthLo, (lo.length > 0 → low = some fb) ∧
      (pre ++ (A ++ (oitBodyEvents oit d t bg depth blend hi g L args ++ post))).filter p =
        (accumulationEvents oit depth [] hi g).filter p ++
          if lo.length > 0 then (accumulationEvents fb depthLo [] lo g).filter p else [] := by
  have hpre : pre.filter p = [] := by
    rw [List.filter_eq_nil_iff]
    intro e he
    rw [h1 e (List.mem_append_left _ he)]
    exact Bool.false_ne_true
  have hpost : post.filter p = [] := by
    rw [List.filter_eq_nil_iff]
    intro e he
    rw [h1 e (List.mem_append_right _ he)]
    exact Bool.false_ne_true
  have hcomp : (compositeEvents args).filter p = [] :=
    List.filter_eq_nil_of_class (q := Event.isComposite)
      (by intro e he
          simp only [compositeEvents, List.mem_cons, List.mem_singleton, List.not_mem_nil,
            or_false] at he
          rcases he with rfl | rfl | rfl | rfl <;> rfl) hC
  have hset : p (.framebufferSet oit .DEPTH t) = false := hA _ rfl
  have hhead :
      (pre ++ (A ++ (oitBodyEvents oit d t bg depth blend hi g L args ++ post))).filter p =
        (accumulationEvents oit depth [] hi g).filter p ++ L.filter p := by
    simp only [oitBodyEvents, List.filter_append, hpre, hpost, hcomp,
      List.filter_eq_nil_of_class hall hA, List.filter_cons, hset, h2, h3, List.filter_nil,
      accumulationEvents_filter p oit depth hi g (blend_isBlendFunc hb1 hb2) hB,
      List.nil_append, List.append_nil, Bool.false_eq_true, if_false]
  rw [hhead]
  by_cases h0 : lo.length > 0
  · obtain ⟨gb, src, dst, fb, depthLo, blendLo, blendUp, argsU, factor, normalFb, -, hlow, c1,
      c2, c3, c4, hLe⟩ := hL.2 h0
    refine ⟨fb, depthLo, fun _ => hlow, ?_⟩
    rw [if_pos h0, hLe, List.filter_append, List.filter_append,
      List.filter_eq_nil_of_class downsampleEvents_isLowResDownsample hD,
      List.filter_eq_nil_of_class (upsampleEvents_isUpsample (blend_isBlendFunc c3 c4)) hU,
      accumulationEvents_filter p fb depthLo lo g (blend_isBlendFunc c1 c2) hB,
      List.nil_append, List.append_nil]
  · refine ⟨0, 0, fun h => absurd h h0, ?_⟩
    rw [if_neg h0, hL.1 h0, List.filter_nil]

/-- C18: in a completed call of `renderOrderIndependentBlendedSamples` with a non-empty
array the commands issued are those of the entry, the allocation commands `A`, the share
of the depth, the blit, the accumulation of `hiResSurfaces` into `m_oitFramebuffer`, the
commands `L` of the low-resolution path, the rebind of the destination, the compositing
pass and the end of the profiler event. `L` is empty when `loResSurfaces` is empty and
otherwise is `computeLowResDepthAndNormals`, the accumulation of `loResSurfaces` into
`m_oitLowResFramebuffer` and the upsample pass into `m_oitFramebuffer`: `push2D`, three
blend commands, the launch of the shader, `pop2D`. The accumulation steps of the call are
the one over `hiResSurfaces`, whatever the list holds, and then the one over
`loResSurfaces` when that list is not empty. -/
theorem renderOrderIndependentBlendedSamples_lowRes_path (arr : List Surface)
    (g : Option GBuffer) (w : World) (h : arr.length > 0)
    (hr : (renderOrderIndependentBlendedSamples arr g w).1 = .ok ()) :
    ∃ E A oit d t depth blend L args low,
      (renderOrderIndependentBlendedSamples arr g w).2.trace = w.trace ++ E ∧
      E = [.call (.renderOrderIndependentBlendedSamples arr g),
          .beginProfilerEvent "DefaultRenderer::renderOrderIndependentBlendedSamples"] ++
        (A ++ (oitBodyEvents oit d t
          (renderOrderIndependentBlendedSamples arr g w).2.m_backgroundFramebuffer depth blend
          (w.classify arr).hiResSurfaces g L args ++ [.endProfilerEvent])) ∧
      (∀ e ∈ A, e.isBufferAllocation = true) ∧
      (renderOrderIndependentBlendedSamples arr g w).2.m_oitFramebuffer = some oit ∧
      LowResPath (w.classify arr).loResSurfaces g oit
        (renderOrderIndependentBlendedSamples arr g w).2.m_oitLowResFramebuffer L ∧
      ((w.classify arr).loResSurfaces.length > 0 →
        (renderOrderIndependentBlendedSamples arr g w).2.m_oitLowResFramebuffer = some low) ∧
      E.filter Event.isAccumulationStep =
        [.call (.clearAndRenderToOITFramebuffer (some oit) (w.classify arr).hiResSurfaces),
         .forwardShade (w.classify arr).hiResSurfaces g
           .SINGLE_PASS_UNORDERED_BLENDED_SAMPLES .ARBITRARY] ++
        if (w.classify arr).loResSurfaces.length > 0 then
          [.call (.clearAndRenderToOITFramebuffer (some low) (w.classify arr).loResSurfaces),
           .forwardShade (w.classify arr).loResSurfaces g
             .SINGLE_PASS_UNORDERED_BLENDED_SAMPLES .ARBITRARY]
        else [] := by
  obtain ⟨A, oit, d, t, depth, blend, L, args, hall, -, -, ho, hb1, hb2, hL, htr, -, -, -, -⟩ :=
    wp_ok_run (renderOrderIndependentBlendedSamples_wp arr g w h) hr
  obtain ⟨low, depthLo, hlow, hf⟩ := oitBodyEvents_filter Event.isAccumulationStep d t
    (renderOrderIndependentBlendedSamples arr g w).2.m_backgroundFramebuffer
    (w.classify arr).hiResSurfaces args
    [.call (.renderOrderIndependentBlendedSamples arr g),
      .beginProfilerEvent "DefaultRenderer::renderOrderIndependentBlendedSamples"]
    [.endProfilerEvent] hall hb1 hb2 hL
    Event.not_isAccumulationStep_of_isBufferAllocation
    (fun e he => by cases e <;> first | rfl | exact Bool.noConfusion he)
    (fun e he => by
      cases e with
      | call m => cases m <;> first | rfl | exact Bool.noConfusion he
      | _ => first | rfl | exact Bool.noConfusion he)
    (fun e he => by cases e <;> first | rfl | exact Bool.noConfusion he)
    (fun e he => by cases e <;> first | rfl | exact Bool.noConfusion he)
    (fun e he => by
      simp only [List.mem_append, List.mem_cons, List.mem_singleton, List.not_mem_nil,
        or_false] at he
      rcases he with (rfl | rfl) | rfl <;> rfl)
    (fun _ _ _ _ _ _ _ => rfl) (fun _ => rfl)
  exact ⟨_, A, oit, d, t, depth, blend, L, args, low, htr, rfl, hall, ho, hL, hlow, hf⟩

/-- C18, witness: the sample world, the three sample surfaces, two of which go to the
low-resolution list, and the sample GBuffer; the call completes. -/
theorem renderOrderIndependentBlendedSamples_lowRes_path_witness :
    sampleSurfaces.length > 0 ∧
    (renderOrderIndependentBlendedSamples sampleSurfaces (some sampleGBuffer)
      sampleWorld).1 = .ok () ∧
    (sampleWorld.classify sampleSurfaces).loResSurfaces = [⟨1, true⟩, ⟨3, true⟩] ∧
    ∃ E A oit d t depth blend L args low,
      (renderOrderIndependentBlendedSamples sampleSurfaces (some sampleGBuffer)
        sampleWorld).2.trace = sampleWorld.trace ++ E ∧
      E = [.call (.renderOrderIndependentBlendedSamples sampleSurfaces (some sampleGBuffer)),
          .beginProfilerEvent "DefaultRenderer::renderOrderIndependentBlendedSamples"] ++
        (A ++ (oitBodyEvents oit d t
          (renderOrderIndependentBlendedSamples sampleSurfaces (some sampleGBuffer)
            sampleWorld).2.m_backgroundFramebuffer depth blend
          (sampleWorld.classify sampleSurfaces).hiResSurfaces (some sampleGBuffer) L args ++
            [.endProfilerEvent])) ∧
      (∀ e ∈ A, e.isBufferAllocation = true) ∧
      (renderOrderIndependentBlendedSamples sampleSurfaces (some sampleGBuffer)
        sampleWorld).2.m_oitFramebuffer = some oit ∧
      LowResPath (sampleWorld.classify sampleSurfaces).loResSurfaces (some sampleGBuffer) oit
        (renderOrderIndependentBlendedSamples sampleSurfaces (some sampleGBuffer)
          sampleWorld).2.m_oitLowResFramebuffer L ∧
      ((sampleWorld.classify sampleSurfaces).loResSurfaces.length > 0 →
        (renderOrderIndependentBlendedSamples sampleSurfaces (some sampleGBuffer)
          sampleWorld).2.m_oitLowResFramebuffer = some low) ∧
      E.filter Event.isAccumulationStep =
        [.call (.clearAndRenderToOITFramebuffer (some oit)
           (sampleWorld.classify sampleSurfaces).hiResSurfaces),
         .forwardShade (sampleWorld.classify sampleSurfaces).hiResSurfaces
           (some sampleGBuffer) .SINGLE_PASS_UNORDERED_BLENDED_SAMPLES .ARBITRARY] ++
        if (sampleWorld.classify sampleSurfaces).loResSurfaces.length > 0 then
          [.call (.clearAndRenderToOITFramebuffer (some low)
             (sampleWorld.classify sampleSurfaces).loResSurfaces),
           .forwardShade (sampleWorld.classify sampleSurfaces).loResSurfaces
             (some sampleGBuffer) .SINGLE_PASS_UNORDERED_BLENDED_SAMPLES .ARBITRARY]
        else [] :=
  ⟨by decide, rfl, by decide,
    renderOrderIndependentBlendedSamples_lowRes_path sampleSurfaces (some sampleGBuffer)
      sampleWorld (by decide) rfl⟩

/-- C19: in a completed call of `renderOrderIndependentBlendedSamples` with a non-empty
array the commands issued are `P`, the command that sets the DEPTH attachment of
`m_oitFramebuffer` to `t`, and `Q`, where `t` is the DEPTH attachment that the
framebuffer bound on entry had on entry and no accumulation step is in `P`. The clears of
the call are one `clearFramebuffer(true, false)` in each accumulation pass, between its
entry and its draw: the one over `hiResSurfaces` and, when `loResSurfaces` is not empty,
the one over `loResSurfaces`. -/
theorem renderOrderIndependentBlendedSamples_shares_depth (arr : List Surface)
    (g : Option GBuffer) (w : World) (h : arr.length > 0)
    (hr : (renderOrderIndependentBlendedSamples arr g w).1 = .ok ()) :
    ∃ oit d t P Q low,
      w.drawFramebuffer = some d ∧
      (renderOrderIndependentBlendedSamples arr g w).2.m_oitFramebuffer = some oit ∧
      (d < w.framebuffers.length → t = (w.fb d).texture .DEPTH) ∧
      (renderOrderIndependentBlendedSamples arr g w).2.trace =
        w.trace ++ (P ++ [.framebufferSet oit .DEPTH t] ++ Q) ∧
      (∀ e ∈ P, e.isAccumulationStep = false) ∧
      ((w.classify arr).loResSurfaces.length > 0 →
        (renderOrderIndependentBlendedSamples arr g w).2.m_oitLowResFramebuffer = some low) ∧
      (P ++ [.framebufferSet oit .DEPTH t] ++ Q).filter
          (fun e => e.isClear || e.isAccumulationStep) =
        [.call (.clearAndRenderToOITFramebuffer (some oit) (w.classify arr).hiResSurfaces),
         .clearFramebuffer true false,
         .forwardShade (w.classify arr).hiResSurfaces g
           .SINGLE_PASS_UNORDERED_BLENDED_SAMPLES .ARBITRARY] ++
        if (w.classify arr).loResSurfaces.length > 0 then
          [.call (.clearAndRenderToOITFramebuffer (some low) (w.classify arr).loResSurfaces),
           .clearFramebuffer true false,
           .forwardShade (w.classify arr).loResSurfaces g
             .SINGLE_PASS_UNORDERED_BLENDED_SAMPLES .ARBITRARY]
        else [] := by
  obtain ⟨A, oit, d, t, depth, blend, L, args, hall, hd, ht, ho, hb1, hb2, hL, htr, -, -, -, -⟩ :=
    wp_ok_run (renderOrderIndependentBlendedSamples_wp arr g w h) hr
  obtain ⟨low, depthLo, hlow, hf⟩ := oitBodyEvents_filter
    (fun e => e.isClear || e.isAccumulationStep) d t
    (renderOrderIndependentBlendedSamples arr g w).2.m_backgroundFramebuffer
    (w.classify arr).hiResSurfaces args
    [.call (.renderOrderIndependentBlendedSamples arr g),
      .beginProfilerEvent "DefaultRenderer::renderOrderIndependentBlendedSamples"]
    [.endProfilerEvent] hall hb1 hb2 hL
    (fun e he => by
      cases e with
      | call m => cases m <;> first | rfl | exact Bool.noConfusion he
      | _ => first | rfl | exact Bool.noConfusion he)
    (fun e he => by cases e <;> first | rfl | exact Bool.noConfusion he)
    (fun e he => by
      cases e with
      | call m => cases m <;> first | rfl | exact Bool.noConfusion he
      | _ => first | rfl | exact Bool.noConfusion he)
    (fun e he => by cases e <;> first | rfl | exact Bool.noConfusion he)
    (fun e he => by cases e <;> first | rfl | exact Bool.noConfusion he)
    (fun e he => by
      simp only [List.mem_append, List.mem_cons, List.mem_singleton, List.not_mem_nil,
        or_false] at he
      rcases he with (rfl | rfl) | rfl <;> rfl)
    (fun _ _ _ _ _ _ _ => rfl) (fun _ => rfl)
  have hE : [Event.call (.renderOrderIndependentBlendedSamples arr g),
        .beginProfilerEvent "DefaultRenderer::renderOrderIndependentBlendedSamples"] ++ A ++
      [.framebufferSet oit .DEPTH t] ++
      ([.blitTo d (renderOrderIndependentBlendedSamples arr g w).2.m_backgroundFramebuffer
          false false false false true] ++
        (accumulationEvents oit depth blend (w.classify arr).hiResSurfaces g ++
          (L ++ ([.setFramebuffer (some d)] ++ compositeEvents args))) ++
        [.endProfilerEvent]) =
      [.call (.renderOrderIndependentBlendedSamples arr g),
        .beginProfilerEvent "DefaultRenderer::renderOrderIndependentBlendedSamples"] ++
      (A ++ (oitBodyEvents oit d t
        (renderOrderIndependentBlendedSamples arr g w).2.m_backgroundFramebuffer depth blend
        (w.classify arr).hiResSurfaces g L args ++ [.endProfilerEvent])) := by
    simp only [oitBodyEvents, List.append_assoc, List.singleton_append, List.cons_append,
      List.nil_append]
  refine ⟨oit, d, t, _, _, low, hd, ho, ht, htr.trans (congrArg _ hE.symm), ?_, hlow,
    (congrArg _ hE).trans hf⟩
  intro e he
  simp only [List.mem_append, List.mem_cons, List.mem_singleton, List.not_mem_nil,
    or_false] at he
  rcases he with (rfl | rfl) | he
  · rfl
  · rfl
  · exact e.not_isAccumulationStep_of_isBufferAllocation (hall e he)

/-- C19, witness: the sample world, whose bound framebuffer 0 has the depth texture 1, the
three sample surfaces and the sample GBuffer; the call completes. -/
theorem renderOrderIndependentBlendedSamples_shares_depth_witness :
    sampleSurfaces.length > 0 ∧
    (renderOrderIndependentBlendedSamples sampleSurfaces (some sampleGBuffer)
      sampleWorld).1 = .ok () ∧
    sampleWorld.drawFramebuffer = some 0 ∧ 0 < sampleWorld.framebuffers.length ∧
    (sampleWorld.fb 0).texture .DEPTH = some 1 ∧
    ∃ oit d t P Q low,
      sampleWorld.drawFramebuffer = some d ∧
      (renderOrderIndependentBlendedSamples sampleSurfaces (some sampleGBuffer)
        sampleWorld).2.m_oitFramebuffer = some oit ∧
      (d < sampleWorld.framebuffers.length → t = (sampleWorld.fb d).texture .DEPTH) ∧
      (renderOrderIndependentBlendedSamples sampleSurfaces (some sampleGBuffer)
          sampleWorld).2.trace =
        sampleWorld.trace ++ (P ++ [.framebufferSet oit .DEPTH t] ++ Q) ∧
      (∀ e ∈ P, e.isAccumulationStep = false) ∧
      ((sampleWorld.classify sampleSurfaces).loResSurfaces.length > 0 →
        (renderOrderIndependentBlendedSamples sampleSurfaces (some sampleGBuffer)
          sampleWorld).2.m_oitLowResFramebuffer = some low) ∧
      (P ++ [.framebufferSet oit .DEPTH t] ++ Q).filter
          (fun e => e.isClear || e.isAccumulationStep) =
        [.call (.clearAndRenderToOITFramebuffer (some oit)
           (sampleWorld.classify sampleSurfaces).hiResSurfaces),
         .clearFramebuffer true false,
         .forwardShade (sampleWorld.classify sampleSurfaces).hiResSurfaces
           (some sampleGBuffer) .SINGLE_PASS_UNORDERED_BLENDED_SAMPLES .ARBITRARY] ++
        if (sampleWorld.classify sampleSurfaces).loResSurfaces.length > 0 then
          [.call (.clearAndRenderToOITFramebuffer (some low)
             (sampleWorld.classify sampleSurfaces).loResSurfaces),
           .clearFramebuffer true false,
           .forwardShade (sampleWorld.classify sampleSurfaces).loResSurfaces
             (some sampleGBuffer) .SINGLE_PASS_UNORDERED_BLENDED_SAMPLES .ARBITRARY]
        else [] :=
  ⟨by decide, rfl, rfl, by decide, rfl,
    renderOrderIndependentBlendedSamples_shares_depth sampleSurfaces (some sampleGBuffer)
      sampleWorld (by decide) rfl⟩

/-- C17: a completed call of `clearAndRenderToOITFramebuffer` on the framebuffer `o`
issues the commands of an accumulation pass, and a completed upsample pass those of an
upsample pass into `m_oitFramebuffer`, where in each the three blend commands that stand
between the bind (`pushState`, `push2D`) and the draw set the configuration of the
specification: COLOR0 and COLOR2 additive, COLOR1 with zero and one-minus-source-colour
for RGB and one and one for alpha, all with the equation ADD. The configuration of the
upsample pass is that of the accumulation pass. -/
theorem oit_blend_configuration (o : Option FbId) (s : List Surface) (g : Option GBuffer)
    (w : World) (g2 : Option GBuffer) (w2 : World)
    (h1 : (clearAndRenderToOITFramebuffer o s g w).1 = .ok ())
    (h2 : (upsampleLowResOIT g2 w2).1 = .ok ()) :
    ∃ fb depth blend blendUp args,
      o = some fb ∧
      (clearAndRenderToOITFramebuffer o s g w).2.trace =
        w.trace ++ accumulationEvents fb depth blend s g ∧
      (upsampleLowResOIT g2 w2).2.trace =
        w2.trace ++ upsampleEvents w2.m_oitFramebuffer blendUp args ∧
      blend.length = 3 ∧ blendUp.length = 3 ∧
      blend.filterMap Event.blendConfig = oitBlendConfiguration ∧
      blendUp.filterMap Event.blendConfig = oitBlendConfiguration ∧
      blendUp.filterMap Event.blendConfig = blend.filterMap Event.blendConfig := by
  obtain ⟨fb, depth, blend, ho, -, hb1, hb2, htr, -, -⟩ :=
    wp_ok_run (clearAndRenderToOITFramebuffer_wp o s g w) h1
  obtain ⟨blendUp, args, hu1, hu2, htru, -, -⟩ := wp_ok_run (upsampleLowResOIT_wp g2 w2) h2
  exact ⟨fb, depth, blend, blendUp, args, ho, htr, htru, hb2, hu2, hb1, hu1, hu1.trans hb1.symm⟩

/-- C17, witness: in the sample world after an OIT pass, an accumulation of the sample
surfaces into `m_oitFramebuffer` and an upsample pass both complete. -/
theorem oit_blend_configuration_witness :
    (clearAndRenderToOITFramebuffer sampleWorldAfterOIT.m_oitFramebuffer sampleSurfaces
      (some sampleGBuffer) sampleWorldAfterOIT).1 = .ok () ∧
    (upsampleLowResOIT (some sampleGBuffer) sampleWorldAfterOIT).1 = .ok () ∧
    ∃ fb depth blend blendUp args,
      sampleWorldAfterOIT.m_oitFramebuffer = some fb ∧
      (clearAndRenderToOITFramebuffer sampleWorldAfterOIT.m_oitFramebuffer sampleSurfaces
          (some sampleGBuffer) sampleWorldAfterOIT).2.trace =
        sampleWorldAfterOIT.trace ++
          accumulationEvents fb depth blend sampleSurfaces (some sampleGBuffer) ∧
      (upsampleLowResOIT (some sampleGBuffer) sampleWorldAfterOIT).2.trace =
        sampleWorldAfterOIT.trace ++
          upsampleEvents sampleWorldAfterOIT.m_oitFramebuffer blendUp args ∧
      blend.length = 3 ∧ blendUp.length = 3 ∧
      blend.filterMap Event.blendConfig = oitBlendConfiguration ∧
      blendUp.filterMap Event.blendConfig = oitBlendConfiguration ∧
      blendUp.filterMap Event.blendConfig = blend.filterMap Event.blendConfig :=
  ⟨rfl, rfl,
    oit_blend_configuration sampleWorldAfterOIT.m_oitFramebuffer sampleSurfaces
      (some sampleGBuffer) sampleWorldAfterOIT (some sampleGBuffer) sampleWorldAfterOIT rfl rfl⟩

/-- What `allocateOITFramebufferAttachments` does to the framebuffer it is given and to
the textures. -/
theorem allocateOITFramebufferAttachments_attachments (fb : FbId) (a b : Int) (hp : Bool)
    (w : World) (hfb : fb < w.framebuffers.length) :
    (allocateOITFramebufferAttachments fb a b hp w).1 = .ok () ∧
    (allocateOITFramebufferAttachments fb a b hp w).2.textures.length =
      w.textures.length + 3 ∧
    (∀ t, t < w.textures.length →
      (allocateOITFramebufferAttachments fb a b hp w).2.tex t = w.tex t) ∧
    (∀ ap, ((allocateOITFramebufferAttachments fb a b hp w).2.fb fb).texture ap =
      if ap = .COLOR0 then some w.textures.length
      else if ap = .COLOR1 then some (w.textures.length + 1)
      else if ap = .COLOR2 then some (w.textures.length + 2)
      else (w.fb fb).texture ap) ∧
    (∀ j, j ≠ fb → (allocateOITFramebufferAttachments fb a b hp w).2.fb j = w.fb j) ∧
    (∀ i : Nat, i < 3 →
      ((allocateOITFramebufferAttachments fb a b hp w).2.tex (w.textures.length + i)).width = a ∧
      ((allocateOITFramebufferAttachments fb a b hp w).2.tex
        (w.textures.length + i)).height = b) ∧
    ((allocateOITFramebufferAttachments fb a b hp w).2.fb fb).clearValue .COLOR0 =
      some Color4.zero ∧
    ((allocateOITFramebufferAttachments fb a b hp w).2.fb fb).clearValue .COLOR1 =
      some ⟨1, 1, 1, 0⟩ ∧
    ((allocateOITFramebufferAttachments fb a b hp w).2.fb fb).clearValue .COLOR2 =
      some Color4.zero := by
  have hfbs := allocateOITFramebufferAttachments_fb fb a b hp w hfb
  obtain ⟨t0, t1, t2, t3⟩ := allocateOITFramebufferAttachments_tex fb a b hp w
  refine ⟨rfl, ?_, t0, ?_, ?_, ?_, ?_, ?_, ?_⟩
  · rw [allocateOITFramebufferAttachments_textures]
    simp
  · intro ap
    rw [hfbs fb, if_pos rfl]
    cases ap <;> rfl
  · intro j hj
    rw [hfbs j, if_neg (Ne.symm hj)]
  · intro i hi
    have : i = 0 ∨ i = 1 ∨ i = 2 := by omega
    rcases this with rfl | rfl | rfl
    · rw [Nat.add_zero, t1]
      exact ⟨rfl, rfl⟩
    · rw [t2]
      exact ⟨rfl, rfl⟩
    · rw [t3]
      exact ⟨rfl, rfl⟩
  · rw [hfbs fb, if_pos rfl]
    simp [Framebuffer.clearValue, Framebuffer.setClearValue, Framebuffer.set, List.find?,
      List.filter]
  · rw [hfbs fb, if_pos rfl]
    simp [Framebuffer.clearValue, Framebuffer.setClearValue, Framebuffer.set, List.find?,
      List.filter]
  · rw [hfbs fb, if_pos rfl]
    simp [Framebuffer.clearValue, Framebuffer.setClearValue, Framebuffer.set, List.find?,
      List.filter]

theorem wp_of_ok {α : Type} {m : Exec α} {Q : α → World → Prop} {E : Fault → World → Prop}
    {w : World} {a : α} (h : (m w).1 = .ok a) : wp m Q E w ↔ Q a (m w).2 := by
  unfold wp
  rcases hm : m w with ⟨o, w1⟩
  rw [hm] at h
  cases h
  exact Iff.rfl

theorem wp_create (n : FramebufferName) (Q : FbId → World → Prop) (E : Fault → World → Prop)
    (w : World) :
    wp (Framebuffer.create n) Q E w ↔ Q w.framebuffers.length (Framebuffer.create n w).2 :=
  Iff.rfl

theorem wp_allocateOITFramebufferAttachments (fb : FbId) (a b : Int) (hp : Bool)
    (Q : Unit → World → Prop) (E : Fault → World → Prop) (w : World) :
    wp (allocateOITFramebufferAttachments fb a b hp) Q E w ↔
      Q () (allocateOITFramebufferAttachments fb a b hp w).2 :=
  Iff.rfl

theorem allocateOITFramebufferAttachments_length (fb : FbId) (a b : Int) (hp : Bool)
    (w : World) :
    (allocateOITFramebufferAttachments fb a b hp w).2.framebuffers.length =
      w.framebuffers.length := by
  simp only [allocateOITFramebufferAttachments, Exec.bind_run, emit, Texture.createEmpty,
      framebufferSet, framebufferSetClearValue, modifyWorld, World.setFb, World.setTex,
      List.length_set]

theorem attachmentEvents_filter (fb : FbId) (a b : Int) (hp : Bool) (t : TexId) :
    (attachmentEvents fb a b hp t).filter Event.isAttachmentAllocation =
      [.call (.allocateOITFramebufferAttachments fb a b hp)] := rfl

theorem traceSince_attachments {t0 S : List Event} {w : World} {fb n : FbId} (a b : Int)
    (hp : Bool) (h : TraceSince t0 Event.isAttachmentAllocation S w) (hn : fb = n) :
    TraceSince t0 Event.isAttachmentAllocation
      (S ++ [.call (.allocateOITFramebufferAttachments n a b hp)])
      (allocateOITFramebufferAttachments fb a b hp w).2 := by
  subst hn
  obtain ⟨evs, h1, h2⟩ := h
  refine ⟨evs ++ attachmentEvents fb a b hp w.textures.length, ?_, ?_⟩
  · rw [allocateOITFramebufferAttachments_events, h1, List.append_assoc]
  · rw [List.filter_append, h2, attachmentEvents_filter]

theorem allocateAllOITBuffers_attachments (hp : Bool) (w : World)
    (hf : w.m_oitLowResDownsampleFactor ≠ 0) :
    (allocateAllOITBuffers hp w).2.m_oitFramebuffer = some w.framebuffers.length ∧
    (allocateAllOITBuffers hp w).2.m_oitLowResFramebuffer = some (w.framebuffers.length + 1) ∧
    TraceSince w.trace Event.isAttachmentAllocation
      [.call (.allocateOITFramebufferAttachments w.framebuffers.length w.rdWidth w.rdHeight hp),
       .call (.allocateOITFramebufferAttachments (w.framebuffers.length + 1)
         (Int.tdiv w.rdWidth w.m_oitLowResDownsampleFactor)
         (Int.tdiv w.rdHeight w.m_oitLowResDownsampleFactor) hp)]
      (allocateAllOITBuffers hp w).2 := by
  refine (wp_snd (allocateAllOITBuffers hp) (fun x =>
    x.m_oitFramebuffer = some w.framebuffers.length ∧
    x.m_oitLowResFramebuffer = some (w.framebuffers.length + 1) ∧
    TraceSince w.trace Event.isAttachmentAllocation
      [.call (.allocateOITFramebufferAttachments w.framebuffers.length w.rdWidth w.rdHeight hp),
       .call (.allocateOITFramebufferAttachments (w.framebuffers.length + 1)
         (Int.tdiv w.rdWidth w.m_oitLowResDownsampleFactor)
         (Int.tdiv w.rdHeight w.m_oitLowResDownsampleFactor) hp)] x) w).mp ?_
  unfold allocateAllOITBuffers
  rw [wp_bind, wp_emit, wp_bind, wp_getWorld, wp_bind, wp_intDiv]
  refine ⟨fun h0 => absurd h0 hf, fun _ => ?_⟩
  rw [wp_bind, wp_intDiv]
  refine ⟨fun h0 => absurd h0 hf, fun _ => ?_⟩
  rw [wp_bind, wp_create, wp_bind, wp_modifyWorld, wp_bind,
    wp_allocateOITFramebufferAttachments, wp_bind, wp_create, wp_bind, wp_modifyWorld, wp_bind,
    wp_allocateOITFramebufferAttachments]
  refine wp_of_preserves ?hm ?hw (fun _ _ h => h) (fun _ _ h => h)
  case hm =>
    refine Exec.Preserves.and_pres ?_ (Exec.Preserves.and_pres ?_ ?_)
    · unfold Framebuffer.createFromTexture
      repeat' first
        | with_reducible apply Exec.Preserves.bind_pres
        | with_reducible apply Exec.Preserves.getWorld_pres
        | with_reducible apply Exec.Preserves.deref_pres
        | with_reducible apply Exec.Preserves.pure_pres
        | intro _
        | exact Exec.Preserves.of_proj fun _ => rfl
    · unfold Framebuffer.createFromTexture
      repeat' first
        | with_reducible apply Exec.Preserves.bind_pres
        | with_reducible apply Exec.Preserves.getWorld_pres
        | with_reducible apply Exec.Preserves.deref_pres
        | with_reducible apply Exec.Preserves.pure_pres
        | intro _
        | exact Exec.Preserves.of_proj fun _ => rfl
    · unfold Framebuffer.createFromTexture
      repeat' first
        | with_reducible apply Exec.Preserves.bind_pres
        | with_reducible apply Exec.Preserves.getWorld_pres
        | with_reducible apply Exec.Preserves.deref_pres
        | with_reducible apply Exec.Preserves.pure_pres
        | intro _
        | exact traceSince_step fun w => ⟨_, rfl, rfl⟩
        | exact traceSince_of_trace fun _ => rfl
  case hw =>
    refine ⟨rfl, ?_, ?_⟩
    · show some (allocateOITFramebufferAttachments _ _ _ _ _).2.framebuffers.length = _
      rw [allocateOITFramebufferAttachments_length]
      show some (w.framebuffers ++ [_]).length = _
      rw [List.length_append]
      rfl
    · refine traceSince_attachments (S := [_]) _ _ hp ?_ ?_
      · refine (traceSince_step (m := Framebuffer.create _) fun w => ⟨_, rfl, rfl⟩).run _ ?_
        refine traceSince_attachments (S := []) _ _ hp ?_ rfl
        refine (traceSince_step (m := Framebuffer.create _) fun w => ⟨_, rfl, rfl⟩).run _ ?_
        exact ⟨[.call (.allocateAllOITBuffers hp)], rfl, rfl⟩
      · rw [allocateOITFramebufferAttachments_length]
        show (w.framebuffers ++ [_]).length = _
        rw [List.length_append]
        rfl

/-- C20: on an existing framebuffer `fb`, `allocateOITFramebufferAttachments` completes; it
creates three textures, the textures there were staying as they were; the attachments of
`fb` at COLOR0, COLOR1 and COLOR2 are the three new textures and its other attachments
are unchanged, as are the other framebuffers; each of the three textures is `a` wide and
`b` high; the clear values of `fb` are (0,0,0,0) for COLOR0, (1,1,1,0) for COLOR1 and
(0,0,0,0) for COLOR2. With a downsample factor other than 0, `allocateAllOITBuffers`
enters `allocateOITFramebufferAttachments` twice: for the new framebuffer that
`m_oitFramebuffer` is, with the size of the device, and for the new framebuffer that
`m_oitLowResFramebuffer` is, with the size of the device divided by the factor, both
with the value of `highPrecision` it was given. -/
theorem allocateOITFramebufferAttachments_three_attachments (fb : FbId) (a b : Int)
    (hp : Bool) (w : World) (hfb : fb < w.framebuffers.length)
    (hf : w.m_oitLowResDownsampleFactor ≠ 0) :
    ((allocateOITFramebufferAttachments fb a b hp w).1 = .ok () ∧
    (allocateOITFramebufferAttachments fb a b hp w).2.textures.length =
      w.textures.length + 3 ∧
    (∀ t, t < w.textures.length →
      (allocateOITFramebufferAttachments fb a b hp w).2.tex t = w.tex t) ∧
    (∀ ap, ((allocateOITFramebufferAttachments fb a b hp w).2.fb fb).texture ap =
      if ap = .COLOR0 then some w.textures.length
      else if ap = .COLOR1 then some (w.textures.length + 1)
      else if ap = .COLOR2 then some (w.textures.length + 2)
      else (w.fb fb).texture ap) ∧
    (∀ j, j ≠ fb → (allocateOITFramebufferAttachments fb a b hp w).2.fb j = w.fb j) ∧
    (∀ i : Nat, i < 3 →
      ((allocateOITFramebufferAttachments fb a b hp w).2.tex (w.textures.length + i)).width = a ∧
      ((allocateOITFramebufferAttachments fb a b hp w).2.tex
        (w.textures.length + i)).height = b) ∧
    ((allocateOITFramebufferAttachments fb a b hp w).2.fb fb).clearValue .COLOR0 =
      some Color4.zero ∧
    ((allocateOITFramebufferAttachments fb a b hp w).2.fb fb).clearValue .COLOR1 =
      some ⟨1, 1, 1, 0⟩ ∧
    ((allocateOITFramebufferAttachments fb a b hp w).2.fb fb).clearValue .COLOR2 =
      some Color4.zero) ∧
    (allocateAllOITBuffers hp w).2.m_oitFramebuffer = some w.framebuffers.length ∧
    (allocateAllOITBuffers hp w).2.m_oitLowResFramebuffer = some (w.framebuffers.length + 1) ∧
    ((allocateAllOITBuffers hp w).2.eventsSince w.trace.length).filter
        Event.isAttachmentAllocation =
      [.call (.allocateOITFramebufferAttachments w.framebuffers.length w.rdWidth w.rdHeight hp),
       .call (.allocateOITFramebufferAttachments (w.framebuffers.length + 1)
         (Int.tdiv w.rdWidth w.m_oitLowResDownsampleFactor)
         (Int.tdiv w.rdHeight w.m_oitLowResDownsampleFactor) hp)] := by
  obtain ⟨h1, h2, h3⟩ := allocateAllOITBuffers_attachments hp w hf
  exact ⟨allocateOITFramebufferAttachments_attachments fb a b hp w hfb, h1, h2,
    (World.eventsSince_of_traceSince h3).2⟩

/-- C20, witness: the framebuffer 0 of the sample world, 8 by 6 texels, low precision;
the sample world has the downsample factor 4 and a device of 640 by 480. -/
theorem allocateOITFramebufferAttachments_three_attachments_witness :
    (0 : FbId) < sampleWorld.framebuffers.length ∧
    sampleWorld.m_oitLowResDownsampleFactor ≠ 0 ∧
    (sampleWorld.rdWidth, sampleWorld.rdHeight, sampleWorld.m_oitLowResDownsampleFactor) =
      (640, 480, 4) ∧
    ((allocateOITFramebufferAttachments 0 8 6 false sampleWorld).1 = .ok () ∧
    (allocateOITFramebufferAttachments 0 8 6 false sampleWorld).2.textures.length =
      sampleWorld.textures.length + 3 ∧
    (∀ t, t < sampleWorld.textures.length →
      (allocateOITFramebufferAttachments 0 8 6 false sampleWorld).2.tex t =
        sampleWorld.tex t) ∧
    (∀ ap, ((allocateOITFramebufferAttachments 0 8 6 false sampleWorld).2.fb 0).texture ap =
      if ap = .COLOR0 then some sampleWorld.textures.length
      else if ap = .COLOR1 then some (sampleWorld.textures.length + 1)
      else if ap = .COLOR2 then some (sampleWorld.textures.length + 2)
      else (sampleWorld.fb 0).texture ap) ∧
    (∀ j, j ≠ 0 →
      (allocateOITFramebufferAttachments 0 8 6 false sampleWorld).2.fb j = sampleWorld.fb j) ∧
    (∀ i : Nat, i < 3 →
      ((allocateOITFramebufferAttachments 0 8 6 false sampleWorld).2.tex
        (sampleWorld.textures.length + i)).width = 8 ∧
      ((allocateOITFramebufferAttachments 0 8 6 false sampleWorld).2.tex
        (sampleWorld.textures.length + i)).height = 6) ∧
    ((allocateOITFramebufferAttachments 0 8 6 false sampleWorld).2.fb 0).clearValue .COLOR0 =
      some Color4.zero ∧
    ((allocateOITFramebufferAttachments 0 8 6 false sampleWorld).2.fb 0).clearValue .COLOR1 =
      some ⟨1, 1, 1, 0⟩ ∧
    ((allocateOITFramebufferAttachments 0 8 6 false sampleWorld).2.fb 0).clearValue .COLOR2 =
      some Color4.zero) ∧
    (allocateAllOITBuffers false sampleWorld).2.m_oitFramebuffer =
      some sampleWorld.framebuffers.length ∧
    (allocateAllOITBuffers false sampleWorld).2.m_oitLowResFramebuffer =
      some (sampleWorld.framebuffers.length + 1) ∧
    ((allocateAllOITBuffers false sampleWorld).2.eventsSince sampleWorld.trace.length).filter
        Event.isAttachmentAllocation =
      [.call (.allocateOITFramebufferAttachments sampleWorld.framebuffers.length
         sampleWorld.rdWidth sampleWorld.rdHeight false),
       .call (.allocateOITFramebufferAttachments (sampleWorld.framebuffers.length + 1)
         (Int.tdiv sampleWorld.rdWidth sampleWorld.m_oitLowResDownsampleFactor)
         (Int.tdiv sampleWorld.rdHeight sampleWorld.m_oitLowResDownsampleFactor) false)] :=
  ⟨by decide, by decide, rfl,
    allocateOITFramebufferAttachments_three_attachments 0 8 6 false sampleWorld (by decide)
      (by decide)⟩

/-- C15: with `highPrecision` true, the three colour attachments that
`allocateOITFramebufferAttachments` gives an existing framebuffer have the formats
RGBA16F, RGBA16F and RG16F, the values of the macros `HIGH_PRECISION_OIT_FORMAT` and
`HIGH_PRECISION_OIT_FORMAT_RG`: floating point of 16 bits per channel, not of 32. -/
theorem allocateOITFramebufferAttachments_highPrecision_formats (fb : FbId) (a b : Int)
    (w : World) (hfb : fb < w.framebuffers.length) :
    oitColorFormats (allocateOITFramebufferAttachments fb a b true w).2 (some fb) =
      [some .RGBA16F, some .RGBA16F, some .RG16F] ∧
    (oitColorFormats (allocateOITFramebufferAttachments fb a b true w).2 (some fb)).map
      (fun f => f.bind ImageFormat.floatBits) = [some 16, some 16, some 16] ∧
    ∀ f ∈ oitColorFormats (allocateOITFramebufferAttachments fb a b true w).2 (some fb),
      f.bind ImageFormat.floatBits ≠ some 32 := by
  have hfbs := allocateOITFramebufferAttachments_fb fb a b true w hfb fb
  obtain ⟨-, t1, t2, t3⟩ := allocateOITFramebufferAttachments_tex fb a b true w
  have h : oitColorFormats (allocateOITFramebufferAttachments fb a b true w).2 (some fb) =
      [some .RGBA16F, some .RGBA16F, some .RG16F] := by
    rw [if_pos rfl] at hfbs
    simp only [oitColorFormats, List.map, hfbs, Framebuffer.texture, Framebuffer.set,
      Framebuffer.setClearValue, Option.map, t1, t2, t3]
    rfl
  rw [h]
  refine ⟨rfl, rfl, ?_⟩
  decide

/-- C15, witness: the framebuffer 0 of the sample world, 640 by 480 texels. -/
theorem allocateOITFramebufferAttachments_highPrecision_formats_witness :
    (0 : FbId) < sampleWorld.framebuffers.length ∧
    oitColorFormats (allocateOITFramebufferAttachments 0 640 480 true sampleWorld).2 (some 0) =
      [some .RGBA16F, some .RGBA16F, some .RG16F] ∧
    (oitColorFormats (allocateOITFramebufferAttachments 0 640 480 true sampleWorld).2
      (some 0)).map (fun f => f.bind ImageFormat.floatBits) = [some 16, some 16, some 16] ∧
    ∀ f ∈ oitColorFormats (allocateOITFramebufferAttachments 0 640 480 true sampleWorld).2
        (some 0),
      f.bind ImageFormat.floatBits ≠ some 32 :=
  ⟨by decide,
    allocateOITFramebufferAttachments_highPrecision_formats 0 640 480 sampleWorld (by decide)⟩

/-! ### The sizes of the OIT framebuffers -/

theorem World.tex_setTex (w : World) (i j : TexId) (x : Texture) :
    (w.setTex i x).tex j = if i = j ∧ i < w.textures.length then x else w.tex j := by
  unfold World.tex World.setTex
  by_cases h : i = j
  · subst h
    by_cases hl : i < w.textures.length
    · simp [hl]
    · have h1 : w.textures[i]? = none := List.getElem?_eq_none (Nat.le_of_not_lt hl)
      simp [hl, h1, List.getElem?_set]
  · simp [h, List.getElem?_set_ne h]

theorem resizeTextures_length (a b : Int) (l : List TexId) (w : World) :
    (resizeTextures a b l w).textures.length = w.textures.length := by
  induction l generalizing w with
  | nil => rfl
  | cons t rest ih =>
      rw [resizeTextures, ih]
      simp [World.setTex]

/-- After the resize of the textures of a list, a texture of the heap that is in the
list has the new size and every other texture has the size it had. -/
theorem resizeTextures_texSize (a b : Int) (l : List TexId) (w : World) (t : TexId)
    (ht : t < w.textures.length) :
    (resizeTextures a b l w).texSize t = if t ∈ l then (a, b) else w.texSize t := by
  induction l generalizing w with
  | nil => simp [resizeTextures]
  | cons s rest ih =>
      rw [resizeTextures, ih _ (by simpa [World.setTex] using ht)]
      by_cases h1 : t ∈ rest
      · simp [h1]
      · by_cases h2 : t = s
        · subst h2
          simp [World.texSize, World.tex_setTex, ht]
        · have h3 : ¬ (s = t ∧ s < w.textures.length) := fun h => h2 h.1.symm
          simp [h1, h2, World.texSize, World.tex_setTex, h3]

theorem framebufferResize_texSize (fb : FbId) (a b : Int) (w : World) (t : TexId)
    (ht : t < w.textures.length) :
    (framebufferResize fb a b w).2.texSize t =
      if t ∈ (w.fb fb).attached then (a, b) else w.texSize t := by
  have h := resizeTextures_texSize a b (w.fb fb).attached w t ht
  rw [← h]
  rfl

theorem framebufferResize_length (fb : FbId) (a b : Int) (w : World) :
    (framebufferResize fb a b w).2.textures.length = w.textures.length :=
  resizeTextures_length a b _ w

theorem framebufferResize_framebuffers (fb : FbId) (a b : Int) (w : World) :
    (framebufferResize fb a b w).2.framebuffers = w.framebuffers :=
  resizeTextures_framebuffers a b _ w

theorem framebufferResize_fb (fb : FbId) (a b : Int) (w : World) (j : FbId) :
    (framebufferResize fb a b w).2.fb j = w.fb j := by
  unfold World.fb
  rw [framebufferResize_framebuffers]

theorem Framebuffer.attached_of_color0 {f : Framebuffer} {a : TexId} (h : f.color0 = some a) :
    ∃ rest, f.attached = a :: rest := by
  unfold Framebuffer.attached AttachmentPoint.all
  rw [List.filterMap_cons_some (show f.texture .COLOR0 = some a from h)]
  exact ⟨_, rfl⟩

theorem World.fbSize_of_color0 {w : World} {i : FbId} {a : TexId}
    (h : (w.fb i).color0 = some a) : w.fbSize i = w.texSize a := by
  obtain ⟨rest, hr⟩ := Framebuffer.attached_of_color0 h
  unfold World.fbSize World.fbWidth World.fbHeight World.texSize
  rw [hr]

theorem Framebuffer.mem_attached_of_color0 {f : Framebuffer} {a : TexId}
    (h : f.color0 = some a) : a ∈ f.attached := by
  obtain ⟨rest, hr⟩ := Framebuffer.attached_of_color0 h
  rw [hr]
  exact List.mem_cons_self _ _

theorem oitBuffersNeedResize_run (W H lw lh : Int) (y : World) {oit low : FbId}
    (h1 : y.m_oitFramebuffer = some oit) (h2 : y.m_oitLowResFramebuffer = some low) :
    oitBuffersNeedResize W H lw lh y =
      (.ok (decide (y.fbSize oit ≠ (W, H) ∨ y.fbSize low ≠ (lw, lh))), y) := by
  unfold oitBuffersNeedResize
  simp only [Exec.bind_run, getWorld, h1, h2, deref, Exec.pure_run]
  by_cases h : y.fbWidth oit ≠ W ∨ y.fbHeight oit ≠ H
  · rw [if_pos h]
    have : y.fbSize oit ≠ (W, H) := by
      intro hc
      rcases h with h | h
      · exact h (congrArg Prod.fst hc)
      · exact h (congrArg Prod.snd hc)
    simp [Exec.pure_run, this]
  · rw [if_neg h]
    have h3 : y.fbSize oit = (W, H) := by
      unfold World.fbSize
      rw [not_or, not_not, not_not] at h
      rw [h.1, h.2]
    simp only [Exec.pure_run, h3, ne_eq, not_true_eq_false, false_or]
    show (Outcome.ok (decide _), y) = _
    congr 2
    unfold World.fbSize
    simp only [Prod.mk.injEq, not_and_or, ne_eq]

/-- The run of `resizeOITBuffersIfNeeded` when the four members are not null: the four
framebuffers are resized when `m_oitFramebuffer` or `m_oitLowResFramebuffer` has not the
size asked for, and none is otherwise. -/
theorem resizeOITBuffersIfNeeded_run (W H lw lh : Int) (y : World) {oit low cs bg : FbId}
    (h1 : y.m_oitFramebuffer = some oit) (h2 : y.m_oitLowResFramebuffer = some low)
    (h3 : y.m_csOctLowResNormalFramebuffer = some cs) (h4 : y.m_backgroundFramebuffer = some bg) :
    resizeOITBuffersIfNeeded W H lw lh y =
      (.ok (),
        if y.fbSize oit ≠ (W, H) ∨ y.fbSize low ≠ (lw, lh) then
          (framebufferResize bg W H (framebufferResize cs lw lh (framebufferResize low lw lh
            (framebufferResize oit W H
              (y.appendTrace [.call (.resizeOITBuffersIfNeeded W H lw lh)])).2).2).2).2
        else y.appendTrace [.call (.resizeOITBuffersIfNeeded W H lw lh)]) := by
  have key : ∀ y1 : World, y1.m_oitFramebuffer = some oit →
      y1.m_oitLowResFramebuffer = some low → y1.m_csOctLowResNormalFramebuffer = some cs →
      y1.m_backgroundFramebuffer = some bg →
      (do
        let needed ← oitBuffersNeedResize W H lw lh
        if needed then
          let w ← getWorld
          let oit ← deref .framebuffer w.m_oitFramebuffer
          framebufferResize oit W H
          let low ← deref .framebuffer w.m_oitLowResFramebuffer
          framebufferResize low lw lh
          let normal ← deref .framebuffer w.m_csOctLowResNormalFramebuffer
          framebufferResize normal lw lh
          let background ← deref .framebuffer w.m_backgroundFramebuffer
          framebufferResize background W H) y1 =
      (.ok (),
        if y1.fbSize oit ≠ (W, H) ∨ y1.fbSize low ≠ (lw, lh) then
          (framebufferResize bg W H (framebufferResize cs lw lh (framebufferResize low lw lh
            (framebufferResize oit W H y1).2).2).2).2
        else y1) := by
    intro y1 k1 k2 k3 k4
    rw [Exec.bind_run, oitBuffersNeedResize_run W H lw lh y1 k1 k2]
    by_cases h : y1.fbSize oit ≠ (W, H) ∨ y1.fbSize low ≠ (lw, lh)
    · simp only [h, decide_True, if_true, Exec.bind_run, getWorld, k1, k2, k3, k4, deref,
        Exec.pure_run]
      rfl
    · simp only [h, decide_False, if_false]
      rfl
  exact key (y.appendTrace [.call (.resizeOITBuffersIfNeeded W H lw lh)]) h1 h2 h3 h4

/-- One `Framebuffer::resize` seen from a world `y` with the same framebuffers: the
framebuffers stay, the heap of textures keeps its length, and a texture of the heap has
the new size when it is attached to the framebuffer and its old size otherwise. -/
theorem framebufferResize_step (f : FbId) (A B : Int) (y v : World)
    (hfb : ∀ j, v.fb j = y.fb j) (hlen : v.textures.length = y.textures.length) :
    (∀ j, (framebufferResize f A B v).2.fb j = y.fb j) ∧
    (framebufferResize f A B v).2.textures.length = y.textures.length ∧
    (framebufferResize f A B v).2.trace = v.trace ++ [.framebufferResize f A B] ∧
    ∀ t, t < y.textures.length →
      (framebufferResize f A B v).2.texSize t =
        if t ∈ (y.fb f).attached then (A, B) else v.texSize t := by
  refine ⟨fun j => (framebufferResize_fb f A B v j).trans (hfb j),
    (framebufferResize_length f A B v).trans hlen, rfl, fun t ht => ?_⟩
  rw [framebufferResize_texSize f A B v t (hlen ▸ ht), hfb f]

/-- The four resizes of `resizeOITBuffersIfNeeded`, in their order, on buffers in a
consistent state: the framebuffers stay, and the first textures of the four framebuffers
have the sizes asked for. -/
theorem resize_four (W H lw lh : Int) (y : World) {oit low cs bg : FbId} {a b c e : TexId}
    (hc : (y.fb oit).color0 = some a ∧ (y.fb low).color0 = some b ∧
      (y.fb cs).color0 = some c ∧ (y.fb bg).color0 = some e)
    (hl : a < y.textures.length ∧ b < y.textures.length ∧ c < y.textures.length ∧
      e < y.textures.length)
    (hn : a ∉ (y.fb low).attached ∧ a ∉ (y.fb cs).attached ∧ b ∉ (y.fb bg).attached ∧
      c ∉ (y.fb bg).attached) :
    (∀ j, (framebufferResize bg W H (framebufferResize cs lw lh (framebufferResize low lw lh
      (framebufferResize oit W H y).2).2).2).2.fb j = y.fb j) ∧
    (framebufferResize bg W H (framebufferResize cs lw lh (framebufferResize low lw lh
      (framebufferResize oit W H y).2).2).2).2.textures.length = y.textures.length ∧
    (framebufferResize bg W H (framebufferResize cs lw lh (framebufferResize low lw lh
      (framebufferResize oit W H y).2).2).2).2.trace = y.trace ++
        [.framebufferResize oit W H, .framebufferResize low lw lh,
         .framebufferResize cs lw lh, .framebufferResize bg W H] ∧
    (framebufferResize bg W H (framebufferResize cs lw lh (framebufferResize low lw lh
      (framebufferResize oit W H y).2).2).2).2.texSize a = (W, H) ∧
    (framebufferResize bg W H (framebufferResize cs lw lh (framebufferResize low lw lh
      (framebufferResize oit W H y).2).2).2).2.texSize b = (lw, lh) ∧
    (framebufferResize bg W H (framebufferResize cs lw lh (framebufferResize low lw lh
      (framebufferResize oit W H y).2).2).2).2.texSize c = (lw, lh) ∧
    (framebufferResize bg W H (framebufferResize cs lw lh (framebufferResize low lw lh
      (framebufferResize oit W H y).2).2).2).2.texSize e = (W, H) := by
  obtain ⟨ca, cb, cc, ce⟩ := hc
  obtain ⟨la, lb, lc, le⟩ := hl
  obtain ⟨n1, n2, n3, n4⟩ := hn
  obtain ⟨f1, l1, t1, s1⟩ := framebufferResize_step oit W H y y (fun _ => rfl) rfl
  obtain ⟨f2, l2, t2, s2⟩ := framebufferResize_step low lw lh y _ f1 l1
  obtain ⟨f3, l3, t3, s3⟩ := framebufferResize_step cs lw lh y _ f2 l2
  obtain ⟨f4, l4, t4, s4⟩ := framebufferResize_step bg W H y _ f3 l3
  have a1 := s1 a la
  rw [if_pos (Framebuffer.mem_attached_of_color0 ca)] at a1
  have a2 := s2 a la
  rw [if_neg n1, a1] at a2
  have a3 := s3 a la
  rw [if_neg n2, a2] at a3
  have a4 := s4 a la
  rw [a3, ite_self] at a4
  have b2 := s2 b lb
  rw [if_pos (Framebuffer.mem_attached_of_color0 cb)] at b2
  have b3 := s3 b lb
  rw [b2, ite_self] at b3
  have b4 := s4 b lb
  rw [if_neg n3, b3] at b4
  have c3 := s3 c lc
  rw [if_pos (Framebuffer.mem_attached_of_color0 cc)] at c3
  have c4 := s4 c lc
  rw [if_neg n4, c3] at c4
  have e4 := s4 e le
  rw [if_pos (Framebuffer.mem_attached_of_color0 ce)] at e4
  refine ⟨f4, l4, ?_, a4, b4, c4, e4⟩
  rw [t4, t3, t2, t1]
  simp only [List.append_assoc, List.singleton_append]
  rfl

theorem framebufferResize_oitMembers (f : FbId) (A B : Int) (w : World) :
    (framebufferResize f A B w).2.oitMembers = w.oitMembers := by
  show ({ resizeTextures A B (w.fb f).attached w with
    trace := w.trace ++ [.framebufferResize f A B] } : World).oitMembers = _
  rw [resizeTextures_eq]
  rfl

theorem World.fb_of_oitMembers {x y : World} (h : x.oitMembers = y.oitMembers) (j : FbId) :
    x.fb j = y.fb j := by
  have h1 : x.framebuffers = y.framebuffers := congrArg (fun c => c.1) h
  unfold World.fb
  rw [h1]

/-- Consistent buffers stay consistent in a world with the same framebuffers and
members and as many textures, when the sizes of the first textures still agree. -/
theorem World.oitBuffersConsistent.transfer {y x : World} {oit low cs bg : FbId}
    {a b c e : TexId} (hm : x.oitMembers = y.oitMembers)
    (hlen : x.textures.length = y.textures.length)
    (m1 : y.m_oitFramebuffer = some oit) (m2 : y.m_oitLowResFramebuffer = some low)
    (m3 : y.m_csOctLowResNormalFramebuffer = some cs) (m4 : y.m_backgroundFramebuffer = some bg)
    (hf : oit < y.framebuffers.length ∧ low < y.framebuffers.length ∧
      cs < y.framebuffers.length ∧ bg < y.framebuffers.length)
    (hd : oit ≠ low ∧ oit ≠ cs ∧ oit ≠ bg)
    (hc : (y.fb oit).color0 = some a ∧ (y.fb low).color0 = some b ∧
      (y.fb cs).color0 = some c ∧ (y.fb bg).color0 = some e)
    (hl : a < y.textures.length ∧ b < y.textures.length ∧ c < y.textures.length ∧
      e < y.textures.length)
    (hn : a ∉ (y.fb low).attached ∧ a ∉ (y.fb cs).attached ∧ b ∉ (y.fb bg).attached ∧
      c ∉ (y.fb bg).attached)
    (s1 : x.texSize e = x.texSize a) (s2 : x.texSize c = x.texSize b) :
    x.oitBuffersConsistent := by
  have h1 : x.framebuffers = y.framebuffers := congrArg (fun c => c.1) hm
  have h2 : x.m_oitFramebuffer = y.m_oitFramebuffer := congrArg (fun c => c.2.1) hm
  have h3 : x.m_oitLowResFramebuffer = y.m_oitLowResFramebuffer :=
    congrArg (fun c => c.2.2.1) hm
  have h4 : x.m_csOctLowResNormalFramebuffer = y.m_csOctLowResNormalFramebuffer :=
    congrArg (fun c => c.2.2.2.1) hm
  have h5 : x.m_backgroundFramebuffer = y.m_backgroundFramebuffer :=
    congrArg (fun c => c.2.2.2.2) hm
  have hfb := World.fb_of_oitMembers hm
  refine Or.inr ⟨oit, low, cs, bg, a, b, c, e, h2.trans m1, h3.trans m2, h4.trans m3,
    h5.trans m4, ?_, hd, ?_, ?_, ?_, s1, s2⟩
  · rw [h1]
    exact hf
  · rw [hfb, hfb, hfb, hfb]
    exact hc
  · rw [hlen]
    exact hl
  · rw [hfb, hfb, hfb]
    exact hn

/-- The resize step on buffers in a consistent state: it completes; it resizes the four
framebuffers or none; after it `m_oitFramebuffer` and `m_backgroundFramebuffer` have the
size `W` x `H`, `m_oitLowResFramebuffer` and `m_csOctLowResNormalFramebuffer` the size
`lw` x `lh`, and the buffers are in a consistent state. -/
theorem resizeOITBuffersIfNeeded_consistent (W H lw lh : Int) (y : World)
    (hy : y.oitBuffersConsistent) (ho : y.m_oitFramebuffer ≠ none) :
    ∃ oit low cs bg R,
      (resizeOITBuffersIfNeeded W H lw lh y).1 = .ok () ∧
      (resizeOITBuffersIfNeeded W H lw lh y).2.oitMembers = y.oitMembers ∧
      y.oitMembers.2 = (some oit, some low, some cs, some bg) ∧
      (resizeOITBuffersIfNeeded W H lw lh y).2.fbSize oit = (W, H) ∧
      (resizeOITBuffersIfNeeded W H lw lh y).2.fbSize bg = (W, H) ∧
      (resizeOITBuffersIfNeeded W H lw lh y).2.fbSize low = (lw, lh) ∧
      (resizeOITBuffersIfNeeded W H lw lh y).2.fbSize cs = (lw, lh) ∧
      (resizeOITBuffersIfNeeded W H lw lh y).2.oitBuffersConsistent ∧
      (resizeOITBuffersIfNeeded W H lw lh y).2.trace =
        y.trace ++ ([.call (.resizeOITBuffersIfNeeded W H lw lh)] ++ R) ∧
      (R = [] ∨ R = resizeEvents oit low cs bg W H lw lh) := by
  rcases hy with hy | ⟨oit, low, cs, bg, a, b, c, e, m1, m2, m3, m4, hf, hd, hc, hl, hn, s1, s2⟩
  · exact absurd hy ho
  rw [resizeOITBuffersIfNeeded_run W H lw lh y m1 m2 m3 m4]
  have hmem : y.oitMembers.2 = (some oit, some low, some cs, some bg) := by
    show (y.m_oitFramebuffer, y.m_oitLowResFramebuffer, y.m_csOctLowResNormalFramebuffer,
      y.m_backgroundFramebuffer) = _
    rw [m1, m2, m3, m4]
  by_cases h : y.fbSize oit ≠ (W, H) ∨ y.fbSize low ≠ (lw, lh)
  · simp only [if_pos h]
    obtain ⟨f4, l4, t4, a4, b4, c4, e4⟩ := resize_four W H lw lh
      (y.appendTrace [.call (.resizeOITBuffersIfNeeded W H lw lh)]) hc hl hn
    have hm4 : (framebufferResize bg W H (framebufferResize cs lw lh
        (framebufferResize low lw lh (framebufferResize oit W H
          (y.appendTrace [.call (.resizeOITBuffersIfNeeded W H lw lh)])).2).2).2).2.oitMembers =
        y.oitMembers := by
      rw [framebufferResize_oitMembers, framebufferResize_oitMembers,
        framebufferResize_oitMembers, framebufferResize_oitMembers]
      rfl
    refine ⟨oit, low, cs, bg, resizeEvents oit low cs bg W H lw lh, trivial, hm4, hmem, ?_, ?_,
      ?_, ?_, ?_, ?_, Or.inr rfl⟩
    · rw [World.fbSize_of_color0 ((f4 oit).symm ▸ hc.1), a4]
    · rw [World.fbSize_of_color0 ((f4 bg).symm ▸ hc.2.2.2), e4]
    · rw [World.fbSize_of_color0 ((f4 low).symm ▸ hc.2.1), b4]
    · rw [World.fbSize_of_color0 ((f4 cs).symm ▸ hc.2.2.1), c4]
    · exact World.oitBuffersConsistent.transfer hm4 l4 m1 m2 m3 m4 hf hd hc hl hn
        (e4.trans a4.symm) (c4.trans b4.symm)
    · rw [t4]
      show y.trace ++ [_] ++ _ = _
      rw [List.append_assoc]
      rfl
  · simp only [if_neg h]
    rw [not_or, not_not, not_not] at h
    have k1 : y.fbSize oit = y.texSize a := World.fbSize_of_color0 hc.1
    have k2 : y.fbSize low = y.texSize b := World.fbSize_of_color0 hc.2.1
    have k3 : y.fbSize cs = y.texSize c := World.fbSize_of_color0 hc.2.2.1
    have k4 : y.fbSize bg = y.texSize e := World.fbSize_of_color0 hc.2.2.2
    refine ⟨oit, low, cs, bg, [], trivial, rfl, hmem, h.1, ?_, h.2, ?_, ?_, rfl, Or.inl rfl⟩
    · exact (k4.trans (s1.trans k1.symm)).trans h.1
    · exact (k3.trans (s2.trans k2.symm)).trans h.2
    · exact World.oitBuffersConsistent.transfer (y := y) rfl rfl m1 m2 m3 m4 hf hd hc hl hn
        s1 s2

theorem Allocating.fb_new {w x : World} {L : List Texture} {M : List Framebuffer}
    {mem : Option FbId × Option FbId × Option FbId × Option FbId}
    (h : Allocating w L M mem x) (k : Nat) :
    x.fb (w.framebuffers.length + k) = (M[k]?).getD (Framebuffer.empty .external) := by
  unfold World.fb
  rw [h.framebuffers, List.getElem?_append_right (Nat.le_add_right _ _), Nat.add_sub_cancel_left]

theorem Allocating.tex_new {w x : World} {L : List Texture} {M : List Framebuffer}
    {mem : Option FbId × Option FbId × Option FbId × Option FbId}
    (h : Allocating w L M mem x) (k : Nat) :
    x.tex (w.textures.length + k) = (L[k]?).getD ⟨.external, 0, 0, .other 0, false⟩ := by
  unfold World.tex
  rw [h.textures, List.getElem?_append_right (Nat.le_add_right _ _), Nat.add_sub_cancel_left]

theorem wp_emit_track {β : Type} {w x : World} {L : List Texture} {M : List Framebuffer}
    {mem : Option FbId × Option FbId × Option FbId × Option FbId} {f : Unit → Exec β}
    {Q : β → World → Prop} {E : Fault → World → Prop} (e : Event)
    (h : Allocating w L M mem x)
    (hf : ∀ x1, Allocating w L M mem x1 → wp (f ()) Q E x1) :
    wp (emit e >>= f) Q E x := by
  rw [wp_bind, wp_emit]
  exact hf _ ⟨h.textures, h.framebuffers, h.members, h.device⟩

theorem wp_create_track {β : Type} {w x : World} {L : List Texture} {M : List Framebuffer}
    {mem : Option FbId × Option FbId × Option FbId × Option FbId} {f : FbId → Exec β}
    {Q : β → World → Prop} {E : Fault → World → Prop} (n : FramebufferName)
    (h : Allocating w L M mem x)
    (hf : ∀ x1, Allocating w L (M ++ [Framebuffer.empty n]) mem x1 →
      wp (f (w.framebuffers.length + M.length)) Q E x1) :
    wp (Framebuffer.create n >>= f) Q E x := by
  rw [wp_bind, wp_create]
  have hl : x.framebuffers.length = w.framebuffers.length + M.length := by
    rw [h.framebuffers, List.length_append]
  rw [hl]
  refine hf _ ⟨h.textures, ?_, h.members, h.device⟩
  show x.framebuffers ++ [_] = _
  rw [h.framebuffers, List.append_assoc]

theorem wp_createEmpty_track {β : Type} {w x : World} {L : List Texture}
    {M : List Framebuffer} {mem : Option FbId × Option FbId × Option FbId × Option FbId}
    {f : TexId → Exec β} {Q : β → World → Prop} {E : Fault → World → Prop}
    (n : TextureName) (a b : Int) (fmt : ImageFormat) (h : Allocating w L M mem x)
    (hf : ∀ x1, Allocating w (L ++ [⟨n, a, b, fmt, false⟩]) M mem x1 →
      wp (f (w.textures.length + L.length)) Q E x1) :
    wp (Texture.createEmpty n a b fmt >>= f) Q E x := by
  rw [wp_bind]
  show wp (f x.textures.length) Q E _
  have hl : x.textures.length = w.textures.length + L.length := by
    rw [h.textures, List.length_append]
  rw [hl]
  refine hf _ ⟨?_, h.framebuffers, h.members, h.device⟩
  show x.textures ++ [_] = _
  rw [h.textures, List.append_assoc]

/-- After `fb->set(ap, t)` on the framebuffer created as number `k`. -/
theorem Allocating.framebufferSet {w x : World} {L : List Texture} {M : List Framebuffer}
    {mem : Option FbId × Option FbId × Option FbId × Option FbId}
    (h : Allocating w L M mem x) (k : Nat) (ap : AttachmentPoint) (t : Option TexId) :
    Allocating w L (M.set k (((M[k]?).getD (Framebuffer.empty .external)).set ap t)) mem
      (framebufferSet (w.framebuffers.length + k) ap t x).2 := by
  refine ⟨h.textures, ?_, h.members, h.device⟩
  show x.framebuffers.set _ _ = _
  rw [h.fb_new k, h.framebuffers, List.set_append_right _ _ (Nat.le_add_right _ _),
    Nat.add_sub_cancel_left]

theorem wp_framebufferSet_track {β : Type} {w x : World} {L : List Texture}
    {M : List Framebuffer} {mem : Option FbId × Option FbId × Option FbId × Option FbId}
    {f : Unit → Exec β} {Q : β → World → Prop} {E : Fault → World → Prop}
    (k : Nat) (ap : AttachmentPoint) (t : Option TexId) (h : Allocating w L M mem x)
    (hf : ∀ x1, Allocating w L
        (M.set k (((M[k]?).getD (Framebuffer.empty .external)).set ap t)) mem x1 →
      wp (f ()) Q E x1) :
    wp (framebufferSet (w.framebuffers.length + k) ap t >>= f) Q E x := by
  rw [wp_bind]
  exact hf _ (h.framebufferSet k ap t)

theorem wp_members_track {β : Type} {w x : World} {L : List Texture}
    {M : List Framebuffer} {mem r : Option FbId × Option FbId × Option FbId × Option FbId}
    {f : Unit → Exec β} {Q : β → World → Prop} {E : Fault → World → Prop}
    (g : World → World) (h : Allocating w L M mem x)
    (hg : ∀ y, Allocating w L M mem y → Allocating w L M r (g y))
    (hf : ∀ x1, Allocating w L M r x1 → wp (f ()) Q E x1) :
    wp (modifyWorld g >>= f) Q E x := by
  rw [wp_bind, wp_modifyWorld]
  exact hf _ (hg x h)

/-- After `allocateOITFramebufferAttachments` on the framebuffer created as number
`k`. -/
theorem Allocating.attachments {w x : World} {L : List Texture} {M : List Framebuffer}
    {mem : Option FbId × Option FbId × Option FbId × Option FbId}
    (h : Allocating w L M mem x) (k : Nat) (hk : k < M.length) (a b : Int) (hp : Bool) :
    Allocating w
      (L ++ [⟨.RT0, a, b, if hp then HIGH_PRECISION_OIT_FORMAT else ImageFormat.RGBA16F, false⟩,
        ⟨.RT1, a, b, if hp then HIGH_PRECISION_OIT_FORMAT else ImageFormat.RGBA8, true⟩,
        ⟨.RT2, a, b, if hp then HIGH_PRECISION_OIT_FORMAT_RG else ImageFormat.RG8_SNORM,
          false⟩])
      (M.set k ((((((((M[k]?).getD (Framebuffer.empty .external)).set .COLOR0
        (some (w.textures.length + L.length))).setClearValue .COLOR0
        Color4.zero).set .COLOR1 (some (w.textures.length + L.length + 1))).setClearValue
        .COLOR1 ⟨1, 1, 1, 0⟩).set .COLOR2
        (some (w.textures.length + L.length + 2))).setClearValue .COLOR2 Color4.zero))
      mem (allocateOITFramebufferAttachments (w.framebuffers.length + k) a b hp x).2 := by
  have hfb : w.framebuffers.length + k < x.framebuffers.length := by
    rw [h.framebuffers, List.length_append]
    omega
  have hl : x.textures.length = w.textures.length + L.length := by
    rw [h.textures, List.length_append]
  refine ⟨?_, ?_, h.members, h.device⟩
  · rw [allocateOITFramebufferAttachments_textures, h.textures, List.append_assoc]
  · rw [allocateOITFramebufferAttachments_framebuffers _ _ _ _ _ hfb, h.fb_new k, hl,
      h.framebuffers, List.set_append_right _ _ (Nat.le_add_right _ _),
      Nat.add_sub_cancel_left]

theorem wp_attachments_track {β : Type} {w x : World} {L : List Texture}
    {M : List Framebuffer} {mem : Option FbId × Option FbId × Option FbId × Option FbId}
    {f : Unit → Exec β} {Q : β → World → Prop} {E : Fault → World → Prop}
    (k : Nat) (hk : k < M.length) (a b : Int) (hp : Bool) (h : Allocating w L M mem x)
    (hf : ∀ x1, Allocating w
      (L ++ [⟨.RT0, a, b, if hp then HIGH_PRECISION_OIT_FORMAT else ImageFormat.RGBA16F, false⟩,
        ⟨.RT1, a, b, if hp then HIGH_PRECISION_OIT_FORMAT else ImageFormat.RGBA8, true⟩,
        ⟨.RT2, a, b, if hp then HIGH_PRECISION_OIT_FORMAT_RG else ImageFormat.RG8_SNORM,
          false⟩])
      (M.set k ((((((((M[k]?).getD (Framebuffer.empty .external)).set .COLOR0
        (some (w.textures.length + L.length))).setClearValue .COLOR0
        Color4.zero).set .COLOR1 (some (w.textures.length + L.length + 1))).setClearValue
        .COLOR1 ⟨1, 1, 1, 0⟩).set .COLOR2
        (some (w.textures.length + L.length + 2))).setClearValue .COLOR2 Color4.zero))
      mem x1 → wp (f ()) Q E x1) :
    wp (allocateOITFramebufferAttachments (w.framebuffers.length + k) a b hp >>= f) Q E x := by
  rw [wp_bind, wp_allocateOITFramebufferAttachments]
  exact hf _ (h.attachments k hk a b hp)

theorem wp_createFromTexture_track {β : Type} {w x : World} {L : List Texture}
    {M : List Framebuffer} {mem : Option FbId × Option FbId × Option FbId × Option FbId}
    {f : FbId → Exec β} {Q : β → World → Prop} {E : Fault → World → Prop}
    (n : FramebufferName) (t : TexId) (h : Allocating w L M mem x)
    (hf : ∀ x1, Allocating w L (M ++ [(Framebuffer.empty n).set .COLOR0 (some t)]) mem x1 →
      wp (f (w.framebuffers.length + M.length)) Q E x1) :
    wp (Framebuffer.createFromTexture n t >>= f) Q E x := by
  rw [wp_bind]
  unfold Framebuffer.createFromTexture
  refine wp_create_track n h fun x1 h1 => ?_
  refine wp_framebufferSet_track M.length .COLOR0 (some t) h1 fun x2 h2 => ?_
  rw [wp_pure]
  refine hf x2 ?_
  have hM : (M ++ [Framebuffer.empty n]).set M.length
      ((((M ++ [Framebuffer.empty n])[M.length]?).getD (Framebuffer.empty .external)).set
        .COLOR0 (some t)) = M ++ [(Framebuffer.empty n).set .COLOR0 (some t)] := by
    rw [List.set_append_right _ _ (Nat.le_refl _),
      List.getElem?_append_right (Nat.le_refl _), Nat.sub_self]
    rfl
  rw [← hM]
  exact h2

/-- The buffers that `allocateAllOITBuffers` has created are in a consistent state:
nine textures and four framebuffers, `m_oitFramebuffer` with the first texture at COLOR0,
`m_oitLowResFramebuffer` with the fourth to the seventh, `m_backgroundFramebuffer` with
the eighth and `m_csOctLowResNormalFramebuffer` with the ninth, the eighth of the size of
the first and the ninth of the size of the fourth. -/
theorem Allocating.consistent {w y : World} {t0 t1 t2 t3 t4 t5 t6 t7 t8 : Texture}
    {F0 F1 F2 F3 : Framebuffer}
    (h : Allocating w [t0, t1, t2, t3, t4, t5, t6, t7, t8] [F0, F1, F2, F3]
      (some w.framebuffers.length, some (w.framebuffers.length + 1),
        some (w.framebuffers.length + 3), some (w.framebuffers.length + 2)) y)
    (c0 : F0.color0 = some w.textures.length)
    (c1 : F1.color0 = some (w.textures.length + 3))
    (a1 : F1.attached = [w.textures.length + 3, w.textures.length + 4, w.textures.length + 5,
      w.textures.length + 6])
    (c2 : F2.color0 = some (w.textures.length + 7))
    (a2 : F2.attached = [w.textures.length + 7])
    (c3 : F3.color0 = some (w.textures.length + 8))
    (a3 : F3.attached = [w.textures.length + 8])
    (s1 : (t7.width, t7.height) = (t0.width, t0.height))
    (s2 : (t8.width, t8.height) = (t3.width, t3.height)) :
    y.oitBuffersConsistent ∧ y.m_oitFramebuffer ≠ none := by
  have m := h.members
  have m1 : y.m_oitFramebuffer = some w.framebuffers.length := congrArg (fun c => c.1) m
  have m2 : y.m_oitLowResFramebuffer = some (w.framebuffers.length + 1) :=
    congrArg (fun c => c.2.1) m
  have m3 : y.m_csOctLowResNormalFramebuffer = some (w.framebuffers.length + 3) :=
    congrArg (fun c => c.2.2.1) m
  have m4 : y.m_backgroundFramebuffer = some (w.framebuffers.length + 2) :=
    congrArg (fun c => c.2.2.2) m
  have f0 : y.fb w.framebuffers.length = F0 := h.fb_new 0
  have f1 : y.fb (w.framebuffers.length + 1) = F1 := h.fb_new 1
  have f2 : y.fb (w.framebuffers.length + 2) = F2 := h.fb_new 2
  have f3 : y.fb (w.framebuffers.length + 3) = F3 := h.fb_new 3
  have x0 : y.tex w.textures.length = t0 := h.tex_new 0
  have x3 : y.tex (w.textures.length + 3) = t3 := h.tex_new 3
  have x7 : y.tex (w.textures.length + 7) = t7 := h.tex_new 7
  have x8 : y.tex (w.textures.length + 8) = t8 := h.tex_new 8
  have hfl : y.framebuffers.length = w.framebuffers.length + 4 := by
    rw [h.framebuffers, List.length_append]
    rfl
  have htl : y.textures.length = w.textures.length + 9 := by
    rw [h.textures, List.length_append]
    rfl
  refine ⟨Or.inr ⟨w.framebuffers.length, w.framebuffers.length + 1, w.framebuffers.length + 3,
    w.framebuffers.length + 2, w.textures.length, w.textures.length + 3,
    w.textures.length + 8, w.textures.length + 7, m1, m2, m3, m4, ?_, ?_, ?_, ?_, ?_, ?_, ?_⟩,
    ?_⟩
  · rw [hfl]
    simp
  · simp
  · rw [f0, f1, f2, f3]
    exact ⟨c0, c1, c3, c2⟩
  · rw [htl]
    simp
  · rw [f1, f2, f3, a1, a2, a3]
    simp
  · unfold World.texSize
    rw [x7, x0]
    exact s1
  · unfold World.texSize
    rw [x8, x3]
    exact s2
  · rw [m1]
    exact Option.some_ne_none _

theorem Allocating.start (w : World) : Allocating w [] [] w.oitMembers.2 w :=
  ⟨(List.append_nil _).symm, (List.append_nil _).symm, rfl, rfl⟩

theorem allocateAllOITBuffers_consistent (hp : Bool) (w : World) :
    wp (allocateAllOITBuffers hp)
      (fun _ y => y.oitBuffersConsistent ∧ y.m_oitFramebuffer ≠ none ∧
        (y.rdWidth, y.rdHeight) = (w.rdWidth, w.rdHeight))
      (fun _ _ => True) w := by
  unfold allocateAllOITBuffers
  refine wp_emit_track _ (Allocating.start w) fun x1 h1 => ?_
  rw [wp_bind, wp_getWorld, wp_bind, wp_intDiv]
  refine ⟨fun _ => trivial, fun _ => ?_⟩
  rw [wp_bind, wp_intDiv]
  refine ⟨fun _ => trivial, fun _ => ?_⟩
  have hW : x1.rdWidth = w.rdWidth := congrArg Prod.fst h1.device
  have hH : x1.rdHeight = w.rdHeight := congrArg Prod.snd h1.device
  rw [hW, hH]
  refine wp_create_track _ h1 fun x2 h2 => ?_
  simp only [List.length_cons, List.length_nil, List.length_append, List.nil_append,
    List.cons_append, List.append_assoc, Nat.reduceAdd, List.set_cons_zero, List.set_cons_succ,
    List.getElem?_cons_zero, List.getElem?_cons_succ, Option.getD_some, Nat.add_assoc] at h2 ⊢
  refine wp_members_track _ h2 (r := (some w.framebuffers.length, w.oitMembers.2.2))
    (fun y hy => ⟨hy.textures, hy.framebuffers,
      congrArg (fun c => (some w.framebuffers.length, c.2)) hy.members, hy.device⟩)
    fun x3 h3 => ?_
  refine wp_attachments_track 0 (by simp) _ _ hp h3 fun x4 h4 => ?_
  simp only [List.length_cons, List.length_nil, List.length_append, List.nil_append,
    List.cons_append, List.append_assoc, Nat.reduceAdd, List.set_cons_zero, List.set_cons_succ,
    List.getElem?_cons_zero, List.getElem?_cons_succ, Option.getD_some, Nat.add_assoc] at h4 ⊢
  refine wp_create_track _ h4 fun x5 h5 => ?_
  simp only [List.length_cons, List.length_nil, List.length_append, List.nil_append,
    List.cons_append, List.append_assoc, Nat.reduceAdd, List.set_cons_zero, List.set_cons_succ,
    List.getElem?_cons_zero, List.getElem?_cons_succ, Option.getD_some, Nat.add_assoc] at h5 ⊢
  refine wp_members_track _ h5
    (r := (some w.framebuffers.length, some (w.framebuffers.length + 1),
      w.oitMembers.2.2.2))
    (fun y hy => ⟨hy.textures, hy.framebuffers,
      congrArg (fun c => (c.1, some (w.framebuffers.length + 1), c.2.2)) hy.members,
      hy.device⟩)
    fun x6 h6 => ?_
  refine wp_attachments_track 1 (by simp) _ _ hp h6 fun x7 h7 => ?_
  simp only [List.length_cons, List.length_nil, List.length_append, List.nil_append,
    List.cons_append, List.append_assoc, Nat.reduceAdd, List.set_cons_zero, List.set_cons_succ,
    List.getElem?_cons_zero, List.getElem?_cons_succ, Option.getD_some, Nat.add_assoc] at h7 ⊢
  rw [wp_bind, wp_getWorld, wp_bind, wp_deref]
  refine ⟨fun draw _ => ?_, fun _ => trivial⟩
  rw [wp_bind, wp_deref]
  refine ⟨fun depth _ => ?_, fun _ => trivial⟩
  refine wp_createEmpty_track _ _ _ _ h7 fun x8 h8 => ?_
  simp only [List.length_cons, List.length_nil, List.length_append, List.nil_append,
    List.cons_append, List.append_assoc, Nat.reduceAdd, List.set_cons_zero, List.set_cons_succ,
    List.getElem?_cons_zero, List.getElem?_cons_succ, Option.getD_some, Nat.add_assoc] at h8 ⊢
  refine wp_framebufferSet_track 1 _ _ h8 fun x9 h9 => ?_
  simp only [List.length_cons, List.length_nil, List.length_append, List.nil_append,
    List.cons_append, List.append_assoc, Nat.reduceAdd, List.set_cons_zero, List.set_cons_succ,
    List.getElem?_cons_zero, List.getElem?_cons_succ, Option.getD_some, Nat.add_assoc] at h9 ⊢
  rw [wp_bind, wp_getWorld, wp_bind, wp_deref]
  refine ⟨fun draw2 _ => ?_, fun _ => trivial⟩
  rw [wp_bind, wp_deref]
  refine ⟨fun color _ => ?_, fun _ => trivial⟩
  have hW9 : x9.rdWidth = w.rdWidth := congrArg Prod.fst h9.device
  have hH9 : x9.rdHeight = w.rdHeight := congrArg Prod.snd h9.device
  rw [hW9, hH9]
  refine wp_createEmpty_track _ _ _ _ h9 fun x10 h10 => ?_
  simp only [List.length_cons, List.length_nil, List.length_append, List.nil_append,
    List.cons_append, List.append_assoc, Nat.reduceAdd, List.set_cons_zero, List.set_cons_succ,
    List.getElem?_cons_zero, List.getElem?_cons_succ, Option.getD_some, Nat.add_assoc] at h10 ⊢
  refine wp_createFromTexture_track _ _ h10 fun x11 h11 => ?_
  simp only [List.length_cons, List.length_nil, List.length_append, List.nil_append,
    List.cons_append, List.append_assoc, Nat.reduceAdd, List.set_cons_zero, List.set_cons_succ,
    List.getElem?_cons_zero, List.getElem?_cons_succ, Option.getD_some, Nat.add_assoc] at h11 ⊢
  refine wp_members_track _ h11
    (r := (some w.framebuffers.length, some (w.framebuffers.length + 1),
      w.oitMembers.2.2.2.1, some (w.framebuffers.length + 2)))
    (fun y hy => ⟨hy.textures, hy.framebuffers,
      congrArg (fun c => (c.1, c.2.1, c.2.2.1, some (w.framebuffers.length + 2))) hy.members,
      hy.device⟩)
    fun x12 h12 => ?_
  refine wp_createEmpty_track _ _ _ _ h12 fun x13 h13 => ?_
  simp only [List.length_cons, List.length_nil, List.length_append, List.nil_append,
    List.cons_append, List.append_assoc, Nat.reduceAdd, List.set_cons_zero, List.set_cons_succ,
    List.getElem?_cons_zero, List.getElem?_cons_succ, Option.getD_some, Nat.add_assoc] at h13 ⊢
  refine wp_createFromTexture_track _ _ h13 fun x14 h14 => ?_
  simp only [List.length_cons, List.length_nil, List.length_append, List.nil_append,
    List.cons_append, List.append_assoc, Nat.reduceAdd, List.set_cons_zero, List.set_cons_succ,
    List.getElem?_cons_zero, List.getElem?_cons_succ, Option.getD_some, Nat.add_assoc] at h14 ⊢
  rw [wp_modifyWorld]
  have h15 : Allocating w _ _ (some w.framebuffers.length,
      some (w.framebuffers.length + 1), some (w.framebuffers.length + 3),
      some (w.framebuffers.length + 2))
      ({ x14 with m_csOctLowResNormalFramebuffer := some (w.framebuffers.length + 3) }) :=
    ⟨h14.textures, h14.framebuffers,
      congrArg (fun c => (c.1, c.2.1, some (w.framebuffers.length + 3), c.2.2.2)) h14.members,
      h14.device⟩
  simp only [Nat.add_zero] at h15
  obtain ⟨k1, k2⟩ := h15.consistent rfl rfl rfl rfl rfl rfl rfl rfl rfl
  exact ⟨k1, k2, h15.device⟩

theorem allocateAllOITBuffers_noResize {t0 S : List Event} (hp : Bool) :
    (allocateAllOITBuffers hp).Preserves (TraceSince t0 Event.isResize S) := by
  unfold allocateAllOITBuffers allocateOITFramebufferAttachments Framebuffer.createFromTexture
  repeat' first
    | with_reducible apply Exec.Preserves.bind_pres
    | with_reducible apply Exec.Preserves.getWorld_pres
    | with_reducible apply Exec.Preserves.deref_pres
    | with_reducible apply Exec.Preserves.intDiv_pres
    | with_reducible apply Exec.Preserves.pure_pres
    | intro _
    | exact traceSince_step fun w => ⟨_, rfl, rfl⟩
    | exact traceSince_of_trace fun _ => rfl

theorem oitBuffersNeedAllocation_wp (w : World) :
    wp oitBuffersNeedAllocation
      (fun a y => y = w ∧ (a = false → w.m_oitFramebuffer ≠ none))
      (fun _ _ => True) w := by
  unfold oitBuffersNeedAllocation
  rw [wp_bind, wp_getWorld]
  cases h : w.m_oitFramebuffer with
  | none => exact ⟨rfl, fun hc => Bool.noConfusion hc⟩
  | some oit =>
      show wp (deref _ _ >>= _) _ _ w
      rw [wp_bind, wp_deref]
      exact ⟨fun _ _ => ⟨rfl, fun _ => Option.some_ne_none _⟩, fun _ => trivial⟩

/-- The allocation and resize steps on buffers in a consistent state: when they
complete, `m_oitFramebuffer` and `m_backgroundFramebuffer` have the size of the device,
`m_oitLowResFramebuffer` and `m_csOctLowResNormalFramebuffer` that size divided by the
downsample factor, the buffers are in a consistent state, and the calls of
`Framebuffer::resize` are none or the four of `resizeOITBuffersIfNeeded`. -/
theorem allocateAndResizeOITBuffers_consistent (w : World) (hw : w.oitBuffersConsistent) :
    wp allocateAndResizeOITBuffers
      (fun _ x => ∃ oit low cs bg R,
        x.oitMembers.2 = (some oit, some low, some cs, some bg) ∧
        x.fbSize oit = (w.rdWidth, w.rdHeight) ∧
        x.fbSize bg = (w.rdWidth, w.rdHeight) ∧
        x.fbSize low = (Int.tdiv w.rdWidth w.m_oitLowResDownsampleFactor,
          Int.tdiv w.rdHeight w.m_oitLowResDownsampleFactor) ∧
        x.fbSize cs = (Int.tdiv w.rdWidth w.m_oitLowResDownsampleFactor,
          Int.tdiv w.rdHeight w.m_oitLowResDownsampleFactor) ∧
        x.oitBuffersConsistent ∧
        (x.eventsSince w.trace.length).filter Event.isResize = R ∧
        (R = [] ∨ R = resizeEvents oit low cs bg w.rdWidth w.rdHeight
          (Int.tdiv w.rdWidth w.m_oitLowResDownsampleFactor)
          (Int.tdiv w.rdHeight w.m_oitLowResDownsampleFactor)))
      (fun _ _ => True) w := by
  unfold allocateAndResizeOITBuffers
  rw [wp_bind, wp_getWorld, wp_bind, wp_intDiv]
  refine ⟨fun _ => trivial, fun _ => ?_⟩
  rw [wp_bind, wp_intDiv]
  refine ⟨fun _ => trivial, fun _ => ?_⟩
  refine wp_seq (oitBuffersNeedAllocation_wp w) ?_
  rintro allocate y0 ⟨hy0, hno⟩
  rw [hy0]
  clear hy0 y0
  have step : ∀ y : World, y.oitBuffersConsistent → y.m_oitFramebuffer ≠ none →
      TraceSince w.trace Event.isResize [] y →
      wp (resizeOITBuffersIfNeeded w.rdWidth w.rdHeight
          (Int.tdiv w.rdWidth w.m_oitLowResDownsampleFactor)
          (Int.tdiv w.rdHeight w.m_oitLowResDownsampleFactor))
        (fun _ x => ∃ oit low cs bg R,
          x.oitMembers.2 = (some oit, some low, some cs, some bg) ∧
          x.fbSize oit = (w.rdWidth, w.rdHeight) ∧
          x.fbSize bg = (w.rdWidth, w.rdHeight) ∧
          x.fbSize low = (Int.tdiv w.rdWidth w.m_oitLowResDownsampleFactor,
            Int.tdiv w.rdHeight w.m_oitLowResDownsampleFactor) ∧
          x.fbSize cs = (Int.tdiv w.rdWidth w.m_oitLowResDownsampleFactor,
            Int.tdiv w.rdHeight w.m_oitLowResDownsampleFactor) ∧
          x.oitBuffersConsistent ∧
          (x.eventsSince w.trace.length).filter Event.isResize = R ∧
          (R = [] ∨ R = resizeEvents oit low cs bg w.rdWidth w.rdHeight
            (Int.tdiv w.rdWidth w.m_oitLowResDownsampleFactor)
            (Int.tdiv w.rdHeight w.m_oitLowResDownsampleFactor)))
        (fun _ _ => True) y := by
    intro y hy hyo ⟨evs, he1, he2⟩
    obtain ⟨oit, low, cs, bg, R, hok, hm, hmem, s1, s2, s3, s4, hc, htr, hR⟩ :=
      resizeOITBuffersIfNeeded_consistent w.rdWidth w.rdHeight
        (Int.tdiv w.rdWidth w.m_oitLowResDownsampleFactor)
        (Int.tdiv w.rdHeight w.m_oitLowResDownsampleFactor) y hy hyo
    rw [wp_of_ok hok]
    refine ⟨oit, low, cs, bg, R, ?_, s1, s2, s3, s4, hc, ?_, hR⟩
    · rw [← hmem]
      exact congrArg (fun c => c.2) hm
    · have hts : TraceSince w.trace Event.isResize R
          (resizeOITBuffersIfNeeded w.rdWidth w.rdHeight
            (Int.tdiv w.rdWidth w.m_oitLowResDownsampleFactor)
            (Int.tdiv w.rdHeight w.m_oitLowResDownsampleFactor) y).2 := by
        refine ⟨evs ++ ([.call (.resizeOITBuffersIfNeeded w.rdWidth w.rdHeight
          (Int.tdiv w.rdWidth w.m_oitLowResDownsampleFactor)
          (Int.tdiv w.rdHeight w.m_oitLowResDownsampleFactor))] ++ R), ?_, ?_⟩
        · rw [htr, he1, List.append_assoc]
        · rw [List.filter_append, he2, List.filter_append]
          rcases hR with rfl | rfl <;> rfl
      exact (World.eventsSince_of_traceSince hts).2
  cases allocate with
  | false =>
      rw [if_neg Bool.false_ne_true, wp_bind, wp_pure]
      exact step w hw (hno rfl) ⟨[], (List.append_nil _).symm, rfl⟩
  | true =>
      rw [if_pos rfl]
      refine wp_seq (wp_and (allocateAllOITBuffers_consistent _ w)
        ((allocateAllOITBuffers_noResize _).wp_ok ⟨[], (List.append_nil _).symm, rfl⟩)) ?_
      rintro _ y ⟨⟨hy, hyo, -⟩, hts⟩
      exact step y hy hyo hts

/-- The consistency of the buffers reads only the two heaps and the four members. -/
theorem World.oitBuffersConsistent.of_objects {x y : World} (h : x.objects = y.objects)
    (hy : y.oitBuffersConsistent) : x.oitBuffersConsistent := by
  have h1 : x.textures = y.textures := congrArg (fun c => c.1) h
  have h2 : x.framebuffers = y.framebuffers := congrArg (fun c => c.2.1) h
  have h3 : x.m_oitFramebuffer = y.m_oitFramebuffer := congrArg (fun c => c.2.2.2.2.2.1) h
  have h4 : x.m_oitLowResFramebuffer = y.m_oitLowResFramebuffer :=
    congrArg (fun c => c.2.2.2.2.2.2.1) h
  have h5 : x.m_csOctLowResNormalFramebuffer = y.m_csOctLowResNormalFramebuffer :=
    congrArg (fun c => c.2.2.2.2.2.2.2.1) h
  have h6 : x.m_backgroundFramebuffer = y.m_backgroundFramebuffer :=
    congrArg (fun c => c.2.2.2.2.2.2.2.2) h
  unfold World.oitBuffersConsistent World.texSize World.fb World.tex at *
  rw [h1, h2, h3, h4, h5, h6]
  exact hy

/-- Setting the DEPTH attachment of `m_oitFramebuffer` keeps the buffers consistent. -/
theorem World.oitBuffersConsistent.setDepth {p : World} {oit : FbId}
    (hp : p.oitBuffersConsistent) (ho : p.m_oitFramebuffer = some oit) (t : Option TexId) :
    (framebufferSet oit .DEPTH t p).2.oitBuffersConsistent := by
  rcases hp with hp | ⟨oit1, low, cs, bg, a, b, c, e, m1, m2, m3, m4, hf, hd, hc, hl, hn, s1,
    s2⟩
  · rw [ho] at hp
    exact absurd hp (Option.some_ne_none _)
  have hoo : oit1 = oit := Option.some.inj (m1.symm.trans ho)
  subst hoo
  have hfb : ∀ j, (framebufferSet oit1 .DEPTH t p).2.fb j =
      if oit1 = j ∧ oit1 < p.framebuffers.length then (p.fb oit1).set .DEPTH t else p.fb j :=
    fun j => World.fb_setFb p oit1 j _
  have f0 : (framebufferSet oit1 .DEPTH t p).2.fb oit1 = (p.fb oit1).set .DEPTH t := by
    rw [hfb, if_pos ⟨rfl, hf.1⟩]
  have f1 : (framebufferSet oit1 .DEPTH t p).2.fb low = p.fb low := by
    rw [hfb, if_neg fun h => hd.1 h.1]
  have f2 : (framebufferSet oit1 .DEPTH t p).2.fb cs = p.fb cs := by
    rw [hfb, if_neg fun h => hd.2.1 h.1]
  have f3 : (framebufferSet oit1 .DEPTH t p).2.fb bg = p.fb bg := by
    rw [hfb, if_neg fun h => hd.2.2 h.1]
  have hlen : (framebufferSet oit1 .DEPTH t p).2.framebuffers.length =
      p.framebuffers.length := List.length_set _ _ _
  refine Or.inr ⟨oit1, low, cs, bg, a, b, c, e, m1, m2, m3, m4, ?_, hd, ?_, hl, ?_, s1, s2⟩
  · rw [hlen]
    exact hf
  · rw [f0, f1, f2, f3]
    exact hc
  · rw [f1, f2, f3]
    exact hn

/-- A completed OIT pass leaves the buffers in a consistent state. -/
theorem renderOITBody_consistent (arr : List Surface) (g : Option GBuffer) (w : World)
    (hw : w.oitBuffersConsistent) :
    wp (renderOITBody arr g) (fun _ x => x.oitBuffersConsistent) (fun _ _ => True) w := by
  unfold renderOITBody
  rw [wp_bind, wp_modifyWorld]
  have hc : (w.classify arr).oitBuffersConsistent :=
    World.oitBuffersConsistent.of_objects (y := w) rfl hw
  refine wp_seq (allocateAndResizeOITBuffers_consistent _ hc) ?_
  rintro _ p ⟨_, _, _, _, _, -, -, -, -, -, hp, -, -⟩
  rw [wp_bind, wp_getWorld, wp_bind, wp_deref]
  refine ⟨fun oit ho => ?_, fun _ => trivial⟩
  rw [wp_bind, wp_deref]
  refine ⟨fun d _ => ?_, fun _ => trivial⟩
  rw [wp_bind, wp_of_ok (a := ()) rfl]
  have h3 := hp.setDepth ho ((p.fb d).texture .DEPTH)
  revert h3
  generalize (framebufferSet oit .DEPTH ((p.fb d).texture .DEPTH) p).2 = q
  intro h3
  rw [wp_bind, wp_emit]
  refine wp_seq ((clearAndRenderToOITFramebuffer_objects _ _ _ g).wp_ok rfl) ?_
  intro _ w4 ho4
  refine wp_seq (lowResPass_wp g _ w4) ?_
  rintro _ w7 ⟨-, ho7, -⟩
  refine wp_mono (compositeTail_wp _ g w7) ?_ fun _ _ _ => trivial
  rintro _ x ⟨_, -, -, -, hox, -, -⟩
  exact World.oitBuffersConsistent.of_objects ((hox.trans ho7).trans ho4)
    (World.oitBuffersConsistent.of_objects (y := q) rfl h3)

theorem renderOrderIndependentBlendedSamples_consistent (arr : List Surface)
    (g : Option GBuffer) (w : World) (hw : w.oitBuffersConsistent) :
    wp (renderOrderIndependentBlendedSamples arr g) (fun _ x => x.oitBuffersConsistent)
      (fun _ _ => True) w := by
  unfold renderOrderIndependentBlendedSamples
  rw [wp_bind, wp_emit, wp_bind, wp_emit]
  have h0 : ∀ y : World, y.oitBuffersConsistent →
      wp (emit .endProfilerEvent) (fun _ x => x.oitBuffersConsistent) (fun _ _ => True) y := by
    intro y hy
    rw [wp_emit]
    exact World.oitBuffersConsistent.of_objects (y := y) rfl hy
  by_cases h : arr.length > 0
  · rw [if_pos h]
    refine wp_seq (renderOITBody_consistent arr g _
      (World.oitBuffersConsistent.of_objects (y := w) rfl hw)) fun _ y hy => h0 y hy
  · rw [if_neg h, wp_bind, wp_pure]
    exact h0 _ (World.oitBuffersConsistent.of_objects (y := w) rfl hw)

/-- The consistency of the buffers reads only the heap of textures, the heap of
framebuffers and the four members. -/
theorem World.oitBuffersConsistent.of_heaps {x y : World} (h1 : x.textures = y.textures)
    (h : x.oitMembers = y.oitMembers) (hy : y.oitBuffersConsistent) :
    x.oitBuffersConsistent := by
  have h2 : x.framebuffers = y.framebuffers := congrArg (fun c => c.1) h
  have h3 : x.m_oitFramebuffer = y.m_oitFramebuffer := congrArg (fun c => c.2.1) h
  have h4 : x.m_oitLowResFramebuffer = y.m_oitLowResFramebuffer :=
    congrArg (fun c => c.2.2.1) h
  have h5 : x.m_csOctLowResNormalFramebuffer = y.m_csOctLowResNormalFramebuffer :=
    congrArg (fun c => c.2.2.2.1) h
  have h6 : x.m_backgroundFramebuffer = y.m_backgroundFramebuffer :=
    congrArg (fun c => c.2.2.2.2) h
  unfold World.oitBuffersConsistent World.texSize World.fb World.tex at *
  rw [h1, h2, h3, h4, h5, h6]
  exact hy

/-- C16: the four OIT framebuffers stay dimensionally consistent. A newly constructed
renderer has its buffers in the consistent state (none allocated); the state reads only
the heaps of textures and framebuffers and the four members, so it does not depend on
the size of the device, the downsample factor or the flags; a completed call of
`renderOrderIndependentBlendedSamples` from a consistent state ends in one. From a
consistent state, when the allocation and resize steps of the call complete,
`m_oitFramebuffer` and `m_backgroundFramebuffer` have the width and height of the
device, `m_oitLowResFramebuffer` and `m_csOctLowResNormalFramebuffer` have them divided
by the downsample factor, and the calls of `Framebuffer::resize` in the steps are none
or the four of `resizeOITBuffersIfNeeded`, one for each of the four framebuffers. -/
theorem oit_framebuffers_dimensions (w : World) (hw : w.oitBuffersConsistent)
    (hr : (allocateAndResizeOITBuffers w).1 = .ok ()) :
    (∃ oit low cs bg R,
      (allocateAndResizeOITBuffers w).2.oitMembers.2 = (some oit, some low, some cs, some bg) ∧
      (allocateAndResizeOITBuffers w).2.fbSize oit = (w.rdWidth, w.rdHeight) ∧
      (allocateAndResizeOITBuffers w).2.fbSize bg = (w.rdWidth, w.rdHeight) ∧
      (allocateAndResizeOITBuffers w).2.fbSize low =
        (Int.tdiv w.rdWidth w.m_oitLowResDownsampleFactor,
          Int.tdiv w.rdHeight w.m_oitLowResDownsampleFactor) ∧
      (allocateAndResizeOITBuffers w).2.fbSize cs =
        (Int.tdiv w.rdWidth w.m_oitLowResDownsampleFactor,
          Int.tdiv w.rdHeight w.m_oitLowResDownsampleFactor) ∧
      (allocateAndResizeOITBuffers w).2.oitBuffersConsistent ∧
      ((allocateAndResizeOITBuffers w).2.eventsSince w.trace.length).filter Event.isResize = R ∧
      (R = [] ∨ R = resizeEvents oit low cs bg w.rdWidth w.rdHeight
        (Int.tdiv w.rdWidth w.m_oitLowResDownsampleFactor)
        (Int.tdiv w.rdHeight w.m_oitLowResDownsampleFactor))) ∧
    (∀ v : World, v.construct.oitBuffersConsistent) ∧
    (∀ v : World, v.textures = w.textures → v.oitMembers = w.oitMembers →
      v.oitBuffersConsistent) ∧
    (∀ arr g, (renderOrderIndependentBlendedSamples arr g w).1 = .ok () →
      (renderOrderIndependentBlendedSamples arr g w).2.oitBuffersConsistent) :=
  ⟨wp_ok_run (allocateAndResizeOITBuffers_consistent w hw) hr,
    fun _ => Or.inl rfl,
    fun _ h1 h2 => World.oitBuffersConsistent.of_heaps h1 h2 hw,
    fun arr g h => wp_ok_run (renderOrderIndependentBlendedSamples_consistent arr g w hw) h⟩

/-- C16, witness: the sample world with the high-precision flag set, after a first OIT
pass, which left buffers of 640 by 480 and 160 by 120, with the device resized to 800 by
600 and the downsample factor 4. The steps complete and call `Framebuffer::resize` on
each of the four framebuffers, which then have 800 by 600 and 200 by 150. With the flag
clear (`sampleWorldResized`) the steps allocate anew and call no resize. -/
theorem oit_framebuffers_dimensions_witness :
    sampleWorldHighPrecisionResized.oitBuffersConsistent ∧
    (allocateAndResizeOITBuffers sampleWorldHighPrecisionResized).1 = .ok () ∧
    (sampleWorldHighPrecisionResized.m_oitHighPrecision,
      sampleWorldHighPrecisionResized.rdWidth, sampleWorldHighPrecisionResized.rdHeight,
      sampleWorldHighPrecisionResized.m_oitLowResDownsampleFactor) = (true, 800, 600, 4) ∧
    sampleWorldHighPrecisionResized.oitMembers.2 = (some 1, some 2, some 4, some 3) ∧
    (sampleWorldHighPrecisionResized.fbSize 1, sampleWorldHighPrecisionResized.fbSize 2,
      sampleWorldHighPrecisionResized.fbSize 4, sampleWorldHighPrecisionResized.fbSize 3) =
      ((640, 480), (160, 120), (160, 120), (640, 480)) ∧
    ((allocateAndResizeOITBuffers sampleWorldHighPrecisionResized).2.eventsSince
      sampleWorldHighPrecisionResized.trace.length).filter Event.isResize =
      resizeEvents 1 2 4 3 800 600 200 150 ∧
    (allocateAndResizeOITBuffers sampleWorldHighPrecisionResized).2.oitMembers.2 =
      (some 1, some 2, some 4, some 3) ∧
    ((allocateAndResizeOITBuffers sampleWorldHighPrecisionResized).2.fbSize 1,
      (allocateAndResizeOITBuffers sampleWorldHighPrecisionResized).2.fbSize 2,
      (allocateAndResizeOITBuffers sampleWorldHighPrecisionResized).2.fbSize 4,
      (allocateAndResizeOITBuffers sampleWorldHighPrecisionResized).2.fbSize 3) =
      ((800, 600), (200, 150), (200, 150), (800, 600)) ∧
    ((allocateAndResizeOITBuffers sampleWorldResized).2.eventsSince
      sampleWorldResized.trace.length).filter Event.isResize = [] ∧
    (∃ oit low cs bg R,
      (allocateAndResizeOITBuffers sampleWorldHighPrecisionResized).2.oitMembers.2 =
        (some oit, some low, some cs, some bg) ∧
      (allocateAndResizeOITBuffers sampleWorldHighPrecisionResized).2.fbSize oit =
        (sampleWorldHighPrecisionResized.rdWidth, sampleWorldHighPrecisionResized.rdHeight) ∧
      (allocateAndResizeOITBuffers sampleWorldHighPrecisionResized).2.fbSize bg =
        (sampleWorldHighPrecisionResized.rdWidth, sampleWorldHighPrecisionResized.rdHeight) ∧
      (allocateAndResizeOITBuffers sampleWorldHighPrecisionResized).2.fbSize low =
        (Int.tdiv sampleWorldHighPrecisionResized.rdWidth
            sampleWorldHighPrecisionResized.m_oitLowResDownsampleFactor,
          Int.tdiv sampleWorldHighPrecisionResized.rdHeight
            sampleWorldHighPrecisionResized.m_oitLowResDownsampleFactor) ∧
      (allocateAndResizeOITBuffers sampleWorldHighPrecisionResized).2.fbSize cs =
        (Int.tdiv sampleWorldHighPrecisionResized.rdWidth
            sampleWorldHighPrecisionResized.m_oitLowResDownsampleFactor,
          Int.tdiv sampleWorldHighPrecisionResized.rdHeight
            sampleWorldHighPrecisionResized.m_oitLowResDownsampleFactor) ∧
      (allocateAndResizeOITBuffers sampleWorldHighPrecisionResized).2.oitBuffersConsistent ∧
      ((allocateAndResizeOITBuffers sampleWorldHighPrecisionResized).2.eventsSince
        sampleWorldHighPrecisionResized.trace.length).filter Event.isResize = R ∧
      (R = [] ∨ R = resizeEvents oit low cs bg sampleWorldHighPrecisionResized.rdWidth
        sampleWorldHighPrecisionResized.rdHeight
        (Int.tdiv sampleWorldHighPrecisionResized.rdWidth
          sampleWorldHighPrecisionResized.m_oitLowResDownsampleFactor)
        (Int.tdiv sampleWorldHighPrecisionResized.rdHeight
          sampleWorldHighPrecisionResized.m_oitLowResDownsampleFactor))) ∧
    (∀ v : World, v.construct.oitBuffersConsistent) ∧
    (∀ v : World, v.textures = sampleWorldHighPrecisionResized.textures →
      v.oitMembers = sampleWorldHighPrecisionResized.oitMembers → v.oitBuffersConsistent) ∧
    (∀ arr g,
      (renderOrderIndependentBlendedSamples arr g sampleWorldHighPrecisionResized).1 = .ok () →
      (renderOrderIndependentBlendedSamples arr g
        sampleWorldHighPrecisionResized).2.oitBuffersConsistent) :=
  have hw : sampleWorldHighPrecisionResized.oitBuffersConsistent :=
    Or.inr ⟨1, 2, 4, 3, 3, 6, 11, 10, rfl, rfl, rfl, rfl, by decide, by decide,
      ⟨rfl, rfl, rfl, rfl⟩, by decide, by decide, rfl, rfl⟩
  ⟨hw, rfl, rfl, rfl, rfl, rfl, rfl, rfl, rfl,
    oit_framebuffers_dimensions sampleWorldHighPrecisionResized hw rfl⟩

/-! ### The forward-shading wrappers -/

theorem clearAndRenderToOITFramebuffer_forwardShade (o : Option FbId) (s : List Surface)
    (g : Option GBuffer) (w : World) :
    wp (clearAndRenderToOITFramebuffer o s g)
      (fun _ x => (x.eventsSince w.trace.length).filter Event.isForwardShade =
        [.forwardShade s g .SINGLE_PASS_UNORDERED_BLENDED_SAMPLES .ARBITRARY])
      (fun _ x => (x.eventsSince w.trace.length).filter Event.isForwardShade = []) w := by
  unfold clearAndRenderToOITFramebuffer setOITBlendFuncs
  simp only [wp_bind, wp_emit, wp_setFramebuffer, wp_deref, wp_getWorld, wp_pushState,
    wp_popState, World.eventsSince, restoreState_trace, List.append_assoc, List.drop_left]
  exact ⟨fun _ _ => ⟨fun _ _ => rfl, fun _ => rfl⟩, fun _ => rfl⟩

/-- C21: each of the three forward-shading wrappers completes and issues its entry, the
profiler event and one call of `forwardShade` with the surface list and the GBuffer it
was given: `renderOpaqueSamples` with `OPAQUE_SAMPLES` and `ARBITRARY`,
`renderOpaqueScreenSpaceRefractingSamples` with
`UNBLENDED_SCREEN_SPACE_REFRACTION_SAMPLES` and `ARBITRARY`,
`renderSortedBlendedSamples` with `MULTIPASS_BLENDED_SAMPLES` and `BACK_TO_FRONT`. The
calls of `forwardShade` in `clearAndRenderToOITFramebuffer` are one with the surface
list, `SINGLE_PASS_UNORDERED_BLENDED_SAMPLES` and `ARBITRARY` when it completes and none
when it stops. Of the four, only `renderSortedBlendedSamples` asks for
`BACK_TO_FRONT`. -/
theorem forwardShade_wrappers (surfaceArray : List Surface) (gbuffer : Option GBuffer)
    (o : Option FbId) (w : World) :
    renderOpaqueSamples surfaceArray gbuffer w =
      (.ok (), w.appendTrace
        [.call (.renderOpaqueSamples surfaceArray gbuffer),
         .beginProfilerEvent "DefaultRenderer::renderOpaqueSamples",
         .forwardShade surfaceArray gbuffer .OPAQUE_SAMPLES .ARBITRARY,
         .endProfilerEvent]) ∧
    renderOpaqueScreenSpaceRefractingSamples surfaceArray gbuffer w =
      (.ok (), w.appendTrace
        [.call (.renderOpaqueScreenSpaceRefractingSamples surfaceArray gbuffer),
         .beginProfilerEvent "DefaultRenderer::renderOpaqueScreenSpaceRefractingSamples",
         .forwardShade surfaceArray gbuffer .UNBLENDED_SCREEN_SPACE_REFRACTION_SAMPLES
           .ARBITRARY,
         .endProfilerEvent]) ∧
    renderSortedBlendedSamples surfaceArray gbuffer w =
      (.ok (), w.appendTrace
        [.call (.renderSortedBlendedSamples surfaceArray gbuffer),
         .beginProfilerEvent "DefaultRenderer::renderSortedBlendedSamples",
         .forwardShade surfaceArray gbuffer .MULTIPASS_BLENDED_SAMPLES .BACK_TO_FRONT,
         .endProfilerEvent]) ∧
    ((clearAndRenderToOITFramebuffer o surfaceArray gbuffer w).2.eventsSince
        w.trace.length).filter Event.isForwardShade =
      (if (clearAndRenderToOITFramebuffer o surfaceArray gbuffer w).1 = .ok () then
        [.forwardShade surfaceArray gbuffer .SINGLE_PASS_UNORDERED_BLENDED_SAMPLES .ARBITRARY]
       else []) ∧
    ((renderOpaqueSamples surfaceArray gbuffer w).2.eventsSince
        w.trace.length).filter Event.isBackToFrontShade = [] ∧
    ((renderOpaqueScreenSpaceRefractingSamples surfaceArray gbuffer w).2.eventsSince
        w.trace.length).filter Event.isBackToFrontShade = [] ∧
    ((clearAndRenderToOITFramebuffer o surfaceArray gbuffer w).2.eventsSince
        w.trace.length).filter Event.isBackToFrontShade = [] ∧
    ((renderSortedBlendedSamples surfaceArray gbuffer w).2.eventsSince
        w.trace.length).filter Event.isBackToFrontShade =
      [.forwardShade surfaceArray gbuffer .MULTIPASS_BLENDED_SAMPLES .BACK_TO_FRONT] := by
  have h := clearAndRenderToOITFramebuffer_forwardShade o surfaceArray gbuffer w
  have hw : ∀ L : List Event, (w.appendTrace L).eventsSince w.trace.length = L := fun L =>
    List.drop_left _ _
  have hc : ((clearAndRenderToOITFramebuffer o surfaceArray gbuffer w).2.eventsSince
        w.trace.length).filter Event.isForwardShade =
      (if (clearAndRenderToOITFramebuffer o surfaceArray gbuffer w).1 = .ok () then
        [.forwardShade surfaceArray gbuffer .SINGLE_PASS_UNORDERED_BLENDED_SAMPLES .ARBITRARY]
       else []) := by
    unfold wp at h
    rcases hm : clearAndRenderToOITFramebuffer o surfaceArray gbuffer w with ⟨r, x⟩
    rw [hm] at h
    cases r with
    | ok a => simpa using h
    | fault e => simpa using h
  have r1 : renderOpaqueSamples surfaceArray gbuffer w =
      (.ok (), w.appendTrace
        [.call (.renderOpaqueSamples surfaceArray gbuffer),
         .beginProfilerEvent "DefaultRenderer::renderOpaqueSamples",
         .forwardShade surfaceArray gbuffer .OPAQUE_SAMPLES .ARBITRARY,
         .endProfilerEvent]) := by
    simp only [renderOpaqueSamples, Exec.bind_run, emit, World.appendTrace, List.append_assoc,
      List.singleton_append, List.cons_append, List.nil_append]
  have r2 : renderOpaqueScreenSpaceRefractingSamples surfaceArray gbuffer w =
      (.ok (), w.appendTrace
        [.call (.renderOpaqueScreenSpaceRefractingSamples surfaceArray gbuffer),
         .beginProfilerEvent "DefaultRenderer::renderOpaqueScreenSpaceRefractingSamples",
         .forwardShade surfaceArray gbuffer .UNBLENDED_SCREEN_SPACE_REFRACTION_SAMPLES
           .ARBITRARY,
         .endProfilerEvent]) := by
    simp only [renderOpaqueScreenSpaceRefractingSamples, Exec.bind_run, emit,
      World.appendTrace, List.append_assoc, List.singleton_append, List.cons_append,
      List.nil_append]
  have r3 : renderSortedBlendedSamples surfaceArray gbuffer w =
      (.ok (), w.appendTrace
        [.call (.renderSortedBlendedSamples surfaceArray gbuffer),
         .beginProfilerEvent "DefaultRenderer::renderSortedBlendedSamples",
         .forwardShade surfaceArray gbuffer .MULTIPASS_BLENDED_SAMPLES .BACK_TO_FRONT,
         .endProfilerEvent]) := by
    simp only [renderSortedBlendedSamples, Exec.bind_run, emit, World.appendTrace,
      List.append_assoc, List.singleton_append, List.cons_append, List.nil_append]
  refine ⟨r1, r2, r3, hc, ?_, ?_, ?_, ?_⟩
  · rw [r1]
    exact congrArg (List.filter Event.isBackToFrontShade) (hw _)
  · rw [r2]
    exact congrArg (List.filter Event.isBackToFrontShade) (hw _)
  · have hsub : ∀ l : List Event, l.filter Event.isBackToFrontShade =
        (l.filter Event.isForwardShade).filter Event.isBackToFrontShade := by
      intro l
      rw [List.filter_filter]
      congr 1
      funext e
      cases e <;> simp [Event.isBackToFrontShade, Event.isForwardShade]
    rw [hsub, hc]
    split <;> rfl
  · rw [r3]
    exact congrArg (List.filter Event.isBackToFrontShade) (hw _)

/-! ### `stringutils.cpp` -/

/-- C25: `toUTF8` appends, for each character of `s` in turn, the byte itself when it is
below 128 and otherwise two bytes, the one with the six low bits (`0x80 | (c & 0x3F)`)
first and the one with the two high bits (`0xC0 | (c >> 6)`) second: the continuation
byte before the lead byte. For the one byte 0xE9 it appends 0xA9, 0xC3, where the UTF-8
encoding of the code point 0xE9 is 0xC3, 0xA9. -/
theorem toUTF8_bytes (s : List Char) (result : List Nat) :
    toUTF8 s result = result ++ (s.map fun ch =>
      if ch.toNat % 256 < 128 then [ch.toNat % 256]
      else [((ch.toNat % 256) &&& 0x3F) ||| 0x80, ((ch.toNat % 256) >>> 6) ||| 0xC0]).flatten ∧
    toUTF8 [Char.ofNat 0xE9] [] = [0xA9, 0xC3] ∧
    (String.utf8EncodeChar (Char.ofNat 0xE9)).map UInt8.toNat = [0xC3, 0xA9] := by
  refine ⟨?_, by decide, by decide⟩
  unfold toUTF8
  induction s generalizing result with
  | nil => simp
  | cons ch rest ih =>
      rw [List.foldl_cons, ih, List.map_cons, List.flatten_cons]
      split <;> simp [List.append_assoc]

/-- The loop of `makeValidIndentifierWithUnderscores` on a string whose first character
may start an identifier: the result is a valid identifier of the same length, and each
character is kept or, when it is no letter, digit or underscore, replaced by an
underscore. -/
theorem replaceInvalid_valid (h : Char) (t : List Char)
    (hh : isLetter h = true ∨ h = '_') :
    isValidIdentifier ([h] ++ t.map fun c =>
      if c = '_' ∨ isLetter c = true ∨ isDigit c = true then c else '_') = true ∧
    ([h] ++ t.map fun c =>
      if c = '_' ∨ isLetter c = true ∨ isDigit c = true then c else '_').length =
      (h :: t).length ∧
    ∀ (i : Nat) (c : Char), (h :: t)[i]? = some c →
      ([h] ++ t.map fun c =>
        if c = '_' ∨ isLetter c = true ∨ isDigit c = true then c else '_')[i]? = some c ∨
      (([h] ++ t.map fun c =>
        if c = '_' ∨ isLetter c = true ∨ isDigit c = true then c else '_')[i]? = some '_' ∧
        isLetter c = false ∧ isDigit c = false ∧ c ≠ '_') := by
  refine ⟨?_, by simp, ?_⟩
  · unfold isValidIdentifier
    have h0 : charAt ([h] ++ t.map fun c =>
        if c = '_' ∨ isLetter c = true ∨ isDigit c = true then c else '_') 0 = h := rfl
    rw [h0, if_pos ⟨by simp, hh⟩]
    simp only [List.singleton_append, List.drop_succ_cons, List.drop_zero, List.all_eq_true,
      List.mem_map]
    rintro x ⟨c, -, rfl⟩
    by_cases hc : c = '_' ∨ isLetter c = true ∨ isDigit c = true
    · rw [if_pos hc]
      rcases hc with hc | hc | hc <;> simp [hc]
    · rw [if_neg hc]
      simp
  · intro i c hi
    cases i with
    | zero =>
        left
        simpa using hi
    | succ j =>
        simp only [List.singleton_append, List.getElem?_cons_succ, List.getElem?_map] at hi ⊢
        rw [hi]
        by_cases hc : c = '_' ∨ isLetter c = true ∨ isDigit c = true
        · left
          simp [hc]
        · right
          rw [not_or, not_or] at hc
          refine ⟨by simp [hc], by simpa using hc.2.1, by simpa using hc.2.2, hc.1⟩

/-- C27: for every string `s`, the empty one too, the result of
`makeValidIndentifierWithUnderscores` is a valid identifier; it is `s` when `s` is one;
it has the length of `pre ++ s`, where `pre` is empty or one underscore, and at each
position it has the character of `pre ++ s` or, where that is no letter, digit or
underscore, an underscore. -/
theorem makeValidIndentifierWithUnderscores_valid (s : List Char) :
    isValidIdentifier (makeValidIndentifierWithUnderscores s) = true ∧
    (isValidIdentifier s = true → makeValidIndentifierWithUnderscores s = s) ∧
    ((makeValidIndentifierWithUnderscores s).length = s.length ∨
      (makeValidIndentifierWithUnderscores s).length = s.length + 1) ∧
    ∃ pre : List Char, (pre = [] ∨ pre = ['_']) ∧
      (makeValidIndentifierWithUnderscores s).length = (pre ++ s).length ∧
      ∀ (i : Nat) (c : Char), (pre ++ s)[i]? = some c →
        (makeValidIndentifierWithUnderscores s)[i]? = some c ∨
        ((makeValidIndentifierWithUnderscores s)[i]? = some '_' ∧
          isLetter c = false ∧ isDigit c = false ∧ c ≠ '_') := by
  unfold makeValidIndentifierWithUnderscores
  by_cases hv : isValidIdentifier s = false
  · rw [if_pos hv]
    have hne : ¬ (isValidIdentifier s = true) := by simp [hv]
    by_cases hb : isLetter (charAt s 0) = true ∨ charAt s 0 = '_'
    · have hs : ∃ h t, s = h :: t ∧ (isLetter h = true ∨ h = '_') := by
        cases s with
        | nil => exact absurd hb (by decide)
        | cons h t => exact ⟨h, t, rfl, hb⟩
      obtain ⟨h, t, rfl, hh⟩ := hs
      simp only [hb, not_true_eq_false, if_false]
      obtain ⟨k1, k2, k3⟩ := replaceInvalid_valid h t hh
      exact ⟨k1, fun hc => absurd hc hne, Or.inl k2, [], Or.inl rfl, k2, k3⟩
    · simp only [hb, not_false_eq_true, if_true]
      obtain ⟨k1, k2, k3⟩ := replaceInvalid_valid '_' s (Or.inr rfl)
      exact ⟨k1, fun hc => absurd hc hne, Or.inr k2, ['_'], Or.inr rfl, k2, k3⟩
  · rw [if_neg hv]
    have ht : isValidIdentifier s = true := by simpa using hv
    exact ⟨ht, fun _ => rfl, Or.inl rfl, [], Or.inl rfl, rfl, fun i c hi => Or.inl hi⟩

/-- C27, witness: a valid identifier, a string that starts with a digit and holds a
blank, and the empty string. -/
theorem makeValidIndentifierWithUnderscores_valid_witness :
    isValidIdentifier ['a', '1'] = true ∧
    makeValidIndentifierWithUnderscores ['a', '1'] = ['a', '1'] ∧
    makeValidIndentifierWithUnderscores ['1', ' ', 'a'] = ['_', '1', '_', 'a'] ∧
    makeValidIndentifierWithUnderscores [] = ['_'] :=
  ⟨by decide, (makeValidIndentifierWithUnderscores_valid ['a', '1']).2.1 (by decide),
    by decide, by decide⟩

/-- C24: on the string `a,`, which has one comma and no quote, `parseCommaSeparated`
leaves the one field `a`, not two fields, and joining the fields with a comma gives `a`,
not `a,`: the `do ... while (begin < s.length())` loop stops when the last delimiter is
the last character, so the empty field after it is not appended. An empty field before
a delimiter is appended (`,a` gives two fields), `a,,` gives two fields for two commas,
and `stringSplit` on the same string gives the two fields. -/
theorem parseCommaSeparated_trailing_delimiter :
    parseCommaSeparated ['a', ','] false = some [['a']] ∧
    ['a', ','].count ',' = 1 ∧
    stringJoin [['a']] ',' = ['a'] ∧
    parseCommaSeparated [',', 'a'] false = some [[], ['a']] ∧
    parseCommaSeparated ['a', ',', ','] false = some [['a'], []] ∧
    parseCommaSeparated ['a', ',', 'b'] false = some [['a'], ['b']] ∧
    parseCommaSeparated [QUOTE, 'a', ',', 'b', QUOTE, ',', 'c'] false =
      some [[QUOTE, 'a', ',', 'b', QUOTE], ['c']] ∧
    stringSplit ['a', ','] ',' = some [['a'], []] := by
  decide

/-- C26: on the string `a\rb`, `splitLines` returns the one line `a\r`: the line holds a
carriage return and the `b` is lost, so joining the lines does not give `ab`. The loop
skips a carriage return without counting it, and then takes `count` consecutive
characters from `start`, carriage returns included. A carriage return right before the
line feed or at the end of the string is dropped as meant. On the empty string
`splitLines` returns no line, where `stringSplit` returns one empty piece. -/
theorem splitLines_carriage_return :
    splitLines ['a', CR, 'b'] = [['a', CR]] ∧
    stringJoin (splitLines ['a', CR, 'b']) LF = ['a', CR] ∧
    (['a', CR, 'b'].filter fun c => c ≠ CR) = ['a', 'b'] ∧
    splitLines [CR, 'a', LF, 'b'] = [[CR], ['b']] ∧
    splitLines ['a', CR, LF, 'b'] = [['a'], ['b']] ∧
    splitLines ['a', CR] = [['a']] ∧
    splitLines ['a', LF, 'b'] = [['a'], ['b']] ∧
    stringSplit ['a', LF, 'b'] LF = some [['a'], ['b']] ∧
    splitLines [] = [] ∧
    stringSplit [] LF = some [[]] := by
  decide

/-- The loop of `stringJoin` started from an accumulated string. -/
theorem stringJoin_foldl (joinChar : Char) (l : List (List Char)) (acc : List Char) :
    l.foldl (fun out s => out ++ (s ++ [joinChar])) acc =
      acc ++ l.foldl (fun out s => out ++ (s ++ [joinChar])) [] := by
  induction l generalizing acc with
  | nil => simp
  | cons s l ih =>
      rw [List.foldl_cons, ih, List.foldl_cons, ih ([] ++ (s ++ [joinChar]))]
      simp [List.append_assoc]

/-- `stringJoin` of one string is that string. -/
theorem stringJoin_singleton (p : List Char) (joinChar : Char) :
    stringJoin [p] joinChar = p := by
  simp [stringJoin]

/-- `stringJoin` of a string followed by at least one more. -/
theorem stringJoin_cons_cons (p q : List Char) (rest : List (List Char)) (joinChar : Char) :
    stringJoin (p :: q :: rest) joinChar =
      p ++ joinChar :: stringJoin (q :: rest) joinChar := by
  unfold stringJoin
  have h1 : (p :: q :: rest).take ((p :: q :: rest).length - 1) =
      p :: (q :: rest).take ((q :: rest).length - 1) := by
    simp
  have h2 : (p :: q :: rest).getLast? = (q :: rest).getLast? := by
    simp [List.getLast?_cons_cons]
  rw [h1, h2, List.foldl_cons, stringJoin_foldl]
  cases hl : (q :: rest).getLast? with
  | none => simp [List.append_assoc]
  | some last => simp [List.append_assoc]

/-- `stringJoin` of a string followed by a non-empty array. -/
theorem stringJoin_cons (p : List Char) (pieces : List (List Char)) (joinChar : Char)
    (h : pieces ≠ []) :
    stringJoin (p :: pieces) joinChar = p ++ joinChar :: stringJoin pieces joinChar := by
  cases pieces with
  | nil => exact absurd rfl h
  | cons q rest => exact stringJoin_cons_cons p q rest joinChar

/-- When `strchr` finds the character, it is at the returned offset, inside the
string, and not before. -/
theorem strchr_some (c : Char) (hc : c ≠ NUL) (start : List Char) (k : Nat)
    (h : strchr start c = some k) :
    start = start.take k ++ c :: start.drop (k + 1) ∧ c ∉ start.take k := by
  induction start generalizing k with
  | nil =>
      unfold strchr at h
      rw [if_neg hc] at h
      exact absurd h (by simp)
  | cons ch rest ih =>
      unfold strchr at h
      by_cases hch : ch = c
      · rw [if_pos hch] at h
        cases h
        simp [hch]
      · rw [if_neg hch] at h
        cases hr : strchr rest c with
        | none => rw [hr] at h; exact absurd h (by simp)
        | some j =>
            rw [hr] at h
            cases h
            obtain ⟨k1, k2⟩ := ih j hr
            refine ⟨?_, ?_⟩
            · simp only [List.take_succ_cons, List.drop_succ_cons, List.cons_append]
              rw [← k1]
            · simp only [List.take_succ_cons, List.mem_cons, not_or]
              exact ⟨fun e => hch e.symm, k2⟩

/-- When `strchr` returns the null pointer, the character is not in the string. -/
theorem strchr_none (c : Char) (start : List Char) (h : strchr start c = none) :
    c ∉ start := by
  induction start with
  | nil => simp
  | cons ch rest ih =>
      unfold strchr at h
      by_cases hch : ch = c
      · rw [if_pos hch] at h
        exact absurd h (by simp)
      · rw [if_neg hch] at h
        cases hr : strchr rest c with
        | none =>
            simp only [List.mem_cons, not_or]
            exact ⟨fun e => hch e.symm, ih hr⟩
        | some j => rw [hr] at h; exact absurd h (by simp)

/-- The loop of `stringSplit`, with fuel above the length of the rest of the string,
ends and appends `count + 1` pieces without the split character whose join is the
rest of the string. -/
theorem stringSplitLoop_spec (c : Char) (hc : c ≠ NUL) (fuel : Nat) (start : List Char)
    (out : List (List Char)) (hf : start.length < fuel) :
    ∃ pieces : List (List Char),
      stringSplitLoop c fuel start out = some (out ++ pieces) ∧ pieces ≠ [] ∧
      pieces.length = start.count c + 1 ∧ (∀ p ∈ pieces, c ∉ p) ∧
      stringJoin pieces c = start := by
  induction fuel generalizing start out with
  | zero => exact absurd hf (Nat.not_lt_zero _)
  | succ fuel ih =>
      unfold stringSplitLoop
      cases hs : strchr start c with
      | none =>
          have hn := strchr_none c start hs
          refine ⟨[start], rfl, by simp, ?_, ?_, stringJoin_singleton start c⟩
          · rw [List.count_eq_zero_of_not_mem hn]
            rfl
          · intro p hp
            rw [List.mem_singleton] at hp
            rw [hp]
            exact hn
      | some stop =>
          obtain ⟨k1, k2⟩ := strchr_some c hc start stop hs
          have hlen : (start.drop (stop + 1)).length < fuel := by
            have hl := congrArg List.length k1
            rw [List.length_append, List.length_cons] at hl
            omega
          obtain ⟨pieces, h1, h2, h3, h4, h5⟩ :=
            ih (start.drop (stop + 1)) (out ++ [start.take stop]) hlen
          refine ⟨start.take stop :: pieces, ?_, by simp, ?_, ?_, ?_⟩
          · simp only []
            rw [h1, List.append_assoc, List.singleton_append]
          · rw [List.length_cons, h3]
            nth_rewrite 2 [k1]
            rw [List.count_append, List.count_cons_self,
              List.count_eq_zero_of_not_mem k2]
            omega
          · intro p hp
            rcases List.mem_cons.1 hp with hp | hp
            · rw [hp]
              exact k2
            · exact h4 p hp
          · rw [stringJoin_cons _ _ _ h2, h5]
            exact k1.symm

/-- For a string without the null character, `c_str` gives the whole string. -/
theorem c_str_of_not_mem (x : List Char) (hx : NUL ∉ x) : c_str x = x := by
  unfold c_str
  rw [List.takeWhile_eq_self_iff]
  intro ch hch
  have : ch ≠ NUL := fun e => hx (e ▸ hch)
  simpa using this

/-- C23: for a string `x` without the null character and a split character `c` other
than the null character, `stringSplit x c` returns a non-empty array of
`(occurrences of c in x) + 1` pieces, none of which contains `c`, and `stringJoin` of
that array with `c` is `x`. -/
theorem stringJoin_stringSplit (x : List Char) (c : Char) (hc : c ≠ NUL)
    (hx : NUL ∉ x) :
    ∃ pieces : List (List Char),
      stringSplit x c = some pieces ∧ pieces ≠ [] ∧
      pieces.length = x.count c + 1 ∧ (∀ p ∈ pieces, c ∉ p) ∧
      stringJoin pieces c = x := by
  unfold stringSplit
  rw [if_neg hc, c_str_of_not_mem x hx]
  obtain ⟨pieces, h1, h2, h3, h4, h5⟩ :=
    stringSplitLoop_spec c hc (x.length + 1) x [] (Nat.lt_succ_self _)
  exact ⟨pieces, by rw [h1, List.nil_append], h2, h3, h4, h5⟩

/-- C23, witness: the string `a,,b` split at the comma. -/
theorem stringJoin_stringSplit_witness :
    ',' ≠ NUL ∧ NUL ∉ ['a', ',', ',', 'b'] ∧
    stringSplit ['a', ',', ',', 'b'] ',' = some [['a'], [], ['b']] ∧
    ∃ pieces : List (List Char),
      stringSplit ['a', ',', ',', 'b'] ',' = some pieces ∧ pieces ≠ [] ∧
      pieces.length = ['a', ',', ',', 'b'].count ',' + 1 ∧ (∀ p ∈ pieces, ',' ∉ p) ∧
      stringJoin pieces ',' = ['a', ',', ',', 'b'] :=
  ⟨by decide, by decide, by decide,
    stringJoin_stringSplit ['a', ',', ',', 'b'] ',' (by decide) (by decide)⟩

/-- `beginsWith` with a pattern of three characters, on a lower-cased string. -/
theorem beginsWith_toLower_three (a : List Char) (p q r : Char) :
    beginsWith (toLower a) [p, q, r] = decide ((a.take 3).map tolower = [p, q, r]) := by
  rcases a with _ | ⟨x, _ | ⟨y, _ | ⟨z, rest⟩⟩⟩
  · simp [beginsWith, toLower]
  · simp [beginsWith, toLower]
  · simp [beginsWith, toLower]
  · rw [Bool.eq_iff_iff]
    simp only [beginsWith, toLower, charAt, List.range_succ, List.range_zero, List.map_cons,
      List.length_cons, List.take_succ_cons, List.take_zero, List.map_nil, decide_eq_true_eq,
      List.cons.injEq, and_true, List.getD_cons_zero, List.getD_cons_succ, List.all_append,
      List.all_cons, List.all_nil, Bool.and_true, Bool.and_eq_true, beq_iff_eq, List.nil_append,
      List.length_nil, ge_iff_le, Nat.le_add_left, if_true, List.singleton_append,
      List.cons_append, zero_add, Nat.reduceAdd]
    simp [eq_comm (a := p), eq_comm (a := q), eq_comm (a := r), and_assoc]

/-- The if-chain of the comparator over the six prefix tests. -/
theorem rank_chain (ga ma na gb mb nb l : Bool) :
    (if ga = true then (if gb = true then l else true)
      else if gb = true then false
      else if ma = true then (if mb = true then l else true)
      else if mb = true then false
      else if na = true then (if nb = true then l else true)
      else if nb = true then false
      else l) =
    (decide ((if ga = true then 0 else if ma = true then 1 else if na = true then 2 else 3) <
        (if gb = true then 0 else if mb = true then 1 else if nb = true then 2 else 3)) ||
      (decide ((if ga = true then 0 else if ma = true then 1 else if na = true then 2 else 3) =
        (if gb = true then 0 else if mb = true then 1 else if nb = true then 2 else 3)) &&
        l)) := by
  cases ga <;> cases ma <;> cases na <;> cases gb <;> cases mb <;> cases nb <;> cases l <;> rfl

/-- The comparator is the ordering by (prefix rank, lower-cased string). -/
theorem alphabeticalIgnoringCaseG3DFirstLessThan_eq (a b : List Char) :
    alphabeticalIgnoringCaseG3DFirstLessThan a b = rankedLess a b := by
  unfold alphabeticalIgnoringCaseG3DFirstLessThan rankedLess prefixRank
  simp only [beginsWith_toLower_three]
  rw [rank_chain]
  simp only [decide_eq_true_eq]

/-- The order of strings is irreflexive. -/
theorem stringLess_irrefl (a : List Char) : stringLess a a = false := by
  induction a with
  | nil => rfl
  | cons x xs ih =>
      unfold stringLess
      rw [if_neg (lt_irrefl x), if_neg (lt_irrefl x)]
      exact ih

/-- The order of strings is transitive. -/
theorem stringLess_trans (a b c : List Char) (hab : stringLess a b = true)
    (hbc : stringLess b c = true) : stringLess a c = true := by
  induction a generalizing b c with
  | nil =>
      cases b with
      | nil => exact absurd hab (by simp [stringLess])
      | cons y ys =>
          cases c with
          | nil => exact absurd hbc (by simp [stringLess])
          | cons z zs => rfl
  | cons x xs ih =>
      cases b with
      | nil => exact absurd hab (by simp [stringLess])
      | cons y ys =>
          cases c with
          | nil => exact absurd hbc (by simp [stringLess])
          | cons z zs =>
              unfold stringLess at hab hbc ⊢
              by_cases hxy : x < y
              · by_cases hyz : y < z
                · rw [if_pos (lt_trans hxy hyz)]
                · rw [if_neg hyz] at hbc
                  by_cases hzy : z < y
                  · rw [if_pos hzy] at hbc
                    exact absurd hbc (by simp)
                  · have e : y = z := le_antisymm (not_lt.1 hzy) (not_lt.1 hyz)
                    rw [← e, if_pos hxy]
              · rw [if_neg hxy] at hab
                by_cases hyx : y < x
                · rw [if_pos hyx] at hab
                  exact absurd hab (by simp)
                · rw [if_neg hyx] at hab
                  have e : x = y := le_antisymm (not_lt.1 hyx) (not_lt.1 hxy)
                  rw [e]
                  by_cases hyz : y < z
                  · rw [if_pos hyz]
                  · rw [if_neg hyz] at hbc ⊢
                    by_cases hzy : z < y
                    · rw [if_pos hzy] at hbc
                      exact absurd hbc (by simp)
                    · rw [if_neg hzy] at hbc ⊢
                      exact ih ys zs hab hbc

/-- Two strings neither of which is less than the other are equal. -/
theorem stringLess_connected (a b : List Char) (hab : stringLess a b = false)
    (hba : stringLess b a = false) : a = b := by
  induction a generalizing b with
  | nil =>
      cases b with
      | nil => rfl
      | cons y ys => exact absurd hab (by simp [stringLess])
  | cons x xs ih =>
      cases b with
      | nil => exact absurd hba (by simp [stringLess])
      | cons y ys =>
          unfold stringLess at hab hba
          by_cases hxy : x < y
          · rw [if_pos hxy] at hab
            exact absurd hab (by simp)
          · by_cases hyx : y < x
            · rw [if_pos hyx] at hba
              exact absurd hba (by simp)
            · rw [if_neg hxy, if_neg hyx] at hab
              rw [if_neg hyx, if_neg hxy] at hba
              have e : x = y := le_antisymm (not_lt.1 hyx) (not_lt.1 hxy)
              rw [e, ih ys hab hba]

/-- The ordering by (prefix rank, lower-cased string) is irreflexive. -/
theorem rankedLess_irrefl (a : List Char) : rankedLess a a = false := by
  simp [rankedLess, stringLess_irrefl]

/-- What `rankedLess` says. -/
theorem rankedLess_iff (a b : List Char) :
    rankedLess a b = true ↔
      prefixRank a < prefixRank b ∨
        (prefixRank a = prefixRank b ∧ stringLess (toLower a) (toLower b) = true) := by
  simp [rankedLess]

/-- The ordering by (prefix rank, lower-cased string) is transitive. -/
theorem rankedLess_trans (a b c : List Char) (hab : rankedLess a b = true)
    (hbc : rankedLess b c = true) : rankedLess a c = true := by
  rw [rankedLess_iff] at hab hbc ⊢
  rcases hab with h1 | ⟨h1, l1⟩
  · rcases hbc with h2 | ⟨h2, l2⟩
    · exact Or.inl (lt_trans h1 h2)
    · exact Or.inl (h2 ▸ h1)
  · rcases hbc with h2 | ⟨h2, l2⟩
    · exact Or.inl (h1 ▸ h2)
    · exact Or.inr ⟨h1.trans h2, stringLess_trans _ _ _ l1 l2⟩

/-- Two strings are incomparable exactly when they have one prefix rank and one
lower-cased string. -/
theorem rankedLess_incomparable (a b : List Char) :
    (rankedLess a b = false ∧ rankedLess b a = false) ↔
      (prefixRank a = prefixRank b ∧ toLower a = toLower b) := by
  constructor
  · rintro ⟨h1, h2⟩
    have n1 : ¬ (rankedLess a b = true) := by simp [h1]
    have n2 : ¬ (rankedLess b a = true) := by simp [h2]
    rw [rankedLess_iff, not_or] at n1 n2
    have e : prefixRank a = prefixRank b :=
      le_antisymm (not_lt.1 n2.1) (not_lt.1 n1.1)
    refine ⟨e, stringLess_connected _ _ ?_ ?_⟩
    · have := n1.2
      simpa [e] using this
    · have := n2.2
      simpa [e] using this
  · rintro ⟨h1, h2⟩
    constructor
    · simp [rankedLess, h1, h2, stringLess_irrefl]
    · simp [rankedLess, h1, h2, stringLess_irrefl]

/-- C28: `alphabeticalIgnoringCaseG3DFirstLessThan` is the ordering by the pair (prefix
rank, lower-cased string); it is irreflexive, asymmetric and transitive, incomparability
is transitive, and a string of rank 0 (one that begins with `g3d` ignoring case)
precedes every string of another rank and is preceded by none. -/
theorem alphabeticalIgnoringCaseG3DFirstLessThan_strictWeakOrder :
    (∀ a b : List Char, alphabeticalIgnoringCaseG3DFirstLessThan a b = rankedLess a b) ∧
    (∀ a : List Char, alphabeticalIgnoringCaseG3DFirstLessThan a a = false) ∧
    (∀ a b : List Char, alphabeticalIgnoringCaseG3DFirstLessThan a b = true →
      alphabeticalIgnoringCaseG3DFirstLessThan b a = false) ∧
    (∀ a b c : List Char, alphabeticalIgnoringCaseG3DFirstLessThan a b = true →
      alphabeticalIgnoringCaseG3DFirstLessThan b c = true →
      alphabeticalIgnoringCaseG3DFirstLessThan a c = true) ∧
    (∀ a b c : List Char,
      (alphabeticalIgnoringCaseG3DFirstLessThan a b = false ∧
        alphabeticalIgnoringCaseG3DFirstLessThan b a = false) →
      (alphabeticalIgnoringCaseG3DFirstLessThan b c = false ∧
        alphabeticalIgnoringCaseG3DFirstLessThan c b = false) →
      (alphabeticalIgnoringCaseG3DFirstLessThan a c = false ∧
        alphabeticalIgnoringCaseG3DFirstLessThan c a = false)) ∧
    (∀ a b : List Char, (a.take 3).map tolower = ['g', '3', 'd'] →
      (b.take 3).map tolower ≠ ['g', '3', 'd'] →
      alphabeticalIgnoringCaseG3DFirstLessThan a b = true ∧
        alphabeticalIgnoringCaseG3DFirstLessThan b a = false) := by
  simp only [alphabeticalIgnoringCaseG3DFirstLessThan_eq]
  refine ⟨fun _ _ => trivial, rankedLess_irrefl, ?_, rankedLess_trans, ?_, ?_⟩
  · intro a b hab
    cases hba : rankedLess b a with
    | false => rfl
    | true =>
        have := rankedLess_trans a b a hab hba
        rw [rankedLess_irrefl] at this
        exact absurd this (by simp)
  · intro a b c hab hbc
    rw [rankedLess_incomparable] at hab hbc ⊢
    exact ⟨hab.1.trans hbc.1, hab.2.trans hbc.2⟩
  · intro a b ha hb
    have ra : prefixRank a = 0 := by simp [prefixRank, ha]
    have rb : 0 < prefixRank b := by
      unfold prefixRank
      rw [if_neg hb]
      split
      · decide
      · split <;> decide
    constructor
    · rw [rankedLess_iff]
      exact Or.inl (ra ▸ rb)
    · cases hba : rankedLess b a with
      | false => rfl
      | true =>
          rw [rankedLess_iff, ra] at hba
          omega

/-- C28, witness: the comparator on strings of the four ranks. -/
theorem alphabeticalIgnoringCaseG3DFirstLessThan_strictWeakOrder_witness :
    alphabeticalIgnoringCaseG3DFirstLessThan ['G', '3', 'D', 'z'] ['a'] = true ∧
    alphabeticalIgnoringCaseG3DFirstLessThan ['a'] ['G', '3', 'D', 'z'] = false ∧
    alphabeticalIgnoringCaseG3DFirstLessThan ['m', 'c', 'g'] ['N', 'x', 'p'] = true ∧
    alphabeticalIgnoringCaseG3DFirstLessThan ['n', 'x', 'p'] ['a'] = true ∧
    alphabeticalIgnoringCaseG3DFirstLessThan ['a'] ['B'] = true ∧
    alphabeticalIgnoringCaseG3DFirstLessThan ['a'] ['A'] = false ∧
    alphabeticalIgnoringCaseG3DFirstLessThan ['A'] ['a'] = false ∧
    prefixRank ['G', '3', 'D', 'z'] = 0 ∧ prefixRank ['a'] = 3 :=
  ⟨(alphabeticalIgnoringCaseG3DFirstLessThan_strictWeakOrder.2.2.2.2.2
      ['G', '3', 'D', 'z'] ['a'] (by decide) (by decide)).1,
    by decide, by decide, by decide, by decide, by decide, by decide, by decide, by decide⟩

/-- The interval from `a` to `c` is the one to `b` followed by the one from `b`. -/
theorem segment_append (list : List (List Char)) (a b c : Nat) (hab : a ≤ b) (hbc : b ≤ c) :
    segment list a c = segment list a b ++ segment list b c := by
  unfold segment
  have h1 : list.take b = (list.take c).take b := by
    rw [List.take_take, Nat.min_eq_left hbc]
  rw [h1]
  by_cases hb : b ≤ (list.take c).length
  · nth_rewrite 1 [← List.take_append_drop b (list.take c)]
    rw [List.drop_append_of_le_length]
    rw [List.length_take]
    omega
  · have h2 : (list.take c).take b = list.take c := List.take_of_length_le (by omega)
    have h3 : (list.take c).drop b = [] := List.drop_of_length_le (by omega)
    rw [h2, h3, List.append_nil]

/-- The interval of one index. -/
theorem segment_singleton (list : List (List Char)) (i : Nat) (s : List Char)
    (h : list[i]? = some s) : segment list i (i + 1) = [s] := by
  unfold segment
  apply List.ext_getElem?
  intro n
  rw [List.getElem?_drop, List.getElem?_take]
  cases n with
  | zero => simp [h]
  | succ m =>
      rw [if_neg (by omega)]
      simp

/-- An empty interval. -/
theorem segment_empty (list : List (List Char)) (a b : Nat) (h : b ≤ a) :
    segment list a b = [] := by
  unfold segment
  apply List.drop_of_length_le
  rw [List.length_take]
  omega

/-- The whole list as an interval. -/
theorem segment_all (list : List (List Char)) : segment list 0 list.length = list := by
  simp [segment]

/-- The strings of an interval are those at its indices. -/
theorem mem_segment (list : List (List Char)) (a b : Nat) (s : List Char)
    (h : s ∈ segment list a b) : ∃ i, a ≤ i ∧ i < b ∧ list[i]? = some s := by
  unfold segment at h
  obtain ⟨n, hn⟩ := List.mem_iff_getElem?.1 h
  rw [List.getElem?_drop, List.getElem?_take] at hn
  by_cases hlt : a + n < b
  · rw [if_pos hlt] at hn
    exact ⟨a + n, Nat.le_add_right _ _, hlt, hn⟩
  · rw [if_neg hlt] at hn
    exact absurd hn (by simp)

/-- An interval with an index in range is not empty. -/
theorem segment_ne_nil (list : List (List Char)) (a b : Nat) (hab : a < b)
    (hb : b ≤ list.length) : segment list a b ≠ [] := by
  intro h
  have := congrArg List.length h
  unfold segment at this
  rw [List.length_drop, List.length_take] at this
  simp at this
  omega

/-- `greatestCommonPrefix` returns a prefix of its first argument. -/
theorem greatestCommonPrefix_prefix_left (a b : List Char) :
    greatestCommonPrefix a b <+: a := by
  induction a generalizing b with
  | nil => simp [greatestCommonPrefix]
  | cons x xs ih =>
      cases b with
      | nil => simp [greatestCommonPrefix]
      | cons y ys =>
          unfold greatestCommonPrefix
          by_cases h : x = y
          · rw [if_pos h]
            exact (List.prefix_cons_inj x).2 (ih ys)
          · rw [if_neg h]
            exact List.nil_prefix

/-- `greatestCommonPrefix` returns a prefix of its second argument. -/
theorem greatestCommonPrefix_prefix_right (a b : List Char) :
    greatestCommonPrefix a b <+: b := by
  induction a generalizing b with
  | nil => simp [greatestCommonPrefix]
  | cons x xs ih =>
      cases b with
      | nil => simp [greatestCommonPrefix]
      | cons y ys =>
          unfold greatestCommonPrefix
          by_cases h : x = y
          · rw [if_pos h, h]
            exact (List.prefix_cons_inj y).2 (ih ys)
          · rw [if_neg h]
            exact List.nil_prefix

/-- `list[i].substr(indent)` for an index in range and an indent within the string. -/
theorem substrAt_eq (list : List (List Char)) (i indent : Nat) (s : List Char)
    (h : list[i]? = some s) (hi : indent ≤ s.length) :
    substrAt list i indent = some (s.drop indent) := by
  unfold substrAt substr
  rw [h]
  simp only []
  rw [if_pos hi]

/-- No calls build no leaves. -/
theorem buildsLeaves_nil : BuildsLeaves [] [] :=
  ⟨fun _ _ => rfl, fun _ _ => rfl, fun h => absurd rfl h⟩

/-- The two calls of a leaf. -/
theorem buildsLeaves_leaf (child : List Char) :
    BuildsLeaves [.enterChild child, .goToParent] [child] := by
  refine ⟨?_, ?_, fun _ => ⟨child, _, rfl⟩⟩
  · intro d rest
    simp [depthAfter]
  · intro path rest
    simp [leafPaths]

/-- The calls of two intervals one after the other. -/
theorem buildsLeaves_append (ops1 ops2 : List TreeOp) (s1 s2 : List (List Char))
    (h1 : BuildsLeaves ops1 s1) (h2 : BuildsLeaves ops2 s2) (hne : s1 ≠ []) :
    BuildsLeaves (ops1 ++ ops2) (s1 ++ s2) := by
  refine ⟨?_, ?_, ?_⟩
  · intro d rest
    rw [List.append_assoc, h1.depth, h2.depth]
  · intro path rest
    rw [List.append_assoc, h1.leaves, h2.leaves, List.map_append, List.append_assoc]
  · intro _
    obtain ⟨child, tl, e⟩ := h1.head hne
    exact ⟨child, tl ++ ops2, by rw [e]; rfl⟩

/-- The calls of a child that holds the leaves of an interval. -/
theorem buildsLeaves_wrap (g : List Char) (children : List TreeOp) (s : List (List Char))
    (h : BuildsLeaves children s) (hne : s ≠ []) :
    BuildsLeaves (.enterChild g :: children ++ [.goToParent]) (s.map fun x => g ++ x) := by
  obtain ⟨child, tl, e⟩ := h.head hne
  refine ⟨?_, ?_, fun _ => ⟨g, _, rfl⟩⟩
  · intro d rest
    have := h.depth (d + 1) (.goToParent :: rest)
    simp only [List.cons_append, List.append_assoc, List.singleton_append, List.nil_append,
      depthAfter]
    rw [this]
    rfl
  · intro path rest
    have := h.leaves (g :: path) (.goToParent :: rest)
    simp only [List.cons_append, List.append_assoc, List.singleton_append, List.nil_append]
    have e2 : leafPaths path (.enterChild g :: (children ++ .goToParent :: rest)) =
        leafPaths (g :: path) (children ++ .goToParent :: rest) := by
      rw [e]
      simp [leafPaths]
    rw [e2, this]
    simp [leafPaths, List.map_map, Function.comp_def, List.append_assoc]
/-- The `while` loop of `_internal::buildPrefixTree` ends, with `t` inside the interval
and `leastGCP` a prefix of every string from `start` to `t`, beyond the indent; an empty
`leastGCP` leaves `t` at `start`. -/
theorem prefixLoop_spec (list : List (List Char)) (start end_ indent : Nat)
    (hend : end_ ≤ list.length)
    (hlen : ∀ (i : Nat) (s : List Char), start ≤ i → i < end_ → list[i]? = some s →
      indent ≤ s.length)
    (fuel t : Nat) (g p : List Char) (ht : start ≤ t) (hte : t + 1 ≤ end_)
    (hfuel : end_ - t ≤ fuel ∨ (p = [] ∧ 1 ≤ fuel))
    (hpre : ∀ (i : Nat) (s : List Char), start ≤ i → i ≤ t → list[i]? = some s →
      g <+: s.drop indent)
    (hemp : g = [] → p = [] ∧ t = start) :
    ∃ (t1 : Nat) (g1 : List Char),
      _internal.prefixLoop list end_ indent fuel t g p = .done (t1, g1) ∧
      start ≤ t1 ∧ t1 + 1 ≤ end_ ∧
      (∀ (i : Nat) (s : List Char), start ≤ i → i ≤ t1 → list[i]? = some s →
        g1 <+: s.drop indent) ∧
      (g1 = [] → t1 = start) := by
  induction fuel generalizing t g p with
  | zero =>
      rcases hfuel with h | ⟨_, h⟩
      · omega
      · omega
  | succ fuel ih =>
      unfold _internal.prefixLoop
      by_cases hc : p ≠ [] ∧ t < end_ - 1
      · rw [if_pos hc]
        have hf : end_ - t ≤ fuel + 1 := by
          rcases hfuel with h | ⟨h, _⟩
          · exact h
          · exact absurd h hc.1
        have ht1 : t < list.length := by omega
        have ht2 : t + 1 < list.length := by omega
        obtain ⟨sa, hsa⟩ : ∃ sa, list[t]? = some sa := ⟨list[t], List.getElem?_eq_getElem ht1⟩
        obtain ⟨sb, hsb⟩ : ∃ sb, list[t + 1]? = some sb :=
          ⟨list[t + 1], List.getElem?_eq_getElem ht2⟩
        rw [substrAt_eq list t indent sa hsa (hlen t sa ht (by omega) hsa),
          substrAt_eq list (t + 1) indent sb hsb (hlen (t + 1) sb (by omega) (by omega) hsb)]
        simp only []
        have hpa := greatestCommonPrefix_prefix_left (sa.drop indent) (sb.drop indent)
        have hpb := greatestCommonPrefix_prefix_right (sa.drop indent) (sb.drop indent)
        have hga : g <+: sa.drop indent := hpre t sa ht (Nat.le_refl _) hsa
        by_cases hp : greatestCommonPrefix (sa.drop indent) (sb.drop indent) ≠ []
        · rw [if_pos hp]
          have hgne : g ≠ [] := fun e => hc.1 (hemp e).1
          apply ih (t + 1) _ _ (by omega) (by omega) (Or.inl (by omega))
          · intro i s hi1 hi2 his
            by_cases hlt : (greatestCommonPrefix (sa.drop indent) (sb.drop indent)).length <
                g.length
            · rw [if_pos hlt]
              by_cases hit : i ≤ t
              · exact (List.prefix_of_prefix_length_le hpa hga (Nat.le_of_lt hlt)).trans
                  (hpre i s hi1 hit his)
              · have e : i = t + 1 := by omega
                rw [e, hsb] at his
                cases his
                exact hpb
            · rw [if_neg hlt]
              by_cases hit : i ≤ t
              · exact hpre i s hi1 hit his
              · have e : i = t + 1 := by omega
                rw [e, hsb] at his
                cases his
                exact (List.prefix_of_prefix_length_le hga hpa (Nat.le_of_not_lt hlt)).trans hpb
          · intro e
            split at e
            · exact absurd e hp
            · exact absurd e hgne
        · rw [if_neg hp]
          have hp2 : greatestCommonPrefix (sa.drop indent) (sb.drop indent) = [] := by
            simpa using hp
          apply ih t _ _ ht hte (Or.inr ⟨hp2, by omega⟩) hpre
          intro e
          exact ⟨hp2, (hemp e).2⟩
      · rw [if_neg hc]
        exact ⟨t, g, rfl, ht, hte, hpre, fun e => (hemp e).2⟩
/-- A string whose rest from `indent` begins with `g` is, from `indent`, `g` followed by
its rest from `indent + g.length`. -/
theorem drop_eq_prefix_append (s g : List Char) (indent : Nat) (h : g <+: s.drop indent) :
    s.drop indent = g ++ s.drop (indent + g.length) := by
  obtain ⟨r, hr⟩ := h
  have e : s.drop (indent + g.length) = r := by
    rw [← List.drop_drop, ← hr, List.drop_left]
  rw [e, hr]

/-- A prefix of the rest of a string from `indent` ends within the string. -/
theorem prefix_drop_length (s g : List Char) (indent : Nat) (hi : indent ≤ s.length)
    (h : g <+: s.drop indent) : indent + g.length ≤ s.length := by
  have := h.length_le
  rw [List.length_drop] at this
  omega

/-- With enough fuel, `_internal::buildPrefixTree` on an interval inside the list, all of
whose strings reach the indent, ends without a fault, and its calls build one leaf for
each string of the interval, in order, whose labels concatenate to the string from the
indent on. -/
theorem buildPrefixTree_internal_spec (list : List (List Char)) (M : Nat)
    (hM : ∀ s ∈ list, s.length ≤ M) (fuel start end_ indent : Nat)
    (hend : end_ ≤ list.length)
    (hlen : ∀ (i : Nat) (s : List Char), start ≤ i → i < end_ → list[i]? = some s →
      indent ≤ s.length)
    (hfuel : (end_ - start) + (M - indent) < fuel) :
    ∃ ops : List TreeOp,
      _internal.buildPrefixTree list fuel start end_ indent = .done ops ∧
      BuildsLeaves ops ((segment list start end_).map (List.drop indent)) := by
  induction fuel generalizing start end_ indent with
  | zero => exact absurd hfuel (Nat.not_lt_zero _)
  | succ fuel ih =>
      unfold _internal.buildPrefixTree
      by_cases h1 : start ≥ end_
      · rw [if_pos h1, segment_empty list start end_ h1]
        exact ⟨[], rfl, buildsLeaves_nil⟩
      · rw [if_neg h1]
        have hs1 : start < list.length := by omega
        obtain ⟨sa, hsa⟩ : ∃ sa, list[start]? = some sa :=
          ⟨list[start], List.getElem?_eq_getElem hs1⟩
        have hia : indent ≤ sa.length := hlen start sa (Nat.le_refl _) (by omega) hsa
        rw [substrAt_eq list start indent sa hsa hia]
        by_cases h2 : start = end_ - 1
        · rw [if_pos h2]
          have e : end_ = start + 1 := by omega
          rw [e, segment_singleton list start sa hsa]
          exact ⟨_, rfl, buildsLeaves_leaf _⟩
        · rw [if_neg h2]
          have hs2 : start + 1 < list.length := by omega
          obtain ⟨sb, hsb⟩ : ∃ sb, list[start + 1]? = some sb :=
            ⟨list[start + 1], List.getElem?_eq_getElem hs2⟩
          rw [substrAt_eq list (start + 1) indent sb hsb
            (hlen (start + 1) sb (by omega) (by omega) hsb)]
          simp only []
          obtain ⟨t, g, hrun, ht1, ht2, hpre, hemp⟩ :=
            prefixLoop_spec list start end_ indent hend hlen (end_ - start) start
              (greatestCommonPrefix (sa.drop indent) (sb.drop indent))
              (greatestCommonPrefix (sa.drop indent) (sb.drop indent))
              (Nat.le_refl _) (by omega) (Or.inl (Nat.le_refl _))
              (by
                intro i s hi1 hi2 his
                have e : i = start := by omega
                rw [e, hsa] at his
                cases his
                exact greatestCommonPrefix_prefix_left _ _)
              (fun e => ⟨e, rfl⟩)
          rw [hrun]
          simp only []
          by_cases hg : g = []
          · rw [if_pos hg]
            have et : t = start := hemp hg
            rw [et]
            obtain ⟨ops1, r1, b1⟩ := ih start (start + 1) indent (by omega)
              (fun i s hi1 hi2 his => hlen i s hi1 (by omega) his) (by omega)
            obtain ⟨ops2, r2, b2⟩ := ih (start + 1) end_ indent hend
              (fun i s hi1 hi2 his => hlen i s (by omega) hi2 his) (by omega)
            rw [r1]
            simp only []
            rw [r2]
            refine ⟨_, rfl, ?_⟩
            rw [segment_append list start (start + 1) end_ (by omega) (by omega),
              List.map_append]
            refine buildsLeaves_append _ _ _ _ b1 b2 ?_
            rw [segment_singleton list start sa hsa]
            simp
          · rw [if_neg hg]
            have hL : 1 ≤ g.length := by
              cases g with
              | nil => exact absurd rfl hg
              | cons _ _ => simp
            have hga := prefix_drop_length sa g indent hia
              (hpre start sa (Nat.le_refl _) ht1 hsa)
            have hMa : sa.length ≤ M := hM sa (List.mem_iff_getElem?.2 ⟨start, hsa⟩)
            obtain ⟨children, r1, b1⟩ := ih start (t + 1) (indent + g.length) (by omega)
              (fun i s hi1 hi2 his => prefix_drop_length s g indent
                (hlen i s hi1 (by omega) his) (hpre i s hi1 (by omega) his))
              (by omega)
            have hseg : (segment list start (t + 1)).map (List.drop indent) =
                ((segment list start (t + 1)).map (List.drop (indent + g.length))).map
                  fun x => g ++ x := by
              rw [List.map_map]
              apply List.map_congr_left
              intro s hs
              obtain ⟨i, hi1, hi2, his⟩ := mem_segment list start (t + 1) s hs
              exact drop_eq_prefix_append s g indent (hpre i s hi1 (by omega) his)
            have hne : (segment list start (t + 1)).map (List.drop (indent + g.length)) ≠
                [] := by
              intro e
              exact segment_ne_nil list start (t + 1) (by omega) (by omega)
                (List.map_eq_nil_iff.1 e)
            have bw := buildsLeaves_wrap g children _ b1 hne
            rw [← hseg] at bw
            rw [r1]
            simp only []
            by_cases h3 : t < end_ - 1
            · rw [if_pos h3]
              obtain ⟨siblings, r2, b2⟩ := ih (t + 1) end_ indent hend
                (fun i s hi1 hi2 his => hlen i s (by omega) hi2 his) (by omega)
              rw [r2]
              refine ⟨_, rfl, ?_⟩
              rw [segment_append list start (t + 1) end_ (by omega) (by omega),
                List.map_append]
              have := buildsLeaves_append _ _ _ _ bw b2 (by rw [hseg]; simpa using hne)
              simpa [List.append_assoc] using this
            · rw [if_neg h3]
              have e : end_ = t + 1 := by omega
              rw [e]
              exact ⟨_, rfl, bw⟩
/-- When the calls `ops` from depth `d` never leave the root and end at depth `e`, every
prefix of `ops` has at most `d` more `goToParent` than `enterChild`, and over the whole
of `ops` the counts differ by `d - e`. -/
theorem depthAfter_counts (ops : List TreeOp) (d e : Nat) (h : depthAfter d ops = some e) :
    (∀ k : Nat, (ops.take k).countP TreeOp.isGoToParent ≤
      d + (ops.take k).countP TreeOp.isEnterChild) ∧
    e + ops.countP TreeOp.isGoToParent = d + ops.countP TreeOp.isEnterChild := by
  induction ops generalizing d with
  | nil =>
      have e0 : depthAfter d [] = some d := by cases d <;> rfl
      rw [e0] at h
      cases h
      simp
  | cons op ops ih =>
      cases op with
      | enterChild child =>
          have e0 : depthAfter d (.enterChild child :: ops) = depthAfter (d + 1) ops := by
            cases d <;> rfl
          rw [e0] at h
          obtain ⟨k1, k2⟩ := ih (d + 1) h
          refine ⟨?_, ?_⟩
          · intro k
            cases k with
            | zero => simp
            | succ j =>
                have := k1 j
                simp only [List.take_succ_cons, List.countP_cons, TreeOp.isEnterChild,
                  TreeOp.isGoToParent, if_true, Bool.false_eq_true, if_false]
                omega
          · simp only [List.countP_cons, TreeOp.isEnterChild, TreeOp.isGoToParent, if_true,
              Bool.false_eq_true, if_false]
            omega
      | goToParent =>
          cases d with
          | zero =>
              unfold depthAfter at h
              exact absurd h (by simp)
          | succ d0 =>
              unfold depthAfter at h
              obtain ⟨k1, k2⟩ := ih d0 h
              refine ⟨?_, ?_⟩
              · intro k
                cases k with
                | zero => simp
                | succ j =>
                    have := k1 j
                    simp only [List.take_succ_cons, List.countP_cons, TreeOp.isEnterChild,
                      TreeOp.isGoToParent, if_true, Bool.false_eq_true, if_false]
                    omega
              · simp only [List.countP_cons, TreeOp.isEnterChild, TreeOp.isGoToParent,
                  if_true, Bool.false_eq_true, if_false]
                omega

/-- The length of a string of a list is at most the sum of the lengths. -/
theorem length_le_sum_lengths (list : List (List Char)) :
    ∀ s ∈ list, s.length ≤ (list.map List.length).sum := by
  induction list with
  | nil => intro s hs; exact absurd hs (List.not_mem_nil s)
  | cons x xs ih =>
      intro s hs
      rw [List.map_cons, List.sum_cons]
      rcases List.mem_cons.1 hs with e | hmem
      · rw [e]
        exact Nat.le_add_right _ _
      · exact Nat.le_trans (ih s hmem) (Nat.le_add_left _ _)

/-- C22: for every list of strings, `buildPrefixTree` ends without an index or a `substr`
position out of range; no prefix of its calls has more `goToParent` than `enterChild`, and
the whole sequence has as many of each; the leaves it creates are, in order, one for each
string of the list, and the labels on the path from the root to the leaf concatenate to
that string. -/
theorem buildPrefixTree_leaves (list : List (List Char)) :
    ∃ ops : List TreeOp,
      buildPrefixTree list = .done ops ∧
      (∀ k : Nat, (ops.take k).countP TreeOp.isGoToParent ≤
        (ops.take k).countP TreeOp.isEnterChild) ∧
      ops.countP TreeOp.isGoToParent = ops.countP TreeOp.isEnterChild ∧
      depthAfter 0 ops = some 0 ∧
      leafPaths [] ops = list := by
  obtain ⟨ops, hrun, hb⟩ := buildPrefixTree_internal_spec list (list.map List.length).sum
    (length_le_sum_lengths list) (list.length + (list.map List.length).sum + 1) 0
    list.length 0 (Nat.le_refl _) (fun _ _ _ _ _ => Nat.zero_le _) (by omega)
  have hd : depthAfter 0 ops = some 0 := by
    have := hb.depth 0 []
    rw [List.append_nil] at this
    rw [this]
    rfl
  have hl : leafPaths [] ops = list := by
    have := hb.leaves [] []
    rw [List.append_nil, segment_all] at this
    rw [this]
    simp [leafPaths, Function.comp_def]
  obtain ⟨k1, k2⟩ := depthAfter_counts ops 0 0 hd
  refine ⟨ops, hrun, ?_, ?_, hd, hl⟩
  · intro k
    have := k1 k
    omega
  · omega

/-- C22, witness: an unsorted list with a duplicate and an empty string. -/
theorem buildPrefixTree_leaves_witness :
    buildPrefixTree [['a', 'b'], ['a', 'c'], [], ['b'], ['b']] =
      .done [.enterChild ['a'], .enterChild ['b'], .goToParent, .enterChild ['c'],
        .goToParent, .goToParent, .enterChild [], .goToParent,
        .enterChild ['b'], .enterChild [], .goToParent, .enterChild [], .goToParent,
        .goToParent] ∧
    ∃ ops : List TreeOp,
      buildPrefixTree [['a', 'b'], ['a', 'c'], [], ['b'], ['b']] = .done ops ∧
      leafPaths [] ops = [['a', 'b'], ['a', 'c'], [], ['b'], ['b']] :=
  ⟨by decide, (buildPrefixTree_leaves [['a', 'b'], ['a', 'c'], [], ['b'], ['b']]).imp
    fun _ h => ⟨h.1, h.2.2.2.2⟩⟩

end G3D
